import Mathlib

/-!
HSE compaction scheduler (csched_sp3): a shallow embedding.

The definitions below embed the parts of `lib/cn/csched_sp3.c` and
`lib/cn/csched_sp3_work.c` that the verified properties are about.

Conventions of the embedding:

* Machine integers are natural numbers; unsigned subtraction wraps explicitly
  (`usub32`, `usub64`), and values stored into a narrower field are reduced
  modulo the width of the field.
* A kvset list is a `List kvset` ordered as the C list is: the head of the
  list is the newest kvset, the last element the oldest one.  A pointer into
  the circular list is an `le_ptr`.
* A tree is the list of its nodes; a node pointer is the position of the node
  in `ct_nodes`.
* `assert(c)` aborts when `c` is false, `abort()` aborts, and dereferencing a
  null pointer or the list head is a fault: functions that can reach one of
  these return `Except sp3_fault _`.
* Functions computed in floating point in the C code (`samp_est`,
  `samp_pct_leaves`, `samp_pct_garbage`) and declarations that are not part of
  the two files (`VBLOCK_MAX_SIZE`, `CN_FANOUT_MAX`, `cn_tree_node_scatter`,
  the `SP3_*` limits) are fields of the environment `sp3_env`.
-/

namespace Sp3

/-! ## Machine arithmetic -/

/-- Largest value of a 32-bit unsigned integer. -/
def UINT32_MAX : Nat := 4294967295

/-- Largest value of a 64-bit unsigned integer. -/
def UINT64_MAX : Nat := 18446744073709551615

/-- Largest value of `unsigned int`. -/
def UINT_MAX : Nat := 4294967295

/-- Nanoseconds per second. -/
def NSEC_PER_SEC : Nat := 1000000000

/-- Truncation to 8 bits. -/
def u8 (x : Nat) : Nat := x % 256

/-- Truncation to 32 bits. -/
def u32 (x : Nat) : Nat := x % 4294967296

/-- Truncation to 64 bits. -/
def u64 (x : Nat) : Nat := x % 18446744073709551616

/-- Subtraction of 32-bit unsigned integers, wrapping around. -/
def usub32 (a b : Nat) : Nat := (u32 a + 4294967296 - u32 b) % 4294967296

/-- Subtraction of 64-bit unsigned integers, wrapping around. -/
def usub64 (a b : Nat) : Nat := (u64 a + 18446744073709551616 - u64 b) % 18446744073709551616

/-- The C macro `clamp_t(type, val, lo, hi)`, that is
`min_t(type, max_t(type, val, lo), hi)`; `cast` is the conversion to `type`. -/
def clamp_t (cast : Nat → Nat) (val lo hi : Nat) : Nat :=
  min (cast (max (cast val) (cast lo))) (cast hi)

/-! ## Faults -/

/-- The ways in which the embedded code can stop instead of returning. -/
inductive sp3_fault
  /-- Dereference of a null pointer or of the head of a list taken for an entry. -/
  | null_deref
  /-- Integer division by zero. -/
  | div_by_zero
  /-- Call of `abort()`, in `sp3_dirty_node_locked` or in `sp3_notify_ingest`. -/
  | abort
  /-- Failure of `assert(0)` in the work-type switch of `sp3_work`. -/
  | assert_wtype
  /-- Failure of `assert(cn_node_isroot(tn))`. -/
  | assert_isroot
  /-- Failure of `assert(action != CN_ACTION_NONE)`. -/
  | assert_action
  /-- Failure of `assert(atomic_read(&tn->tn_busycnt) == 0)`. -/
  | assert_busycnt
  /-- Failure of `assert(mark)`. -/
  | assert_mark
  /-- Failure of `assert(&le->le_link != &tn->tn_kvset_list)`. -/
  | assert_le_link
  /-- Failure of `assert(kvset_get_workid(le->le_kvset) == 0)`. -/
  | assert_workid
  /-- Failure of `assert(qnum < SP3_QNUM_MAX)`. -/
  | assert_qnum
  /-- Failure of `assert(!qfull(sp, qnum))`. -/
  | assert_qfull
  /-- Failure of `assert(left->tn_ss_joining == -1)`. -/
  | assert_join_left
  /-- Failure of `assert(tn->tn_ss_joining == 1)`. -/
  | assert_join_right
  /-- Failure of `assert(left->tn_ss_joining >= 0)`. -/
  | assert_join_left_nonneg
  /-- Failure of `assert(s->l_alen >= s->l_good)` in `samp_pct_garbage`. -/
  | assert_samp_garbage
  /-- Failure of `assert(spt->spt_job_cnt > 0)`. -/
  | assert_job_cnt
  /-- Failure of `assert(w->cw_qnum < SP3_QNUM_MAX)`. -/
  | assert_cw_qnum
  /-- Failure of `assert(sp->qinfo[w->cw_qnum].qjobs > 0)`. -/
  | assert_qjobs
  /-- Failure of `assert(sp->jobs_started > sp->jobs_finished)`. -/
  | assert_jobs
  /-- Failure of `assert(tree->ct_root == list_first_entry(&tree->ct_nodes, ...))`. -/
  | assert_root_first
  /-- Failure of `assert(ndirty > 0)`. -/
  | assert_ndirty
  /-- Failure of `assert(spn->spn_initialized)`. -/
  | assert_initialized
  deriving DecidableEq, Repr

/-! ## Data model -/

/-- The enum `cn_action`. -/
inductive cn_action
  | CN_ACTION_NONE
  | CN_ACTION_COMPACT_K
  | CN_ACTION_COMPACT_KV
  | CN_ACTION_SPILL
  | CN_ACTION_SPLIT
  | CN_ACTION_JOIN
  deriving DecidableEq, Repr

/-- The enum `cn_rule` of `hse_ikvdb/csched.h`. -/
inductive cn_rule
  | CN_RULE_NONE
  | CN_RULE_INGEST
  | CN_RULE_RSPILL
  | CN_RULE_TSPILL
  | CN_RULE_ZSPILL
  | CN_RULE_LENGTH_MIN
  | CN_RULE_LENGTH_MAX
  | CN_RULE_LENGTH_WLEN
  | CN_RULE_LENGTH_VWLEN
  | CN_RULE_LENGTH_CLEN
  | CN_RULE_INDEX
  | CN_RULE_COMPC
  | CN_RULE_IDLE_INDEX
  | CN_RULE_IDLE_SIZE
  | CN_RULE_IDLE_TOMB
  | CN_RULE_SCATTERF
  | CN_RULE_SCATTERP
  | CN_RULE_GARBAGE
  | CN_RULE_SPLIT
  | CN_RULE_LSPLIT
  | CN_RULE_RSPLIT
  | CN_RULE_JOIN
  deriving DecidableEq, Repr

/-- The enum `sp3_work_type`: one value per work category. -/
inductive sp3_work_type
  | wtype_root
  | wtype_length
  | wtype_idle
  | wtype_garbage
  | wtype_scatter
  | wtype_split
  | wtype_join
  deriving DecidableEq, Repr

/-- A kvset, with the fields the scheduler reads through the `kvset_get_*`
accessors and `kvset_statsp`. -/
structure kvset where
  workid : Nat := 0
  dgen : Nat := 0
  dgen_lo : Nat := 0
  compc : Nat := 0
  vgroups : Nat := 0
  num_kblocks : Nat := 0
  num_vblocks : Nat := 0
  kst_keys : Nat := 0
  kst_tombs : Nat := 0
  kst_ptombs : Nat := 0
  kst_kalen : Nat := 0
  kst_valen : Nat := 0
  kst_kwlen : Nat := 0
  kst_vwlen : Nat := 0
  deriving DecidableEq, Repr

/-- The struct `cn_samp_stats`: space-amplification accumulators. -/
structure cn_samp_stats where
  r_alen : Int := 0
  r_wlen : Int := 0
  i_alen : Int := 0
  l_alen : Int := 0
  l_good : Int := 0
  deriving DecidableEq, Repr

/-- The struct `cn_node_stats`, read through the `cn_ns_*` accessors. -/
structure cn_node_stats where
  ns_kvsets : Nat := 0
  ns_keys : Nat := 0
  ns_keys_uniq : Nat := 0
  ns_tombs : Nat := 0
  ns_ptombs : Nat := 0
  ns_alen : Nat := 0
  ns_clen : Nat := 0
  ns_wlen : Nat := 0
  ns_vblks : Nat := 0
  ns_samp : Nat := 0
  ns_pcap : Nat := 0
  deriving DecidableEq, Repr

/-- The struct `sp3_thresholds`. -/
structure sp3_thresholds where
  rspill_runlen_min : Nat := 0
  rspill_runlen_max : Nat := 0
  rspill_wlen_max : Nat := 0
  lcomp_runlen_max : Nat := 0
  lcomp_join_pct : Nat := 0
  lcomp_split_keys : Nat := 0
  llen_runlen_min : Nat := 0
  llen_runlen_max : Nat := 0
  llen_idlec : Nat := 0
  llen_idlem : Nat := 0
  lscat_hwm : Nat := 0
  lscat_runlen_max : Nat := 0
  split_cnt_max : Nat := 0
  deriving DecidableEq, Repr

/-- A tree node (`struct cn_tree_node`) together with its scheduler satellite
(`struct sp3_node`).  `addr` is the identity of the node (its address), which
the priority indexes use to break ties; `tn_compacting` is the per-node
compaction token; `tn_route_node` tells whether the route pointer is non-null. -/
structure cn_tree_node where
  addr : Nat := 0
  tn_kvset_list : List kvset := []
  tn_ns : cn_node_stats := {}
  tn_samp : cn_samp_stats := {}
  tn_busycnt : Nat := 0
  tn_compacting : Bool := false
  tn_ss_splitting : Bool := false
  tn_ss_joining : Int := 0
  tn_ss_spilling : Nat := 0
  tn_ss_visits : Nat := 0
  tn_route_node : Bool := false
  tn_split_size : Nat := 0
  spn_initialized : Bool := false
  deriving DecidableEq, Repr

/-- A tree (`struct cn_tree`): the root is the first node of `ct_nodes`, the
leaves follow in edge-key order.  `cn_maint_disable` is the run-time parameter
`tree->rp->cn_maint_disable`; `spt_job_cnt` is the count of jobs in flight that
the scheduler keeps for the tree (`struct sp3_tree`), `spt_enabled` its enabled
flag, `spt_ingest_alen` and `spt_ingest_wlen` its pending ingest totals. -/
structure cn_tree where
  ct_nodes : List cn_tree_node := []
  ct_fanout : Nat := 0
  ct_split_cnt : Int := 0
  ct_split_dly : Nat := 0
  ct_sgen : Nat := 0
  ct_rspills_wedged : Bool := false
  cn_maint_disable : Bool := false
  ct_samp : cn_samp_stats := {}
  ct_rspill_dt : Nat := 0
  ct_rspill_slp : Nat := 0
  spt_job_cnt : Nat := 0
  spt_enabled : Bool := true
  spt_ingest_alen : Int := 0
  spt_ingest_wlen : Int := 0
  deriving DecidableEq, Repr

/-- A pointer to an entry of a node's circular kvset list: null, the list head
itself (what `list_last_entry` of an empty list and `list_prev_entry` of the
first entry yield), or the entry at position `i` counted from the newest. -/
inductive le_ptr
  | null
  | head
  | entry (i : Nat)
  deriving DecidableEq, Repr

/-- The struct `cn_work_est`. -/
structure cn_work_est where
  cwe_keys : Nat := 0
  cwe_read_sz : Nat := 0
  cwe_write_sz : Nat := 0
  cwe_samp : cn_samp_stats := {}
  deriving DecidableEq, Repr

/-- The fields of `struct cn_compaction_work` that `sp3_work` and the
scheduler write.  `cw_node` and `cw_join` are node positions in the tree. -/
structure cn_compaction_work where
  cw_action : cn_action := cn_action.CN_ACTION_NONE
  cw_rule : cn_rule := cn_rule.CN_RULE_NONE
  cw_resched : Bool := false
  cw_have_token : Bool := false
  cw_kvset_cnt : Nat := 0
  cw_mark : le_ptr := le_ptr.null
  cw_node : Option Nat := none
  cw_join : Option Nat := none
  cw_dgen_hi_min : Nat := 0
  cw_dgen_hi : Nat := 0
  cw_dgen_lo : Nat := 0
  cw_nh : Nat := 0
  cw_nk : Nat := 0
  cw_nv : Nat := 0
  cw_input_vgroups : Nat := 0
  cw_compc : Nat := 0
  cw_ns : cn_node_stats := {}
  cw_sgen : Nat := 0
  cw_debug : Nat := 0
  cw_t0_enqueue : Nat := 0
  cw_est : cn_work_est := {}
  cw_qnum : Nat := 0
  cw_samp_pre : cn_samp_stats := {}
  cw_samp_post : cn_samp_stats := {}
  deriving DecidableEq, Repr

/-- What a category planner hands back to `sp3_work`: the run length it
returns and the values it stored through `mark`, `action` and `rule`. -/
structure wplan where
  kvsets : Nat := 0
  mark : le_ptr := le_ptr.null
  action : cn_action := cn_action.CN_ACTION_NONE
  rule : cn_rule := cn_rule.CN_RULE_NONE
  deriving DecidableEq, Repr

/-! ## List pointers -/

/-- The macro `list_last_entry_or_null`: the oldest kvset, or null. -/
def list_last_entry_or_null (kvs : List kvset) : le_ptr :=
  if kvs.length = 0 then le_ptr.null else le_ptr.entry (kvs.length - 1)

/-- The macro `list_last_entry`: as above, but the head of an empty list. -/
def list_last_entry (kvs : List kvset) : le_ptr :=
  if kvs.length = 0 then le_ptr.head else le_ptr.entry (kvs.length - 1)

/-- The macro `list_prev_entry` applied to the entry at position `i`. -/
def list_prev_entry (i : Nat) : le_ptr :=
  match i with
  | 0 => le_ptr.head
  | j + 1 => le_ptr.entry j

/-- The macro `list_prev_entry_or_null` applied to the entry at position `i`. -/
def list_prev_entry_or_null (i : Nat) : le_ptr :=
  match i with
  | 0 => le_ptr.null
  | j + 1 => le_ptr.entry j

/-- The macro `list_next_entry_or_null` applied to the entry at position `i`. -/
def list_next_entry_or_null (kvs : List kvset) (i : Nat) : le_ptr :=
  if i + 1 < kvs.length then le_ptr.entry (i + 1) else le_ptr.null

/-- Modelled from the spec: `cn_node_isroot` is declared in
`cn_tree_internal.h`, which is not part of the sources; the spec says that the
first node of a tree is its root and that the rest are leaves. -/
def cn_node_isroot (idx : Nat) : Bool := idx == 0

/-- Modelled from the spec: `cn_node_isleaf`, the negation of `cn_node_isroot`. -/
def cn_node_isleaf (idx : Nat) : Bool := !(cn_node_isroot idx)

/-- Modelled from the spec: `cn_node_comp_token_get` is declared in
`cn_tree_internal.h`; it takes the per-node compaction token if it is free and
tells whether it did. -/
def cn_node_comp_token_get (tn : cn_tree_node) : Bool × cn_tree_node :=
  if tn.tn_compacting then (false, tn) else (true, { tn with tn_compacting := true })

/-- Modelled from the spec: `cn_node_comp_token_put` releases the token. -/
def cn_node_comp_token_put (tn : cn_tree_node) : cn_tree_node :=
  { tn with tn_compacting := false }

/-- The function `sp3_node_is_idle`: no kvset of the node is marked. -/
def sp3_node_is_idle (tn : cn_tree_node) : Bool :=
  tn.tn_kvset_list.all (fun k => k.workid == 0)

/-! ## The root planner -/

/-- The counting loop of `sp3_work_wtype_root`: `newer` holds the kvsets that
follow the mark, walking toward the newest; the result is `(runlen, wlen)`. -/
def root_run (runlen_min wlen_max : Nat) : List kvset → Nat → Nat → Nat × Nat
  | [], runlen, wlen => (runlen, wlen)
  | k :: newer, runlen, wlen =>
    if k.workid ≠ 0 then (runlen, wlen)
    else
      let wlen1 := wlen + (k.kst_kwlen + k.kst_vwlen)
      if runlen ≥ runlen_min ∧ wlen1 ≥ wlen_max then (runlen, wlen1)
      else root_run runlen_min wlen_max newer (runlen + 1) wlen1

/-- The kvsets of a node from the oldest unclaimed one toward the newest:
the first loop of `sp3_work_wtype_root` walks from the tail and skips the
kvsets that are busy. -/
def root_unclaimed (kvs : List kvset) : List kvset :=
  kvs.reverse.dropWhile (fun k => k.workid != 0)

/-- The run length and the accumulated written length that
`sp3_work_wtype_root` counts, or `none` when every kvset is busy. -/
def root_count (tn : cn_tree_node) (thresh : sp3_thresholds) : Option (Nat × Nat) :=
  match root_unclaimed tn.tn_kvset_list with
  | [] => none
  | k :: newer =>
    some (root_run thresh.rspill_runlen_min thresh.rspill_wlen_max newer 1
      (k.kst_kwlen + k.kst_vwlen))

/-- The function `sp3_work_wtype_root`. -/
def sp3_work_wtype_root (VBLOCK_MAX_SIZE : Nat) (tn : cn_tree_node)
    (thresh : sp3_thresholds) : wplan :=
  let action := cn_action.CN_ACTION_SPILL
  match root_unclaimed tn.tn_kvset_list with
  | [] => { kvsets := 0, mark := le_ptr.null, action := action, rule := cn_rule.CN_RULE_RSPILL }
  | k :: newer =>
    let mark := le_ptr.entry newer.length
    let runlen_min := thresh.rspill_runlen_min
    let runlen_max := thresh.rspill_runlen_max
    let rw := root_run runlen_min thresh.rspill_wlen_max newer 1 (k.kst_kwlen + k.kst_vwlen)
    let runlen := rw.1
    let wlen := rw.2
    if runlen < runlen_min then
      { kvsets := 0, mark := mark, action := action, rule := cn_rule.CN_RULE_RSPILL }
    else if wlen < VBLOCK_MAX_SIZE then
      if runlen < runlen_max then
        { kvsets := 0, mark := mark, action := action, rule := cn_rule.CN_RULE_RSPILL }
      else
        { kvsets := runlen, mark := mark, action := action, rule := cn_rule.CN_RULE_TSPILL }
    else
      let runlen1 := if runlen > runlen_max then runlen - runlen_min else runlen
      { kvsets := min runlen1 runlen_max, mark := mark, action := action,
        rule := cn_rule.CN_RULE_RSPILL }

/-! ## The idle, garbage, scatter and length planners -/

/-- The tomb-skipping loop of `sp3_work_wtype_idle`: walking from the newest
kvset, stop at the first one with tombs; the result is `(keys, skip)`. -/
def idle_skip_tombs : List kvset → Nat → Nat → Nat × Nat
  | [], keys, skip => (keys, skip)
  | k :: older, keys, skip =>
    if k.kst_tombs > 0 then (keys, skip)
    else idle_skip_tombs older (usub64 keys k.kst_keys) (skip + 1)

/-- The ptomb-skipping loop of `sp3_work_wtype_idle`: the number of kvsets,
walking from the newest, before the first one with ptombs. -/
def idle_skip_ptombs : List kvset → Nat → Nat
  | [], skip => skip
  | k :: older, skip =>
    if k.kst_ptombs > 0 then skip else idle_skip_ptombs older (skip + 1)

/-- The loop of `sp3_work_wtype_idle` that skips the oldest kvsets with
enormous key counts: `walk` holds the kvsets from the mark toward the newest,
`i` is the position of its first kvset; the result is `(le, kvsets)`. -/
def idle_skip_index (keys_max : Nat) : List kvset → Nat → Nat → le_ptr × Nat
  | [], _, kvsets => (le_ptr.null, kvsets)
  | k :: newer, i, kvsets =>
    if k.kst_keys < keys_max then (le_ptr.entry i, kvsets)
    else idle_skip_index keys_max newer (i - 1) (usub32 kvsets 1)

/-- The function `sp3_work_wtype_idle`; `p` carries the values of `*action`
and `*rule` on entry, which the final `return 0` leaves as they are. -/
def sp3_work_wtype_idle (VBLOCK_MAX_SIZE : Nat) (isroot : Bool) (tn : cn_tree_node)
    (thresh : sp3_thresholds) (p : wplan) : wplan :=
  let ns := tn.tn_ns
  let head := tn.tn_kvset_list
  let mark := list_last_entry_or_null head
  let kvsets := ns.ns_kvsets
  if isroot then
    { kvsets := kvsets, mark := mark, action := cn_action.CN_ACTION_SPILL,
      rule := cn_rule.CN_RULE_RSPILL }
  else if ns.ns_keys = 0 then
    { kvsets := kvsets, mark := mark, action := cn_action.CN_ACTION_COMPACT_K,
      rule := cn_rule.CN_RULE_IDLE_TOMB }
  else
    let tombs := ns.ns_tombs
    let ks := idle_skip_tombs head ns.ns_keys 0
    if tombs > 0 ∧ usub32 kvsets ks.2 > 1 ∧
        (tombs ≥ usub64 ks.1 tombs ∨ tombs * 100 > ns.ns_keys_uniq * 95) then
      { kvsets := usub32 kvsets ks.2, mark := mark, action := cn_action.CN_ACTION_COMPACT_K,
        rule := cn_rule.CN_RULE_IDLE_TOMB }
    else if ns.ns_vblks < kvsets then
      let keys_max := thresh.lcomp_split_keys / 2
      let lk := idle_skip_index keys_max head.reverse (head.length - 1) kvsets
      { kvsets := min lk.2 thresh.lcomp_runlen_max, mark := lk.1,
        action := cn_action.CN_ACTION_COMPACT_KV, rule := cn_rule.CN_RULE_IDLE_INDEX }
    else if ns.ns_clen < VBLOCK_MAX_SIZE then
      { kvsets := kvsets, mark := mark, action := cn_action.CN_ACTION_COMPACT_KV,
        rule := cn_rule.CN_RULE_IDLE_SIZE }
    else if ns.ns_ptombs ≠ 0 ∧ usub32 kvsets (idle_skip_ptombs head 0) > 1 then
      { kvsets := usub32 kvsets (idle_skip_ptombs head 0), mark := mark,
        action := cn_action.CN_ACTION_COMPACT_K, rule := cn_rule.CN_RULE_IDLE_TOMB }
    else
      { kvsets := 0, mark := mark, action := p.action, rule := p.rule }

/-- The function `sp3_work_wtype_garbage`. -/
def sp3_work_wtype_garbage (VBLOCK_MAX_SIZE : Nat) (isroot : Bool) (tn : cn_tree_node)
    (thresh : sp3_thresholds) (p : wplan) : wplan :=
  let q := sp3_work_wtype_idle VBLOCK_MAX_SIZE isroot tn thresh p
  if q.kvsets > 0 then
    { q with rule := cn_rule.CN_RULE_GARBAGE }
  else
    { kvsets := min tn.tn_ns.ns_kvsets thresh.lcomp_runlen_max,
      mark := list_last_entry_or_null tn.tn_kvset_list,
      action := cn_action.CN_ACTION_COMPACT_KV, rule := cn_rule.CN_RULE_GARBAGE }

/-- The first loop of `sp3_work_wtype_scatter`: walking from the oldest kvset
(`walk`, whose first kvset is at position `i`), find the first one with more
than one vgroup; the result is `(mark, rule, runlen)`. -/
def scatter_find : List kvset → Nat → le_ptr → cn_rule → Nat → le_ptr × cn_rule × Nat
  | [], _, mark, rule, runlen => (mark, rule, runlen)
  | k :: newer, i, mark, rule, runlen =>
    if k.vgroups > 1 then (le_ptr.entry i, rule, runlen)
    else scatter_find newer (i - 1) mark cn_rule.CN_RULE_SCATTERP (usub32 runlen 1)

/-- The function `sp3_work_wtype_scatter`. -/
def sp3_work_wtype_scatter (tn : cn_tree_node) (thresh : sp3_thresholds) :
    Except sp3_fault wplan :=
  let head := tn.tn_kvset_list
  let action := cn_action.CN_ACTION_COMPACT_KV
  let runlen_max := thresh.lscat_runlen_max
  let f := scatter_find head.reverse (head.length - 1) (list_last_entry_or_null head)
    cn_rule.CN_RULE_SCATTERF tn.tn_ns.ns_kvsets
  let mark := f.1
  let rule := f.2.1
  let runlen := f.2.2
  if runlen > 0 then
    match mark with
    | le_ptr.entry i =>
      match list_next_entry_or_null head i with
      | le_ptr.entry j =>
        match head[j]? with
        | some k =>
          if k.kst_kwlen + k.kst_vwlen < 256 * 1048576 then
            Except.ok { kvsets := min (runlen + 1) (runlen_max + 1), mark := le_ptr.entry j,
                        action := action, rule := rule }
          else
            Except.ok { kvsets := min runlen runlen_max, mark := mark, action := action,
                        rule := rule }
        | none => Except.error sp3_fault.null_deref
      | _ => Except.ok { kvsets := min runlen runlen_max, mark := mark, action := action,
                         rule := rule }
    | _ => Except.error sp3_fault.null_deref
  else
    Except.ok { kvsets := min runlen runlen_max, mark := mark, action := action, rule := rule }

/-- The loop of `sp3_work_wtype_length` over the uncompacted kvsets, walking
from the newest: the result is `(stats, kmax, n)`. -/
def length_kmax : List kvset → Option kvset → Nat → Nat → Option kvset × Nat × Nat
  | [], stats, kmax, n => (stats, kmax, n)
  | k :: older, stats, kmax, n =>
    if k.compc > 0 then (stats, kmax, n)
    else length_kmax older (some k) (if k.kst_keys > kmax then k.kst_keys else kmax) (n + 1)

/-- The local variables of the run-finding loop of `sp3_work_wtype_length`. -/
structure length_state where
  stats : Option kvset
  compc : Nat
  mark : le_ptr
  runlen : Nat
  vwlen : Nat
  wlen : Nat
  runlen_max : Nat
  deriving DecidableEq, Repr

/-- The run-finding loop of `sp3_work_wtype_length`, walking from the oldest
kvset (`walk`, whose first kvset is at position `i`). -/
def length_run (keys_max runlen_min : Nat) :
    List kvset → Nat → length_state → Except sp3_fault length_state
  | [], _, s => Except.ok s
  | k :: newer, i, s =>
    let restart : Except sp3_fault Bool :=
      if s.runlen < runlen_min then
        if s.compc ≠ k.compc then Except.ok true
        else
          match s.stats with
          | none => Except.error sp3_fault.null_deref
          | some st => Except.ok (decide (st.kst_keys > keys_max))
      else Except.ok false
    match restart with
    | Except.error e => Except.error e
    | Except.ok r =>
      let s1 : length_state :=
        if r then { s with compc := k.compc, mark := le_ptr.entry i, runlen := 0, vwlen := 0,
                           wlen := 0 }
        else s
      let s2 : length_state :=
        { s1 with stats := some k, vwlen := s1.vwlen + k.kst_vwlen,
                  wlen := s1.wlen + (k.kst_kwlen + k.kst_vwlen),
                  runlen_max := if k.kst_keys = 0 then s1.runlen_max + 1 else s1.runlen_max,
                  runlen := s1.runlen + 1 }
      if s2.runlen ≥ s2.runlen_max then Except.ok s2
      else length_run keys_max runlen_min newer (i - 1) s2

/-- The last loop of `sp3_work_wtype_length`, walking from the newest kvset
(`walk`, whose first kvset is at position `i`) while the key budget lasts: the
result is `(mark, runlen, vwlen)`. -/
def length_tiny : List kvset → Nat → Nat → le_ptr → Nat → Nat → le_ptr × Nat × Nat
  | [], _, _, mark, runlen, vwlen => (mark, runlen, vwlen)
  | k :: older, i, keys_max, mark, runlen, vwlen =>
    if k.kst_keys > keys_max then (mark, runlen, vwlen)
    else length_tiny older (i + 1) (keys_max - k.kst_keys) (le_ptr.entry i) (runlen + 1)
      (vwlen + k.kst_vwlen)

/-- The part of `sp3_work_wtype_length` that follows the run-finding loop;
`rule0` is the rule chosen before the loop and `s` the state the loop ended in. -/
def length_finish (VBLOCK_MAX_SIZE : Nat) (tn : cn_tree_node) (thresh : sp3_thresholds)
    (rule0 : cn_rule) (s : length_state) : wplan :=
  let runlen_min := thresh.llen_runlen_min
  let kvsets := tn.tn_ns.ns_kvsets
  let head := tn.tn_kvset_list
  if s.runlen ≥ runlen_min then
    if s.wlen < VBLOCK_MAX_SIZE then
      { kvsets := s.runlen, mark := s.mark, action := cn_action.CN_ACTION_COMPACT_KV,
        rule := cn_rule.CN_RULE_LENGTH_WLEN }
    else if s.vwlen < VBLOCK_MAX_SIZE then
      { kvsets := s.runlen, mark := s.mark, action := cn_action.CN_ACTION_COMPACT_KV,
        rule := cn_rule.CN_RULE_LENGTH_VWLEN }
    else
      { kvsets := s.runlen, mark := s.mark, action := cn_action.CN_ACTION_COMPACT_K,
        rule := rule0 }
  else if tn.tn_ns.ns_clen < VBLOCK_MAX_SIZE then
    { kvsets := kvsets, mark := list_last_entry head,
      action := cn_action.CN_ACTION_COMPACT_KV, rule := cn_rule.CN_RULE_LENGTH_CLEN }
  else if kvsets > s.runlen_max then
    let t := length_tiny head 0 (32 * 1048576) s.mark 0 0
    if t.2.1 > runlen_min then
      if t.2.2 < VBLOCK_MAX_SIZE then
        { kvsets := min t.2.1 s.runlen_max, mark := t.1,
          action := cn_action.CN_ACTION_COMPACT_KV, rule := cn_rule.CN_RULE_INDEX }
      else
        { kvsets := min t.2.1 s.runlen_max, mark := t.1,
          action := cn_action.CN_ACTION_COMPACT_K, rule := cn_rule.CN_RULE_COMPC }
    else
      { kvsets := 0, mark := t.1, action := cn_action.CN_ACTION_COMPACT_K,
        rule := cn_rule.CN_RULE_COMPC }
  else
    { kvsets := 0, mark := s.mark, action := cn_action.CN_ACTION_COMPACT_K, rule := rule0 }

/-- The function `sp3_work_wtype_length`; `p` carries the values of `*mark`,
`*action` and `*rule` on entry. -/
def sp3_work_wtype_length (VBLOCK_MAX_SIZE : Nat) (tn : cn_tree_node)
    (thresh : sp3_thresholds) (p : wplan) : Except sp3_fault wplan :=
  let runlen_min := thresh.llen_runlen_min
  let kvsets := tn.tn_ns.ns_kvsets
  let head := tn.tn_kvset_list
  if kvsets ≥ runlen_min then
    let km := if kvsets > thresh.llen_runlen_max then length_kmax head none 0 0 else (none, 0, 0)
    let lenmax : Bool := decide (kvsets > thresh.llen_runlen_max ∧ km.2.2 > thresh.llen_runlen_max)
    let rule0 := if lenmax then cn_rule.CN_RULE_LENGTH_MAX else cn_rule.CN_RULE_LENGTH_MIN
    let keys_max := if lenmax then u32 km.2.1 else u32 (thresh.lcomp_split_keys / 2)
    let s0 : length_state :=
      { stats := km.1, compc := UINT_MAX, mark := list_last_entry head, runlen := 0, vwlen := 0,
        wlen := 0, runlen_max := thresh.llen_runlen_max }
    match length_run keys_max runlen_min head.reverse (head.length - 1) s0 with
    | Except.error e => Except.error e
    | Except.ok s => Except.ok (length_finish VBLOCK_MAX_SIZE tn thresh rule0 s)
  else
    Except.ok { p with kvsets := 0 }

/-! ## The environment -/

/-- The limits and defaults of `csched_sp3_work.h` that `sp3_refresh_thresholds`
uses; the header is not part of the sources, so they are parameters. -/
structure sp3_limits where
  SP3_RSPILL_RUNLEN_MIN : Nat := 0
  SP3_RSPILL_RUNLEN_MAX : Nat := 0
  SP3_RSPILL_RUNLEN_MIN_DEFAULT : Nat := 0
  SP3_RSPILL_RUNLEN_MAX_DEFAULT : Nat := 0
  SP3_RSPILL_WLEN_MIN : Nat := 0
  SP3_RSPILL_WLEN_MAX : Nat := 0
  SP3_RSPILL_WLEN_MAX_DEFAULT : Nat := 0
  SP3_LCOMP_RUNLEN_MAX_MIN : Nat := 0
  SP3_LCOMP_RUNLEN_MAX_MAX : Nat := 0
  SP3_LCOMP_RUNLEN_MAX_DEFAULT : Nat := 0
  SP3_LCOMP_JOIN_PCT_MIN : Nat := 0
  SP3_LCOMP_JOIN_PCT_MAX : Nat := 0
  SP3_LCOMP_JOIN_PCT_DEFAULT : Nat := 0
  SP3_LCOMP_SPLIT_KEYS_MIN : Nat := 0
  SP3_LCOMP_SPLIT_KEYS_MAX : Nat := 0
  SP3_LCOMP_SPLIT_KEYS_DEFAULT : Nat := 0
  SP3_LLEN_RUNLEN_MIN : Nat := 0
  SP3_LLEN_RUNLEN_MAX : Nat := 0
  SP3_LLEN_RUNLEN_MIN_DEFAULT : Nat := 0
  SP3_LLEN_RUNLEN_MAX_DEFAULT : Nat := 0
  SP3_LLEN_IDLEC_DEFAULT : Nat := 0
  SP3_LLEN_IDLEM_DEFAULT : Nat := 0
  deriving DecidableEq, Repr

/-- The work types in the order of the case labels of the switch in
`sp3_schedule` (the enumeration `sp3_work_type` is declared in a header that is
not part of the sources). -/
def wtype_switch_order : Nat → Option sp3_work_type
  | 0 => some sp3_work_type.wtype_root
  | 1 => some sp3_work_type.wtype_length
  | 2 => some sp3_work_type.wtype_idle
  | 3 => some sp3_work_type.wtype_garbage
  | 4 => some sp3_work_type.wtype_scatter
  | 5 => some sp3_work_type.wtype_split
  | 6 => some sp3_work_type.wtype_join
  | _ => none

/-- What the embedded code takes from outside the two source files: constants
of headers that are not part of the sources, the flag bits of a compaction
request, the function `cn_tree_node_scatter`, and the three estimators that the
C code computes in double precision before converting the result to `uint`. -/
structure sp3_env where
  VBLOCK_MAX_SIZE : Nat
  CN_FANOUT_MAX : Nat
  HSE_KVDB_COMPACT_CANCEL : Nat
  HSE_KVDB_COMPACT_SAMP_LWM : Nat
  limits : sp3_limits
  cn_tree_node_scatter : cn_tree_node → Nat
  samp_est : cn_samp_stats → Nat → Nat
  samp_pct_leaves : cn_samp_stats → Nat → Nat
  samp_pct_garbage : cn_samp_stats → Nat → Nat
  wtype_MAX : Nat := 7
  wtype_enum : Nat → Option sp3_work_type := wtype_switch_order
  THROTTLE_SENSOR_SCALE : Nat := 1000

/-! ## The split and join planners -/

/-- The function `sp3_work_splittable`. -/
def sp3_work_splittable (tn : cn_tree_node) (thresh : sp3_thresholds) : Bool :=
  decide (tn.tn_ss_joining = 0) && decide (tn.tn_ns.ns_kvsets > 0) &&
    (decide (tn.tn_ns.ns_clen ≥ tn.tn_split_size) ||
     decide (tn.tn_ns.ns_keys_uniq ≥ thresh.lcomp_split_keys))

/-- The commit test shared by the split and join planners: too many splits are
active in the tree, or the tree is in its cool-down period. -/
def split_deferred (jclock_ns : Nat) (tree : cn_tree) (thresh : sp3_thresholds) : Bool :=
  decide (tree.ct_split_cnt ≥ (thresh.split_cnt_max : Int)) || decide (jclock_ns < tree.ct_split_dly)

/-- The statement `if (atomic_inc_return(&tree->ct_split_cnt) >= split_cnt_max)
tree->ct_split_dly = jclock_ns + NSEC_PER_SEC * 3`. -/
def split_cnt_inc (jclock_ns : Nat) (tree : cn_tree) (thresh : sp3_thresholds) : cn_tree :=
  let cnt := tree.ct_split_cnt + 1
  if cnt ≥ (thresh.split_cnt_max : Int) then
    { tree with ct_split_cnt := cnt, ct_split_dly := jclock_ns + NSEC_PER_SEC * 3 }
  else
    { tree with ct_split_cnt := cnt }

/-- The function `sp3_work_wtype_split` on the node `tn` of `tree`: the result
holds the tree (its counters updated), the node and the plan. -/
def sp3_work_wtype_split (CN_FANOUT_MAX jclock_ns : Nat) (tree : cn_tree) (tn : cn_tree_node)
    (thresh : sp3_thresholds) : cn_tree × cn_tree_node × wplan :=
  let mark := list_last_entry_or_null tn.tn_kvset_list
  let action := cn_action.CN_ACTION_SPLIT
  let rule := cn_rule.CN_RULE_SPLIT
  let splittable := sp3_work_splittable tn thresh
  let expandable := decide ((tree.ct_fanout : Int) < (CN_FANOUT_MAX : Int) - tree.ct_split_cnt)
  if splittable && expandable then
    let spilling := tn.tn_ss_spilling
    let r : cn_tree × cn_tree_node :=
      if !tn.tn_ss_splitting then
        if split_deferred jclock_ns tree thresh then
          (tree, { tn with tn_ss_visits := 0 })
        else if spilling ≠ 0 ∧ tn.tn_ss_visits < thresh.split_cnt_max then
          (tree, { tn with tn_ss_visits := tn.tn_ss_visits + 1 })
        else
          (split_cnt_inc jclock_ns tree thresh,
           { tn with tn_ss_splitting := true, tn_ss_visits := 0 })
      else (tree, tn)
    let kvsets :=
      if r.2.tn_ss_splitting ∧ spilling = 0 ∧ mark ≠ le_ptr.null then tn.tn_ns.ns_kvsets else 0
    (r.1, r.2, { kvsets := kvsets, mark := mark, action := action, rule := rule })
  else
    let r : cn_tree × cn_tree_node :=
      if tn.tn_ss_splitting then
        ({ tree with ct_split_cnt := tree.ct_split_cnt - 1 }, { tn with tn_ss_splitting := false })
      else (tree, tn)
    (r.1, { r.2 with tn_ss_visits := 0 },
     { kvsets := 0, mark := le_ptr.null, action := action, rule := rule })

/-- The function `sp3_work_joinable` on the node at position `idx` of `tree`:
the position of the left neighbour when the two nodes can be joined.  The C
code calls it on leaves only, whose left neighbour is at `idx - 1`. -/
def sp3_work_joinable (tree : cn_tree) (idx : Nat) (thresh : sp3_thresholds) : Option Nat :=
  match tree.ct_nodes[idx]? with
  | none => none
  | some right =>
    if !right.spn_initialized || right.tn_ss_splitting then none
    else if idx = 0 then none
    else
      match tree.ct_nodes[idx - 1]? with
      | none => none
      | some left =>
        if !left.spn_initialized || left.tn_ss_splitting then none
        else if !left.tn_route_node then none
        else if right.tn_ns.ns_kvsets = 0 then none
        else if left.tn_ns.ns_kvsets = 0 then some (idx - 1)
        else if (left.tn_ns.ns_wlen + right.tn_ns.ns_wlen) * 100 >
            right.tn_split_size * thresh.lcomp_join_pct then none
        else if (left.tn_ns.ns_keys + right.tn_ns.ns_keys) * 100 >
            thresh.lcomp_split_keys * thresh.lcomp_join_pct then none
        else some (idx - 1)

/-- Replace the node at position `idx` of a tree. -/
def tree_set_node (tree : cn_tree) (idx : Nat) (tn : cn_tree_node) : cn_tree :=
  { tree with ct_nodes := tree.ct_nodes.set idx tn }

/-- The request part of `sp3_work_wtype_join`, for a leaf `tn` whose left
neighbour `left` is joinable: unless the leaf is already committed to the join,
defer, count a visit, give up, or commit by taking the token of the left node
and setting the two join flags.  The result holds the tree (its counters
updated), the left node, the leaf and the mark. -/
def join_request (jclock_ns : Nat) (tree : cn_tree) (left tn : cn_tree_node)
    (thresh : sp3_thresholds) (mark : le_ptr) (spilling : Bool) :
    cn_tree × cn_tree_node × cn_tree_node × le_ptr :=
  if tn.tn_ss_joining = 0 then
    if split_deferred jclock_ns tree thresh then
      (tree, left, { tn with tn_ss_visits := 0 }, mark)
    else if spilling = true ∧ tn.tn_ss_visits < thresh.split_cnt_max then
      (tree, left, { tn with tn_ss_visits := tn.tn_ss_visits + 1 }, mark)
    else if left.tn_ss_joining ≠ 0 ∨ (cn_node_comp_token_get left).1 = false then
      (tree, left, { tn with tn_ss_visits := 0 }, le_ptr.null)
    else
      (split_cnt_inc jclock_ns tree thresh,
       { (cn_node_comp_token_get left).2 with tn_ss_joining := -1 },
       { tn with tn_ss_joining := 1, tn_ss_visits := 0 }, mark)
  else (tree, left, tn, mark)

/-- The joinable left neighbour of the leaf at position `idx`, with its
position, as `sp3_work_joinable` returns it. -/
def joinable_left (tree : cn_tree) (idx : Nat) (thresh : sp3_thresholds) :
    Option (Nat × cn_tree_node) :=
  match sp3_work_joinable tree idx thresh with
  | none => none
  | some l =>
    match tree.ct_nodes[l]? with
    | none => none
    | some left => some (l, left)

/-- The function `sp3_work_wtype_join` on the leaf at position `idx` of `tree`:
the result holds the tree, in which the leaf and its left neighbour are
updated, and the plan. -/
def sp3_work_wtype_join (jclock_ns : Nat) (tree : cn_tree) (idx : Nat)
    (thresh : sp3_thresholds) : Except sp3_fault (cn_tree × wplan) :=
  match tree.ct_nodes[idx]? with
  | none => Except.error sp3_fault.null_deref
  | some tn =>
    let mark := list_last_entry_or_null tn.tn_kvset_list
    let action := cn_action.CN_ACTION_JOIN
    let rule := cn_rule.CN_RULE_JOIN
    match joinable_left tree idx thresh with
    | some (lidx, left) =>
      let spilling : Bool := decide (left.tn_ss_spilling ≠ 0) || decide (tn.tn_ss_spilling ≠ 0)
      let r := join_request jclock_ns tree left tn thresh mark spilling
      let tn1 := r.2.2.1
      let mark1 := r.2.2.2
      let kvsets :=
        if tn1.tn_ss_joining ≠ 0 ∧ spilling = false ∧ mark1 ≠ le_ptr.null then tn.tn_ns.ns_kvsets
        else 0
      Except.ok (tree_set_node (tree_set_node r.1 lidx r.2.1) idx tn1,
        { kvsets := kvsets, mark := mark1, action := action, rule := rule })
    | none =>
      if tn.tn_ss_joining ≠ 0 then
        if idx = 0 then Except.error sp3_fault.null_deref
        else
          match tree.ct_nodes[idx - 1]? with
          | none => Except.error sp3_fault.null_deref
          | some left =>
            if left.tn_ss_joining ≠ -1 then Except.error sp3_fault.assert_join_left
            else if tn.tn_ss_joining ≠ 1 then Except.error sp3_fault.assert_join_right
            else
              let left1 := cn_node_comp_token_put { left with tn_ss_joining := 0 }
              let tn1 := { tn with tn_ss_joining := 0, tn_ss_visits := 0 }
              let tree1 := { tree with ct_split_cnt := tree.ct_split_cnt - 1 }
              Except.ok (tree_set_node (tree_set_node tree1 (idx - 1) left1) idx tn1,
                { kvsets := 0, mark := le_ptr.null, action := action, rule := rule })
      else
        Except.error sp3_fault.null_deref

/-! ## The function sp3_work -/

/-- The marking loop of `sp3_work`: starting at `le` and proceeding toward the
newest kvset, claim `n` kvsets by setting their workid, and accumulate the
totals of the work item. -/
def sp3_mark_kvsets (workid : Nat) :
    Nat → le_ptr → List kvset → cn_compaction_work →
      Except sp3_fault (List kvset × cn_compaction_work)
  | 0, _, kvs, w => Except.ok (kvs, w)
  | n + 1, le, kvs, w =>
    match le with
    | le_ptr.null => Except.error sp3_fault.null_deref
    | le_ptr.head => Except.error sp3_fault.assert_le_link
    | le_ptr.entry i =>
      match kvs[i]? with
      | none => Except.error sp3_fault.null_deref
      | some k =>
        if k.workid ≠ 0 then Except.error sp3_fault.assert_workid
        else
          sp3_mark_kvsets workid n (list_prev_entry i) (kvs.set i { k with workid := workid })
            { w with cw_dgen_hi := k.dgen, cw_dgen_lo := min w.cw_dgen_lo k.dgen_lo,
                     cw_nh := w.cw_nh + 1, cw_nk := w.cw_nk + k.num_kblocks,
                     cw_nv := w.cw_nv + k.num_vblocks,
                     cw_input_vgroups := w.cw_input_vgroups + k.vgroups }

/-- The loop of `sp3_work_estimate` over the kvsets of the work item: the
result is `(keys, halen, kalen, valen)`. -/
def estimate_sum :
    Nat → le_ptr → List kvset → Nat × Nat × Nat × Nat → Except sp3_fault (Nat × Nat × Nat × Nat)
  | 0, _, _, acc => Except.ok acc
  | n + 1, le, kvs, acc =>
    match le with
    | le_ptr.entry i =>
      match kvs[i]? with
      | none => Except.error sp3_fault.null_deref
      | some k =>
        estimate_sum n (list_prev_entry i) kvs
          (acc.1 + k.kst_keys, acc.2.1 + k.kst_kalen, acc.2.2.1 + k.kst_kalen,
           acc.2.2.2 + k.kst_valen)
    | _ => Except.error sp3_fault.null_deref

/-- The function `sp3_work_estimate`; `kvs` is the kvset list of the node of
the work item and `isleaf` tells whether that node is a leaf. -/
def sp3_work_estimate (isleaf : Bool) (kvs : List kvset) (w : cn_compaction_work) :
    Except sp3_fault cn_compaction_work :=
  match estimate_sum w.cw_kvset_cnt w.cw_mark kvs (0, 0, 0, 0) with
  | Except.error e => Except.error e
  | Except.ok (keys, halen, kalen, valen) =>
    let src_is_leaf := isleaf
    let r : Except sp3_fault (Nat × Nat × Bool) :=
      match w.cw_action with
      | cn_action.CN_ACTION_NONE => Except.ok (0, 100, false)
      | cn_action.CN_ACTION_COMPACT_K => Except.ok (halen + kalen, 100, src_is_leaf)
      | cn_action.CN_ACTION_COMPACT_KV =>
        if w.cw_ns.ns_samp = 0 then Except.error sp3_fault.div_by_zero
        else Except.ok (halen + kalen + valen, 100 * 100 / w.cw_ns.ns_samp, src_is_leaf)
      | cn_action.CN_ACTION_SPILL =>
        if isleaf then Except.error sp3_fault.assert_isroot
        else if w.cw_ns.ns_samp = 0 then Except.error sp3_fault.div_by_zero
        else Except.ok (halen + kalen + valen, 100 * 100 / w.cw_ns.ns_samp, true)
      | cn_action.CN_ACTION_SPLIT => Except.ok (halen + kalen + valen, 100, true)
      | cn_action.CN_ACTION_JOIN => Except.ok (halen + kalen + valen, 100, true)
    match r with
    | Except.error e => Except.error e
    | Except.ok (consume, percent_keep, dst_is_leaf) =>
      let produce := consume * percent_keep / 100
      let s0 := w.cw_est.cwe_samp
      let s1 : cn_samp_stats :=
        if src_is_leaf then { s0 with l_alen := s0.l_alen - (consume : Int) }
        else { s0 with i_alen := s0.i_alen - (consume : Int) }
      let s2 : cn_samp_stats :=
        if dst_is_leaf then
          { s1 with l_alen := s1.l_alen + (produce : Int), l_good := s1.l_good + (produce : Int) }
        else { s1 with i_alen := s1.i_alen + (produce : Int) }
      Except.ok { w with cw_est := { cwe_keys := w.cw_est.cwe_keys + keys,
                                     cwe_read_sz := w.cw_est.cwe_read_sz + consume,
                                     cwe_write_sz := w.cw_est.cwe_write_sz + produce,
                                     cwe_samp := s2 } }

/-- The loop of `sp3_work` that claims the kvsets of the left node of a join,
walking from the oldest kvset: the first non-zero dgen met becomes the workid. -/
def join_mark_left : List kvset → Nat → List kvset
  | [], _ => []
  | k :: newer, workid =>
    let workid1 := if workid = 0 then k.dgen else workid
    { k with workid := workid1 } :: join_mark_left newer workid1

/-- The label `locked_nowork` of `sp3_work`: release the token of the node if
it is held by this call, and return without a work item. -/
def sp3_work_nowork (tree : cn_tree) (idx : Nat) (have_token : Bool) (w : cn_compaction_work) :
    cn_tree × cn_compaction_work :=
  match tree.ct_nodes[idx]? with
  | none => (tree, w)
  | some tn =>
    if have_token then (tree_set_node tree idx (cn_node_comp_token_put tn), w) else (tree, w)

/-- The planning part of `sp3_work`, from the test of `ct_rspills_wedged` for a
root to the end of the work-type switch: the tree after the planner ran, the
plan, and the value of `cw_resched`.  `none` stands for the jump to
`locked_nowork` taken when root spills are wedged. -/
def sp3_work_plan (E : sp3_env) (jclock_ns : Nat) (tree : cn_tree) (idx : Nat)
    (tn : cn_tree_node) (wtype : sp3_work_type) (thresh : sp3_thresholds) :
    Except sp3_fault (Option (cn_tree × wplan × Bool)) :=
  let p0 : wplan := {}
  if cn_node_isroot idx then
    if tree.ct_rspills_wedged && !(sp3_node_is_idle tn) then Except.ok none
    else
      let tree1 := { tree with ct_rspills_wedged := false }
      match wtype with
      | sp3_work_type.wtype_root =>
        Except.ok (some (tree1, sp3_work_wtype_root E.VBLOCK_MAX_SIZE tn thresh, false))
      | sp3_work_type.wtype_idle =>
        Except.ok (some (tree1, sp3_work_wtype_idle E.VBLOCK_MAX_SIZE true tn thresh p0, false))
      | _ => Except.error sp3_fault.assert_wtype
  else
    match wtype with
    | sp3_work_type.wtype_split =>
      let r := sp3_work_wtype_split E.CN_FANOUT_MAX jclock_ns tree tn thresh
      Except.ok (some (tree_set_node r.1 idx r.2.1, r.2.2,
        decide (r.2.2.mark ≠ le_ptr.null) && decide (r.2.2.kvsets = 0)))
    | sp3_work_type.wtype_join =>
      match sp3_work_wtype_join jclock_ns tree idx thresh with
      | Except.error e => Except.error e
      | Except.ok r =>
        Except.ok (some (r.1, r.2, decide (r.2.mark ≠ le_ptr.null) && decide (r.2.kvsets = 0)))
    | sp3_work_type.wtype_garbage =>
      Except.ok (some (tree, sp3_work_wtype_garbage E.VBLOCK_MAX_SIZE false tn thresh p0, false))
    | sp3_work_type.wtype_scatter =>
      match sp3_work_wtype_scatter tn thresh with
      | Except.error e => Except.error e
      | Except.ok p => Except.ok (some (tree, p, false))
    | sp3_work_type.wtype_length =>
      match sp3_work_wtype_length E.VBLOCK_MAX_SIZE tn thresh p0 with
      | Except.error e => Except.error e
      | Except.ok p => Except.ok (some (tree, p, false))
    | sp3_work_type.wtype_idle =>
      Except.ok (some (tree, sp3_work_wtype_idle E.VBLOCK_MAX_SIZE false tn thresh p0, false))
    | sp3_work_type.wtype_root => Except.error sp3_fault.assert_wtype

/-- The end of `sp3_work`, after the fields of the work item are set: a spill
takes the next spill generation of the tree, a join claims the kvsets of the
left neighbour. -/
def sp3_work_finish (tree : cn_tree) (idx : Nat) (action : cn_action) (w : cn_compaction_work) :
    cn_tree × cn_compaction_work :=
  if action = cn_action.CN_ACTION_SPILL then
    ({ tree with ct_sgen := tree.ct_sgen + 1 }, { w with cw_sgen := tree.ct_sgen + 1 })
  else if action = cn_action.CN_ACTION_JOIN then
    match tree.ct_nodes[idx - 1]? with
    | some left =>
      (tree_set_node tree (idx - 1)
         { left with tn_kvset_list := (join_mark_left left.tn_kvset_list.reverse 0).reverse },
       { w with cw_join := some (idx - 1) })
    | none => (tree, { w with cw_join := some (idx - 1) })
  else (tree, w)

/-- The value of `cw_compc`: the compc of the marked kvset, advanced when the
mark is the oldest kvset or the next older kvset has a higher compc. -/
def sp3_work_compc (kvs : List kvset) (m : Nat) (km : kvset) : Nat :=
  match list_next_entry_or_null kvs m with
  | le_ptr.entry j =>
    match kvs[j]? with
    | some kn => if km.compc < kn.compc then km.compc + 1 else km.compc
    | none => km.compc
  | _ => km.compc + 1

/-- The committing part of `sp3_work`, from the statement
`atomic_add(&tn->tn_busycnt, (1u << 16) + n_kvsets)` to the end: the node `tn`
at position `idx` of `tree` gets the work item `p`. -/
def sp3_work_commit (now : Nat) (tree : cn_tree) (idx : Nat) (tn : cn_tree_node) (p : wplan)
    (have_token : Bool) (debug : Nat) (w : cn_compaction_work) :
    Except sp3_fault (cn_tree × cn_compaction_work) :=
  let busycnt := tn.tn_busycnt + (65536 + p.kvsets)
  match p.mark with
  | le_ptr.null => Except.error sp3_fault.assert_mark
  | le_ptr.head => Except.error sp3_fault.null_deref
  | le_ptr.entry m =>
    match tn.tn_kvset_list[m]? with
    | none => Except.error sp3_fault.null_deref
    | some km =>
      let w1 := { w with cw_dgen_hi_min := km.dgen, cw_dgen_lo := UINT64_MAX }
      match sp3_mark_kvsets km.dgen p.kvsets p.mark tn.tn_kvset_list w1 with
      | Except.error e => Except.error e
      | Except.ok (kvs, w2) =>
        let tn1 := { tn with tn_busycnt := busycnt, tn_kvset_list := kvs }
        let w3 := { w2 with cw_compc := sp3_work_compc kvs m km, cw_ns := tn.tn_ns,
                            cw_node := some idx, cw_kvset_cnt := p.kvsets, cw_mark := p.mark,
                            cw_action := p.action, cw_rule := p.rule, cw_debug := debug,
                            cw_have_token := have_token, cw_t0_enqueue := now }
        let r := sp3_work_finish (tree_set_node tree idx tn1) idx p.action w3
        match sp3_work_estimate (cn_node_isleaf idx) kvs r.2 with
        | Except.error e => Except.error e
        | Except.ok w4 => Except.ok (r.1, w4)

/-- The function `sp3_work` on the node at position `idx` of `tree`, for a
work struct `w` that is allocated: the result holds the tree and the work
struct as the call leaves them.  A work item was produced when `cw_action` of
the result is not `CN_ACTION_NONE`.  `jclock_ns` and `now` are the values of
the clocks `jclock_ns` and `get_time_ns()`. -/
def sp3_work (E : sp3_env) (jclock_ns now : Nat) (tree : cn_tree) (idx : Nat)
    (wtype : sp3_work_type) (thresh : sp3_thresholds) (debug : Nat) (w : cn_compaction_work) :
    Except sp3_fault (cn_tree × cn_compaction_work) :=
  let w0 := { w with cw_action := cn_action.CN_ACTION_NONE, cw_resched := false }
  match tree.ct_nodes[idx]? with
  | none => Except.error sp3_fault.null_deref
  | some tn0 =>
    if (cn_node_comp_token_get tn0).1 = false then Except.ok (tree, w0)
    else
      let tn := (cn_node_comp_token_get tn0).2
      let tree0 := tree_set_node tree idx tn
      if tree0.cn_maint_disable && !tn.tn_ss_splitting && decide (tn.tn_ss_joining = 0) then
        Except.ok (sp3_work_nowork tree0 idx true w0)
      else
        match sp3_work_plan E jclock_ns tree0 idx tn wtype thresh with
        | Except.error e => Except.error e
        | Except.ok none => Except.ok (sp3_work_nowork tree0 idx true { w0 with cw_resched := true })
        | Except.ok (some (tree1, p, resched)) =>
          let w1 := { w0 with cw_resched := resched }
          match tree1.ct_nodes[idx]? with
          | none => Except.error sp3_fault.null_deref
          | some tn1 =>
            if p.kvsets = 0 then Except.ok (sp3_work_nowork tree1 idx true w1)
            else if p.action = cn_action.CN_ACTION_SPILL then
              if cn_node_isroot idx = false then Except.error sp3_fault.assert_isroot
              else if tn1.tn_busycnt / 65536 > 2 then Except.ok (sp3_work_nowork tree1 idx true w1)
              else
                sp3_work_commit now tree1 idx (cn_node_comp_token_put tn1) p false debug w1
            else if p.action = cn_action.CN_ACTION_NONE then Except.error sp3_fault.assert_action
            else if tn1.tn_busycnt ≠ 0 then Except.error sp3_fault.assert_busycnt
            else if p.action ≠ cn_action.CN_ACTION_SPLIT ∧ tn1.tn_ss_splitting = true then
              Except.ok (sp3_work_nowork tree1 idx true w1)
            else if p.action ≠ cn_action.CN_ACTION_JOIN ∧ tn1.tn_ss_joining ≠ 0 then
              Except.ok (sp3_work_nowork tree1 idx true w1)
            else
              sp3_work_commit now tree1 idx tn1 p true debug w1

/-! ## The scheduler state -/

/-- The run-time parameters (`struct kvdb_rparams`) that the scheduler reads. -/
structure kvdb_rparams where
  csched_samp_max : Nat := 0
  csched_lo_th_pct : Nat := 0
  csched_hi_th_pct : Nat := 0
  csched_leaf_pct : Nat := 0
  csched_qthreads : Nat := 0
  csched_rspill_params : Nat := 0
  csched_leaf_comp_params : Nat := 0
  csched_leaf_len_params : Nat := 0
  csched_lscat_runlen_max : Nat := 0
  csched_lscat_hwm : Nat := 0
  csched_gc_pct : Nat := 0
  deriving DecidableEq, Repr

/-- The struct `sp3_qinfo`. -/
structure sp3_qinfo where
  qjobs : Nat := 0
  qjobs_max : Nat := 0
  deriving DecidableEq, Repr

/-- The anonymous struct `inputs` of `struct sp3`. -/
structure sp3_inputs where
  csched_samp_max : Nat := 0
  csched_lo_th_pct : Nat := 0
  csched_hi_th_pct : Nat := 0
  csched_leaf_pct : Nat := 0
  deriving DecidableEq, Repr

/-- An element of a priority index (`struct sp3_rbe`): its weight and the
identity of the node it belongs to. -/
structure sp3_rbe where
  rbe_weight : Nat
  spn : Nat
  deriving DecidableEq, Repr

/-- The number of work queues, `SP3_QNUM_MAX`. -/
def SP3_QNUM_MAX : Nat := 6

/-- The queue number `SP3_QNUM_SPLIT`. -/
def SP3_QNUM_SPLIT : Nat := 4

/-- The scale of the run-time parameters, `EXT_SCALE`. -/
def EXT_SCALE : Nat := 100

/-- The internal scale, `SCALE`. -/
def SCALE : Nat := 10000

/-- The constant `ONE`, equal to `SCALE`. -/
def ONE : Nat := SCALE

/-- The state of the scheduler (`struct sp3`).  A priority index `rbt tx` is
the sequence of its elements in traversal order (`rb_first`, `rb_next`);
`spn_rlist` and `spn_alist` hold node identities. -/
structure sp3 where
  rp : kvdb_rparams := {}
  thresh : sp3_thresholds := {}
  qinfo : List sp3_qinfo := List.replicate SP3_QNUM_MAX {}
  rbt : sp3_work_type → List sp3_rbe := fun _ => []
  spn_rlist : List Nat := []
  spn_alist : List Nat := []
  idle : Bool := false
  jobs_max : Nat := 0
  inputs : sp3_inputs := {}
  samp_max : Nat := 0
  samp_hwm : Nat := 0
  samp_lwm : Nat := 0
  samp_reduce : Bool := false
  samp_curr : Nat := 0
  samp_targ : Nat := 0
  lpct_targ : Nat := 0
  samp : cn_samp_stats := {}
  samp_wip : cn_samp_stats := {}
  ucomp_prev_report_ns : Nat := 0
  ucomp_active : Bool := false
  ucomp_canceled : Bool := false
  jobs_started : Nat := 0
  jobs_finished : Nat := 0
  job_id : Nat := 0
  activity : Nat := 0
  rr_wtype : Nat := 0
  check_garbage_ns : Nat := 0
  check_scatter_ns : Nat := 0
  sp_ingest_count : Int := 0
  sp_prune_count : Int := 0
  sp_healthy : Bool := true
  sp_ingest_ns : Nat := 0
  sp_sval_min : Nat := 0
  throttle_sensor_root : Bool := false

/-! ## Priority indexes -/

/-- Membership of a node in a priority index (`!RB_EMPTY_NODE`). -/
def rb_member (root : List sp3_rbe) (spn : Nat) : Bool :=
  root.any (fun e => e.spn == spn)

/-- The weight with which a node is in a priority index, if it is a member. -/
def rb_weight (root : List sp3_rbe) (spn : Nat) : Option Nat :=
  (root.find? (fun e => e.spn == spn)).map (fun e => e.rbe_weight)

/-- The function `sp3_rb_erase`. -/
def sp3_rb_erase (root : List sp3_rbe) (spn : Nat) : List sp3_rbe :=
  root.filter (fun e => e.spn != spn)

/-- The comparison of `sp3_rb_insert`: the new element goes to the left of
`this` when its weight is greater, or equal with a greater node address. -/
def rbe_before (new this : sp3_rbe) : Bool :=
  decide (new.rbe_weight > this.rbe_weight) ||
    (decide (new.rbe_weight = this.rbe_weight) && decide (new.spn > this.spn))

/-- The function `sp3_rb_insert`: the descent through the tree places the new
element before the first element it compares to the left of. -/
def sp3_rb_insert (root : List sp3_rbe) (new : sp3_rbe) : List sp3_rbe :=
  match root with
  | [] => [new]
  | this :: rest =>
    if rbe_before new this then new :: this :: rest else this :: sp3_rb_insert rest new

/-- The function `sp3_node_insert`. -/
def sp3_node_insert (sp : sp3) (spn : Nat) (tx : sp3_work_type) (weight : Nat) : sp3 :=
  if rb_member (sp.rbt tx) spn && decide (rb_weight (sp.rbt tx) spn = some weight) then sp
  else
    let root := sp3_rb_insert (sp3_rb_erase (sp.rbt tx) spn) { rbe_weight := weight, spn := spn }
    { sp with rbt := Function.update sp.rbt tx root }

/-- The function `sp3_node_remove`. -/
def sp3_node_remove (sp : sp3) (spn : Nat) (tx : sp3_work_type) : sp3 :=
  { sp with rbt := Function.update sp.rbt tx (sp3_rb_erase (sp.rbt tx) spn) }

/-- The function `sp3_node_unlink`: erase the node from every priority index. -/
def sp3_node_unlink (sp : sp3) (spn : Nat) : sp3 :=
  { sp with rbt := fun tx => sp3_rb_erase (sp.rbt tx) spn }

/-- The call `list_del_init(&spn->spn_rlink)`. -/
def rlist_del (sp : sp3) (spn : Nat) : sp3 :=
  { sp with spn_rlist := sp.spn_rlist.filter (fun a => a != spn) }

/-- The statement `if (list_empty(&spn->spn_rlink)) list_add_tail(&spn->spn_rlink,
&sp->spn_rlist)`. -/
def rlist_add_tail (sp : sp3) (spn : Nat) : sp3 :=
  if sp.spn_rlist.contains spn then sp else { sp with spn_rlist := sp.spn_rlist ++ [spn] }

/-! ## The node classifier -/

/-- The classification of a leaf that has unclaimed kvsets, no active job and
no pending split or join, in `sp3_dirty_node_locked`. -/
def sp3_dirty_leaf (E : sp3_env) (sp : sp3) (tree : cn_tree) (idx : Nat) (tn : cn_tree_node)
    (nkvsets : Nat) : Except sp3_fault sp3 :=
  let ns := tn.tn_ns
  let spn := tn.addr
  if tn.tn_samp.l_alen < tn.tn_samp.l_good then Except.error sp3_fault.assert_samp_garbage
  else
    let garbage := E.samp_pct_garbage tn.tn_samp 100
    let scatter := E.cn_tree_node_scatter tn
    let sp1 :=
      if scatter > 0 then
        sp3_node_insert sp spn sp3_work_type.wtype_scatter (u64 (scatter <<< 32) ||| garbage)
      else sp3_node_remove sp spn sp3_work_type.wtype_scatter
    let sp2 :=
      if nkvsets ≥ sp.thresh.llen_runlen_min then
        let weight := u64 (nkvsets <<< 32) ||| usub32 UINT32_MAX scatter
        let sp1a :=
          if nkvsets > sp.thresh.llen_runlen_max * 2 then
            sp3_node_remove sp1 spn sp3_work_type.wtype_scatter
          else sp1
        sp3_node_insert sp1a spn sp3_work_type.wtype_length weight
      else sp3_node_remove sp1 spn sp3_work_type.wtype_length
    let tombish : Bool := decide (ns.ns_tombs * 100 > ns.ns_keys_uniq * 95) || decide (ns.ns_keys = 0)
    let garbage1 := if tombish then 100 else garbage
    let sp3a :=
      if tombish then
        sp3_node_insert (sp3_node_unlink sp2 spn) spn sp3_work_type.wtype_garbage
          (u64 (100 <<< 32) ||| (ns.ns_alen >>> 20))
      else if garbage > 0 then
        sp3_node_insert sp2 spn sp3_work_type.wtype_garbage
          (u64 (garbage <<< 32) ||| (ns.ns_alen >>> 20))
      else sp3_node_remove sp2 spn sp3_work_type.wtype_garbage
    let sp4 :=
      if sp3_work_splittable tn sp.thresh && decide (tree.ct_fanout < E.CN_FANOUT_MAX) then
        let a := if ns.ns_keys > 32 * 1048576 then
                   sp3_node_remove sp3a spn sp3_work_type.wtype_length else sp3a
        let b := if garbage1 < 100 then sp3_node_remove a spn sp3_work_type.wtype_garbage else a
        let c := sp3_node_remove b spn sp3_work_type.wtype_scatter
        sp3_node_insert c spn sp3_work_type.wtype_split ns.ns_keys
      else sp3_node_remove sp3a spn sp3_work_type.wtype_split
    let sp5 :=
      match joinable_left tree idx sp.thresh with
      | some (_, left) =>
        let weight := usub64 UINT64_MAX left.tn_ns.ns_kvsets
        let a := if left.tn_ns.ns_kvsets = 0 then sp3_node_unlink sp4 spn else sp4
        sp3_node_insert a spn sp3_work_type.wtype_join weight
      | none => sp3_node_remove sp4 spn sp3_work_type.wtype_join
    Except.ok sp5

/-- The classification of an empty leaf in `sp3_dirty_node_locked`: the right
neighbour becomes a join candidate when this leaf is its joinable left node. -/
def sp3_dirty_empty_leaf (sp : sp3) (tree : cn_tree) (idx : Nat) : sp3 :=
  match tree.ct_nodes[idx + 1]? with
  | none => sp
  | some right =>
    if sp3_work_joinable tree (idx + 1) sp.thresh = some idx then
      sp3_node_insert sp right.addr sp3_work_type.wtype_join
        (usub64 UINT64_MAX right.tn_ns.ns_kvsets)
    else sp

/-- The first part of `sp3_dirty_node_locked`, up to the comment about the
idle check: the root-ready list for a root, the leaf categories for a leaf.
`nkvsets` is the number of unclaimed kvsets, `jobs` the number of active jobs. -/
def sp3_dirty_categories (E : sp3_env) (sp : sp3) (tree : cn_tree) (idx : Nat)
    (tn : cn_tree_node) (nkvsets jobs : Nat) : Except sp3_fault sp3 :=
  let spn := tn.addr
  if cn_node_isroot idx then
    if nkvsets ≥ sp.thresh.rspill_runlen_min ∧ jobs < 3 then Except.ok (rlist_add_tail sp spn)
    else Except.ok (rlist_del sp spn)
  else if !tn.tn_route_node then Except.error sp3_fault.abort
  else if tn.tn_ss_splitting || decide (tn.tn_ss_joining ≠ 0) then
    Except.ok (sp3_node_remove
      (sp3_node_remove (sp3_node_remove sp spn sp3_work_type.wtype_length) spn
        sp3_work_type.wtype_scatter) spn sp3_work_type.wtype_garbage)
  else if nkvsets > 0 ∧ jobs < 1 then sp3_dirty_leaf E sp tree idx tn nkvsets
  else if tn.tn_ns.ns_kvsets = 0 then Except.ok (sp3_dirty_empty_leaf sp tree idx)
  else Except.ok sp

/-- The last part of `sp3_dirty_node_locked`: the idle index. -/
def sp3_dirty_idle (jclock_ns : Nat) (sp : sp3) (tn : cn_tree_node) (nkvsets jobs : Nat) : sp3 :=
  if nkvsets ≥ sp.thresh.llen_idlec ∧ sp.thresh.llen_idlem > 0 ∧ jobs < 1 then
    let ttl := if tn.tn_ns.ns_ptombs ≠ 0 then 60 / 4 else sp.thresh.llen_idlem * 60 / 4
    let weight := usub64 (usub64 UINT32_MAX (jclock_ns >>> 32)) ttl
    sp3_node_insert sp tn.addr sp3_work_type.wtype_idle (u64 (weight <<< 32) ||| nkvsets)
  else sp3_node_remove sp tn.addr sp3_work_type.wtype_idle

/-- The function `sp3_dirty_node_locked` on the node at position `idx` of
`tree`; `jclock_ns` is the value of the clock. -/
def sp3_dirty_node_locked (E : sp3_env) (jclock_ns : Nat) (sp : sp3) (tree : cn_tree)
    (idx : Nat) : Except sp3_fault sp3 :=
  match tree.ct_nodes[idx]? with
  | none => Except.error sp3_fault.null_deref
  | some tn =>
    if !tn.spn_initialized then Except.ok sp
    else
      let busy := u32 tn.tn_busycnt
      let nkvsets := usub64 tn.tn_ns.ns_kvsets (busy % 65536)
      let jobs := busy / 65536
      match sp3_dirty_categories E sp tree idx tn nkvsets jobs with
      | Except.error e => Except.error e
      | Except.ok sp1 => Except.ok (sp3_dirty_idle jclock_ns sp1 tn nkvsets jobs)

/-! ## Settings refresh -/

/-- The function `sp3_refresh_samp`; the arithmetic is that of unsigned 64-bit
integers, and the results are stored into `uint` fields. -/
def sp3_refresh_samp (sp : sp3) : Except sp3_fault sp3 :=
  let samp_max_changed := decide (sp.inputs.csched_samp_max ≠ sp.rp.csched_samp_max)
  let lo_th_pct_changed := decide (sp.inputs.csched_lo_th_pct ≠ sp.rp.csched_lo_th_pct)
  let hi_th_pct_changed := decide (sp.inputs.csched_hi_th_pct ≠ sp.rp.csched_hi_th_pct)
  let leaf_pct_changed := decide (sp.inputs.csched_leaf_pct ≠ sp.rp.csched_leaf_pct)
  if !samp_max_changed && !lo_th_pct_changed && !hi_th_pct_changed && !leaf_pct_changed then
    Except.ok sp
  else
    let inputs : sp3_inputs :=
      { csched_samp_max :=
          if samp_max_changed then clamp_t u64 sp.rp.csched_samp_max 100 999
          else sp.inputs.csched_samp_max,
        csched_lo_th_pct :=
          if lo_th_pct_changed then clamp_t u64 sp.rp.csched_lo_th_pct 5 95
          else sp.inputs.csched_lo_th_pct,
        csched_hi_th_pct :=
          if hi_th_pct_changed then clamp_t u64 sp.rp.csched_hi_th_pct 5 95
          else sp.inputs.csched_hi_th_pct,
        csched_leaf_pct :=
          if leaf_pct_changed then clamp_t u64 sp.rp.csched_leaf_pct 1 99
          else sp.inputs.csched_leaf_pct }
    let samp := u64 (inputs.csched_samp_max * SCALE) / EXT_SCALE
    let lwm := u64 (inputs.csched_lo_th_pct * SCALE) / EXT_SCALE
    let hwm := u64 (inputs.csched_hi_th_pct * SCALE) / EXT_SCALE
    let leaf := u64 (inputs.csched_leaf_pct * SCALE) / EXT_SCALE
    let r := usub64 ONE leaf
    let good_max := ONE
    if samp = 0 then Except.error sp3_fault.div_by_zero
    else
      let good_min := u64 (SCALE * u64 (ONE + r)) / samp
      let range := usub64 good_max good_min
      let good_lwm := u64 (good_min + u64 (usub64 ONE lwm * range) / SCALE)
      let good_hwm := u64 (good_min + u64 (usub64 ONE hwm * range) / SCALE)
      if good_lwm = 0 ∨ good_hwm = 0 then Except.error sp3_fault.div_by_zero
      else
        let samp_lwm := u64 (SCALE * u64 (ONE + r)) / good_lwm
        let samp_hwm := u64 (SCALE * u64 (ONE + r)) / good_hwm
        Except.ok { sp with inputs := inputs, samp_lwm := u32 samp_lwm, samp_hwm := u32 samp_hwm,
                            samp_max := u32 samp }

/-- The function `qthreads`. -/
def qthreads (sp : sp3) (qnum : Nat) : Nat :=
  (sp.rp.csched_qthreads >>> (qnum * 8)) % 256

/-- The function `sp3_refresh_worker_counts`. -/
def sp3_refresh_worker_counts (sp : sp3) : sp3 :=
  let qinfo := (List.range SP3_QNUM_MAX).map
    (fun i => { (sp.qinfo.getD i {}) with qjobs_max := qthreads sp i })
  { sp with qinfo := qinfo, jobs_max := u32 ((qinfo.map (fun q => q.qjobs_max)).sum) }

/-- The node with identity `addr` among the nodes of a list of trees: its tree
and its position (`spn2tn`). -/
def find_node (trees : List cn_tree) (addr : Nat) : Option (cn_tree × Nat) :=
  trees.findSome? (fun t =>
    if t.ct_nodes.any (fun n => n.addr == addr) then
      some (t, t.ct_nodes.findIdx (fun n => n.addr == addr))
    else none)

/-- The function `sp3_dirty_node` on the node with identity `addr`. -/
def sp3_dirty_node (E : sp3_env) (jclock_ns : Nat) (trees : List cn_tree) (sp : sp3)
    (addr : Nat) : Except sp3_fault sp3 :=
  match find_node trees addr with
  | none => Except.error sp3_fault.null_deref
  | some (tree, idx) => sp3_dirty_node_locked E jclock_ns sp tree idx

/-- The loop of `sp3_refresh_thresholds` over the list of all nodes. -/
def sp3_dirty_all (E : sp3_env) (jclock_ns : Nat) (trees : List cn_tree) :
    List Nat → sp3 → Except sp3_fault sp3
  | [], sp => Except.ok sp
  | addr :: rest, sp =>
    match sp3_dirty_node E jclock_ns trees sp addr with
    | Except.error e => Except.error e
    | Except.ok sp1 => sp3_dirty_all E jclock_ns trees rest sp1

/-- The thresholds that `sp3_refresh_thresholds` computes from the run-time
parameters. -/
def sp3_new_thresholds (L : sp3_limits) (sp : sp3) : sp3_thresholds :=
  let v := sp.rp.csched_rspill_params
  let rspill_runlen_max0 := if v ≠ 0 then v % 256 else L.SP3_RSPILL_RUNLEN_MAX_DEFAULT
  let rspill_runlen_min0 := if v ≠ 0 then (v >>> 8) % 256 else L.SP3_RSPILL_RUNLEN_MIN_DEFAULT
  let rspill_wlen_max0 :=
    if v ≠ 0 then ((v >>> 16) % 65536) <<< 20 else L.SP3_RSPILL_WLEN_MAX_DEFAULT
  let rspill_runlen_max :=
    clamp_t u8 rspill_runlen_max0 L.SP3_RSPILL_RUNLEN_MIN L.SP3_RSPILL_RUNLEN_MAX
  let rspill_runlen_min := clamp_t u8 rspill_runlen_min0 L.SP3_RSPILL_RUNLEN_MIN rspill_runlen_max
  let rspill_wlen_max := clamp_t u64 rspill_wlen_max0 L.SP3_RSPILL_WLEN_MIN L.SP3_RSPILL_WLEN_MAX
  let c := sp.rp.csched_leaf_comp_params
  let lcomp_runlen_max0 := if c ≠ 0 then c % 256 else L.SP3_LCOMP_RUNLEN_MAX_DEFAULT
  let lcomp_join_pct0 := if c ≠ 0 then (c >>> 16) % 256 else L.SP3_LCOMP_JOIN_PCT_DEFAULT
  let lcomp_split_keys0 :=
    if c ≠ 0 then ((c >>> 24) % 256) <<< 22 else L.SP3_LCOMP_SPLIT_KEYS_DEFAULT
  let l := sp.rp.csched_leaf_len_params
  let llen_runlen_max0 := if l ≠ 0 then l % 256 else L.SP3_LLEN_RUNLEN_MAX_DEFAULT
  let llen_runlen_min0 := if l ≠ 0 then (l >>> 8) % 256 else L.SP3_LLEN_RUNLEN_MIN_DEFAULT
  let llen_runlen_max := clamp_t u8 llen_runlen_max0 L.SP3_LLEN_RUNLEN_MIN L.SP3_LLEN_RUNLEN_MAX
  { rspill_runlen_min := rspill_runlen_min,
    rspill_runlen_max := rspill_runlen_max,
    rspill_wlen_max := rspill_wlen_max,
    lcomp_runlen_max :=
      clamp_t u32 lcomp_runlen_max0 L.SP3_LCOMP_RUNLEN_MAX_MIN L.SP3_LCOMP_RUNLEN_MAX_MAX,
    lcomp_join_pct := clamp_t u32 lcomp_join_pct0 L.SP3_LCOMP_JOIN_PCT_MIN L.SP3_LCOMP_JOIN_PCT_MAX,
    lcomp_split_keys :=
      clamp_t u32 lcomp_split_keys0 L.SP3_LCOMP_SPLIT_KEYS_MIN L.SP3_LCOMP_SPLIT_KEYS_MAX,
    llen_runlen_min := clamp_t u8 llen_runlen_min0 L.SP3_LLEN_RUNLEN_MIN llen_runlen_max,
    llen_runlen_max := llen_runlen_max,
    llen_idlec := if l ≠ 0 then (l >>> 24) % 256 else L.SP3_LLEN_IDLEC_DEFAULT,
    llen_idlem := if l ≠ 0 then (l >>> 32) % 256 else L.SP3_LLEN_IDLEM_DEFAULT,
    lscat_hwm := sp.rp.csched_lscat_hwm,
    lscat_runlen_max := sp.rp.csched_lscat_runlen_max,
    split_cnt_max := qthreads sp SP3_QNUM_SPLIT }

/-- The function `sp3_refresh_thresholds`: when the thresholds changed, store
them and classify every node anew. -/
def sp3_refresh_thresholds (E : sp3_env) (jclock_ns : Nat) (trees : List cn_tree) (sp : sp3) :
    Except sp3_fault sp3 :=
  let thresh := sp3_new_thresholds E.limits sp
  if thresh = sp.thresh then Except.ok sp
  else sp3_dirty_all E jclock_ns trees sp.spn_alist { sp with thresh := thresh }

/-- The function `sp3_refresh_settings`. -/
def sp3_refresh_settings (E : sp3_env) (jclock_ns : Nat) (trees : List cn_tree) (sp : sp3) :
    Except sp3_fault sp3 :=
  match sp3_refresh_samp sp with
  | Except.error e => Except.error e
  | Except.ok sp1 => sp3_refresh_thresholds E jclock_ns trees (sp3_refresh_worker_counts sp1)

/-! ## Space amplification and user-initiated compaction -/

/-- The function `sp3_samp_target`: the space amplification expected once the
jobs in flight have finished.  The C code leaves `r_alen` and `r_wlen` of the
result unset; the estimators do not read them. -/
def sp3_samp_target (sp : sp3) : cn_samp_stats :=
  { i_alen := sp.samp.i_alen + sp.samp_wip.i_alen,
    l_alen := sp.samp.l_alen + sp.samp_wip.l_alen,
    l_good := sp.samp.l_good + sp.samp_wip.l_good }

/-- The function `sp3_ucomp_cancel`. -/
def sp3_ucomp_cancel (sp : sp3) : sp3 :=
  if !sp.ucomp_active then sp
  else { sp with ucomp_active := false, ucomp_canceled := true }

/-- The function `sp3_ucomp_start`. -/
def sp3_ucomp_start (sp : sp3) : sp3 :=
  { sp with ucomp_active := true, ucomp_canceled := false, samp_reduce := true }

/-- The function `sp3_ucomp_check`; `now` is the value of `get_time_ns()`. -/
def sp3_ucomp_check (now : Nat) (sp : sp3) : sp3 :=
  if sp.ucomp_active then
    let completed : Bool := sp.idle || decide (sp.samp_curr < sp.samp_lwm)
    let report : Bool := decide (now > sp.ucomp_prev_report_ns + 5 * NSEC_PER_SEC)
    let sp1 := if completed then { sp with ucomp_active := false, ucomp_canceled := false } else sp
    if completed || report then { sp1 with ucomp_prev_report_ns := now } else sp1
  else sp

/-- The function `sp3_update_samp`; `now` is the value of `get_time_ns()`. -/
def sp3_update_samp (E : sp3_env) (now : Nat) (sp : sp3) : sp3 :=
  let targ := sp3_samp_target sp
  let sp1 := { sp with samp_targ := E.samp_est targ SCALE,
                       lpct_targ := E.samp_pct_leaves targ SCALE,
                       samp_curr := E.samp_est sp.samp SCALE }
  let sp2 := sp3_ucomp_check now sp1
  if sp2.samp_reduce then
    if sp2.samp_targ < sp2.samp_lwm then { sp2 with samp_reduce := false } else sp2
  else
    if sp2.samp_targ > sp2.samp_hwm then { sp2 with samp_reduce := true } else sp2

/-- The function `sp3_compact_request` on a scheduler handle that is not null. -/
def sp3_compact_request (E : sp3_env) (sp : sp3) (flags : Nat) : sp3 :=
  if flags &&& E.HSE_KVDB_COMPACT_CANCEL ≠ 0 then sp3_ucomp_cancel sp
  else if flags &&& E.HSE_KVDB_COMPACT_SAMP_LWM ≠ 0 then sp3_ucomp_start sp
  else sp

/-- The operations of the scheduler that the hysteresis of `samp_reduce` is
about: a monitor tick, a user compaction request, and a settings refresh. -/
inductive sp3_op
  | update_samp (now : Nat)
  | compact_request (flags : Nat)
  | refresh_settings (jclock_ns : Nat)

/-- Run one operation on the scheduler state. -/
def sp3_op_run (E : sp3_env) (trees : List cn_tree) (sp : sp3) : sp3_op → Except sp3_fault sp3
  | sp3_op.update_samp now => Except.ok (sp3_update_samp E now sp)
  | sp3_op.compact_request flags => Except.ok (sp3_compact_request E sp flags)
  | sp3_op.refresh_settings jclock_ns => sp3_refresh_settings E jclock_ns trees sp

/-- The values of `samp_reduce` after each of a sequence of monitor ticks: before
the tick with clock `t.1` the global samp counters are set to `t.2` and no job
is in flight. -/
def samp_ticks (E : sp3_env) : sp3 → List (Nat × cn_samp_stats) → List Bool
  | _, [] => []
  | sp, t :: rest =>
    let sp1 := sp3_update_samp E t.1 { sp with samp := t.2, samp_wip := {} }
    sp1.samp_reduce :: samp_ticks E sp1 rest

/-- The scheduler state without its priority indexes and its root-ready
list: what the node classifier leaves as it is. -/
def sp3_core (sp : sp3) : sp3 :=
  { sp with rbt := fun _ => [], spn_rlist := [] }

/-- A plan that `sp3_work` can commit on a node: a run that is not empty has
an action, a spill is planned for a root only, and the plan is not a join. -/
def plan_ok (isroot : Bool) (q : wplan) : Prop :=
  (q.kvsets ≠ 0 → q.action ≠ cn_action.CN_ACTION_NONE) ∧
  (q.action = cn_action.CN_ACTION_SPILL → isroot = true) ∧
  q.action ≠ cn_action.CN_ACTION_JOIN

/-- Two states of a node with the same kvset list, busy count, token and
statistics: what the planners preserve of the node they plan for. -/
def node_keep (a b : cn_tree_node) : Prop :=
  a.tn_kvset_list = b.tn_kvset_list ∧ a.tn_busycnt = b.tn_busycnt ∧
  a.tn_compacting = b.tn_compacting ∧ a.tn_ns = b.tn_ns

/-- The busy counts of the nodes of a tree. -/
def tree_busy (t : cn_tree) : List Nat :=
  t.ct_nodes.map cn_tree_node.tn_busycnt

/-- An example leaf that holds `n` unclaimed kvsets of prefix tombstones. -/
def ptomb_leaf (n : Nat) : cn_tree_node :=
  { addr := 2, tn_kvset_list := List.replicate n {}, tn_ns := { ns_kvsets := n },
    tn_route_node := true, spn_initialized := true }

/-- An example tree: an empty root and the leaf `ptomb_leaf n`. -/
def ptomb_tree (n : Nat) : cn_tree :=
  { ct_nodes := [{ addr := 1, spn_initialized := true }, ptomb_leaf n], ct_fanout := 1 }

/-- The bound on the active jobs of the nodes of a tree: at most 3 on the
root, at most 1 on a leaf. -/
def jobs_bounded (t : cn_tree) : Prop :=
  ∀ (j : Nat) (n : cn_tree_node), t.ct_nodes[j]? = some n →
    n.tn_busycnt / 2 ^ 16 ≤ (if cn_node_isroot j then 3 else 1)

/-- A function from the priority indexes to the scheduler state that acts on
the indexes by assignment: the result differs from `sp0` in the indexes only,
and for each index and node the weight of the node in the index is either set
to a value that does not depend on the indexes before (`none` when the node is
taken out) or left as it was. -/
def rb_setter (sp0 : sp3) (f : (sp3_work_type → List sp3_rbe) → sp3) : Prop :=
  ∃ g : sp3_work_type → Nat → Option (Option Nat), ∀ r, ∃ r1,
    f r = { sp0 with rbt := r1 } ∧
    ∀ tx a, rb_weight (r1 tx) a = (g tx a).getD (rb_weight (r tx) a)

/-- The scatter step of `sp3_dirty_leaf` (comment "Leaf nodes sorted by vgroup
scatter and garbage"), as a function of the scheduler state. -/
def leaf_scatter (E : sp3_env) (tn : cn_tree_node) (sp : sp3) : sp3 :=
  if E.cn_tree_node_scatter tn > 0 then
    sp3_node_insert sp tn.addr sp3_work_type.wtype_scatter
      (u64 (E.cn_tree_node_scatter tn <<< 32) ||| E.samp_pct_garbage tn.tn_samp 100)
  else sp3_node_remove sp tn.addr sp3_work_type.wtype_scatter

/-- The length step of `sp3_dirty_leaf` (comment "Leaf nodes sorted by number of
kvsets"); `T` holds the thresholds of the scheduler. -/
def leaf_length (E : sp3_env) (T : sp3_thresholds) (tn : cn_tree_node) (nkvsets : Nat)
    (sp1 : sp3) : sp3 :=
  if nkvsets ≥ T.llen_runlen_min then
    sp3_node_insert
      (if nkvsets > T.llen_runlen_max * 2 then
         sp3_node_remove sp1 tn.addr sp3_work_type.wtype_scatter
       else sp1)
      tn.addr sp3_work_type.wtype_length
      (u64 (nkvsets <<< 32) ||| usub32 UINT32_MAX (E.cn_tree_node_scatter tn))
  else sp3_node_remove sp1 tn.addr sp3_work_type.wtype_length

/-- The test of the garbage step of `sp3_dirty_leaf`: the preponderance of keys
are tombstones, or the node holds no keys. -/
def leaf_tombish (tn : cn_tree_node) : Bool :=
  decide (tn.tn_ns.ns_tombs * 100 > tn.tn_ns.ns_keys_uniq * 95) || decide (tn.tn_ns.ns_keys = 0)

/-- The garbage step of `sp3_dirty_leaf` (comment "Leaf nodes sorted by pct
garbage"). -/
def leaf_garbage (E : sp3_env) (tn : cn_tree_node) (sp2 : sp3) : sp3 :=
  if leaf_tombish tn then
    sp3_node_insert (sp3_node_unlink sp2 tn.addr) tn.addr sp3_work_type.wtype_garbage
      (u64 (100 <<< 32) ||| (tn.tn_ns.ns_alen >>> 20))
  else if E.samp_pct_garbage tn.tn_samp 100 > 0 then
    sp3_node_insert sp2 tn.addr sp3_work_type.wtype_garbage
      (u64 (E.samp_pct_garbage tn.tn_samp 100 <<< 32) ||| (tn.tn_ns.ns_alen >>> 20))
  else sp3_node_remove sp2 tn.addr sp3_work_type.wtype_garbage

/-- The split step of `sp3_dirty_leaf` (comment "Schedule a split if this node
is splittable and there is room in the tree for more nodes"). -/
def leaf_split (E : sp3_env) (T : sp3_thresholds) (tree : cn_tree) (tn : cn_tree_node)
    (sp3a : sp3) : sp3 :=
  if sp3_work_splittable tn T && decide (tree.ct_fanout < E.CN_FANOUT_MAX) then
    sp3_node_insert
      (sp3_node_remove
        (if (if leaf_tombish tn then 100 else E.samp_pct_garbage tn.tn_samp 100) < 100 then
           sp3_node_remove
             (if tn.tn_ns.ns_keys > 32 * 1048576 then
                sp3_node_remove sp3a tn.addr sp3_work_type.wtype_length
              else sp3a)
             tn.addr sp3_work_type.wtype_garbage
         else
           (if tn.tn_ns.ns_keys > 32 * 1048576 then
              sp3_node_remove sp3a tn.addr sp3_work_type.wtype_length
            else sp3a))
        tn.addr sp3_work_type.wtype_scatter)
      tn.addr sp3_work_type.wtype_split tn.tn_ns.ns_keys
  else sp3_node_remove sp3a tn.addr sp3_work_type.wtype_split

/-- The join step of `sp3_dirty_leaf` (comment "Schedule a join if this node
and it's left neighbor are joinable"). -/
def leaf_join (T : sp3_thresholds) (tree : cn_tree) (idx : Nat) (tn : cn_tree_node)
    (sp4 : sp3) : sp3 :=
  match joinable_left tree idx T with
  | some (_, left) =>
    sp3_node_insert
      (if left.tn_ns.ns_kvsets = 0 then sp3_node_unlink sp4 tn.addr else sp4)
      tn.addr sp3_work_type.wtype_join (usub64 UINT64_MAX left.tn_ns.ns_kvsets)
  | none => sp3_node_remove sp4 tn.addr sp3_work_type.wtype_join

/-- A function on the scheduler state that acts on the indexes by assignment. -/
def st_setter (F : sp3 → sp3) : Prop :=
  ∀ (sp0 : sp3) (f : (sp3_work_type → List sp3_rbe) → sp3),
    rb_setter sp0 f → rb_setter sp0 (fun r => F (f r))

/-! ## Dispatch from a priority index -/

/-- The function `qfull`; a queue number without a queue is taken as full. -/
def qfull (sp : sp3) (qnum : Nat) : Bool :=
  match sp.qinfo[qnum]? with
  | some qi => decide (qi.qjobs ≥ qi.qjobs_max)
  | none => true

/-- The node with identity `addr` among the nodes of a list of trees: the
position of its tree, its tree, and its position in the tree (`spn2tn` and
`tn->tn_tree`). -/
def find_tree (trees : List cn_tree) (addr : Nat) : Option (Nat × cn_tree × Nat) :=
  let ti := trees.findIdx (fun t => t.ct_nodes.any (fun n => n.addr == addr))
  match trees[ti]? with
  | some t => some (ti, t, t.ct_nodes.findIdx (fun n => n.addr == addr))
  | none => none

/-- The function `sp3_submit` for a work item on a node of the tree at position
`ti`: the estimate of the work item is added to `samp_wip`, the job counts of
the tree and of the queue are incremented.  `debug` is the value of
`csched_rp_dbg_comp(sp->rp)`. -/
def sp3_submit (sp : sp3) (trees : List cn_tree) (ti : Nat) (w : cn_compaction_work)
    (qnum debug : Nat) : Except sp3_fault (sp3 × List cn_tree × cn_compaction_work) :=
  if ¬ qnum < SP3_QNUM_MAX then Except.error sp3_fault.assert_qnum
  else
    let w1 := { w with cw_debug := debug, cw_qnum := qnum }
    let wip : cn_samp_stats :=
      { sp.samp_wip with i_alen := sp.samp_wip.i_alen + w.cw_est.cwe_samp.i_alen,
                         l_alen := sp.samp_wip.l_alen + w.cw_est.cwe_samp.l_alen,
                         l_good := sp.samp_wip.l_good + w.cw_est.cwe_samp.l_good }
    let trees1 :=
      match trees[ti]? with
      | some t => trees.set ti { t with spt_job_cnt := t.spt_job_cnt + 1 }
      | none => trees
    if qfull sp qnum then Except.error sp3_fault.assert_qfull
    else
      match sp.qinfo[qnum]? with
      | none => Except.error sp3_fault.assert_qfull
      | some qi =>
        Except.ok
          ({ sp with samp_wip := wip,
                     qinfo := sp.qinfo.set qnum { qi with qjobs := qi.qjobs + 1 },
                     jobs_started := sp.jobs_started + 1,
                     job_id := sp.job_id + 1,
                     activity := sp.activity + 1 }, trees1, w1)

/-- The loop of `sp3_check_rb_tree` over the elements of the index in traversal
order (`rb_first`, `rb_next`): an element below the threshold ends the loop;
otherwise `sp3_work` plans the node; a work item is submitted and ends the
loop with the node selected; without a work item the node stays in the index
when `cw_resched` is set and is removed from it otherwise.  The result holds
the scheduler state, the trees, the work struct `sp->wp` and the selected
node. -/
def sp3_check_rb_loop (E : sp3_env) (jclock_ns now : Nat) (wtype : sp3_work_type)
    (threshold qnum debug : Nat) :
    List sp3_rbe → sp3 → List cn_tree → cn_compaction_work →
      Except sp3_fault (sp3 × List cn_tree × cn_compaction_work × Option Nat)
  | [], sp, trees, wp => Except.ok (sp, trees, wp, none)
  | rbe :: rest, sp, trees, wp =>
    if rbe.rbe_weight < threshold then Except.ok (sp, trees, wp, none)
    else
      match find_tree trees rbe.spn with
      | none => Except.error sp3_fault.null_deref
      | some (ti, tree, idx) =>
        match sp3_work E jclock_ns now tree idx wtype sp.thresh debug wp with
        | Except.error e => Except.error e
        | Except.ok (tree1, w1) =>
          let trees1 := trees.set ti tree1
          if w1.cw_action ≠ cn_action.CN_ACTION_NONE then
            match sp3_submit (sp3_node_remove sp rbe.spn wtype) trees1 ti w1 qnum debug with
            | Except.error e => Except.error e
            | Except.ok (sp2, trees2, _) => Except.ok (sp2, trees2, {}, some rbe.spn)
          else if w1.cw_resched then
            sp3_check_rb_loop E jclock_ns now wtype threshold qnum debug rest sp trees1 w1
          else
            sp3_check_rb_loop E jclock_ns now wtype threshold qnum debug rest
              (sp3_node_remove sp rbe.spn wtype) trees1 w1

/-- The function `sp3_check_rb_tree`: the fourth component of the result is the
node for which a job was submitted, if the function returns true. -/
def sp3_check_rb_tree (E : sp3_env) (jclock_ns now : Nat) (sp : sp3) (trees : List cn_tree)
    (wp : cn_compaction_work) (wtype : sp3_work_type) (threshold qnum debug : Nat) :
    Except sp3_fault (sp3 × List cn_tree × cn_compaction_work × Option Nat) :=
  sp3_check_rb_loop E jclock_ns now wtype threshold qnum debug (sp.rbt wtype) sp trees wp

/-- A call of `sp3_node_insert` or of `sp3_node_remove`. -/
inductive rb_call
  | insert (spn : Nat) (tx : sp3_work_type) (weight : Nat)
  | remove (spn : Nat) (tx : sp3_work_type)

/-- Run one call on the scheduler state. -/
def rb_call_run (sp : sp3) : rb_call → sp3
  | rb_call.insert spn tx weight => sp3_node_insert sp spn tx weight
  | rb_call.remove spn tx => sp3_node_remove sp spn tx

/-- The traversal order of an index: every element comes before the elements
that follow it, in the sense of the comparison of `sp3_rb_insert` (greater
weight first, and among equal weights the greater node address first). -/
def rb_ordered (root : List sp3_rbe) : Prop :=
  root.Pairwise (fun a b => rbe_before a b = true)

/-- The traversal of an index visits no node twice. -/
def rb_nodup (root : List sp3_rbe) : Prop :=
  (root.map sp3_rbe.spn).Nodup

/-! ## The dispatcher -/

/-- The queue number `SP3_QNUM_ROOT`. -/
def SP3_QNUM_ROOT : Nat := 0

/-- The queue number `SP3_QNUM_LENGTH`. -/
def SP3_QNUM_LENGTH : Nat := 1

/-- The queue number `SP3_QNUM_GARBAGE`. -/
def SP3_QNUM_GARBAGE : Nat := 2

/-- The queue number `SP3_QNUM_SCATTER`. -/
def SP3_QNUM_SCATTER : Nat := 3

/-- The queue number `SP3_QNUM_SHARED`. -/
def SP3_QNUM_SHARED : Nat := 5

/-- The function `qempty`; a queue number outside the array has no entry to
read. -/
def qempty (sp : sp3) (qnum : Nat) : Bool :=
  match sp.qinfo[qnum]? with
  | some qi => decide (qi.qjobs = 0)
  | none => false

/-- The loop of `sp3_check_roots` over the root-ready list: `sp3_work` plans a
root spill for the node; a work item moves the node to the end of the list
unless it is the last already, is submitted, and ends the loop; without a work
item the node stays on the list when `cw_resched` is set and is taken off it
otherwise.  The fourth component of the result is the node for which a job was
submitted, if the function returns true. -/
def sp3_check_roots_loop (E : sp3_env) (jclock_ns now : Nat) (qnum debug : Nat) :
    List Nat → sp3 → List cn_tree → cn_compaction_work →
      Except sp3_fault (sp3 × List cn_tree × cn_compaction_work × Option Nat)
  | [], sp, trees, wp => Except.ok (sp, trees, wp, none)
  | spn :: rest, sp, trees, wp =>
    match find_tree trees spn with
    | none => Except.error sp3_fault.null_deref
    | some (ti, tree, idx) =>
      match sp3_work E jclock_ns now tree idx sp3_work_type.wtype_root sp.thresh debug wp with
      | Except.error e => Except.error e
      | Except.ok (tree1, w1) =>
        let trees1 := trees.set ti tree1
        if w1.cw_action ≠ cn_action.CN_ACTION_NONE then
          let sp1 :=
            if sp.spn_rlist.getLast? ≠ some spn then
              { sp with spn_rlist := sp.spn_rlist.filter (fun a => a != spn) ++ [spn] }
            else sp
          match sp3_submit sp1 trees1 ti w1 qnum debug with
          | Except.error e => Except.error e
          | Except.ok (sp2, trees2, _) => Except.ok (sp2, trees2, {}, some spn)
        else if w1.cw_resched then
          sp3_check_roots_loop E jclock_ns now qnum debug rest sp trees1 w1
        else
          sp3_check_roots_loop E jclock_ns now qnum debug rest (rlist_del sp spn) trees1 w1

/-- The function `sp3_check_roots`; `debug` is the value of
`csched_rp_dbg_comp(sp->rp)`. -/
def sp3_check_roots (E : sp3_env) (jclock_ns now : Nat) (sp : sp3) (trees : List cn_tree)
    (wp : cn_compaction_work) (qnum debug : Nat) :
    Except sp3_fault (sp3 × List cn_tree × cn_compaction_work × Option Nat) :=
  sp3_check_roots_loop E jclock_ns now qnum debug sp.spn_rlist sp trees wp

/-- The garbage threshold of `sp3_schedule`. -/
def sp3_garbage_thresh (sp : sp3) : Nat :=
  let rp_leaf_pct := u32 (u32 sp.inputs.csched_leaf_pct * SCALE) / EXT_SCALE
  if sp.samp_reduce ∧ u32 (100 * sp.lpct_targ) > u32 (90 * rp_leaf_pct) then
    u64 ((if sp.lpct_targ < rp_leaf_pct then 10 else 0) <<< 32)
  else u64 (u64 sp.rp.csched_gc_pct <<< 32)

/-- The body of the switch of `sp3_schedule` for the work type `wt`; the
fourth component of the result is the node of the job, if one was submitted. -/
def sp3_schedule_case (E : sp3_env) (jclock_ns now debug : Nat) (sp : sp3)
    (trees : List cn_tree) (wp : cn_compaction_work) :
    sp3_work_type → Except sp3_fault (sp3 × List cn_tree × cn_compaction_work × Option Nat)
  | sp3_work_type.wtype_root =>
    if qfull sp SP3_QNUM_ROOT then Except.ok (sp, trees, wp, none)
    else sp3_check_roots E jclock_ns now sp trees wp SP3_QNUM_ROOT debug
  | sp3_work_type.wtype_length =>
    if qfull sp SP3_QNUM_LENGTH then Except.ok (sp, trees, wp, none)
    else sp3_check_rb_tree E jclock_ns now sp trees wp sp3_work_type.wtype_length 0
      SP3_QNUM_LENGTH debug
  | sp3_work_type.wtype_idle =>
    if qfull sp SP3_QNUM_SHARED then Except.ok (sp, trees, wp, none)
    else
      let thresh := u64 (usub64 UINT32_MAX (jclock_ns >>> 32) <<< 32)
      sp3_check_rb_tree E jclock_ns now sp trees wp sp3_work_type.wtype_idle thresh
        SP3_QNUM_SHARED debug
  | sp3_work_type.wtype_garbage =>
    if !qempty sp SP3_QNUM_GARBAGE && decide (jclock_ns < sp.check_garbage_ns) then
      Except.ok (sp, trees, wp, none)
    else if qfull sp SP3_QNUM_GARBAGE && qfull sp SP3_QNUM_SHARED then
      Except.ok (sp, trees, wp, none)
    else
      let qnum := if qfull sp SP3_QNUM_GARBAGE then SP3_QNUM_SHARED else SP3_QNUM_GARBAGE
      match sp3_check_rb_tree E jclock_ns now sp trees wp sp3_work_type.wtype_garbage
          (sp3_garbage_thresh sp) qnum debug with
      | Except.error e => Except.error e
      | Except.ok (sp1, trees1, wp1, some j) =>
        Except.ok ({ sp1 with check_garbage_ns := u64 (jclock_ns + NSEC_PER_SEC * 7) },
          trees1, wp1, some j)
      | Except.ok (sp1, trees1, wp1, none) => Except.ok (sp1, trees1, wp1, none)
  | sp3_work_type.wtype_scatter =>
    if !qempty sp SP3_QNUM_SCATTER && decide (jclock_ns < sp.check_scatter_ns) then
      Except.ok (sp, trees, wp, none)
    else if qfull sp SP3_QNUM_SCATTER && qfull sp SP3_QNUM_SHARED then
      Except.ok (sp, trees, wp, none)
    else
      let qnum := if qfull sp SP3_QNUM_SCATTER then SP3_QNUM_SHARED else SP3_QNUM_SCATTER
      match sp3_check_rb_tree E jclock_ns now sp trees wp sp3_work_type.wtype_scatter
          (u64 (u64 sp.thresh.lscat_hwm <<< 32)) qnum debug with
      | Except.error e => Except.error e
      | Except.ok (sp1, trees1, wp1, some j) =>
        Except.ok ({ sp1 with check_scatter_ns := u64 (jclock_ns + NSEC_PER_SEC * 3) },
          trees1, wp1, some j)
      | Except.ok (sp1, trees1, wp1, none) => Except.ok (sp1, trees1, wp1, none)
  | sp3_work_type.wtype_split =>
    if qfull sp SP3_QNUM_SPLIT then Except.ok (sp, trees, wp, none)
    else sp3_check_rb_tree E jclock_ns now sp trees wp sp3_work_type.wtype_split 0
      SP3_QNUM_SPLIT debug
  | sp3_work_type.wtype_join =>
    if qfull sp SP3_QNUM_SPLIT then Except.ok (sp, trees, wp, none)
    else sp3_check_rb_tree E jclock_ns now sp trees wp sp3_work_type.wtype_join 0
      SP3_QNUM_SPLIT debug

/-- The round-robin loop of `sp3_schedule`, with `n` iterations left: advance
`rr_wtype`, run the case of the work type, and stop at the first job. -/
def sp3_schedule_loop (E : sp3_env) (jclock_ns now debug : Nat) :
    Nat → sp3 → List cn_tree → cn_compaction_work →
      Except sp3_fault (sp3 × List cn_tree × cn_compaction_work × Option Nat)
  | 0, sp, trees, wp => Except.ok (sp, trees, wp, none)
  | n + 1, sp, trees, wp =>
    let sp1 := { sp with rr_wtype := u32 (sp.rr_wtype + 1) % E.wtype_MAX }
    match E.wtype_enum sp1.rr_wtype with
    | none => sp3_schedule_loop E jclock_ns now debug n sp1 trees wp
    | some wt =>
      match sp3_schedule_case E jclock_ns now debug sp1 trees wp wt with
      | Except.error e => Except.error e
      | Except.ok (sp2, trees2, wp2, some j) => Except.ok (sp2, trees2, wp2, some j)
      | Except.ok (sp2, trees2, wp2, none) =>
        sp3_schedule_loop E jclock_ns now debug n sp2 trees2 wp2

/-- The function `sp3_schedule`; the fourth component of the result is the node
of the job that the call submitted, if it submitted one. -/
def sp3_schedule (E : sp3_env) (jclock_ns now debug : Nat) (sp : sp3) (trees : List cn_tree)
    (wp : cn_compaction_work) :
    Except sp3_fault (sp3 × List cn_tree × cn_compaction_work × Option Nat) :=
  if usub32 sp.jobs_started sp.jobs_finished > u32 sp.jobs_max then
    Except.ok (sp, trees, wp, none)
  else sp3_schedule_loop E jclock_ns now debug E.wtype_MAX sp trees wp


/-- The faults that only `sp3_submit` raises. -/
def submit_fault : sp3_fault → Bool
  | sp3_fault.assert_qnum => true
  | sp3_fault.assert_qfull => true
  | _ => false

/-- The effect of a dispatch on the queue counters: without a job they are as
before; with a job the queue `qnum` had room, its `qjobs` grew by one and so did
`jobs_started`. -/
def one_job (sp sp1 : sp3) (qnum : Nat) (job : Option Nat) : Prop :=
  match job with
  | none => sp1.qinfo = sp.qinfo ∧ sp1.jobs_started = sp.jobs_started
  | some _ => ∃ qi, sp.qinfo[qnum]? = some qi ∧ qi.qjobs < qi.qjobs_max ∧
      sp1.qinfo = sp.qinfo.set qnum { qi with qjobs := qi.qjobs + 1 } ∧
      sp1.jobs_started = sp.jobs_started + 1

/-- The queues that the case of a work type in the switch of `sp3_schedule`
tries, in order. -/
def wtype_queues : sp3_work_type → List Nat
  | sp3_work_type.wtype_root => [SP3_QNUM_ROOT]
  | sp3_work_type.wtype_length => [SP3_QNUM_LENGTH]
  | sp3_work_type.wtype_idle => [SP3_QNUM_SHARED]
  | sp3_work_type.wtype_garbage => [SP3_QNUM_GARBAGE, SP3_QNUM_SHARED]
  | sp3_work_type.wtype_scatter => [SP3_QNUM_SCATTER, SP3_QNUM_SHARED]
  | sp3_work_type.wtype_split => [SP3_QNUM_SPLIT]
  | sp3_work_type.wtype_join => [SP3_QNUM_SPLIT]

/-! ## Completion of a job -/

/-- Modelled from the spec: the function `cn_samp_diff`, which is not part of
the sources; on every work completion the scheduler computes
`diff = stats_post − stats_pre`. -/
def cn_samp_diff (post pre : cn_samp_stats) : cn_samp_stats :=
  { r_alen := post.r_alen - pre.r_alen,
    r_wlen := post.r_wlen - pre.r_wlen,
    i_alen := post.i_alen - pre.i_alen,
    l_alen := post.l_alen - pre.l_alen,
    l_good := post.l_good - pre.l_good }

/-- The function `sp3_process_workitem` for a work item of the tree at position
`ti` (`w->cw_tree`); `now` is the value of `get_time_ns()`. -/
def sp3_process_workitem (now : Nat) (sp : sp3) (trees : List cn_tree) (ti : Nat)
    (w : cn_compaction_work) : Except sp3_fault (sp3 × List cn_tree) :=
  match trees[ti]? with
  | none => Except.error sp3_fault.null_deref
  | some t =>
    if ¬ t.spt_job_cnt > 0 then Except.error sp3_fault.assert_job_cnt
    else if ¬ w.cw_qnum < SP3_QNUM_MAX then Except.error sp3_fault.assert_cw_qnum
    else
      match sp.qinfo[w.cw_qnum]? with
      | none => Except.error sp3_fault.null_deref
      | some qi =>
        if ¬ qi.qjobs > 0 then Except.error sp3_fault.assert_qjobs
        else if ¬ u32 sp.jobs_started > u32 sp.jobs_finished then
          Except.error sp3_fault.assert_jobs
        else
          let diff := cn_samp_diff w.cw_samp_post w.cw_samp_pre
          let sp1 : sp3 :=
            { sp with
              qinfo := sp.qinfo.set w.cw_qnum { qi with qjobs := qi.qjobs - 1 },
              jobs_finished := sp.jobs_finished + 1,
              samp := { r_alen := sp.samp.r_alen + diff.r_alen,
                        r_wlen := sp.samp.r_wlen + diff.r_wlen,
                        i_alen := sp.samp.i_alen + diff.i_alen,
                        l_alen := sp.samp.l_alen + diff.l_alen,
                        l_good := sp.samp.l_good + diff.l_good },
              samp_wip := { sp.samp_wip with
                            i_alen := sp.samp_wip.i_alen - w.cw_est.cwe_samp.i_alen,
                            l_alen := sp.samp_wip.l_alen - w.cw_est.cwe_samp.l_alen,
                            l_good := sp.samp_wip.l_good - w.cw_est.cwe_samp.l_good } }
          let t1 := { t with spt_job_cnt := t.spt_job_cnt - 1 }
          if w.cw_action = cn_action.CN_ACTION_SPILL then
            if w.cw_kvset_cnt = 0 then Except.error sp3_fault.div_by_zero
            else
              let dt := usub64 now w.cw_t0_enqueue / w.cw_kvset_cnt
              let dt1 := if t.ct_rspill_dt = 0 then u64 (dt * 2) else dt
              Except.ok (sp1, trees.set ti { t1 with ct_rspill_dt := u64 (t.ct_rspill_dt + dt1) / 2 })
          else Except.ok (sp1, trees.set ti t1)

/-- An event in the life of the jobs: the submission of a work item for the
tree at position `ti`, or the completion of the job at position `k` among the
jobs in flight, whose worker recorded the statistics `pre` and `post`. -/
inductive job_event
  | submit (ti : Nat) (w : cn_compaction_work) (qnum : Nat)
  | complete (k now : Nat) (pre post : cn_samp_stats)

/-- The scheduler, the trees, and the jobs in flight: the work items that were
submitted and whose completion was not processed yet, each with the position of
its tree. -/
structure job_state where
  sp : sp3
  trees : List cn_tree
  inflight : List (Nat × cn_compaction_work)

/-- Run one event: `sp3_submit` puts the work item in flight, and
`sp3_process_workitem` takes the completed one out of flight. -/
def job_step (debug : Nat) (st : job_state) : job_event → Except sp3_fault job_state
  | job_event.submit ti w qnum =>
    match sp3_submit st.sp st.trees ti w qnum debug with
    | Except.error e => Except.error e
    | Except.ok (sp1, trees1, w1) =>
      Except.ok { sp := sp1, trees := trees1, inflight := st.inflight ++ [(ti, w1)] }
  | job_event.complete k now pre post =>
    match st.inflight[k]? with
    | none => Except.ok st
    | some (ti, w) =>
      match sp3_process_workitem now st.sp st.trees ti
          { w with cw_samp_pre := pre, cw_samp_post := post } with
      | Except.error e => Except.error e
      | Except.ok (sp1, trees1) =>
        Except.ok { sp := sp1, trees := trees1, inflight := st.inflight.eraseIdx k }

/-- Run a sequence of events. -/
def job_run (debug : Nat) : job_state → List job_event → Except sp3_fault job_state
  | st, [] => Except.ok st
  | st, ev :: rest =>
    match job_step debug st ev with
    | Except.error e => Except.error e
    | Except.ok st1 => job_run debug st1 rest

/-- The sum of the estimated samp deltas (`cw_est.cwe_samp`) of the jobs in
flight; `sp3_work_estimate` sets the components `i_alen`, `l_alen`, `l_good`. -/
def inflight_est (fl : List (Nat × cn_compaction_work)) : cn_samp_stats :=
  { i_alen := (fl.map (fun x => x.2.cw_est.cwe_samp.i_alen)).sum,
    l_alen := (fl.map (fun x => x.2.cw_est.cwe_samp.l_alen)).sum,
    l_good := (fl.map (fun x => x.2.cw_est.cwe_samp.l_good)).sum }

/-- Two scheduler states that differ in the priority indexes and in the
root-ready list at most. -/
def framed (s s1 : sp3) : Prop :=
  s1 = { s with rbt := s1.rbt, spn_rlist := s1.spn_rlist }

/-! ## Ingest notifications -/

/-- The function `sp3_notify_ingest` on a scheduler handle that is not null,
for the tree at position `ti`; `alen` and `wlen` are of type `size_t`. -/
def sp3_notify_ingest (jclock_ns : Nat) (sp : sp3) (trees : List cn_tree) (ti : Nat)
    (alen wlen : Nat) : Except sp3_fault (sp3 × List cn_tree) :=
  match trees[ti]? with
  | none => Except.error sp3_fault.null_deref
  | some t =>
    if u64 (u64 alen + u64 wlen) = 0 then Except.error sp3_fault.abort
    else
      Except.ok ({ sp with sp_ingest_count := sp.sp_ingest_count + 1, sp_ingest_ns := jclock_ns },
        trees.set ti { t with spt_ingest_alen := t.spt_ingest_alen + (u64 alen : Int),
                              spt_ingest_wlen := t.spt_ingest_wlen + (u64 wlen : Int) })

/-- The loop of `sp3_process_ingest` over the monitored trees; the result holds
the trees as the loop leaves them. -/
def sp3_process_ingest_loop (E : sp3_env) (jclock_ns : Nat) :
    List cn_tree → sp3 → Except sp3_fault (sp3 × List cn_tree)
  | [], sp => Except.ok (sp, [])
  | tree :: rest, sp =>
    if sp.sp_ingest_count = 0 then Except.ok (sp, tree :: rest)
    else
      let alen := tree.spt_ingest_alen
      let wlen := tree.spt_ingest_wlen
      if alen ≠ 0 then
        let tree1 := { tree with spt_ingest_alen := tree.spt_ingest_alen - alen,
                                 spt_ingest_wlen := tree.spt_ingest_wlen - wlen }
        let sp1 := { sp with sp_ingest_count := sp.sp_ingest_count - 1,
                             samp := { sp.samp with i_alen := sp.samp.i_alen + alen,
                                                    r_alen := sp.samp.r_alen + alen,
                                                    r_wlen := sp.samp.r_wlen + wlen } }
        match sp3_dirty_node_locked E jclock_ns sp1 tree1 0 with
        | Except.error e => Except.error e
        | Except.ok sp2 =>
          match sp3_process_ingest_loop E jclock_ns rest
              { sp2 with activity := sp2.activity + 1 } with
          | Except.error e => Except.error e
          | Except.ok (sp3, rest1) => Except.ok (sp3, tree1 :: rest1)
      else
        match sp3_process_ingest_loop E jclock_ns rest sp with
        | Except.error e => Except.error e
        | Except.ok (sp3, rest1) => Except.ok (sp3, tree :: rest1)

/-- The function `sp3_process_ingest`; `trees` is the list of monitored trees. -/
def sp3_process_ingest (E : sp3_env) (jclock_ns : Nat) (sp : sp3) (trees : List cn_tree) :
    Except sp3_fault (sp3 × List cn_tree) :=
  sp3_process_ingest_loop E jclock_ns trees sp

/-- A tree after `sp3_process_ingest` took its pending ingest totals: both are
zero if `spt_ingest_alen` was not zero, and the tree is as before otherwise. -/
def ingest_taken (t : cn_tree) : cn_tree :=
  if t.spt_ingest_alen ≠ 0 then { t with spt_ingest_alen := 0, spt_ingest_wlen := 0 } else t

/-! ## Installing and pruning trees -/

/-- The function `sp3_node_unlink_all` on the node with identity `spn`;
`initialized` is the value of `spn->spn_initialized`. -/
def sp3_node_unlink_all (sp : sp3) (spn : Nat) (initialized : Bool) : Except sp3_fault sp3 :=
  if !initialized then Except.error sp3_fault.assert_initialized
  else
    let sp1 := rlist_del (sp3_node_unlink sp spn) spn
    Except.ok { sp1 with spn_alist := sp1.spn_alist.filter (fun a => a != spn) }

/-- The function `sp3_node_init` on a node that is on no list of the scheduler:
the node counts as initialized and goes to the tail of the list of all nodes. -/
def sp3_node_init (sp : sp3) (tn : cn_tree_node) : sp3 × cn_tree_node :=
  ({ sp with spn_alist := sp.spn_alist ++ [tn.addr] }, { tn with spn_initialized := true })

/-- The loop of `sp3_process_new_trees` over the nodes of a new tree, from the
node at position `idx` on; `n` is the number of nodes left. -/
def new_tree_nodes (E : sp3_env) (jclock_ns : Nat) :
    Nat → Nat → sp3 → cn_tree → Except sp3_fault (sp3 × cn_tree)
  | 0, _, sp, tree => Except.ok (sp, tree)
  | n + 1, idx, sp, tree =>
    match tree.ct_nodes[idx]? with
    | none => Except.error sp3_fault.null_deref
    | some tn =>
      let r := sp3_node_init sp tn
      let tree1 := { tree with ct_nodes := tree.ct_nodes.set idx r.2 }
      match sp3_dirty_node_locked E jclock_ns r.1 tree1 idx with
      | Except.error e => Except.error e
      | Except.ok sp1 => new_tree_nodes E jclock_ns n (idx + 1) sp1 tree1

/-- The sum of two samp records, component by component. -/
def samp_add (a b : cn_samp_stats) : cn_samp_stats :=
  { r_alen := a.r_alen + b.r_alen,
    r_wlen := a.r_wlen + b.r_wlen,
    i_alen := a.i_alen + b.i_alen,
    l_alen := a.l_alen + b.l_alen,
    l_good := a.l_good + b.l_good }

/-- The loop of `sp3_process_new_trees` over the new trees, which it moves to
the head of the list of monitored trees `mon`. -/
def new_trees_loop (E : sp3_env) (jclock_ns : Nat) :
    List cn_tree → sp3 → List cn_tree → Except sp3_fault (sp3 × List cn_tree)
  | [], sp, mon => Except.ok (sp, mon)
  | tree :: rest, sp, mon =>
    match new_tree_nodes E jclock_ns tree.ct_nodes.length 0 sp tree with
    | Except.error e => Except.error e
    | Except.ok (sp1, tree1) =>
      let sp2 := { sp1 with samp := samp_add sp1.samp tree1.ct_samp,
                            activity := sp1.activity + 1 }
      new_trees_loop E jclock_ns rest sp2 (tree1 :: mon)

/-- The function `sp3_process_new_trees`: `new_tlist` is the list of new trees,
which the call empties, and `mon_tlist` the list of monitored trees; the result
holds the list of monitored trees after the call. -/
def sp3_process_new_trees (E : sp3_env) (jclock_ns : Nat) (sp : sp3)
    (new_tlist mon_tlist : List cn_tree) : Except sp3_fault (sp3 × List cn_tree) :=
  new_trees_loop E jclock_ns new_tlist sp mon_tlist

/-- The loop of `sp3_prune_trees` over the nodes of a disabled tree: a node with
a pending split or join makes the tree busy and stays linked, every other node
is unlinked. -/
def prune_nodes : List cn_tree_node → sp3 → Bool → Except sp3_fault (sp3 × Bool)
  | [], sp, busy => Except.ok (sp, busy)
  | tn :: rest, sp, busy =>
    if tn.tn_ss_splitting || decide (tn.tn_ss_joining ≠ 0) then prune_nodes rest sp true
    else
      match sp3_node_unlink_all sp tn.addr tn.spn_initialized with
      | Except.error e => Except.error e
      | Except.ok sp1 => prune_nodes rest sp1 busy

/-- The guarded subtractions of `sp3_prune_trees`: a component of the tree is
subtracted from the global samp only if the global component is not smaller. -/
def prune_samp (g t : cn_samp_stats) : cn_samp_stats :=
  { i_alen := if g.i_alen ≥ t.i_alen then g.i_alen - t.i_alen else g.i_alen,
    r_alen := if g.r_alen ≥ t.r_alen then g.r_alen - t.r_alen else g.r_alen,
    r_wlen := if g.r_wlen ≥ t.r_wlen then g.r_wlen - t.r_wlen else g.r_wlen,
    l_alen := if g.l_alen ≥ t.l_alen then g.l_alen - t.l_alen else g.l_alen,
    l_good := if g.l_good ≥ t.l_good then g.l_good - t.l_good else g.l_good }

/-- The loop of `sp3_prune_trees` over the monitored trees; the result holds
the trees that stay monitored. -/
def prune_loop : List cn_tree → sp3 → Except sp3_fault (sp3 × List cn_tree)
  | [], sp => Except.ok (sp, [])
  | tree :: rest, sp =>
    if tree.spt_enabled then
      match prune_loop rest sp with
      | Except.error e => Except.error e
      | Except.ok (sp1, rest1) => Except.ok (sp1, tree :: rest1)
    else
      match prune_nodes tree.ct_nodes sp (decide (tree.spt_job_cnt > 0)) with
      | Except.error e => Except.error e
      | Except.ok (sp1, busy) =>
        if busy then
          match prune_loop rest sp1 with
          | Except.error e => Except.error e
          | Except.ok (sp2, rest1) => Except.ok (sp2, tree :: rest1)
        else
          let sp2 := { sp1 with samp := prune_samp sp1.samp tree.ct_samp,
                                activity := sp1.activity + 1,
                                sp_prune_count := sp1.sp_prune_count - 1 }
          if sp2.sp_prune_count = 0 then Except.ok (sp2, rest)
          else prune_loop rest sp2

/-- The function `sp3_prune_trees`; `mon_tlist` is the list of monitored trees,
and the result holds the list after the call. -/
def sp3_prune_trees (sp : sp3) (mon_tlist : List cn_tree) :
    Except sp3_fault (sp3 × List cn_tree) :=
  if sp.sp_prune_count = 0 then Except.ok (sp, mon_tlist)
  else prune_loop mon_tlist sp

/-- The sum of the samp records of a list of trees. -/
def samp_sum : List cn_tree → cn_samp_stats
  | [] => {}
  | t :: rest => samp_add t.ct_samp (samp_sum rest)

/-- All components of a samp record are at least zero. -/
def samp_nonneg (s : cn_samp_stats) : Prop :=
  0 ≤ s.r_alen ∧ 0 ≤ s.r_wlen ∧ 0 ≤ s.i_alen ∧ 0 ≤ s.l_alen ∧ 0 ≤ s.l_good

/-! ## The derivation of the samp thresholds -/

/-- The first part of `sp3_refresh_samp`: the inputs the function stores, each
parameter that differs from its stored input being clamped to its limits. -/
def sp3_refresh_inputs (sp : sp3) : sp3_inputs :=
  { csched_samp_max :=
      if sp.inputs.csched_samp_max ≠ sp.rp.csched_samp_max then
        clamp_t u64 sp.rp.csched_samp_max 100 999
      else sp.inputs.csched_samp_max,
    csched_lo_th_pct :=
      if sp.inputs.csched_lo_th_pct ≠ sp.rp.csched_lo_th_pct then
        clamp_t u64 sp.rp.csched_lo_th_pct 5 95
      else sp.inputs.csched_lo_th_pct,
    csched_hi_th_pct :=
      if sp.inputs.csched_hi_th_pct ≠ sp.rp.csched_hi_th_pct then
        clamp_t u64 sp.rp.csched_hi_th_pct 5 95
      else sp.inputs.csched_hi_th_pct,
    csched_leaf_pct :=
      if sp.inputs.csched_leaf_pct ≠ sp.rp.csched_leaf_pct then
        clamp_t u64 sp.rp.csched_leaf_pct 1 99
      else sp.inputs.csched_leaf_pct }

/-- The local variables of the second part of `sp3_refresh_samp`. -/
structure samp_locals where
  samp : Nat
  lwm : Nat
  hwm : Nat
  leaf : Nat
  r : Nat
  good_min : Nat
  range : Nat
  good_lwm : Nat
  good_hwm : Nat
  samp_lwm : Nat
  samp_hwm : Nat
  deriving DecidableEq, Repr

/-- The second part of `sp3_refresh_samp`, from the conversion of the inputs to
the internal scale to the values of `samp_lwm` and `samp_hwm`, in unsigned
64-bit arithmetic. -/
def sp3_samp_locals (inputs : sp3_inputs) : Except sp3_fault samp_locals :=
  let samp := u64 (inputs.csched_samp_max * SCALE) / EXT_SCALE
  let lwm := u64 (inputs.csched_lo_th_pct * SCALE) / EXT_SCALE
  let hwm := u64 (inputs.csched_hi_th_pct * SCALE) / EXT_SCALE
  let leaf := u64 (inputs.csched_leaf_pct * SCALE) / EXT_SCALE
  let r := usub64 ONE leaf
  let good_max := ONE
  if samp = 0 then Except.error sp3_fault.div_by_zero
  else
    let good_min := u64 (SCALE * u64 (ONE + r)) / samp
    let range := usub64 good_max good_min
    let good_lwm := u64 (good_min + u64 (usub64 ONE lwm * range) / SCALE)
    let good_hwm := u64 (good_min + u64 (usub64 ONE hwm * range) / SCALE)
    if good_lwm = 0 ∨ good_hwm = 0 then Except.error sp3_fault.div_by_zero
    else
      Except.ok { samp := samp, lwm := lwm, hwm := hwm, leaf := leaf, r := r,
                  good_min := good_min, range := range, good_lwm := good_lwm,
                  good_hwm := good_hwm,
                  samp_lwm := u64 (SCALE * u64 (ONE + r)) / good_lwm,
                  samp_hwm := u64 (SCALE * u64 (ONE + r)) / good_hwm }

/-- What `sp3_refresh_samp` does to one input, given the stored input `old`,
the run-time parameter `rp`, the limits `lo` and `hi`, and the input `new` that
is stored afterwards: a parameter that differs from the stored input is stored
as its 64-bit value if that lies within the limits and as the nearest limit
otherwise; a parameter equal to the stored input leaves the stored input as it
is. -/
def input_refreshed (old rp new lo hi : Nat) : Prop :=
  (old ≠ rp → lo ≤ new ∧ new ≤ hi ∧ (u64 rp < lo → new = lo) ∧ (hi < u64 rp → new = hi) ∧
    (lo ≤ u64 rp → u64 rp ≤ hi → new = u64 rp)) ∧
  (old = rp → new = old)

/-- The formulas of the comment in `sp3_refresh_samp` at scale 10000, in
unbounded arithmetic: `good_min = (1 + R) / S`, the water marks
`good_min + (1 - lwm) * range` and `good_min + (1 - hwm) * range` of the range
between `good_min` and 1, and the thresholds `(1 + R) / good_lwm` and
`(1 + R) / good_hwm`. -/
def samp_locals_exact (inputs : sp3_inputs) : samp_locals :=
  let samp := inputs.csched_samp_max * SCALE / EXT_SCALE
  let lwm := inputs.csched_lo_th_pct * SCALE / EXT_SCALE
  let hwm := inputs.csched_hi_th_pct * SCALE / EXT_SCALE
  let leaf := inputs.csched_leaf_pct * SCALE / EXT_SCALE
  let r := ONE - leaf
  let good_min := SCALE * (ONE + r) / samp
  let range := ONE - good_min
  let good_lwm := good_min + (ONE - lwm) * range / SCALE
  let good_hwm := good_min + (ONE - hwm) * range / SCALE
  { samp := samp, lwm := lwm, hwm := hwm, leaf := leaf, r := r, good_min := good_min,
    range := range, good_lwm := good_lwm, good_hwm := good_hwm,
    samp_lwm := SCALE * (ONE + r) / good_lwm,
    samp_hwm := SCALE * (ONE + r) / good_hwm }

/-! ## The throttle sensor -/

/-- The local variables of the loop of `sp3_qos_check`. -/
structure qos_locals where
  rootmax : Nat := 0
  rspill_dt_max : Nat := 0
  clen_max : Nat := 0
  sleepers : Nat := 0
  deriving DecidableEq, Repr

/-- The loop of `sp3_qos_check` over the monitored trees; `nk` and `rootmax`
are of type `uint32_t`, `sleepers` of type `uint`, the products are computed in
64 bits. -/
def qos_scan (rootmin : Nat) : List cn_tree → qos_locals → Except sp3_fault qos_locals
  | [], s => Except.ok s
  | tree :: rest, s =>
    match tree.ct_nodes[0]? with
    | none => Except.error sp3_fault.null_deref
    | some root =>
      let nk := u32 (root.tn_ns.ns_kvsets + 1)
      let s1 := { s with sleepers := u32 (s.sleepers + tree.ct_rspill_slp) }
      if nk > rootmin then
        if u64 (tree.ct_rspill_dt * usub32 nk rootmin) > u64 (s.rspill_dt_max * s.rootmax) then
          qos_scan rootmin rest
            { s1 with rspill_dt_max := tree.ct_rspill_dt, rootmax := usub32 nk rootmin }
        else qos_scan rootmin rest s1
      else if root.tn_ns.ns_clen > s.clen_max then
        qos_scan rootmin rest { s1 with clen_max := root.tn_ns.ns_clen }
      else qos_scan rootmin rest s1

/-- The variable `r` of `sp3_qos_check`: `rootmax * 100`, a product of type
`uint32_t` that is stored into 64 bits. -/
def qos_r (s : qos_locals) : Nat := u32 (s.rootmax * 100)

/-- The variable `K` of `sp3_qos_check`, from the latency in seconds clamped to
`[min_lat, max_lat] = [16, 80]`. -/
def qos_K (s : qos_locals) : Nat :=
  let secs := clamp_t u64 (u64 (s.rspill_dt_max * s.rootmax) / NSEC_PER_SEC) 16 80
  u64 (u64 (100 * secs) + 475 * 64) / 64

/-- The sensor value that `sp3_qos_check` computes from a backlog, before the
final clamp: `sval = (K * r * 3) / (K + r)`, stored into a `uint`. -/
def qos_sval (s : qos_locals) : Nat :=
  u32 (u64 (u64 (qos_K s * qos_r s) * 3) / u64 (qos_K s + qos_r s))

/-- The final clamp of `sp3_qos_check`. -/
def qos_clamp (E : sp3_env) (rootmin : Nat) (s : qos_locals) (sval : Nat) : Nat :=
  if s.rootmax > u32 (rootmin * 4) ∨ s.sleepers > 0 then
    if sval > E.THROTTLE_SENSOR_SCALE * 110 / 100 then E.THROTTLE_SENSOR_SCALE * 110 / 100
    else sval
  else
    if sval > E.THROTTLE_SENSOR_SCALE * 90 / 100 then E.THROTTLE_SENSOR_SCALE * 90 / 100
    else sval

/-- The function `sp3_qos_check`, without its log message; `trees` is the list
of monitored trees.  The second component of the result is the value handed to
`throttle_sensor_set`, if the function gets that far. -/
def sp3_qos_check (E : sp3_env) (jclock_ns : Nat) (sp : sp3) (trees : List cn_tree) :
    Except sp3_fault (sp3 × Option Nat) :=
  if !sp.throttle_sensor_root then Except.ok (sp, none)
  else
    let rootmin := u32 sp.thresh.rspill_runlen_min
    match qos_scan rootmin trees {} with
    | Except.error e => Except.error e
    | Except.ok s =>
      if u64 (s.rspill_dt_max * s.rootmax) > 0 then
        if u64 (qos_K s + qos_r s) = 0 then Except.error sp3_fault.div_by_zero
        else
          let sval := qos_sval s
          let sp1 :=
            if s.rspill_dt_max > 1 ∧ sval < sp.sp_sval_min then { sp with sp_sval_min := sval }
            else sp
          Except.ok (sp1, some (qos_clamp E rootmin s sval))
      else
        let sval :=
          if s.clen_max > 1024 <<< 20 ∧ usub64 jclock_ns sp.sp_ingest_ns < NSEC_PER_SEC * 60 then
            sp.sp_sval_min
          else 0
        Except.ok (sp, some (qos_clamp E rootmin s sval))

/-- The excess of the root of a tree over `rootmin` as `sp3_qos_check` counts
it: `nk - rootmin` with `nk = cn_ns_kvsets(&tree->ct_root->tn_ns) + 1`, and zero
when `nk` does not exceed `rootmin`. -/
def qos_excess (rootmin : Nat) (t : cn_tree) : Nat :=
  match t.ct_nodes[0]? with
  | some root => root.tn_ns.ns_kvsets + 1 - rootmin
  | none => 0

/-- The sensor value in the words of the specification, in unbounded
arithmetic: `min(floor(3 K R / (K + R)), L)` with `R = 100 * excess`,
`K = floor((100 * secs + 475 * 64) / 64)`, `secs` the latency in seconds clamped
to [16, 80], and `L` 110% of the scale if the excess is above `4 * rootmin` or a
root spill sleeps, 90% otherwise. -/
def throttle_formula (scale rootmin excess latency_ns sleepers : Nat) : Nat :=
  let R := 100 * excess
  let secs := min (max (latency_ns / NSEC_PER_SEC) 16) 80
  let K := (100 * secs + 475 * 64) / 64
  let L := if excess > 4 * rootmin ∨ sleepers > 0 then scale * 110 / 100 else scale * 90 / 100
  min (3 * K * R / (K + R)) L

/-! ## The dirty lists -/

/-- The double-buffered dirty lists, which `sp_dlist_lock` protects: the index
`sp_dlist_idx`, whose parity names the active side; for each side the list
`sp_dtree_listv[side]` of the dirty trees, a tree being named by its position in
the list of trees; and for each tree and side the list `spt_dnode_listv[side]`
of its dirty nodes, a node being named by its identity.  A link
(`spt_dtree_linkv[side]`, `tn_dnode_linkv[side]`) is empty exactly when its
owner is not on the list of that side. -/
structure sp3_dlist where
  sp_dlist_idx : Nat := 0
  sp_dtree_listv : Nat → List Nat := fun _ => []
  spt_dnode_listv : Nat → Nat → List Nat := fun _ _ => []

/-- The function `sp3_dirty_node_enqueue` for the node `addr` of the tree at
position `ti` (`tn->tn_tree`). -/
def sp3_dirty_node_enqueue (dl : sp3_dlist) (ti addr : Nat) : sp3_dlist :=
  let idx := dl.sp_dlist_idx % 2
  if (dl.spt_dnode_listv ti idx).contains addr then dl
  else
    let dl1 := { dl with
      spt_dnode_listv := Function.update dl.spt_dnode_listv ti
        (Function.update (dl.spt_dnode_listv ti) idx (dl.spt_dnode_listv ti idx ++ [addr])) }
    if (dl.sp_dtree_listv idx).contains ti then dl1
    else { dl1 with
      sp_dtree_listv := Function.update dl.sp_dtree_listv idx (dl.sp_dtree_listv idx ++ [ti]) }

/-- The state of the loop of `sp3_process_dirtylist` over the dirty nodes of a
tree: the scheduler, the dirty lists, the tree, the list `joined`, and the
counter `ndirty`. -/
structure dirty_state where
  sp : sp3
  dl : sp3_dlist
  tree : cn_tree
  joined : List Nat := []
  ndirty : Nat := 0

/-- The body of the loop of `sp3_process_dirtylist` over the dirty nodes of the
tree at position `ti`, for the node `addr` on the side `idx`. -/
def dirty_node_step (E : sp3_env) (jclock_ns idx ti : Nat) (st : dirty_state) (addr : Nat) :
    Except sp3_fault dirty_state :=
  let dl1 := { st.dl with
    spt_dnode_listv := Function.update st.dl.spt_dnode_listv ti
      (Function.update (st.dl.spt_dnode_listv ti) idx
        ((st.dl.spt_dnode_listv ti idx).filter (fun a => a != addr))) }
  let pos := st.tree.ct_nodes.findIdx (fun n => n.addr == addr)
  match st.tree.ct_nodes[pos]? with
  | none => Except.error sp3_fault.null_deref
  | some tn =>
    if cn_node_isleaf pos && !tn.tn_route_node then
      match sp3_node_unlink_all st.sp addr tn.spn_initialized with
      | Except.error e => Except.error e
      | Except.ok sp1 =>
        Except.ok { st with sp := sp1, dl := dl1, joined := st.joined ++ [addr],
                            ndirty := st.ndirty + 1 }
    else if !st.sp.sp_healthy then
      Except.ok { st with dl := dl1, ndirty := st.ndirty + 1 }
    else
      let r := if !tn.spn_initialized then sp3_node_init st.sp tn else (st.sp, tn)
      let tree1 := { st.tree with ct_nodes := st.tree.ct_nodes.set pos r.2 }
      match sp3_dirty_node_locked E jclock_ns r.1 tree1 pos with
      | Except.error e => Except.error e
      | Except.ok sp1 =>
        Except.ok { st with sp := sp1, dl := dl1, tree := tree1, ndirty := st.ndirty + 1 }

/-- The loop of `sp3_process_dirtylist` over the dirty nodes of a tree. -/
def dirty_nodes_loop (E : sp3_env) (jclock_ns idx ti : Nat) :
    List Nat → dirty_state → Except sp3_fault dirty_state
  | [], st => Except.ok st
  | addr :: rest, st =>
    match dirty_node_step E jclock_ns idx ti st addr with
    | Except.error e => Except.error e
    | Except.ok st1 => dirty_nodes_loop E jclock_ns idx ti rest st1

/-- The body of the loop of `sp3_process_dirtylist` over the list `joined`: the
node `addr` leaves the node list of the tree, the fanout (a `uint`) goes down by
one, and the node that followed it, if there is one, is classified. -/
def joined_step (E : sp3_env) (jclock_ns : Nat) (sp : sp3) (tree : cn_tree) (addr : Nat) :
    Except sp3_fault (sp3 × cn_tree) :=
  let pos := tree.ct_nodes.findIdx (fun n => n.addr == addr)
  match tree.ct_nodes[pos]? with
  | none => Except.error sp3_fault.null_deref
  | some _ =>
    let right := tree.ct_nodes[pos + 1]?
    let tree1 := { tree with ct_nodes := tree.ct_nodes.eraseIdx pos,
                             ct_fanout := usub32 tree.ct_fanout 1 }
    match right with
    | none => Except.ok (sp, tree1)
    | some _ =>
      match sp3_dirty_node_locked E jclock_ns sp tree1 pos with
      | Except.error e => Except.error e
      | Except.ok sp1 => Except.ok (sp1, tree1)

/-- The loop of `sp3_process_dirtylist` over the list `joined`. -/
def joined_loop (E : sp3_env) (jclock_ns : Nat) :
    List Nat → sp3 → cn_tree → Except sp3_fault (sp3 × cn_tree)
  | [], sp, tree => Except.ok (sp, tree)
  | addr :: rest, sp, tree =>
    match joined_step E jclock_ns sp tree addr with
    | Except.error e => Except.error e
    | Except.ok (sp1, tree1) => joined_loop E jclock_ns rest sp1 tree1

/-- The body of the loop of `sp3_process_dirtylist` over the dirty trees, for
the tree at position `ti` on the side `idx`. -/
def dirty_tree_step (E : sp3_env) (jclock_ns idx : Nat) (sp : sp3) (dl : sp3_dlist)
    (trees : List cn_tree) (ti : Nat) : Except sp3_fault (sp3 × sp3_dlist × List cn_tree) :=
  let dl1 := { dl with
    sp_dtree_listv := Function.update dl.sp_dtree_listv idx
      ((dl.sp_dtree_listv idx).filter (fun t => t != ti)) }
  match trees[ti]? with
  | none => Except.error sp3_fault.null_deref
  | some tree =>
    if tree.ct_nodes = [] then Except.error sp3_fault.assert_root_first
    else
      match dirty_nodes_loop E jclock_ns idx ti (dl1.spt_dnode_listv ti idx)
          { sp := sp, dl := dl1, tree := tree } with
      | Except.error e => Except.error e
      | Except.ok st =>
        if ¬ st.ndirty > 0 then Except.error sp3_fault.assert_ndirty
        else
          match joined_loop E jclock_ns st.joined st.sp st.tree with
          | Except.error e => Except.error e
          | Except.ok (sp1, tree1) => Except.ok (sp1, st.dl, trees.set ti tree1)

/-- The loop of `sp3_process_dirtylist` over the dirty trees. -/
def dirty_trees_loop (E : sp3_env) (jclock_ns idx : Nat) :
    List Nat → sp3 → sp3_dlist → List cn_tree →
      Except sp3_fault (sp3 × sp3_dlist × List cn_tree)
  | [], sp, dl, trees => Except.ok (sp, dl, trees)
  | ti :: rest, sp, dl, trees =>
    match dirty_tree_step E jclock_ns idx sp dl trees ti with
    | Except.error e => Except.error e
    | Except.ok (sp1, dl1, trees1) => dirty_trees_loop E jclock_ns idx rest sp1 dl1 trees1

/-- The function `sp3_process_dirtylist`: the index `sp_dlist_idx`, an
`atomic_uint`, is advanced, and the side that was active is drained. -/
def sp3_process_dirtylist (E : sp3_env) (jclock_ns : Nat) (sp : sp3) (dl : sp3_dlist)
    (trees : List cn_tree) : Except sp3_fault (sp3 × sp3_dlist × List cn_tree) :=
  let idx := dl.sp_dlist_idx % 2
  let dl1 := { dl with sp_dlist_idx := u32 (dl.sp_dlist_idx + 1) }
  dirty_trees_loop E jclock_ns idx (dl.sp_dtree_listv idx) sp dl1 trees

/-- The invariant of one side of the dirty lists: no tree is twice on the list
of dirty trees, no node is twice on the list of dirty nodes of a tree, and a
tree is on the list of dirty trees exactly when its list of dirty nodes is not
empty. -/
def dlist_inv (dl : sp3_dlist) (side : Nat) : Prop :=
  (dl.sp_dtree_listv side).Nodup ∧
  ∀ ti, (dl.spt_dnode_listv ti side).Nodup ∧
    (ti ∈ dl.sp_dtree_listv side ↔ dl.spt_dnode_listv ti side ≠ [])

/-- A tree for the drain of a joined leaf: the root, the leaf 1 whose route
pointer is null, and the leaf 2 with a route node and one kvset. -/
def joined_tree_example : cn_tree :=
  { ct_nodes := [{ addr := 0 },
                 { addr := 1, spn_initialized := true },
                 { addr := 2, spn_initialized := true, tn_route_node := true,
                   tn_ns := { ns_kvsets := 1 } }],
    ct_fanout := 2 }

/-- Two scheduler states in which the node `a` has the same membership in every
priority index and in the root-ready list. -/
def untouched (a : Nat) (s s1 : sp3) : Prop :=
  (∀ tx, rb_member (s1.rbt tx) a = rb_member (s.rbt tx) a) ∧
  s1.spn_rlist.contains a = s.spn_rlist.contains a

/-- A scheduler state whose garbage index holds leaf 2 with weight 9, leaf 1
with weight 5 and leaf 3 with weight 1. -/
def no_work_sp_example : sp3 :=
  { qinfo := List.replicate 6 { qjobs_max := 1 },
    rbt := fun tx =>
      if tx = sp3_work_type.wtype_garbage then
        [{ rbe_weight := 9, spn := 2 }, { rbe_weight := 5, spn := 1 },
         { rbe_weight := 1, spn := 3 }]
      else [] }

/-- A tree of a root and three leaves with one kvset each; the compaction
token of leaf 2 is held by a job in flight. -/
def no_work_trees_example : List cn_tree :=
  [{ ct_nodes := [{ spn_initialized := true },
                  { addr := 1, spn_initialized := true, tn_route_node := true,
                    tn_kvset_list := [{ dgen := 1 }], tn_ns := { ns_kvsets := 1 } },
                  { addr := 2, spn_initialized := true, tn_route_node := true,
                    tn_compacting := true, tn_busycnt := 65537,
                    tn_kvset_list := [{ dgen := 1, workid := 1 }],
                    tn_ns := { ns_kvsets := 1 } },
                  { addr := 3, spn_initialized := true, tn_route_node := true,
                    tn_kvset_list := [{ dgen := 1 }], tn_ns := { ns_kvsets := 1 } }],
     ct_fanout := 3 }]

/-- The invariant of the run-finding loop of `sp3_work_wtype_length` when `r`
kvsets are left to visit: either no kvset was visited yet, or the mark is the
kvset at a position `m`, the run consists of the `runlen` kvsets at the
positions `m, m - 1, ..., r`, and the first `runlen_min` of them (fewer if the
run is shorter) have the compc value `compc`. -/
def length_inv (head : List kvset) (runlen_min r : Nat) (s : length_state) : Prop :=
  (s.runlen = 0 ∧ r = head.length ∧ s.mark = list_last_entry head) ∨
  (0 < s.runlen ∧ ∃ m, s.mark = le_ptr.entry m ∧ m + 1 = r + s.runlen ∧ m < head.length ∧
    ∀ j, j < s.runlen → j < runlen_min → ∀ k, head[m - j]? = some k → k.compc = s.compc)

/-- A tree of a root, an empty leaf 1 and a leaf 2 with one kvset; the two
leaves can be joined. -/
def join_tree_example : cn_tree :=
  { ct_nodes := [{ spn_initialized := true },
                 { addr := 1, spn_initialized := true, tn_route_node := true },
                 { addr := 2, spn_initialized := true, tn_route_node := true,
                   tn_kvset_list := [{ dgen := 1 }], tn_ns := { ns_kvsets := 1 } }],
    ct_fanout := 2 }

/-- The trim loop of `sp3_tree_shape_check` (`while (tn && cn_ns_kvsets(&tn->tn_ns)
== 0 && tree->ct_fanout > 1)`), on the nodes of the tree from the last one to the
first one: `tn` is the first node of the list, `left` the one that follows it.
`modify_err` tells whether `route_node_key_modify` fails for the route node of
`left` (the route map is not part of the sources).  The result holds the nodes
that are left (from the last to the first), the fanout, and the positions in the
tree of the nodes `left` whose route node was passed to `route_node_key_modify`.
The node that `list_prev_entry` yields for the first node of the tree is not a
node. -/
def shape_trim_loop (modify_err : cn_tree_node → Bool) :
    List cn_tree_node → Nat → List Nat → Except sp3_fault (List cn_tree_node × Nat × List Nat)
  | [], fanout, ext => Except.ok ([], fanout, ext)
  | [tn], fanout, ext =>
    if tn.tn_ns.ns_kvsets = 0 ∧ fanout > 1 then Except.error sp3_fault.null_deref
    else Except.ok ([tn], fanout, ext)
  | tn :: left :: rest, fanout, ext =>
    if tn.tn_ns.ns_kvsets = 0 ∧ fanout > 1 then
      if tn.tn_ss_spilling ≠ 0 ∨ left.tn_ss_spilling ≠ 0 then
        Except.ok (tn :: left :: rest, fanout, ext)
      else if modify_err left then
        Except.ok (tn :: left :: rest, fanout, ext ++ [rest.length])
      else
        shape_trim_loop modify_err (left :: rest) (usub32 fanout 1) (ext ++ [rest.length])
    else Except.ok (tn :: left :: rest, fanout, ext)

/-- The part of `sp3_tree_shape_check` that trims the rightmost empty nodes of a
tree, between `rmlock_wlock(&tree->ct_lock)` and `rmlock_wunlock`: the tree
after the loop and the positions of the nodes whose edge key the loop asked to
extend. -/
def sp3_tree_shape_trim (modify_err : cn_tree_node → Bool) (tree : cn_tree) :
    Except sp3_fault (cn_tree × List Nat) :=
  match shape_trim_loop modify_err tree.ct_nodes.reverse tree.ct_fanout [] with
  | Except.error e => Except.error e
  | Except.ok (rev, fanout, ext) =>
    Except.ok ({ tree with ct_nodes := rev.reverse, ct_fanout := fanout }, ext)

/-- A tree of a root and three leaves, of which the last two are empty. -/
def trim_tree_example : cn_tree :=
  { ct_nodes := [{ addr := 0 }, { addr := 1, tn_ns := { ns_kvsets := 1 } }, { addr := 2 },
                 { addr := 3 }],
    ct_fanout := 3 }

/-- A plan whose run fits the kvset list: either the run is empty, or the mark
is a kvset of the list, at a position `m`, and the run does not need more than
the `m + 1` kvsets that lie from the mark toward the newest end of the list. -/
def mark_fits (kvs : List kvset) (p : wplan) : Prop :=
  p.kvsets = 0 ∨ ∃ m, p.mark = le_ptr.entry m ∧ m < kvs.length ∧ p.kvsets ≤ m + 1

/-- A tree of a root and two leaves with one kvset each; leaf 1 has its split
flag set, so that leaf 2 cannot be joined with it. -/
def not_joinable_tree_example : cn_tree :=
  { ct_nodes := [{ spn_initialized := true },
                 { addr := 1, spn_initialized := true, tn_route_node := true,
                   tn_ss_splitting := true,
                   tn_kvset_list := [{ dgen := 1 }], tn_ns := { ns_kvsets := 1 } },
                 { addr := 2, spn_initialized := true, tn_route_node := true,
                   tn_kvset_list := [{ dgen := 2 }], tn_ns := { ns_kvsets := 1 } }],
    ct_fanout := 2 }

/-- The node `a` is in none of the priority indexes, not on the list of all
nodes and not on the root-ready list of the scheduler `s`. -/
def unlinked (a : Nat) (s : sp3) : Prop :=
  (∀ tx, rb_member (s.rbt tx) a = false) ∧ a ∉ s.spn_alist ∧ a ∉ s.spn_rlist

/-- The test `cn_node_isleaf(tn) && !tn->tn_route_node` of the loop of
`sp3_process_dirtylist` over the dirty nodes, for the node with identity `addr`
of `tree`: the node goes on the list `joined`. -/
def is_joined (tree : cn_tree) (addr : Nat) : Bool :=
  let pos := tree.ct_nodes.findIdx (fun n => n.addr == addr)
  match tree.ct_nodes[pos]? with
  | none => false
  | some tn => cn_node_isleaf pos && !tn.tn_route_node

/-- In `tree` the identity `a` names only initialized empty leaves whose route
pointer is null: it is not the identity of the first node, and every node with
this identity has no route node, is initialised and has no kvsets. -/
def joined_safe (a : Nat) (tree : cn_tree) : Prop :=
  (∀ n, tree.ct_nodes.head? = some n → n.addr ≠ a) ∧
  ∀ n ∈ tree.ct_nodes, n.addr = a →
    n.tn_route_node = false ∧ n.spn_initialized = true ∧ n.tn_ns.ns_kvsets = 0

/-- The tree `t1` is the tree `t` in which some nodes have become initialized:
the loop of `sp3_process_dirtylist` over the dirty nodes changes nothing else
in a tree. -/
def init_only (t t1 : cn_tree) : Prop :=
  t1.ct_fanout = t.ct_fanout ∧ t1.ct_nodes.length = t.ct_nodes.length ∧
  ∀ (i : Nat) (n : cn_tree_node), t.ct_nodes[i]? = some n →
    t1.ct_nodes[i]? = some n ∨ t1.ct_nodes[i]? = some { n with spn_initialized := true }

/-- The hysteresis of the spec, stated on its own: the successive values of a
flag that turns true when a target exceeds `hwm` and false when a target falls
below `lwm`, for a sequence of targets. -/
def hysteresis_trace (lwm hwm : Nat) : Bool → List Nat → List Bool
  | _, [] => []
  | r, v :: rest =>
    let r1 := if r then !decide (v < lwm) else decide (v > hwm)
    r1 :: hysteresis_trace lwm hwm r1 rest

/-- An environment whose estimators are computed with integer division; it
serves as a concrete instance in examples. -/
def env_example : sp3_env :=
  { VBLOCK_MAX_SIZE := 33554432,
    CN_FANOUT_MAX := 4096,
    HSE_KVDB_COMPACT_CANCEL := 1,
    HSE_KVDB_COMPACT_SAMP_LWM := 2,
    limits := {},
    cn_tree_node_scatter := fun _ => 0,
    samp_est := fun s scale =>
      if s.i_alen + s.l_good = 0 then 0
      else ((scale : Int) * (s.i_alen + s.l_alen) / (s.i_alen + s.l_good)).toNat,
    samp_pct_leaves := fun s scale =>
      if s.i_alen + s.l_alen = 0 then 0
      else ((scale : Int) * s.l_alen / (s.i_alen + s.l_alen)).toNat,
    samp_pct_garbage := fun s scale =>
      if s.l_alen = 0 then 0 else ((scale : Int) * (s.l_alen - s.l_good) / s.l_alen).toNat }

/-! ## Properties of the samp estimator -/

theorem ucomp_check_fields (now : Nat) (sp : sp3) :
    (sp3_ucomp_check now sp).samp_reduce = sp.samp_reduce ∧
    (sp3_ucomp_check now sp).samp_targ = sp.samp_targ ∧
    (sp3_ucomp_check now sp).samp_lwm = sp.samp_lwm ∧
    (sp3_ucomp_check now sp).samp_hwm = sp.samp_hwm := by
  unfold sp3_ucomp_check
  by_cases h1 : sp.ucomp_active = true
  · by_cases h2 : (sp.idle || decide (sp.samp_curr < sp.samp_lwm)) = true
    · simp [h1, h2]
    · by_cases h3 : decide (now > sp.ucomp_prev_report_ns + 5 * NSEC_PER_SEC) = true
      · simp [h1, h2, h3]
      · simp [h1, h2, h3]
  · simp [h1]

theorem update_samp_targ (E : sp3_env) (now : Nat) (sp : sp3) :
    (sp3_update_samp E now sp).samp_targ = E.samp_est (sp3_samp_target sp) SCALE ∧
    (sp3_update_samp E now sp).samp_lwm = sp.samp_lwm ∧
    (sp3_update_samp E now sp).samp_hwm = sp.samp_hwm := by
  unfold sp3_update_samp
  simp only []
  split_ifs <;> simp [(ucomp_check_fields now _).2.1, (ucomp_check_fields now _).2.2.1,
    (ucomp_check_fields now _).2.2.2]

theorem update_samp_reduce (E : sp3_env) (now : Nat) (sp : sp3) :
    (sp3_update_samp E now sp).samp_reduce =
      if sp.samp_reduce then !decide (E.samp_est (sp3_samp_target sp) SCALE < sp.samp_lwm)
      else decide (E.samp_est (sp3_samp_target sp) SCALE > sp.samp_hwm) := by
  unfold sp3_update_samp
  simp only [(ucomp_check_fields now _).1, (ucomp_check_fields now _).2.1,
    (ucomp_check_fields now _).2.2.1, (ucomp_check_fields now _).2.2.2]
  split_ifs <;> simp_all [(ucomp_check_fields now _).1]

theorem samp_target_reset (q : sp3) (ss : cn_samp_stats) :
    sp3_samp_target { q with samp := ss, samp_wip := {} } =
      sp3_samp_target ({ samp := ss } : sp3) := by
  simp [sp3_samp_target]

theorem samp_ticks_trace (E : sp3_env) :
    ∀ (ts : List (Nat × cn_samp_stats)) (sp : sp3),
      samp_ticks E sp ts =
        hysteresis_trace sp.samp_lwm sp.samp_hwm sp.samp_reduce
          (ts.map (fun t => E.samp_est (sp3_samp_target ({ samp := t.2 } : sp3)) SCALE))
  | [], _ => rfl
  | t :: rest, sp => by
    have ih := samp_ticks_trace E rest
      (sp3_update_samp E t.1 { sp with samp := t.2, samp_wip := {} })
    rw [(update_samp_targ E _ _).2.1, (update_samp_targ E _ _).2.2, update_samp_reduce,
      samp_target_reset] at ih
    simp only [samp_ticks, List.map, hysteresis_trace]
    rw [ih, update_samp_reduce, samp_target_reset]

theorem update_samp_hysteresis (E : sp3_env) (now : Nat) (sp : sp3) :
    (sp.samp_reduce = false →
      ((sp3_update_samp E now sp).samp_reduce = true ↔
        (sp3_update_samp E now sp).samp_targ > (sp3_update_samp E now sp).samp_hwm)) ∧
    (sp.samp_reduce = true →
      ((sp3_update_samp E now sp).samp_reduce = false ↔
        (sp3_update_samp E now sp).samp_targ < (sp3_update_samp E now sp).samp_lwm)) := by
  refine ⟨?_, ?_⟩
  · intro h
    rw [update_samp_reduce, (update_samp_targ E now sp).1, (update_samp_targ E now sp).2.2]
    simp [h]
  · intro h
    rw [update_samp_reduce, (update_samp_targ E now sp).1, (update_samp_targ E now sp).2.1]
    simp [h]

/-- C1: `sp3_update_samp` sets `samp_reduce` by hysteresis.  If the flag was
false it becomes true exactly when `samp_targ > samp_hwm`; if it was true it
becomes false exactly when `samp_targ < samp_lwm`; in every other case it keeps
its value.  With `samp_lwm = 11000` and `samp_hwm = 12500` (1.10 and 1.25 at
scale 10000), starting from false, ticks at which the estimator returns the
targets 10500, 12200, 13000, 11500 and 10900 leave the flag at false, false,
true, true and false. -/
theorem C1_samp_reduce_hysteresis (E : sp3_env) (now : Nat) (sp : sp3) :
    (sp.samp_reduce = false →
      ((sp3_update_samp E now sp).samp_reduce = true ↔
        (sp3_update_samp E now sp).samp_targ > (sp3_update_samp E now sp).samp_hwm)) ∧
    (sp.samp_reduce = true →
      ((sp3_update_samp E now sp).samp_reduce = false ↔
        (sp3_update_samp E now sp).samp_targ < (sp3_update_samp E now sp).samp_lwm)) ∧
    (∀ (t1 t2 t3 t4 t5 : Nat) (s1 s2 s3 s4 s5 : cn_samp_stats),
      sp.samp_reduce = false → sp.samp_lwm = 11000 → sp.samp_hwm = 12500 →
      E.samp_est (sp3_samp_target ({ samp := s1 } : sp3)) SCALE = 10500 →
      E.samp_est (sp3_samp_target ({ samp := s2 } : sp3)) SCALE = 12200 →
      E.samp_est (sp3_samp_target ({ samp := s3 } : sp3)) SCALE = 13000 →
      E.samp_est (sp3_samp_target ({ samp := s4 } : sp3)) SCALE = 11500 →
      E.samp_est (sp3_samp_target ({ samp := s5 } : sp3)) SCALE = 10900 →
      samp_ticks E sp [(t1, s1), (t2, s2), (t3, s3), (t4, s4), (t5, s5)] =
        [false, false, true, true, false]) := by
  refine ⟨(update_samp_hysteresis E now sp).1, (update_samp_hysteresis E now sp).2, ?_⟩
  · intro t1 t2 t3 t4 t5 s1 s2 s3 s4 s5 hr hl hh h1 h2 h3 h4 h5
    rw [samp_ticks_trace]
    simp only [List.map, h1, h2, h3, h4, h5, hr, hl, hh]
    decide

/-- C1, instance: the scenario with the integer estimators of `env_example`. -/
theorem C1_samp_reduce_hysteresis_witness :
    samp_ticks env_example { samp_lwm := 11000, samp_hwm := 12500 }
      [(1, { l_alen := 10500, l_good := 10000 }), (2, { l_alen := 12200, l_good := 10000 }),
       (3, { l_alen := 13000, l_good := 10000 }), (4, { l_alen := 11500, l_good := 10000 }),
       (5, { l_alen := 10900, l_good := 10000 })] = [false, false, true, true, false] :=
  (C1_samp_reduce_hysteresis env_example 0 { samp_lwm := 11000, samp_hwm := 12500 }).2.2
    1 2 3 4 5 _ _ _ _ _ rfl rfl rfl (by decide) (by decide) (by decide) (by decide) (by decide)

/-! ## The classifier changes the indexes and the root-ready list only -/

@[simp] theorem core_node_insert (sp : sp3) (spn : Nat) (tx : sp3_work_type) (weight : Nat) :
    sp3_core (sp3_node_insert sp spn tx weight) = sp3_core sp := by
  unfold sp3_node_insert
  split_ifs <;> simp [sp3_core]

@[simp] theorem core_node_remove (sp : sp3) (spn : Nat) (tx : sp3_work_type) :
    sp3_core (sp3_node_remove sp spn tx) = sp3_core sp := by
  simp [sp3_node_remove, sp3_core]

@[simp] theorem core_node_unlink (sp : sp3) (spn : Nat) :
    sp3_core (sp3_node_unlink sp spn) = sp3_core sp := by
  simp [sp3_node_unlink, sp3_core]

@[simp] theorem core_rlist_del (sp : sp3) (spn : Nat) :
    sp3_core (rlist_del sp spn) = sp3_core sp := by
  simp [rlist_del, sp3_core]

@[simp] theorem core_rlist_add_tail (sp : sp3) (spn : Nat) :
    sp3_core (rlist_add_tail sp spn) = sp3_core sp := by
  unfold rlist_add_tail
  split_ifs <;> simp [sp3_core]

@[simp] theorem thresh_node_insert (sp : sp3) (spn : Nat) (tx : sp3_work_type) (weight : Nat) :
    (sp3_node_insert sp spn tx weight).thresh = sp.thresh := by
  unfold sp3_node_insert
  split_ifs <;> rfl

@[simp] theorem thresh_node_remove (sp : sp3) (spn : Nat) (tx : sp3_work_type) :
    (sp3_node_remove sp spn tx).thresh = sp.thresh := rfl

@[simp] theorem thresh_node_unlink (sp : sp3) (spn : Nat) :
    (sp3_node_unlink sp spn).thresh = sp.thresh := rfl

theorem core_dirty_leaf (E : sp3_env) (sp sp1 : sp3) (tree : cn_tree) (idx : Nat)
    (tn : cn_tree_node) (nkvsets : Nat)
    (h : sp3_dirty_leaf E sp tree idx tn nkvsets = Except.ok sp1) :
    sp3_core sp1 = sp3_core sp := by
  unfold sp3_dirty_leaf at h
  by_cases hc : tn.tn_samp.l_alen < tn.tn_samp.l_good
  · rw [if_pos hc] at h
    cases h
  · rw [if_neg hc] at h
    simp only [Except.ok.injEq] at h
    rw [← h]
    split <;> simp [apply_ite sp3_core]

theorem core_dirty_empty_leaf (sp : sp3) (tree : cn_tree) (idx : Nat) :
    sp3_core (sp3_dirty_empty_leaf sp tree idx) = sp3_core sp := by
  unfold sp3_dirty_empty_leaf
  split
  · rfl
  · split_ifs <;> simp

theorem core_dirty_categories (E : sp3_env) (sp sp1 : sp3) (tree : cn_tree) (idx : Nat)
    (tn : cn_tree_node) (nkvsets jobs : Nat)
    (h : sp3_dirty_categories E sp tree idx tn nkvsets jobs = Except.ok sp1) :
    sp3_core sp1 = sp3_core sp := by
  unfold sp3_dirty_categories at h
  split_ifs at h <;> first
    | exact core_dirty_leaf E sp sp1 tree idx tn _ h
    | (cases h; first | exact core_dirty_empty_leaf _ _ _ | simp)

theorem core_dirty_idle (jclock_ns : Nat) (sp : sp3) (tn : cn_tree_node) (nkvsets jobs : Nat) :
    sp3_core (sp3_dirty_idle jclock_ns sp tn nkvsets jobs) = sp3_core sp := by
  unfold sp3_dirty_idle
  split_ifs <;> simp

theorem core_dirty_node_locked (E : sp3_env) (jclock_ns : Nat) (sp sp1 : sp3) (tree : cn_tree)
    (idx : Nat) (h : sp3_dirty_node_locked E jclock_ns sp tree idx = Except.ok sp1) :
    sp3_core sp1 = sp3_core sp := by
  unfold sp3_dirty_node_locked at h
  split at h
  · cases h
  · split_ifs at h
    · cases h; rfl
    · dsimp only at h
      split at h
      · cases h
      · rename_i sp2 hsp2
        simp only [Except.ok.injEq] at h
        subst h
        rw [core_dirty_idle]
        exact core_dirty_categories _ _ _ _ _ _ _ _ hsp2

/-! ## Hysteresis of samp_reduce over the scheduler operations -/

theorem samp_reduce_of_core {sp sp1 : sp3} (h : sp3_core sp1 = sp3_core sp) :
    sp1.samp_reduce = sp.samp_reduce := by
  have e := congrArg sp3.samp_reduce h
  exact e

theorem refresh_samp_reduce (sp sp1 : sp3) (h : sp3_refresh_samp sp = Except.ok sp1) :
    sp1.samp_reduce = sp.samp_reduce := by
  unfold sp3_refresh_samp at h
  dsimp only at h
  split_ifs at h <;> cases h <;> rfl

theorem dirty_all_reduce (E : sp3_env) (jclock_ns : Nat) (trees : List cn_tree) :
    ∀ (addrs : List Nat) (sp sp1 : sp3),
      sp3_dirty_all E jclock_ns trees addrs sp = Except.ok sp1 →
        sp1.samp_reduce = sp.samp_reduce
  | [], sp, sp1, h => by
    cases h
    rfl
  | addr :: rest, sp, sp1, h => by
    unfold sp3_dirty_all at h
    split at h
    · cases h
    · rename_i sp2 h2
      rw [dirty_all_reduce E jclock_ns trees rest sp2 sp1 h]
      unfold sp3_dirty_node at h2
      split at h2
      · cases h2
      · exact samp_reduce_of_core (core_dirty_node_locked _ _ _ _ _ _ h2)

theorem refresh_settings_reduce (E : sp3_env) (jclock_ns : Nat) (trees : List cn_tree)
    (sp sp1 : sp3) (h : sp3_refresh_settings E jclock_ns trees sp = Except.ok sp1) :
    sp1.samp_reduce = sp.samp_reduce := by
  unfold sp3_refresh_settings at h
  split at h
  · cases h
  · rename_i sp2 h2
    unfold sp3_refresh_thresholds at h
    dsimp only at h
    split_ifs at h
    · cases h
      exact refresh_samp_reduce sp sp2 h2
    · rw [dirty_all_reduce _ _ _ _ _ _ h]
      exact refresh_samp_reduce sp sp2 h2

theorem compact_request_reduce (E : sp3_env) (sp : sp3) (flags : Nat) :
    (sp3_compact_request E sp flags).samp_reduce =
      if flags &&& E.HSE_KVDB_COMPACT_CANCEL = 0 ∧ flags &&& E.HSE_KVDB_COMPACT_SAMP_LWM ≠ 0
      then true else sp.samp_reduce := by
  unfold sp3_compact_request sp3_ucomp_cancel sp3_ucomp_start
  split_ifs <;> simp_all

/-- C2, as stated, fails: a user compaction request with the `SAMP_LWM` flag
turns `samp_reduce` from false to true in a step in which `samp_targ` (10500,
which is also what the estimator yields for the state) does not exceed
`samp_hwm` (12500). -/
theorem C2_counterexample :
    (({ samp_lwm := 11000, samp_hwm := 12500, samp_targ := 10500,
        samp := { l_alen := 10500, l_good := 10000 } } : sp3).samp_reduce = false) ∧
    (sp3_op_run env_example []
        { samp_lwm := 11000, samp_hwm := 12500, samp_targ := 10500,
          samp := { l_alen := 10500, l_good := 10000 } }
        (sp3_op.compact_request 2)).map
      (fun q => (q.samp_reduce, q.samp_targ, q.samp_hwm,
        env_example.samp_est (sp3_samp_target q) SCALE)) =
      Except.ok (true, 10500, 12500, 10500) := by
  constructor
  · rfl
  · rfl

/-- C2, amended: over the operations of the scheduler (monitor tick, user
compaction request, settings refresh), `samp_reduce` changes from false to
true only in a monitor tick in which `samp_targ > samp_hwm` or in a user
compaction request that starts a compaction (flag `SAMP_LWM` without flag
`CANCEL`), and it changes from true to false only in a monitor tick in which
`samp_targ < samp_lwm`; a settings refresh never changes it. -/
theorem C2_samp_reduce_transitions (E : sp3_env) (trees : List cn_tree) (sp sp1 : sp3)
    (op : sp3_op) (h : sp3_op_run E trees sp op = Except.ok sp1) :
    (sp.samp_reduce = false → sp1.samp_reduce = true →
      ((∃ now, op = sp3_op.update_samp now) ∧ sp1.samp_targ > sp1.samp_hwm) ∨
      (∃ flags, op = sp3_op.compact_request flags ∧
        flags &&& E.HSE_KVDB_COMPACT_CANCEL = 0 ∧ flags &&& E.HSE_KVDB_COMPACT_SAMP_LWM ≠ 0)) ∧
    (sp.samp_reduce = true → sp1.samp_reduce = false →
      (∃ now, op = sp3_op.update_samp now) ∧ sp1.samp_targ < sp1.samp_lwm) ∧
    ((∃ jclock_ns, op = sp3_op.refresh_settings jclock_ns) →
      sp1.samp_reduce = sp.samp_reduce) := by
  cases op with
  | update_samp now =>
    simp only [sp3_op_run, Except.ok.injEq] at h
    subst h
    refine ⟨fun h0 h1 => Or.inl ⟨⟨now, rfl⟩, ?_⟩, fun h0 h1 => ⟨⟨now, rfl⟩, ?_⟩, ?_⟩
    · exact ((update_samp_hysteresis E now sp).1 h0).1 h1
    · exact ((update_samp_hysteresis E now sp).2 h0).1 h1
    · rintro ⟨j, hj⟩
      cases hj
  | compact_request flags =>
    simp only [sp3_op_run, Except.ok.injEq] at h
    subst h
    rw [compact_request_reduce]
    refine ⟨fun h0 h1 => Or.inr ⟨flags, rfl, ?_⟩, fun h0 h1 => ?_, ?_⟩
    · by_contra hc
      rw [if_neg hc, h0] at h1
      cases h1
    · split_ifs at h1
      rw [h0] at h1
      cases h1
    · rintro ⟨j, hj⟩
      cases hj
  | refresh_settings jclock_ns =>
    simp only [sp3_op_run] at h
    have e := refresh_settings_reduce E jclock_ns trees sp sp1 h
    refine ⟨fun h0 h1 => ?_, fun h0 h1 => ?_, fun _ => e⟩
    · rw [e, h0] at h1
      cases h1
    · rw [e, h0] at h1
      cases h1

/-- C2, instance: a monitor tick of a scheduler whose target samp (13000) is
above the high-water mark turns `samp_reduce` on. -/
theorem C2_samp_reduce_transitions_witness :
    ((∃ now, sp3_op.update_samp 7 = sp3_op.update_samp now) ∧
      (sp3_update_samp env_example 7
        { samp_lwm := 11000, samp_hwm := 12500,
          samp := { l_alen := 13000, l_good := 10000 } }).samp_targ >
      (sp3_update_samp env_example 7
        { samp_lwm := 11000, samp_hwm := 12500,
          samp := { l_alen := 13000, l_good := 10000 } }).samp_hwm) ∨
    (∃ flags, sp3_op.update_samp 7 = sp3_op.compact_request flags ∧
      flags &&& env_example.HSE_KVDB_COMPACT_CANCEL = 0 ∧
      flags &&& env_example.HSE_KVDB_COMPACT_SAMP_LWM ≠ 0) :=
  (C2_samp_reduce_transitions env_example []
    { samp_lwm := 11000, samp_hwm := 12500, samp := { l_alen := 13000, l_good := 10000 } }
    _ (sp3_op.update_samp 7) rfl).1 rfl (by decide)

/-! ## The root planner -/

theorem root_plan_kvsets (V : Nat) (tn : cn_tree_node) (thresh : sp3_thresholds) (r W : Nat)
    (hcount : root_count tn thresh = some (r, W)) :
    (sp3_work_wtype_root V tn thresh).kvsets =
      if r < thresh.rspill_runlen_min then 0
      else if W < V then (if r < thresh.rspill_runlen_max then 0 else r)
      else min (if r > thresh.rspill_runlen_max then r - thresh.rspill_runlen_min else r)
        thresh.rspill_runlen_max := by
  unfold root_count at hcount
  unfold sp3_work_wtype_root
  split at hcount
  · cases hcount
  · rename_i k newer hk
    simp only [Option.some.injEq] at hcount
    simp only [hcount]
    split_ifs <;> rfl

theorem root_plan_rule (V : Nat) (tn : cn_tree_node) (thresh : sp3_thresholds) (r W : Nat)
    (hcount : root_count tn thresh = some (r, W)) :
    (sp3_work_wtype_root V tn thresh).rule =
      if thresh.rspill_runlen_min ≤ r ∧ W < V ∧ thresh.rspill_runlen_max ≤ r
      then cn_rule.CN_RULE_TSPILL else cn_rule.CN_RULE_RSPILL := by
  unfold root_count at hcount
  unfold sp3_work_wtype_root
  split at hcount
  · cases hcount
  · rename_i k newer hk
    simp only [Option.some.injEq] at hcount
    simp only [hcount]
    split_ifs <;> first | rfl | omega

theorem root_plan_none (V : Nat) (tn : cn_tree_node) (thresh : sp3_thresholds)
    (hcount : root_count tn thresh = none) :
    (sp3_work_wtype_root V tn thresh).kvsets = 0 ∧
    (sp3_work_wtype_root V tn thresh).rule = cn_rule.CN_RULE_RSPILL := by
  unfold root_count at hcount
  unfold sp3_work_wtype_root
  split at hcount
  · exact ⟨rfl, rfl⟩
  · cases hcount

/-- C3, as stated, fails for thresholds that the clamping of
`sp3_refresh_thresholds` excludes: with `rspill_runlen_min = 2` and
`rspill_runlen_max = 1`, a root with two unclaimed kvsets of 32 MiB each has a
counted run of `r = 2` kvsets and `W = 64 MiB`, so that neither `r <
rspill_runlen_min` nor `W < VBLOCK_MAX_SIZE` holds, and yet the planner
returns 0. -/
theorem C3_counterexample :
    root_count { tn_kvset_list := [{ kst_kwlen := 33554432 }, { kst_kwlen := 33554432 }] }
      { rspill_runlen_min := 2, rspill_runlen_max := 1, rspill_wlen_max := 1073741824 } =
        some (2, 67108864) ∧
    (sp3_work_wtype_root 33554432
      { tn_kvset_list := [{ kst_kwlen := 33554432 }, { kst_kwlen := 33554432 }] }
      { rspill_runlen_min := 2, rspill_runlen_max := 1,
        rspill_wlen_max := 1073741824 }).kvsets = 0 ∧
    ¬ ((2 : Nat) < 2 ∨ ((67108864 : Nat) < 33554432 ∧ (2 : Nat) < 1)) := by
  decide

/-- C3, amended: for thresholds with `1 <= rspill_runlen_max` and
`rspill_runlen_min <= rspill_runlen_max` (what `sp3_refresh_thresholds`
produces), and a root with at least one unclaimed kvset whose counted run has
length `r` and accumulated written length `W`, the root planner returns 0
exactly when `r < rspill_runlen_min`, or `W < VBLOCK_MAX_SIZE` and `r <
rspill_runlen_max`.  In particular a run of 4 kvsets totalling 1 MiB, with
`rspill_runlen_min = 4` and 1 MiB below `VBLOCK_MAX_SIZE`, is deferred, and a
run that reached `rspill_runlen_min` is no longer deferred as soon as `r >=
rspill_runlen_max` or `W >= VBLOCK_MAX_SIZE`. -/
theorem C3_root_deferral (V : Nat) (tn : cn_tree_node) (thresh : sp3_thresholds) (r W : Nat)
    (hcount : root_count tn thresh = some (r, W))
    (hmax : 1 ≤ thresh.rspill_runlen_max)
    (hle : thresh.rspill_runlen_min ≤ thresh.rspill_runlen_max) :
    ((sp3_work_wtype_root V tn thresh).kvsets = 0 ↔
      (r < thresh.rspill_runlen_min ∨ (W < V ∧ r < thresh.rspill_runlen_max))) ∧
    (thresh.rspill_runlen_min = 4 → 4 < thresh.rspill_runlen_max → r = 4 → W = 1048576 →
      1048576 < V → (sp3_work_wtype_root V tn thresh).kvsets = 0) ∧
    (thresh.rspill_runlen_min ≤ r → (thresh.rspill_runlen_max ≤ r ∨ V ≤ W) →
      (sp3_work_wtype_root V tn thresh).kvsets ≠ 0) := by
  have hr : 1 ≤ r := by
    unfold root_count at hcount
    split at hcount
    · cases hcount
    · rename_i k newer hk
      simp only [Option.some.injEq] at hcount
      have key : ∀ (l : List kvset) (a b : Nat), a ≤ (root_run thresh.rspill_runlen_min
          thresh.rspill_wlen_max l a b).1 := by
        intro l
        induction l with
        | nil => intro a b; simp [root_run]
        | cons x xs ih =>
          intro a b
          unfold root_run
          dsimp only
          split_ifs
          · exact Nat.le_refl a
          · exact Nat.le_refl a
          · exact Nat.le_trans (Nat.le_succ a) (ih (a + 1) _)
      have h1 := key newer 1 (k.kst_kwlen + k.kst_vwlen)
      rw [hcount] at h1
      exact h1
  have main : (sp3_work_wtype_root V tn thresh).kvsets = 0 ↔
      (r < thresh.rspill_runlen_min ∨ (W < V ∧ r < thresh.rspill_runlen_max)) := by
    rw [root_plan_kvsets V tn thresh r W hcount]
    split_ifs <;> omega
  refine ⟨main, ?_, ?_⟩
  · intro h4 hlt hr4 hW hV
    exact main.2 (Or.inr ⟨by omega, by omega⟩)
  · intro h1 h2 h0
    rcases main.1 h0 with h | ⟨h, h'⟩ <;> omega

/-- C3, instance: a root with four unclaimed kvsets of 256 KiB each, with
`rspill_runlen_min = 4`, `rspill_runlen_max = 8` and `VBLOCK_MAX_SIZE` of
32 MiB, is deferred. -/
theorem C3_root_deferral_witness :
    (sp3_work_wtype_root 33554432
      { tn_kvset_list := [{ kst_kwlen := 262144 }, { kst_kwlen := 262144 },
                          { kst_kwlen := 262144 }, { kst_kwlen := 262144 }] }
      { rspill_runlen_min := 4, rspill_runlen_max := 8,
        rspill_wlen_max := 1073741824 }).kvsets = 0 :=
  (C3_root_deferral 33554432
    { tn_kvset_list := [{ kst_kwlen := 262144 }, { kst_kwlen := 262144 },
                        { kst_kwlen := 262144 }, { kst_kwlen := 262144 }] }
    { rspill_runlen_min := 4, rspill_runlen_max := 8, rspill_wlen_max := 1073741824 }
    4 1048576 (by decide) (by decide) (by decide)).2.1 rfl (by decide) rfl rfl (by decide)

/-- C4, as stated, fails: with `rspill_runlen_min = 1 <= rspill_runlen_max = 2`
a root with three unclaimed kvsets of one byte each is a tiny spill, for which
the planner returns the whole run of 3 kvsets. -/
theorem C4_counterexample :
    (sp3_work_wtype_root 33554432
      { tn_kvset_list := [{ kst_kwlen := 1 }, { kst_kwlen := 1 }, { kst_kwlen := 1 }] }
      { rspill_runlen_min := 1, rspill_runlen_max := 2, rspill_wlen_max := 1073741824 }) =
        { kvsets := 3, mark := le_ptr.entry 2, action := cn_action.CN_ACTION_SPILL,
          rule := cn_rule.CN_RULE_TSPILL } ∧
    ¬ (3 ≤ ({ rspill_runlen_min := 1, rspill_runlen_max := 2,
              rspill_wlen_max := 1073741824 } : sp3_thresholds).rspill_runlen_max) := by
  decide

/-- C4, amended: for every root node and every threshold vector, the run
length returned by the root planner does not exceed `rspill_runlen_max` unless
the planner returns a tiny spill (rule `tspill`); a tiny spill returns the
whole counted run `r`, whose accumulated written length is below
`VBLOCK_MAX_SIZE` and whose length is at least `rspill_runlen_max`. -/
theorem C4_root_run_cap (V : Nat) (tn : cn_tree_node) (thresh : sp3_thresholds) :
    ((sp3_work_wtype_root V tn thresh).rule ≠ cn_rule.CN_RULE_TSPILL →
      (sp3_work_wtype_root V tn thresh).kvsets ≤ thresh.rspill_runlen_max) ∧
    ((sp3_work_wtype_root V tn thresh).rule = cn_rule.CN_RULE_TSPILL →
      ∃ r W, root_count tn thresh = some (r, W) ∧ W < V ∧ thresh.rspill_runlen_max ≤ r ∧
        (sp3_work_wtype_root V tn thresh).kvsets = r) := by
  cases hc : root_count tn thresh with
  | none =>
    rw [(root_plan_none V tn thresh hc).1, (root_plan_none V tn thresh hc).2]
    exact ⟨fun _ => Nat.zero_le _, fun h => by cases h⟩
  | some rw =>
    obtain ⟨r, W⟩ := rw
    rw [root_plan_kvsets V tn thresh r W hc, root_plan_rule V tn thresh r W hc]
    constructor
    · intro h
      split_ifs at h ⊢ <;> first | omega | exact absurd rfl h
    · intro h
      refine ⟨r, W, rfl, ?_⟩
      split_ifs at h ⊢ <;> omega

/-- C4, instance: three unclaimed kvsets of 32 MiB each with
`rspill_runlen_min = 1` and `rspill_runlen_max = 2` give a root spill that is
not a tiny spill, of at most 2 kvsets. -/
theorem C4_root_run_cap_witness :
    (sp3_work_wtype_root 33554432
      { tn_kvset_list := [{ kst_kwlen := 33554432 }, { kst_kwlen := 33554432 },
                          { kst_kwlen := 33554432 }] }
      { rspill_runlen_min := 1, rspill_runlen_max := 2,
        rspill_wlen_max := 1073741824 }).kvsets ≤ 2 :=
  (C4_root_run_cap 33554432
    { tn_kvset_list := [{ kst_kwlen := 33554432 }, { kst_kwlen := 33554432 },
                        { kst_kwlen := 33554432 }] }
    { rspill_runlen_min := 1, rspill_runlen_max := 2, rspill_wlen_max := 1073741824 }).1
    (by decide)

/-! ## The marking loop of sp3_work -/

theorem mark_kvsets_zero (wid : Nat) (le : le_ptr) (kvs : List kvset) (w : cn_compaction_work) :
    sp3_mark_kvsets wid 0 le kvs w = Except.ok (kvs, w) := by
  cases le <;> rfl

theorem mark_kvsets_succ (wid n m : Nat) (kvs kvs1 : List kvset) (w w1 : cn_compaction_work)
    (h : sp3_mark_kvsets wid (n + 1) (le_ptr.entry m) kvs w = Except.ok (kvs1, w1)) :
    ∃ k, kvs[m]? = some k ∧ k.workid = 0 ∧
      sp3_mark_kvsets wid n (list_prev_entry m) (kvs.set m { k with workid := wid })
        { w with cw_dgen_hi := k.dgen, cw_dgen_lo := min w.cw_dgen_lo k.dgen_lo,
                 cw_nh := w.cw_nh + 1, cw_nk := w.cw_nk + k.num_kblocks,
                 cw_nv := w.cw_nv + k.num_vblocks,
                 cw_input_vgroups := w.cw_input_vgroups + k.vgroups } = Except.ok (kvs1, w1) := by
  unfold sp3_mark_kvsets at h
  dsimp only at h
  split at h
  · cases h
  · rename_i k hk
    split_ifs at h with h0
    refine ⟨k, hk, ?_, h⟩
    simpa using h0

/-- What the marking loop does to the kvset list: the `n + 1` kvsets at the
positions `m - n, ..., m` were unclaimed and get the workid, the others are
left as they are. -/
theorem mark_kvsets_spec (wid : Nat) :
    ∀ (n m : Nat) (kvs kvs1 : List kvset) (w w1 : cn_compaction_work),
      sp3_mark_kvsets wid (n + 1) (le_ptr.entry m) kvs w = Except.ok (kvs1, w1) →
        n ≤ m ∧ m < kvs.length ∧ kvs1.length = kvs.length ∧
        (∀ i, m - n ≤ i → i ≤ m →
          ∃ k, kvs[i]? = some k ∧ k.workid = 0 ∧ kvs1[i]? = some { k with workid := wid }) ∧
        (∀ i, (i < m - n ∨ m < i) → kvs1[i]? = kvs[i]?) := by
  intro n
  induction n with
  | zero =>
    intro m kvs kvs1 w w1 h
    obtain ⟨k, hk, hz, h1⟩ := mark_kvsets_succ wid 0 m kvs kvs1 w w1 h
    rw [mark_kvsets_zero] at h1
    simp only [Except.ok.injEq, Prod.mk.injEq] at h1
    have hm : m < kvs.length := (List.getElem?_eq_some.1 hk).1
    refine ⟨Nat.zero_le _, hm, ?_, ?_, ?_⟩
    · rw [← h1.1, List.length_set]
    · intro i h1i h2i
      have : i = m := by omega
      subst this
      exact ⟨k, hk, hz, by rw [← h1.1, List.getElem?_set_self hm]⟩
    · intro i hi
      rw [← h1.1, List.getElem?_set_ne (by omega)]
  | succ n ih =>
    intro m kvs kvs1 w w1 h
    obtain ⟨k, hk, hz, h1⟩ := mark_kvsets_succ wid (n + 1) m kvs kvs1 w w1 h
    have hm : m < kvs.length := (List.getElem?_eq_some.1 hk).1
    cases m with
    | zero =>
      simp only [list_prev_entry] at h1
      unfold sp3_mark_kvsets at h1
      cases h1
    | succ m =>
      simp only [list_prev_entry] at h1
      obtain ⟨a, b, c, d, e⟩ := ih m _ kvs1 _ w1 h1
      rw [List.length_set] at b c
      refine ⟨by omega, hm, c, ?_, ?_⟩
      · intro i h1i h2i
        by_cases him : i = m + 1
        · subst him
          refine ⟨k, hk, hz, ?_⟩
          rw [e (m + 1) (Or.inr (Nat.lt_succ_self m)), List.getElem?_set_self hm]
        · obtain ⟨k2, hk2, hz2, hk3⟩ := d i (by omega) (by omega)
          rw [List.getElem?_set_ne (Ne.symm him)] at hk2
          exact ⟨k2, hk2, hz2, hk3⟩
      · intro i hi
        rw [e i (by omega), List.getElem?_set_ne (by omega)]

/-- The marking loop succeeds on a run of unclaimed kvsets that does not
reach past the head of the list. -/
theorem mark_kvsets_ok (wid : Nat) :
    ∀ (n m : Nat) (kvs : List kvset) (w : cn_compaction_work),
      n ≤ m + 1 → m < kvs.length →
      (∀ (i : Nat) (k : kvset), i ≤ m → kvs[i]? = some k → k.workid = 0) →
        ∃ r, sp3_mark_kvsets wid n (le_ptr.entry m) kvs w = Except.ok r := by
  intro n
  induction n with
  | zero =>
    intro m kvs w _ _ _
    exact ⟨_, mark_kvsets_zero wid _ kvs w⟩
  | succ n ih =>
    intro m kvs w hn hm hz
    have hk : kvs[m]? = some kvs[m] := List.getElem?_eq_getElem hm
    have hw : kvs[m].workid = 0 := hz m _ (Nat.le_refl m) hk
    unfold sp3_mark_kvsets
    simp only [hk, hw, ne_eq, not_true_eq_false, if_false]
    cases m with
    | zero =>
      have : n = 0 := by omega
      subst this
      exact ⟨_, mark_kvsets_zero wid _ _ _⟩
    | succ m =>
      simp only [list_prev_entry]
      apply ih m _ _ (by omega) (by rw [List.length_set]; omega)
      intro i k him hik
      rw [List.getElem?_set_ne (by omega)] at hik
      exact hz i k (by omega) hik

/-! ## The committing part of sp3_work -/

theorem work_estimate_fields (isleaf : Bool) (kvs : List kvset) (w w4 : cn_compaction_work)
    (h : sp3_work_estimate isleaf kvs w = Except.ok w4) :
    w4 = { w with cw_est := w4.cw_est } := by
  unfold sp3_work_estimate at h
  split at h
  · cases h
  · dsimp only at h
    split at h
    · cases h
    · simp only [Except.ok.injEq] at h
      rw [← h]

theorem tree_set_node_get (tree : cn_tree) (idx : Nat) (tn : cn_tree_node) (j : Nat) :
    (tree_set_node tree idx tn).ct_nodes[j]? =
      if idx = j then (if idx < tree.ct_nodes.length then some tn else none)
      else tree.ct_nodes[j]? := by
  simp [tree_set_node, List.getElem?_set]

theorem tree_set_node_length (tree : cn_tree) (idx : Nat) (tn : cn_tree_node) :
    (tree_set_node tree idx tn).ct_nodes.length = tree.ct_nodes.length := by
  simp [tree_set_node]

theorem work_finish_fields (tree : cn_tree) (idx : Nat) (action : cn_action)
    (w : cn_compaction_work) :
    (sp3_work_finish tree idx action w).2 =
      { w with cw_sgen := (sp3_work_finish tree idx action w).2.cw_sgen,
               cw_join := (sp3_work_finish tree idx action w).2.cw_join } := by
  unfold sp3_work_finish
  split_ifs
  · rfl
  · cases tree.ct_nodes[idx - 1]? <;> rfl
  · rfl

theorem work_finish_nodes (tree : cn_tree) (idx : Nat) (action : cn_action)
    (w : cn_compaction_work) :
    (sp3_work_finish tree idx action w).1.ct_nodes.length = tree.ct_nodes.length ∧
    (∀ j : Nat, ((sp3_work_finish tree idx action w).1.ct_nodes[j]?).map cn_tree_node.tn_busycnt =
      (tree.ct_nodes[j]?).map cn_tree_node.tn_busycnt) ∧
    ((action = cn_action.CN_ACTION_JOIN → idx ≠ 0) →
      (sp3_work_finish tree idx action w).1.ct_nodes[idx]? = tree.ct_nodes[idx]?) := by
  unfold sp3_work_finish
  by_cases h1 : action = cn_action.CN_ACTION_SPILL
  · rw [if_pos h1]
    exact ⟨rfl, fun _ => rfl, fun _ => rfl⟩
  · rw [if_neg h1]
    by_cases h2 : action = cn_action.CN_ACTION_JOIN
    · rw [if_pos h2]
      cases hleft : tree.ct_nodes[idx - 1]? with
      | none => exact ⟨rfl, fun _ => rfl, fun _ => rfl⟩
      | some left =>
        have hlt : idx - 1 < tree.ct_nodes.length := (List.getElem?_eq_some.1 hleft).1
        refine ⟨tree_set_node_length _ _ _, ?_, ?_⟩
        · intro j
          dsimp only
          rw [tree_set_node_get]
          by_cases hj : idx - 1 = j
          · rw [if_pos hj, if_pos hlt, ← hj, hleft]
            rfl
          · rw [if_neg hj]
        · intro h0
          dsimp only
          rw [tree_set_node_get, if_neg]
          have := h0 h2
          omega
    · rw [if_neg h2]
      exact ⟨rfl, fun _ => rfl, fun _ => rfl⟩

/-- What `sp3_work_commit` does: it fails or it returns a work item for the
plan, having added `2^16 + n` to the busy count of the node and marked `n`
kvsets from the mark toward the newest; the busy counts of the other nodes are
left as they are. -/
theorem work_commit_spec (now : Nat) (tree tree1 : cn_tree) (idx : Nat) (tn : cn_tree_node)
    (p : wplan) (have_token : Bool) (debug : Nat) (w w1 : cn_compaction_work)
    (hidx : idx < tree.ct_nodes.length)
    (hjoin : p.action = cn_action.CN_ACTION_JOIN → idx ≠ 0)
    (h : sp3_work_commit now tree idx tn p have_token debug w = Except.ok (tree1, w1)) :
    ∃ m km kvs w2,
      p.mark = le_ptr.entry m ∧ tn.tn_kvset_list[m]? = some km ∧
      sp3_mark_kvsets km.dgen p.kvsets p.mark tn.tn_kvset_list
        { w with cw_dgen_hi_min := km.dgen, cw_dgen_lo := UINT64_MAX } = Except.ok (kvs, w2) ∧
      tree1.ct_nodes[idx]? =
        some { tn with tn_busycnt := tn.tn_busycnt + (65536 + p.kvsets), tn_kvset_list := kvs } ∧
      w1.cw_action = p.action ∧ w1.cw_kvset_cnt = p.kvsets ∧ w1.cw_have_token = have_token ∧
      w1.cw_mark = p.mark ∧ w1.cw_rule = p.rule ∧
      tree1.ct_nodes.length = tree.ct_nodes.length ∧
      (∀ j : Nat, j ≠ idx → (tree1.ct_nodes[j]?).map cn_tree_node.tn_busycnt =
        (tree.ct_nodes[j]?).map cn_tree_node.tn_busycnt) := by
  unfold sp3_work_commit at h
  dsimp only at h
  split at h
  · cases h
  · cases h
  · rename_i m hm
    split at h
    · cases h
    · rename_i km hkm
      split at h
      · cases h
      · rename_i kvs w2 hmark
        split at h
        · cases h
        · rename_i w4 hest
          simp only [Except.ok.injEq, Prod.mk.injEq] at h
          have hw := work_estimate_fields _ _ _ _ hest
          rw [work_finish_fields] at hw
          obtain ⟨f1, f2, f3⟩ := work_finish_nodes
            (tree_set_node tree idx
              { tn with tn_busycnt := tn.tn_busycnt + (65536 + p.kvsets), tn_kvset_list := kvs })
            idx p.action
            { w2 with cw_compc := sp3_work_compc kvs m km, cw_ns := tn.tn_ns,
                      cw_node := some idx, cw_kvset_cnt := p.kvsets, cw_mark := p.mark,
                      cw_action := p.action, cw_rule := p.rule, cw_debug := debug,
                      cw_have_token := have_token, cw_t0_enqueue := now }
          refine ⟨m, km, kvs, w2, hm, hkm, hm ▸ hmark, ?_, ?_, ?_, ?_, ?_, ?_, ?_, ?_⟩
          · rw [← h.1, f3 hjoin, tree_set_node_get, if_pos rfl, if_pos hidx]
          · rw [← h.2, hw]
          · rw [← h.2, hw]
          · rw [← h.2, hw]
          · rw [← h.2, hw]
          · rw [← h.2, hw]
          · rw [← h.1, f1, tree_set_node_length]
          · intro j hj
            rw [← h.1, f2 j, tree_set_node_get, if_neg (Ne.symm hj)]

/-! ## The planners leave the kvsets and the busy counts as they are -/

theorem plan_ok_root (V : Nat) (tn : cn_tree_node) (thresh : sp3_thresholds) :
    plan_ok true (sp3_work_wtype_root V tn thresh) := by
  have ha : (sp3_work_wtype_root V tn thresh).action = cn_action.CN_ACTION_SPILL := by
    unfold sp3_work_wtype_root
    split
    · rfl
    · dsimp only
      split_ifs <;> rfl
  refine ⟨fun _ => ?_, fun _ => rfl, ?_⟩ <;> rw [ha] <;> decide

theorem plan_ok_idle (V : Nat) (isroot : Bool) (tn : cn_tree_node) (thresh : sp3_thresholds)
    (p : wplan) (hp : p.action = cn_action.CN_ACTION_NONE) :
    plan_ok isroot (sp3_work_wtype_idle V isroot tn thresh p) := by
  unfold sp3_work_wtype_idle plan_ok
  dsimp only
  split_ifs with h1 <;> simp_all

theorem plan_ok_garbage (V : Nat) (isroot : Bool) (tn : cn_tree_node) (thresh : sp3_thresholds)
    (p : wplan) (hp : p.action = cn_action.CN_ACTION_NONE) :
    plan_ok isroot (sp3_work_wtype_garbage V isroot tn thresh p) := by
  have h := plan_ok_idle V isroot tn thresh p hp
  unfold sp3_work_wtype_garbage
  dsimp only
  split_ifs with h1
  · exact h
  · unfold plan_ok
    simp

theorem plan_ok_scatter (tn : cn_tree_node) (thresh : sp3_thresholds) (q : wplan)
    (h : sp3_work_wtype_scatter tn thresh = Except.ok q) : plan_ok false q := by
  have ha : q.action = cn_action.CN_ACTION_COMPACT_KV := by
    unfold sp3_work_wtype_scatter at h
    dsimp only at h
    split_ifs at h
    · split at h
      · split at h
        · split at h
          · split_ifs at h <;> cases h <;> rfl
          · cases h
        · cases h
          rfl
      · cases h
    · cases h
      rfl
  unfold plan_ok
  rw [ha]
  simp

theorem plan_ok_length (V : Nat) (tn : cn_tree_node) (thresh : sp3_thresholds) (p q : wplan)
    (hp : p.action = cn_action.CN_ACTION_NONE)
    (h : sp3_work_wtype_length V tn thresh p = Except.ok q) : plan_ok false q := by
  have hf : ∀ rule0 s, plan_ok false (length_finish V tn thresh rule0 s) := by
    intro rule0 s
    unfold length_finish plan_ok
    dsimp only
    split_ifs <;> simp
  unfold sp3_work_wtype_length at h
  dsimp only at h
  by_cases h0 : tn.tn_ns.ns_kvsets ≥ thresh.llen_runlen_min
  · rw [if_pos h0] at h
    split at h
    · cases h
    · cases h
      exact hf _ _
  · rw [if_neg h0] at h
    cases h
    unfold plan_ok
    simp [hp]

theorem tree_busy_set (t : cn_tree) (i : Nat) (n : cn_tree_node)
    (h : ∀ old, t.ct_nodes[i]? = some old → n.tn_busycnt = old.tn_busycnt) :
    tree_busy (tree_set_node t i n) = tree_busy t := by
  unfold tree_busy tree_set_node
  apply List.ext_getElem?
  intro j
  simp only [List.getElem?_map, List.getElem?_set]
  by_cases hij : i = j
  · subst hij
    rw [if_pos rfl]
    by_cases hlt : i < t.ct_nodes.length
    · rw [if_pos hlt, List.getElem?_eq_getElem hlt]
      have := h _ (List.getElem?_eq_getElem hlt)
      simp [this]
    · rw [if_neg hlt, List.getElem?_eq_none (by omega)]
  · rw [if_neg hij]

theorem tree_busy_get (t : cn_tree) (j : Nat) :
    (tree_busy t)[j]? = (t.ct_nodes[j]?).map cn_tree_node.tn_busycnt := by
  simp [tree_busy]

theorem tree_busy_length (t t1 : cn_tree) (h : tree_busy t1 = tree_busy t) :
    t1.ct_nodes.length = t.ct_nodes.length := by
  have := congrArg List.length h
  simpa [tree_busy] using this

theorem split_frame (F jclock_ns : Nat) (tree : cn_tree) (tn : cn_tree_node)
    (thresh : sp3_thresholds) :
    (sp3_work_wtype_split F jclock_ns tree tn thresh).1.ct_nodes = tree.ct_nodes ∧
    node_keep (sp3_work_wtype_split F jclock_ns tree tn thresh).2.1 tn ∧
    (sp3_work_wtype_split F jclock_ns tree tn thresh).2.2.action = cn_action.CN_ACTION_SPLIT := by
  unfold sp3_work_wtype_split node_keep split_cnt_inc
  dsimp only
  split_ifs <;> exact ⟨rfl, ⟨rfl, rfl, rfl, rfl⟩, rfl⟩

theorem split_cnt_inc_nodes (jclock_ns : Nat) (tree : cn_tree) (thresh : sp3_thresholds) :
    (split_cnt_inc jclock_ns tree thresh).ct_nodes = tree.ct_nodes := by
  unfold split_cnt_inc
  dsimp only
  split_ifs <;> rfl

theorem joinable_some (tree : cn_tree) (idx l : Nat) (thresh : sp3_thresholds)
    (h : sp3_work_joinable tree idx thresh = some l) :
    idx ≠ 0 ∧ l = idx - 1 := by
  unfold sp3_work_joinable at h
  cases hr : tree.ct_nodes[idx]? with
  | none => rw [hr] at h; cases h
  | some right =>
    rw [hr] at h
    dsimp only at h
    by_cases h1 : (!right.spn_initialized || right.tn_ss_splitting) = true
    · rw [if_pos h1] at h; cases h
    · rw [if_neg h1] at h
      by_cases h2 : idx = 0
      · rw [if_pos h2] at h; cases h
      · rw [if_neg h2] at h
        refine ⟨h2, ?_⟩
        cases hl : tree.ct_nodes[idx - 1]? with
        | none => rw [hl] at h; cases h
        | some left =>
          rw [hl] at h
          dsimp only at h
          split_ifs at h <;> exact (Option.some.inj h).symm

theorem joinable_left_some (tree : cn_tree) (idx l : Nat) (left : cn_tree_node)
    (thresh : sp3_thresholds) (h : joinable_left tree idx thresh = some (l, left)) :
    idx ≠ 0 ∧ l = idx - 1 ∧ tree.ct_nodes[idx - 1]? = some left ∧
    sp3_work_joinable tree idx thresh = some (idx - 1) := by
  unfold joinable_left at h
  cases hj : sp3_work_joinable tree idx thresh with
  | none => rw [hj] at h; cases h
  | some l1 =>
    rw [hj] at h
    dsimp only at h
    obtain ⟨h0, h1⟩ := joinable_some tree idx l1 thresh hj
    cases hl : tree.ct_nodes[l1]? with
    | none => rw [hl] at h; cases h
    | some left1 =>
      rw [hl] at h
      simp only [Option.some.injEq, Prod.mk.injEq] at h
      obtain ⟨e1, e2⟩ := h
      subst e1 e2 h1
      exact ⟨h0, rfl, hl, rfl⟩

theorem join_request_frame (jclock_ns : Nat) (tree : cn_tree) (left tn : cn_tree_node)
    (thresh : sp3_thresholds) (mark : le_ptr) (spilling : Bool) :
    (join_request jclock_ns tree left tn thresh mark spilling).1.ct_nodes = tree.ct_nodes ∧
    (join_request jclock_ns tree left tn thresh mark spilling).2.1.tn_busycnt = left.tn_busycnt ∧
    node_keep (join_request jclock_ns tree left tn thresh mark spilling).2.2.1 tn := by
  unfold join_request node_keep cn_node_comp_token_get
  split_ifs <;> simp [split_cnt_inc_nodes]

theorem join_frame (jclock_ns : Nat) (tree tree1 : cn_tree) (idx : Nat) (tn : cn_tree_node)
    (thresh : sp3_thresholds) (q : wplan) (htn : tree.ct_nodes[idx]? = some tn)
    (h : sp3_work_wtype_join jclock_ns tree idx thresh = Except.ok (tree1, q)) :
    idx ≠ 0 ∧ q.action = cn_action.CN_ACTION_JOIN ∧ tree_busy tree1 = tree_busy tree ∧
    ∃ tn1, tree1.ct_nodes[idx]? = some tn1 ∧ node_keep tn1 tn := by
  have hidx : idx < tree.ct_nodes.length := (List.getElem?_eq_some.1 htn).1
  unfold sp3_work_wtype_join at h
  rw [htn] at h
  dsimp only at h
  cases hj : joinable_left tree idx thresh with
  | some ll =>
    obtain ⟨l, left⟩ := ll
    rw [hj] at h
    dsimp only at h
    obtain ⟨h0, hl, hleft, _⟩ := joinable_left_some tree idx l left thresh hj
    subst hl
    simp only [Except.ok.injEq, Prod.mk.injEq] at h
    obtain ⟨ht, hq⟩ := h
    obtain ⟨f1, f2, f3⟩ := join_request_frame jclock_ns tree left tn thresh
      (list_last_entry_or_null tn.tn_kvset_list)
      (decide (left.tn_ss_spilling ≠ 0) || decide (tn.tn_ss_spilling ≠ 0))
    refine ⟨h0, by rw [← hq], ?_, ?_⟩
    · rw [← ht, tree_busy_set, tree_busy_set]
      · unfold tree_busy
        rw [f1]
      · intro old hold
        rw [f1, hleft] at hold
        cases hold
        exact f2
      · intro old hold
        rw [tree_set_node_get, if_neg (by omega), f1, htn] at hold
        cases hold
        exact f3.2.1
    · rw [← ht, tree_set_node_get, if_pos rfl, tree_set_node_length, f1, if_pos hidx]
      exact ⟨_, rfl, f3⟩
  | none =>
    rw [hj] at h
    dsimp only at h
    by_cases h1 : tn.tn_ss_joining ≠ 0
    · rw [if_pos h1] at h
      by_cases h2 : idx = 0
      · rw [if_pos h2] at h; cases h
      · rw [if_neg h2] at h
        cases hleft : tree.ct_nodes[idx - 1]? with
        | none => rw [hleft] at h; cases h
        | some left =>
          rw [hleft] at h
          dsimp only at h
          split_ifs at h
          simp only [Except.ok.injEq, Prod.mk.injEq] at h
          obtain ⟨ht, hq⟩ := h
          refine ⟨h2, by rw [← hq], ?_, ?_⟩
          · rw [← ht, tree_busy_set, tree_busy_set]
            · rfl
            · intro old hold
              have hold1 : tree.ct_nodes[idx - 1]? = some old := hold
              rw [hleft] at hold1
              cases hold1
              rfl
            · intro old hold
              rw [tree_set_node_get, if_neg (by omega)] at hold
              have hold1 : tree.ct_nodes[idx]? = some old := hold
              rw [htn] at hold1
              cases hold1
              rfl
          · rw [← ht, tree_set_node_get, if_pos rfl, tree_set_node_length]
            have hlen : idx <
                ({ tree with ct_split_cnt := tree.ct_split_cnt - 1 } : cn_tree).ct_nodes.length :=
              hidx
            rw [if_pos hlen]
            exact ⟨_, rfl, rfl, rfl, rfl, rfl⟩
    · rw [if_neg h1] at h
      cases h

theorem node_keep_refl (tn : cn_tree_node) : node_keep tn tn :=
  ⟨rfl, rfl, rfl, rfl⟩

/-- What the planning part of `sp3_work` guarantees: the busy counts of all
nodes, and the kvsets, token and statistics of the planned node, are as
before; a run that is not empty has an action; a spill is planned for a root
only and a join for a leaf only. -/
theorem work_plan_frame (E : sp3_env) (jclock_ns : Nat) (tree tree1 : cn_tree) (idx : Nat)
    (tn : cn_tree_node) (wtype : sp3_work_type) (thresh : sp3_thresholds) (p : wplan)
    (resched : Bool) (htn : tree.ct_nodes[idx]? = some tn)
    (h : sp3_work_plan E jclock_ns tree idx tn wtype thresh =
      Except.ok (some (tree1, p, resched))) :
    tree_busy tree1 = tree_busy tree ∧
    (∃ tn1, tree1.ct_nodes[idx]? = some tn1 ∧ node_keep tn1 tn) ∧
    (p.kvsets ≠ 0 → p.action ≠ cn_action.CN_ACTION_NONE) ∧
    (p.action = cn_action.CN_ACTION_SPILL → cn_node_isroot idx = true) ∧
    (p.action = cn_action.CN_ACTION_JOIN → idx ≠ 0) := by
  have hidx : idx < tree.ct_nodes.length := (List.getElem?_eq_some.1 htn).1
  have fin : ∀ (b : Bool) (q : wplan), cn_node_isroot idx = b → plan_ok b q →
      (q.kvsets ≠ 0 → q.action ≠ cn_action.CN_ACTION_NONE) ∧
      (q.action = cn_action.CN_ACTION_SPILL → cn_node_isroot idx = true) ∧
      (q.action = cn_action.CN_ACTION_JOIN → idx ≠ 0) := by
    intro b q hb hq
    exact ⟨hq.1, fun ha => hb ▸ hq.2.1 ha, fun ha => absurd ha hq.2.2⟩
  unfold sp3_work_plan at h
  dsimp only at h
  by_cases hroot : cn_node_isroot idx = true
  · rw [if_pos hroot] at h
    by_cases hw : (tree.ct_rspills_wedged && !sp3_node_is_idle tn) = true
    · rw [if_pos hw] at h
      cases h
    · rw [if_neg hw] at h
      cases wtype with
      | wtype_root =>
        simp only [Except.ok.injEq, Option.some.injEq, Prod.mk.injEq] at h
        obtain ⟨h1, h2, _⟩ := h
        subst h1 h2
        exact ⟨rfl, ⟨tn, htn, node_keep_refl tn⟩, fin true _ hroot (plan_ok_root _ _ _)⟩
      | wtype_idle =>
        simp only [Except.ok.injEq, Option.some.injEq, Prod.mk.injEq] at h
        obtain ⟨h1, h2, _⟩ := h
        subst h1 h2
        exact ⟨rfl, ⟨tn, htn, node_keep_refl tn⟩, fin true _ hroot (plan_ok_idle _ _ _ _ _ rfl)⟩
      | _ => cases h
  · rw [if_neg hroot] at h
    have hleaf : cn_node_isroot idx = false := by simpa using hroot
    cases wtype
    · cases h
    · dsimp only at h
      split at h
      · cases h
      · rename_i q hq
        simp only [Except.ok.injEq, Option.some.injEq, Prod.mk.injEq] at h
        obtain ⟨h1, h2, _⟩ := h
        subst h1 h2
        exact ⟨rfl, ⟨tn, htn, node_keep_refl tn⟩, fin false _ hleaf (plan_ok_length _ _ _ _ _ rfl hq)⟩
    · simp only [Except.ok.injEq, Option.some.injEq, Prod.mk.injEq] at h
      obtain ⟨h1, h2, _⟩ := h
      subst h1 h2
      exact ⟨rfl, ⟨tn, htn, node_keep_refl tn⟩, fin false _ hleaf (plan_ok_idle _ _ _ _ _ rfl)⟩
    · simp only [Except.ok.injEq, Option.some.injEq, Prod.mk.injEq] at h
      obtain ⟨h1, h2, _⟩ := h
      subst h1 h2
      exact ⟨rfl, ⟨tn, htn, node_keep_refl tn⟩, fin false _ hleaf (plan_ok_garbage _ _ _ _ _ rfl)⟩
    · dsimp only at h
      split at h
      · cases h
      · rename_i q hq
        simp only [Except.ok.injEq, Option.some.injEq, Prod.mk.injEq] at h
        obtain ⟨h1, h2, _⟩ := h
        subst h1 h2
        exact ⟨rfl, ⟨tn, htn, node_keep_refl tn⟩, fin false _ hleaf (plan_ok_scatter _ _ _ hq)⟩
    · simp only [Except.ok.injEq, Option.some.injEq, Prod.mk.injEq] at h
      obtain ⟨h1, h2, _⟩ := h
      obtain ⟨f1, f2, f3⟩ := split_frame E.CN_FANOUT_MAX jclock_ns tree tn thresh
      subst h1 h2
      refine ⟨?_, ?_, ?_, ?_, ?_⟩
      · rw [tree_busy_set]
        · unfold tree_busy
          rw [f1]
        · intro old hold
          rw [f1, htn] at hold
          cases hold
          exact f2.2.1
      · rw [tree_set_node_get, if_pos rfl, f1, if_pos hidx]
        exact ⟨_, rfl, f2⟩
      · intro _
        rw [f3]
        decide
      · intro ha
        rw [f3] at ha
        cases ha
      · intro ha
        rw [f3] at ha
        cases ha
    · dsimp only at h
      split at h
      · cases h
      · rename_i r hr
        simp only [Except.ok.injEq, Option.some.injEq, Prod.mk.injEq] at h
        obtain ⟨h1, h2, _⟩ := h
        obtain ⟨g0, g1, g2, g3⟩ := join_frame jclock_ns tree r.1 idx tn thresh r.2 htn hr
        subst h1 h2
        refine ⟨g2, g3, ?_, ?_, ?_⟩
        · intro _
          rw [g1]
          decide
        · intro ha
          rw [g1] at ha
          cases ha
        · intro _
          exact g0

/-! ## The two outcomes of sp3_work -/

theorem work_nowork_spec (tree : cn_tree) (idx : Nat) (tn1 : cn_tree_node)
    (w : cn_compaction_work) (h1 : tree.ct_nodes[idx]? = some tn1) :
    sp3_work_nowork tree idx true w = (tree_set_node tree idx (cn_node_comp_token_put tn1), w) := by
  unfold sp3_work_nowork
  rw [h1]
  rfl

/-- The two outcomes of a call of `sp3_work` that returns.  Either no work
item is produced: the busy counts, and the kvsets, token and statistics of
the node, are as before the call.  Or a work item is produced for a plan `p`
of the planner: the token was free, the run is not empty, the kvsets of the
run are marked by the marking loop, `2^16 + n` is added to the busy count of
the node, the token is held exactly when the action is not a spill, a spill was
planned for a root with at most two active jobs and any other action for a
node whose busy count was zero, and the busy counts of the other nodes are as
before the call. -/
theorem sp3_work_cases (E : sp3_env) (jclock_ns now : Nat) (tree tree1 : cn_tree) (idx : Nat)
    (wtype : sp3_work_type) (thresh : sp3_thresholds) (debug : Nat)
    (w w1 : cn_compaction_work) (tn0 : cn_tree_node)
    (htn : tree.ct_nodes[idx]? = some tn0)
    (h : sp3_work E jclock_ns now tree idx wtype thresh debug w = Except.ok (tree1, w1)) :
    (w1.cw_action = cn_action.CN_ACTION_NONE ∧ tree_busy tree1 = tree_busy tree ∧
      ∃ tn1, tree1.ct_nodes[idx]? = some tn1 ∧ node_keep tn1 tn0) ∨
    (tn0.tn_compacting = false ∧
      ∃ (p : wplan) (m : Nat) (km : kvset) (kvs : List kvset) (wa w2 : cn_compaction_work)
        (tn1 : cn_tree_node) (tree2 : cn_tree) (resched : Bool),
        sp3_work_plan E jclock_ns (tree_set_node tree idx (cn_node_comp_token_get tn0).2) idx
          (cn_node_comp_token_get tn0).2 wtype thresh = Except.ok (some (tree2, p, resched)) ∧
        p.kvsets ≠ 0 ∧ p.action ≠ cn_action.CN_ACTION_NONE ∧ p.mark = le_ptr.entry m ∧
        w1.cw_action = p.action ∧ w1.cw_kvset_cnt = p.kvsets ∧ w1.cw_mark = p.mark ∧
        w1.cw_rule = p.rule ∧
        w1.cw_have_token = decide (p.action ≠ cn_action.CN_ACTION_SPILL) ∧
        tn0.tn_kvset_list[m]? = some km ∧
        sp3_mark_kvsets km.dgen p.kvsets (le_ptr.entry m) tn0.tn_kvset_list wa =
          Except.ok (kvs, w2) ∧
        tree1.ct_nodes[idx]? = some tn1 ∧
        tn1.tn_busycnt = tn0.tn_busycnt + (65536 + p.kvsets) ∧
        tn1.tn_kvset_list = kvs ∧
        tn1.tn_compacting = decide (p.action ≠ cn_action.CN_ACTION_SPILL) ∧
        (p.action = cn_action.CN_ACTION_SPILL →
          cn_node_isroot idx = true ∧ tn0.tn_busycnt / 65536 ≤ 2) ∧
        (p.action ≠ cn_action.CN_ACTION_SPILL → tn0.tn_busycnt = 0) ∧
        tree1.ct_nodes.length = tree.ct_nodes.length ∧
        (∀ j : Nat, j ≠ idx → (tree1.ct_nodes[j]?).map cn_tree_node.tn_busycnt =
          (tree.ct_nodes[j]?).map cn_tree_node.tn_busycnt)) := by
  have hidx : idx < tree.ct_nodes.length := (List.getElem?_eq_some.1 htn).1
  unfold sp3_work at h
  rw [htn] at h
  dsimp only at h
  by_cases htok : (cn_node_comp_token_get tn0).1 = false
  · rw [if_pos htok] at h
    simp only [Except.ok.injEq, Prod.mk.injEq] at h
    left
    rw [← h.1, ← h.2]
    exact ⟨rfl, rfl, tn0, htn, node_keep_refl tn0⟩
  · rw [if_neg htok] at h
    have hfree : tn0.tn_compacting = false := by
      unfold cn_node_comp_token_get at htok
      split_ifs at htok with hc
      · exact absurd rfl htok
      · simpa using hc
    have htn2 : (cn_node_comp_token_get tn0).2 = { tn0 with tn_compacting := true } := by
      unfold cn_node_comp_token_get
      rw [hfree]
      rfl
    have hb0 : tree_busy (tree_set_node tree idx (cn_node_comp_token_get tn0).2) =
        tree_busy tree := by
      apply tree_busy_set
      intro old hold
      rw [htn] at hold
      cases hold
      rw [htn2]
    have hn0 : (tree_set_node tree idx (cn_node_comp_token_get tn0).2).ct_nodes[idx]? =
        some (cn_node_comp_token_get tn0).2 := by
      rw [tree_set_node_get, if_pos rfl, if_pos hidx]
    have nowork : ∀ (t : cn_tree) (tn1 : cn_tree_node) (wx : cn_compaction_work),
        tree_busy t = tree_busy tree → t.ct_nodes[idx]? = some tn1 →
        node_keep tn1 (cn_node_comp_token_get tn0).2 →
        wx.cw_action = cn_action.CN_ACTION_NONE →
        (Except.ok (sp3_work_nowork t idx true wx) :
          Except sp3_fault (cn_tree × cn_compaction_work)) = Except.ok (tree1, w1) →
        (w1.cw_action = cn_action.CN_ACTION_NONE ∧ tree_busy tree1 = tree_busy tree ∧
          ∃ tn1, tree1.ct_nodes[idx]? = some tn1 ∧ node_keep tn1 tn0) := by
      intro t tn1 wx hbt hget hkeep hact heq
      rw [work_nowork_spec t idx tn1 wx hget] at heq
      simp only [Except.ok.injEq, Prod.mk.injEq] at heq
      rw [← heq.1, ← heq.2]
      refine ⟨hact, ?_, ?_⟩
      · rw [tree_busy_set, hbt]
        intro old hold
        rw [hget] at hold
        cases hold
        rfl
      · have hl : idx < t.ct_nodes.length := (List.getElem?_eq_some.1 hget).1
        rw [tree_set_node_get, if_pos rfl, if_pos hl]
        refine ⟨_, rfl, ?_⟩
        rw [htn2] at hkeep
        exact ⟨hkeep.1, hkeep.2.1, hfree.symm ▸ rfl, hkeep.2.2.2⟩
    by_cases hmd : ((tree_set_node tree idx (cn_node_comp_token_get tn0).2).cn_maint_disable &&
        !(cn_node_comp_token_get tn0).2.tn_ss_splitting &&
        decide ((cn_node_comp_token_get tn0).2.tn_ss_joining = 0)) = true
    · rw [if_pos hmd] at h
      exact Or.inl (nowork _ _ _ hb0 hn0 (node_keep_refl _) rfl h)
    · rw [if_neg hmd] at h
      cases hplan : sp3_work_plan E jclock_ns (tree_set_node tree idx (cn_node_comp_token_get tn0).2)
          idx (cn_node_comp_token_get tn0).2 wtype thresh with
      | error e => rw [hplan] at h; cases h
      | ok r =>
        rw [hplan] at h
        cases r with
        | none => exact Or.inl (nowork _ _ _ hb0 hn0 (node_keep_refl _) rfl h)
        | some r =>
          obtain ⟨tree2, p, resched⟩ := r
          dsimp only at h
          obtain ⟨g1, ⟨tn1, g2, g3⟩, g4, g5, g6⟩ :=
            work_plan_frame E jclock_ns _ tree2 idx _ wtype thresh p resched hn0 hplan
          rw [g2] at h
          dsimp only at h
          have hb2 : tree_busy tree2 = tree_busy tree := g1.trans hb0
          have hlen2 : tree2.ct_nodes.length = tree.ct_nodes.length := tree_busy_length _ _ hb2
          have hk1 : tn1.tn_kvset_list = tn0.tn_kvset_list := by rw [g3.1, htn2]
          have hk2 : tn1.tn_busycnt = tn0.tn_busycnt := by rw [g3.2.1, htn2]
          have hk3 : tn1.tn_compacting = true := by rw [g3.2.2.1, htn2]
          have others : ∀ (t : cn_tree), (∀ j : Nat, j ≠ idx →
              (t.ct_nodes[j]?).map cn_tree_node.tn_busycnt =
                (tree2.ct_nodes[j]?).map cn_tree_node.tn_busycnt) →
              ∀ j : Nat, j ≠ idx → (t.ct_nodes[j]?).map cn_tree_node.tn_busycnt =
                (tree.ct_nodes[j]?).map cn_tree_node.tn_busycnt := by
            intro t ht j hj
            rw [ht j hj, ← tree_busy_get, ← tree_busy_get, hb2]
          by_cases hz : p.kvsets = 0
          · rw [if_pos hz] at h
            exact Or.inl (nowork _ _ _ hb2 g2 g3 rfl h)
          · rw [if_neg hz] at h
            by_cases hs : p.action = cn_action.CN_ACTION_SPILL
            · rw [if_pos hs] at h
              by_cases hr : cn_node_isroot idx = false
              · rw [if_pos hr] at h; cases h
              · rw [if_neg hr] at h
                by_cases hbusy : tn1.tn_busycnt / 65536 > 2
                · rw [if_pos hbusy] at h
                  exact Or.inl (nowork _ _ _ hb2 g2 g3 rfl h)
                · rw [if_neg hbusy] at h
                  obtain ⟨m, km, kvs, w2, c1, c2, c3, c4, c5, c6, c7, c8, c9, c10, c11⟩ :=
                    work_commit_spec now tree2 tree1 idx _ p false debug _ w1
                      (by omega) g6 h
                  simp only [cn_node_comp_token_put] at c2 c3 c4
                  rw [hk1] at c2 c3
                  rw [c1] at c3
                  rw [hk2] at c4
                  refine Or.inr ⟨hfree, p, m, km, kvs, _, w2, _, tree2, resched, rfl, hz, g4 hz,
                    c1, c5, c6, c8, c9, ?_, c2, c3, c4, rfl, rfl, ?_, ?_, ?_, by omega,
                    others _ c11⟩
                  · rw [c7, hs]; rfl
                  · rw [hs]; rfl
                  · intro _
                    refine ⟨by simpa using hr, ?_⟩
                    rw [← hk2]
                    omega
                  · intro hc
                    exact absurd hs hc
            · rw [if_neg hs] at h
              by_cases ha : p.action = cn_action.CN_ACTION_NONE
              · rw [if_pos ha] at h; cases h
              · rw [if_neg ha] at h
                by_cases hb : tn1.tn_busycnt ≠ 0
                · rw [if_pos hb] at h; cases h
                · rw [if_neg hb] at h
                  by_cases hsp : p.action ≠ cn_action.CN_ACTION_SPLIT ∧ tn1.tn_ss_splitting = true
                  · rw [if_pos hsp] at h
                    exact Or.inl (nowork _ _ _ hb2 g2 g3 rfl h)
                  · rw [if_neg hsp] at h
                    by_cases hjo : p.action ≠ cn_action.CN_ACTION_JOIN ∧ tn1.tn_ss_joining ≠ 0
                    · rw [if_pos hjo] at h
                      exact Or.inl (nowork _ _ _ hb2 g2 g3 rfl h)
                    · rw [if_neg hjo] at h
                      obtain ⟨m, km, kvs, w2, c1, c2, c3, c4, c5, c6, c7, c8, c9, c10, c11⟩ :=
                        work_commit_spec now tree2 tree1 idx _ p true debug _ w1
                          (by omega) g6 h
                      rw [hk1] at c2 c3
                      rw [c1] at c3
                      rw [hk2] at c4
                      refine Or.inr ⟨hfree, p, m, km, kvs, _, w2, _, tree2, resched, rfl, hz,
                        g4 hz, c1, c5, c6, c8, c9, ?_, c2, c3, c4, rfl, rfl, ?_, ?_, ?_, by omega,
                        others _ c11⟩
                      · rw [c7]; simp [hs]
                      · show tn1.tn_compacting = _
                        rw [hk3]; simp [hs]
                      · intro hc
                        exact absurd hc hs
                      · intro _
                        rw [← hk2]
                        simpa using hb

/-! ## Claims about sp3_work -/

/-- C5: whenever `sp3_work` produces a work item of `n = cw_kvset_cnt` kvsets
on the node at position `idx`, the busy count of that node is increased by
exactly `2^16 + n`, and exactly the `n` kvsets from the marked kvset (position
`m`) toward the newer ones (positions `m + 1 - n` to `m`) have their workid
changed from 0 to the dgen of the marked kvset; every other kvset of the node
is left as it is. -/
theorem C5_work_marks_kvsets (E : sp3_env) (jclock_ns now : Nat) (tree tree1 : cn_tree)
    (idx : Nat) (wtype : sp3_work_type) (thresh : sp3_thresholds) (debug : Nat)
    (w w1 : cn_compaction_work) (tn0 : cn_tree_node)
    (htn : tree.ct_nodes[idx]? = some tn0)
    (h : sp3_work E jclock_ns now tree idx wtype thresh debug w = Except.ok (tree1, w1))
    (hwork : w1.cw_action ≠ cn_action.CN_ACTION_NONE) :
    ∃ (tn1 : cn_tree_node) (m : Nat) (km : kvset),
      tree1.ct_nodes[idx]? = some tn1 ∧ w1.cw_mark = le_ptr.entry m ∧
      tn0.tn_kvset_list[m]? = some km ∧
      tn1.tn_busycnt = tn0.tn_busycnt + (2 ^ 16 + w1.cw_kvset_cnt) ∧
      1 ≤ w1.cw_kvset_cnt ∧ w1.cw_kvset_cnt ≤ m + 1 ∧
      tn1.tn_kvset_list.length = tn0.tn_kvset_list.length ∧
      (∀ i : Nat, m + 1 - w1.cw_kvset_cnt ≤ i → i ≤ m →
        ∃ k, tn0.tn_kvset_list[i]? = some k ∧ k.workid = 0 ∧
          tn1.tn_kvset_list[i]? = some { k with workid := km.dgen }) ∧
      (∀ i : Nat, (i < m + 1 - w1.cw_kvset_cnt ∨ m < i) →
        tn1.tn_kvset_list[i]? = tn0.tn_kvset_list[i]?) := by
  rcases sp3_work_cases E jclock_ns now tree tree1 idx wtype thresh debug w w1 tn0 htn h with
    hn | ⟨_, p, m, km, kvs, wa, w2, tn1, tree2, resched, _, hz, _, hm, _, hcnt, hmark, _, _, hkm,
      hloop, hget, hbusy, hlist, _⟩
  · exact absurd hn.1 hwork
  · obtain ⟨n, hn⟩ : ∃ n, p.kvsets = n + 1 := ⟨p.kvsets - 1, by omega⟩
    rw [hn] at hloop
    obtain ⟨a, b, c, d, e⟩ := mark_kvsets_spec km.dgen n m tn0.tn_kvset_list kvs wa w2 hloop
    refine ⟨tn1, m, km, hget, by rw [hmark, hm], hkm, ?_, by omega, by omega, ?_, ?_, ?_⟩
    · rw [hbusy, hcnt]
      rfl
    · rw [hlist, c]
    · intro i h1 h2
      rw [hlist]
      exact d i (by omega) h2
    · intro i hi
      rw [hlist]
      exact e i (by omega)

/-- C5, instance: a root with two small unclaimed kvsets, planned as a tiny
spill of both. -/
theorem C5_work_marks_kvsets_witness :
    ∃ (tree1 : cn_tree) (w1 : cn_compaction_work),
      sp3_work env_example 0 0
        { ct_nodes := [{ tn_kvset_list := [{ dgen := 2 }, { dgen := 1 }],
                         tn_ns := { ns_kvsets := 2, ns_samp := 100 } }] }
        0 sp3_work_type.wtype_root
          { rspill_runlen_min := 1, rspill_runlen_max := 2, rspill_wlen_max := 1073741824 }
          0 {} =
        Except.ok (tree1, w1) ∧
      ∃ (tn1 : cn_tree_node) (m : Nat) (km : kvset),
        tree1.ct_nodes[0]? = some tn1 ∧ w1.cw_mark = le_ptr.entry m ∧
        ([{ dgen := 2 }, { dgen := 1 }] : List kvset)[m]? = some km ∧
        tn1.tn_busycnt = 0 + (2 ^ 16 + w1.cw_kvset_cnt) ∧
        1 ≤ w1.cw_kvset_cnt ∧ w1.cw_kvset_cnt ≤ m + 1 ∧
        tn1.tn_kvset_list.length = ([{ dgen := 2 }, { dgen := 1 }] : List kvset).length ∧
        (∀ i : Nat, m + 1 - w1.cw_kvset_cnt ≤ i → i ≤ m →
          ∃ k, ([{ dgen := 2 }, { dgen := 1 }] : List kvset)[i]? = some k ∧ k.workid = 0 ∧
            tn1.tn_kvset_list[i]? = some { k with workid := km.dgen }) ∧
        (∀ i : Nat, (i < m + 1 - w1.cw_kvset_cnt ∨ m < i) →
          tn1.tn_kvset_list[i]? = ([{ dgen := 2 }, { dgen := 1 }] : List kvset)[i]?) :=
  ⟨_, _, rfl,
    C5_work_marks_kvsets env_example 0 0
      { ct_nodes := [{ tn_kvset_list := [{ dgen := 2 }, { dgen := 1 }],
                       tn_ns := { ns_kvsets := 2, ns_samp := 100 } }] }
      _ 0 sp3_work_type.wtype_root
        { rspill_runlen_min := 1, rspill_runlen_max := 2, rspill_wlen_max := 1073741824 }
        0 {} _
      _ rfl rfl (by decide)⟩

/-- C6: when `sp3_work` produces a work item, the work item holds the
compaction token of the node (`cw_have_token`, and the token of the node is
taken) if and only if the action is not a spill; when it produces no work
item, the token of the node is as it was before the call, so that a token the
call acquired has been released. -/
theorem C6_work_token (E : sp3_env) (jclock_ns now : Nat) (tree tree1 : cn_tree)
    (idx : Nat) (wtype : sp3_work_type) (thresh : sp3_thresholds) (debug : Nat)
    (w w1 : cn_compaction_work) (tn0 : cn_tree_node)
    (htn : tree.ct_nodes[idx]? = some tn0)
    (h : sp3_work E jclock_ns now tree idx wtype thresh debug w = Except.ok (tree1, w1)) :
    ∃ tn1 : cn_tree_node, tree1.ct_nodes[idx]? = some tn1 ∧
      (w1.cw_action ≠ cn_action.CN_ACTION_NONE →
        tn0.tn_compacting = false ∧
        (w1.cw_have_token = true ↔ w1.cw_action ≠ cn_action.CN_ACTION_SPILL) ∧
        (tn1.tn_compacting = true ↔ w1.cw_action ≠ cn_action.CN_ACTION_SPILL)) ∧
      (w1.cw_action = cn_action.CN_ACTION_NONE → tn1.tn_compacting = tn0.tn_compacting) := by
  rcases sp3_work_cases E jclock_ns now tree tree1 idx wtype thresh debug w w1 tn0 htn h with
    ⟨hn, _, tn1, hget, hkeep⟩ | ⟨hfree, p, m, km, kvs, wa, w2, tn1, tree2, resched, _, hz, hne,
      hm, hact, _, _, _, htok, _, _, hget, _, _, hcomp, _⟩
  · exact ⟨tn1, hget, fun hc => absurd hn hc, fun _ => hkeep.2.2.1⟩
  · refine ⟨tn1, hget, fun _ => ⟨hfree, ?_, ?_⟩, fun hc => ?_⟩
    · rw [htok, hact]
      simp
    · rw [hcomp, hact]
      simp
    · rw [hact] at hc
      exact absurd hc hne

/-- C6, instance: the tiny root spill of the instance of C5 does not hold the
token. -/
theorem C6_work_token_witness :
    ∃ (tree1 : cn_tree) (w1 : cn_compaction_work),
      sp3_work env_example 0 0
        { ct_nodes := [{ tn_kvset_list := [{ dgen := 2 }, { dgen := 1 }],
                         tn_ns := { ns_kvsets := 2, ns_samp := 100 } }] }
        0 sp3_work_type.wtype_root
          { rspill_runlen_min := 1, rspill_runlen_max := 2, rspill_wlen_max := 1073741824 }
          0 {} =
        Except.ok (tree1, w1) ∧
      ∃ tn1 : cn_tree_node, tree1.ct_nodes[0]? = some tn1 ∧
        (w1.cw_action ≠ cn_action.CN_ACTION_NONE →
          false = false ∧
          (w1.cw_have_token = true ↔ w1.cw_action ≠ cn_action.CN_ACTION_SPILL) ∧
          (tn1.tn_compacting = true ↔ w1.cw_action ≠ cn_action.CN_ACTION_SPILL)) ∧
        (w1.cw_action = cn_action.CN_ACTION_NONE → tn1.tn_compacting = false) :=
  ⟨_, _, rfl,
    C6_work_token env_example 0 0
      { ct_nodes := [{ tn_kvset_list := [{ dgen := 2 }, { dgen := 1 }],
                       tn_ns := { ns_kvsets := 2, ns_samp := 100 } }] }
      _ 0 sp3_work_type.wtype_root
        { rspill_runlen_min := 1, rspill_runlen_max := 2, rspill_wlen_max := 1073741824 }
        0 {} _
      _ rfl rfl⟩

/-! ## A leaf of prefix tombstones, planned in the idle category -/

theorem estimate_sum_ok :
    ∀ (n m : Nat) (kvs : List kvset) (acc : Nat × Nat × Nat × Nat),
      n ≤ m + 1 → m < kvs.length → ∃ r, estimate_sum n (le_ptr.entry m) kvs acc = Except.ok r := by
  intro n
  induction n with
  | zero =>
    intro m kvs acc _ _
    exact ⟨acc, rfl⟩
  | succ n ih =>
    intro m kvs acc hn hm
    unfold estimate_sum
    simp only [List.getElem?_eq_getElem hm]
    cases m with
    | zero =>
      have : n = 0 := by omega
      subst this
      exact ⟨_, rfl⟩
    | succ m =>
      simp only [list_prev_entry]
      exact ih m kvs _ (by omega) (by omega)

/-- The committing part of `sp3_work` succeeds for a k-compaction of a run of
unclaimed kvsets that does not reach past the head of the list. -/
theorem work_commit_ok (now : Nat) (tree : cn_tree) (idx : Nat) (tn : cn_tree_node) (p : wplan)
    (have_token : Bool) (debug : Nat) (w : cn_compaction_work) (m : Nat)
    (hm : p.mark = le_ptr.entry m) (hlt : m < tn.tn_kvset_list.length) (hn : p.kvsets ≤ m + 1)
    (hz : ∀ (i : Nat) (k : kvset), i ≤ m → tn.tn_kvset_list[i]? = some k → k.workid = 0)
    (ha : p.action = cn_action.CN_ACTION_COMPACT_K) :
    ∃ r, sp3_work_commit now tree idx tn p have_token debug w = Except.ok r := by
  unfold sp3_work_commit
  dsimp only
  rw [hm]
  dsimp only
  rw [List.getElem?_eq_getElem hlt]
  dsimp only
  obtain ⟨⟨kvs, w2⟩, hr⟩ := mark_kvsets_ok tn.tn_kvset_list[m].dgen p.kvsets m tn.tn_kvset_list
    { w with cw_dgen_hi_min := tn.tn_kvset_list[m].dgen, cw_dgen_lo := UINT64_MAX } hn hlt hz
  rw [hr]
  dsimp only
  have hlen : kvs.length = tn.tn_kvset_list.length := by
    by_cases h0 : p.kvsets = 0
    · rw [h0, mark_kvsets_zero] at hr
      simp only [Except.ok.injEq, Prod.mk.injEq] at hr
      rw [← hr.1]
    · obtain ⟨n, hn1⟩ : ∃ n, p.kvsets = n + 1 := ⟨p.kvsets - 1, by omega⟩
      rw [hn1] at hr
      exact (mark_kvsets_spec _ n m _ kvs _ w2 hr).2.2.1
  unfold sp3_work_estimate
  rw [work_finish_fields]
  dsimp only
  obtain ⟨⟨keys, halen, kalen, valen⟩, hs⟩ := estimate_sum_ok p.kvsets m kvs (0, 0, 0, 0) hn
    (by omega)
  rw [hs, ha]
  exact ⟨_, rfl⟩

/-- A leaf that holds prefix tombstones only (`keys = 0`), is free of jobs
and flags, and has `n > 0` unclaimed kvsets: in the idle category `sp3_work`
produces a k-compaction of all `n` kvsets and sets the busy count of the leaf
to `2^16 + n`. -/
theorem idle_ptomb_leaf_work (E : sp3_env) (jclock_ns now : Nat) (tree : cn_tree) (idx : Nat)
    (thresh : sp3_thresholds) (debug : Nat) (w : cn_compaction_work) (tn0 : cn_tree_node)
    (htn : tree.ct_nodes[idx]? = some tn0) (hidx : idx ≠ 0)
    (hmd : tree.cn_maint_disable = false)
    (hfree : tn0.tn_compacting = false) (hbusy : tn0.tn_busycnt = 0)
    (hsplit : tn0.tn_ss_splitting = false) (hjoin : tn0.tn_ss_joining = 0)
    (hkeys : tn0.tn_ns.ns_keys = 0) (hpos : 0 < tn0.tn_ns.ns_kvsets)
    (hlen : tn0.tn_kvset_list.length = tn0.tn_ns.ns_kvsets)
    (hz : ∀ (i : Nat) (k : kvset), tn0.tn_kvset_list[i]? = some k → k.workid = 0) :
    ∃ (tree1 : cn_tree) (w1 : cn_compaction_work) (tn1 : cn_tree_node),
      sp3_work E jclock_ns now tree idx sp3_work_type.wtype_idle thresh debug w =
        Except.ok (tree1, w1) ∧
      w1.cw_action = cn_action.CN_ACTION_COMPACT_K ∧
      w1.cw_kvset_cnt = tn0.tn_ns.ns_kvsets ∧
      tree1.ct_nodes[idx]? = some tn1 ∧
      tn1.tn_busycnt = 2 ^ 16 + tn0.tn_ns.ns_kvsets := by
  have hlt : idx < tree.ct_nodes.length := (List.getElem?_eq_some.1 htn).1
  have htok : cn_node_comp_token_get tn0 = (true, { tn0 with tn_compacting := true }) := by
    unfold cn_node_comp_token_get
    rw [hfree]
    rfl
  have hroot : cn_node_isroot idx = false := by
    unfold cn_node_isroot
    simpa using hidx
  have hplan : sp3_work_plan E jclock_ns
      (tree_set_node tree idx { tn0 with tn_compacting := true }) idx
      { tn0 with tn_compacting := true } sp3_work_type.wtype_idle thresh =
      Except.ok (some (tree_set_node tree idx { tn0 with tn_compacting := true },
        { kvsets := tn0.tn_ns.ns_kvsets, mark := le_ptr.entry (tn0.tn_ns.ns_kvsets - 1),
          action := cn_action.CN_ACTION_COMPACT_K, rule := cn_rule.CN_RULE_IDLE_TOMB }, false)) := by
    unfold sp3_work_plan
    dsimp only
    rw [hroot]
    simp only [Bool.false_eq_true, if_false]
    unfold sp3_work_wtype_idle list_last_entry_or_null
    simp [hkeys, hlen, Nat.pos_iff_ne_zero.1 hpos]
  have hcommit := work_commit_ok now (tree_set_node tree idx { tn0 with tn_compacting := true })
    idx { tn0 with tn_compacting := true }
    { kvsets := tn0.tn_ns.ns_kvsets, mark := le_ptr.entry (tn0.tn_ns.ns_kvsets - 1),
      action := cn_action.CN_ACTION_COMPACT_K, rule := cn_rule.CN_RULE_IDLE_TOMB }
    true debug { w with cw_action := cn_action.CN_ACTION_NONE, cw_resched := false }
    (tn0.tn_ns.ns_kvsets - 1) rfl
    (by show tn0.tn_ns.ns_kvsets - 1 < tn0.tn_kvset_list.length; omega)
    (by show tn0.tn_ns.ns_kvsets ≤ tn0.tn_ns.ns_kvsets - 1 + 1; omega)
    (fun i k _ hk => hz i k hk) rfl
  obtain ⟨⟨tree1, w1⟩, hc⟩ := hcommit
  have hwork : sp3_work E jclock_ns now tree idx sp3_work_type.wtype_idle thresh debug w =
      Except.ok (tree1, w1) := by
    unfold sp3_work
    rw [htn]
    dsimp only
    rw [htok]
    dsimp only
    simp only [Bool.true_eq_false, if_false]
    have hmd1 : (tree_set_node tree idx { tn0 with tn_compacting := true }).cn_maint_disable =
        false := hmd
    rw [hmd1, hplan]
    dsimp only
    rw [tree_set_node_get, if_pos rfl, if_pos hlt]
    dsimp only
    simp only [Bool.false_and, Bool.false_eq_true, if_false, Nat.pos_iff_ne_zero.1 hpos, hbusy,
      hsplit, hjoin, ne_eq, not_true_eq_false, and_false, reduceCtorEq, not_false_eq_true,
      and_true]
    simpa only [hbusy, hsplit, hjoin] using hc
  obtain ⟨m, km, kvs, w2, c1, c2, c3, c4, c5, c6, c7, c8, c9, c10, c11⟩ :=
    work_commit_spec now _ tree1 idx _ _ true debug _ w1
      (by rw [tree_set_node_length]; exact hlt) (fun hx => by cases hx) hc
  refine ⟨tree1, w1, _, hwork, c5, c6, c4, ?_⟩
  show tn0.tn_busycnt + (65536 + tn0.tn_ns.ns_kvsets) = 2 ^ 16 + tn0.tn_ns.ns_kvsets
  rw [hbusy]
  norm_num

theorem ptomb_leaf_length (n : Nat) :
    (ptomb_leaf n).tn_kvset_list.length = (ptomb_leaf n).tn_ns.ns_kvsets := by
  simp [ptomb_leaf]

theorem ptomb_leaf_workid (n : Nat) (i : Nat) (k : kvset)
    (hk : (ptomb_leaf n).tn_kvset_list[i]? = some k) : k.workid = 0 := by
  simp only [ptomb_leaf, List.getElem?_replicate] at hk
  split_ifs at hk
  cases hk
  rfl

/-- C7, as stated, fails when the count of claimed kvsets overflows the lower
16 bits of `busy_count`: a leaf with 65536 unclaimed kvsets of prefix
tombstones, in a tree in which every busy count is 0, gets in the idle
category a k-compaction of all its kvsets; its busy count becomes `2^16 +
65536`, whose upper 16 bits read 2 active jobs on a leaf. -/
theorem C7_counterexample :
    tree_busy (ptomb_tree 65536) = [0, 0] ∧
    (ptomb_leaf 65536).tn_compacting = false ∧
    ∃ (tree1 : cn_tree) (w1 : cn_compaction_work) (tn1 : cn_tree_node),
      sp3_work env_example 0 0 (ptomb_tree 65536) 1 sp3_work_type.wtype_idle {} 0 {} =
        Except.ok (tree1, w1) ∧
      tree1.ct_nodes[1]? = some tn1 ∧ cn_node_isroot 1 = false ∧ tn1.tn_busycnt / 2 ^ 16 = 2 := by
  refine ⟨rfl, rfl, ?_⟩
  obtain ⟨tree1, w1, tn1, h1, _, _, h4, h5⟩ :=
    idle_ptomb_leaf_work env_example 0 0 (ptomb_tree 65536) 1 {} 0 {} (ptomb_leaf 65536) rfl
      (by decide) rfl rfl rfl rfl rfl rfl (by decide)
      (ptomb_leaf_length 65536) (ptomb_leaf_workid 65536)
  refine ⟨tree1, w1, tn1, h1, h4, rfl, ?_⟩
  rw [h5]
  rfl

/-- C7, amended: `sp3_work` preserves the bound on active jobs per node when
the count of claimed kvsets cannot overflow the lower 16 bits of the busy
count.  Starting from a tree in which every root has at most 3 active jobs
(upper 16 bits of `busy_count`) and every leaf at most 1, a call of `sp3_work`
on a node whose claimed-kvset count (lower 16 bits of `busy_count`) plus its
number of kvsets is below `2^16` leaves each root with at most 3 active jobs
and each leaf with at most 1. -/
theorem C7_active_jobs_bound (E : sp3_env) (jclock_ns now : Nat) (tree tree1 : cn_tree)
    (idx : Nat) (wtype : sp3_work_type) (thresh : sp3_thresholds) (debug : Nat)
    (w w1 : cn_compaction_work) (tn0 : cn_tree_node)
    (htn : tree.ct_nodes[idx]? = some tn0)
    (h : sp3_work E jclock_ns now tree idx wtype thresh debug w = Except.ok (tree1, w1))
    (hinv : jobs_bounded tree)
    (hfit : tn0.tn_busycnt % 2 ^ 16 + tn0.tn_kvset_list.length < 2 ^ 16) :
    jobs_bounded tree1 := by
  intro j n hj
  have keep : (tree1.ct_nodes[j]?).map cn_tree_node.tn_busycnt =
      (tree.ct_nodes[j]?).map cn_tree_node.tn_busycnt →
      n.tn_busycnt / 2 ^ 16 ≤ (if cn_node_isroot j then 3 else 1) := by
    intro he
    rw [hj] at he
    cases hold : tree.ct_nodes[j]? with
    | none => rw [hold] at he; cases he
    | some old =>
      rw [hold] at he
      simp only [Option.map_some', Option.some.injEq] at he
      rw [he]
      exact hinv j old hold
  rcases sp3_work_cases E jclock_ns now tree tree1 idx wtype thresh debug w w1 tn0 htn h with
    ⟨_, hb, _⟩ | ⟨_, p, m, km, kvs, wa, w2, tn1, tree2, resched, _, hz, _, _, _, _, _, _, _, hkm,
      hloop, hget, hbusy, _, _, hspill, hother, _, hrest⟩
  · apply keep
    rw [← tree_busy_get, ← tree_busy_get, hb]
  · by_cases hji : j = idx
    · subst hji
      rw [hget] at hj
      cases hj
      have hm : m < tn0.tn_kvset_list.length := (List.getElem?_eq_some.1 hkm).1
      obtain ⟨k, hk⟩ : ∃ k, p.kvsets = k + 1 := ⟨p.kvsets - 1, by omega⟩
      rw [hk] at hloop
      have hle := (mark_kvsets_spec km.dgen k m tn0.tn_kvset_list kvs wa w2 hloop).1
      have h0 := hinv j tn0 htn
      norm_num at hfit h0 ⊢
      rw [hbusy]
      by_cases hs : p.action = cn_action.CN_ACTION_SPILL
      · obtain ⟨hr, h2⟩ := hspill hs
        rw [hr]
        simp only [if_true]
        omega
      · have hb0 := hother hs
        rw [hb0]
        split_ifs <;> omega
    · exact keep (hrest j hji)

/-- C7, instance: the tiny root spill of a root that had no active job leaves
the tree within the bound. -/
theorem C7_active_jobs_bound_witness :
    ∃ (tree1 : cn_tree) (w1 : cn_compaction_work),
      sp3_work env_example 0 0
        { ct_nodes := [{ tn_kvset_list := [{ dgen := 2 }, { dgen := 1 }],
                         tn_ns := { ns_kvsets := 2, ns_samp := 100 } }] }
        0 sp3_work_type.wtype_root
        { rspill_runlen_min := 1, rspill_runlen_max := 2, rspill_wlen_max := 1073741824 } 0 {} =
        Except.ok (tree1, w1) ∧
      w1.cw_action = cn_action.CN_ACTION_SPILL ∧ jobs_bounded tree1 :=
  ⟨_, _, rfl, rfl,
    C7_active_jobs_bound env_example 0 0
      { ct_nodes := [{ tn_kvset_list := [{ dgen := 2 }, { dgen := 1 }],
                       tn_ns := { ns_kvsets := 2, ns_samp := 100 } }] }
      _ 0 sp3_work_type.wtype_root
      { rspill_runlen_min := 1, rspill_runlen_max := 2, rspill_wlen_max := 1073741824 } 0 {} _
      _ rfl rfl
      (by
        intro j n hj
        rcases j with _ | j
        · simp only [List.getElem?_cons_zero, Option.some.injEq] at hj
          subst hj
          decide
        · simp at hj)
      (by decide)⟩

/-! ## Empty nodes -/

theorem usub32_zero_zero : usub32 0 0 = 0 := by decide

/-- For a node without kvsets, the planner of every category that `sp3_work`
accepts for the kind of the node, the join category apart, returns an empty
run, or root spills are wedged. -/
theorem work_plan_empty (E : sp3_env) (jclock_ns : Nat) (tree : cn_tree) (idx : Nat)
    (tn : cn_tree_node) (wtype : sp3_work_type) (thresh : sp3_thresholds)
    (hl : tn.tn_kvset_list = []) (hk : tn.tn_ns.ns_kvsets = 0)
    (hjoin : wtype ≠ sp3_work_type.wtype_join)
    (hroot : cn_node_isroot idx = true →
      wtype = sp3_work_type.wtype_root ∨ wtype = sp3_work_type.wtype_idle)
    (hleaf : cn_node_isroot idx = false → wtype ≠ sp3_work_type.wtype_root) :
    sp3_work_plan E jclock_ns tree idx tn wtype thresh = Except.ok none ∨
    ∃ tree2 p resched,
      sp3_work_plan E jclock_ns tree idx tn wtype thresh = Except.ok (some (tree2, p, resched)) ∧
      p.kvsets = 0 := by
  unfold sp3_work_plan
  dsimp only
  by_cases hr : cn_node_isroot idx = true
  · rw [if_pos hr]
    by_cases hw : (tree.ct_rspills_wedged && !sp3_node_is_idle tn) = true
    · rw [if_pos hw]
      exact Or.inl rfl
    · rw [if_neg hw]
      right
      rcases hroot hr with h | h
      · subst h
        refine ⟨_, _, _, rfl, ?_⟩
        unfold sp3_work_wtype_root root_unclaimed
        rw [hl]
        rfl
      · subst h
        refine ⟨_, _, _, rfl, ?_⟩
        unfold sp3_work_wtype_idle
        simp [hk]
  · rw [if_neg hr]
    have hr1 : cn_node_isroot idx = false := by simpa using hr
    have hidle : ∀ p : wplan, (sp3_work_wtype_idle E.VBLOCK_MAX_SIZE false tn thresh p).kvsets = 0 := by
      intro p
      unfold sp3_work_wtype_idle
      simp only [hk, hl, idle_skip_tombs, idle_skip_ptombs, usub32_zero_zero, Bool.false_eq_true,
        if_false]
      split_ifs <;> first | rfl | omega
    right
    cases wtype with
    | wtype_root => exact absurd rfl (hleaf hr1)
    | wtype_join => exact absurd rfl hjoin
    | wtype_idle => exact ⟨_, _, _, rfl, hidle _⟩
    | wtype_garbage =>
      refine ⟨_, _, _, rfl, ?_⟩
      unfold sp3_work_wtype_garbage
      dsimp only
      rw [hidle, hk]
      simp
    | wtype_scatter =>
      have hs : sp3_work_wtype_scatter tn thresh =
          Except.ok { kvsets := 0, mark := le_ptr.null, action := cn_action.CN_ACTION_COMPACT_KV,
                      rule := cn_rule.CN_RULE_SCATTERF } := by
        unfold sp3_work_wtype_scatter
        simp [hl, hk, scatter_find, list_last_entry_or_null]
      dsimp only
      rw [hs]
      exact ⟨_, _, _, rfl, rfl⟩
    | wtype_length =>
      dsimp only
      unfold sp3_work_wtype_length
      dsimp only
      by_cases h0 : tn.tn_ns.ns_kvsets ≥ thresh.llen_runlen_min
      · rw [if_pos h0, hl]
        simp only [List.reverse_nil, length_run]
        refine ⟨_, _, _, rfl, ?_⟩
        unfold length_finish
        dsimp only
        have h1 : thresh.llen_runlen_min = 0 := by omega
        simp only [h1, ge_iff_le, Nat.le_refl, if_true]
        split_ifs <;> rfl
      · rw [if_neg h0]
        exact ⟨_, _, _, rfl, rfl⟩
    | wtype_split =>
      refine ⟨_, _, _, rfl, ?_⟩
      unfold sp3_work_wtype_split sp3_work_splittable
      simp [hk]

theorem work_nowork_action (tree : cn_tree) (idx : Nat) (b : Bool) (w : cn_compaction_work)
    (h : w.cw_action = cn_action.CN_ACTION_NONE) :
    (sp3_work_nowork tree idx b w).2.cw_action = cn_action.CN_ACTION_NONE := by
  unfold sp3_work_nowork
  split
  · exact h
  · split_ifs <;> exact h

/-- C8: every work item that `sp3_work` produces (a result whose action is
not none) has `cw_kvset_cnt >= 1` and comes from a node that has kvsets; and
for a node with no kvsets `sp3_work` returns without a work item in every
category that it accepts for the kind of the node (root, idle for a root;
length, idle, garbage, scatter, split for a leaf), while in the join category
it produces no work item either, by the first part. -/
theorem C8_no_work_for_empty_node (E : sp3_env) (jclock_ns now : Nat) (tree : cn_tree)
    (idx : Nat) (wtype : sp3_work_type) (thresh : sp3_thresholds) (debug : Nat)
    (w : cn_compaction_work) (tn0 : cn_tree_node)
    (htn : tree.ct_nodes[idx]? = some tn0) :
    (∀ tree1 w1, sp3_work E jclock_ns now tree idx wtype thresh debug w = Except.ok (tree1, w1) →
      w1.cw_action ≠ cn_action.CN_ACTION_NONE →
        1 ≤ w1.cw_kvset_cnt ∧ tn0.tn_kvset_list ≠ []) ∧
    (tn0.tn_kvset_list = [] → tn0.tn_ns.ns_kvsets = 0 →
      wtype ≠ sp3_work_type.wtype_join →
      (cn_node_isroot idx = true →
        wtype = sp3_work_type.wtype_root ∨ wtype = sp3_work_type.wtype_idle) →
      (cn_node_isroot idx = false → wtype ≠ sp3_work_type.wtype_root) →
      ∃ tree1 w1, sp3_work E jclock_ns now tree idx wtype thresh debug w = Except.ok (tree1, w1) ∧
        w1.cw_action = cn_action.CN_ACTION_NONE) := by
  constructor
  · intro tree1 w1 h hwork
    rcases sp3_work_cases E jclock_ns now tree tree1 idx wtype thresh debug w w1 tn0 htn h with
      hn | ⟨_, p, m, km, kvs, wa, w2, tn1, tree2, resched, _, hz, _, _, _, hcnt, _, _, _, hkm, _⟩
    · exact absurd hn.1 hwork
    · refine ⟨by omega, ?_⟩
      intro hnil
      rw [hnil] at hkm
      simp at hkm
  · intro hl hk hjoin hroot hleaf
    have hidx : idx < tree.ct_nodes.length := (List.getElem?_eq_some.1 htn).1
    unfold sp3_work
    rw [htn]
    dsimp only
    by_cases htok : (cn_node_comp_token_get tn0).1 = false
    · rw [if_pos htok]
      exact ⟨_, _, rfl, rfl⟩
    · rw [if_neg htok]
      have hn0 : (tree_set_node tree idx (cn_node_comp_token_get tn0).2).ct_nodes[idx]? =
          some (cn_node_comp_token_get tn0).2 := by
        rw [tree_set_node_get, if_pos rfl, if_pos hidx]
      have hl2 : (cn_node_comp_token_get tn0).2.tn_kvset_list = [] := by
        unfold cn_node_comp_token_get
        split_ifs <;> exact hl
      have hk2 : (cn_node_comp_token_get tn0).2.tn_ns.ns_kvsets = 0 := by
        unfold cn_node_comp_token_get
        split_ifs <;> exact hk
      by_cases hm : ((tree_set_node tree idx (cn_node_comp_token_get tn0).2).cn_maint_disable &&
          !(cn_node_comp_token_get tn0).2.tn_ss_splitting &&
          decide ((cn_node_comp_token_get tn0).2.tn_ss_joining = 0)) = true
      · rw [if_pos hm]
        exact ⟨_, _, rfl, work_nowork_action _ _ _ _ rfl⟩
      · rw [if_neg hm]
        rcases work_plan_empty E jclock_ns
            (tree_set_node tree idx (cn_node_comp_token_get tn0).2) idx
              (cn_node_comp_token_get tn0).2 wtype thresh hl2 hk2 hjoin hroot hleaf with
            hp | ⟨tree2, p, resched, hp, hz⟩
        · rw [hp]
          exact ⟨_, _, rfl, work_nowork_action _ _ _ _ rfl⟩
        · rw [hp]
          dsimp only
          obtain ⟨_, ⟨tn1, g2, _⟩, _⟩ :=
            work_plan_frame E jclock_ns _ tree2 idx _ wtype thresh p resched hn0 hp
          rw [g2]
          dsimp only
          rw [if_pos hz]
          exact ⟨_, _, rfl, work_nowork_action _ _ _ _ rfl⟩

/-- C8, instance: an empty leaf, planned in the garbage category. -/
theorem C8_no_work_for_empty_node_witness :
    ∃ tree1 w1,
      sp3_work env_example 0 0 (ptomb_tree 0) 1 sp3_work_type.wtype_garbage {} 0 {} =
        Except.ok (tree1, w1) ∧
      w1.cw_action = cn_action.CN_ACTION_NONE :=
  (C8_no_work_for_empty_node env_example 0 0 (ptomb_tree 0) 1 sp3_work_type.wtype_garbage {} 0 {}
    (ptomb_leaf 0) rfl).2 rfl rfl (by decide) (by decide) (by decide)

/-- C9: the code breaks the claim.  A root with two kvsets of which the older
is claimed by a spill in flight (workid 7, busy count `2^16 + 1`) has one
unclaimed kvset; planned in the idle category, `sp3_work_wtype_idle` returns a
spill of 2 kvsets, the kvset count of the node, marked at the claimed kvset,
and the marking loop of `sp3_work` stops at the failure of the assertion
`kvset_get_workid(le->le_kvset) == 0`. -/
theorem C9_idle_root_claims_busy_kvset :
    (sp3_work_wtype_idle env_example.VBLOCK_MAX_SIZE true
      { tn_kvset_list := [{ dgen := 2 }, { dgen := 1, workid := 7 }],
        tn_ns := { ns_kvsets := 2, ns_samp := 100 }, tn_busycnt := 65537 } {} {}) =
      { kvsets := 2, mark := le_ptr.entry 1, action := cn_action.CN_ACTION_SPILL,
        rule := cn_rule.CN_RULE_RSPILL } ∧
    (([{ dgen := 2 }, { dgen := 1, workid := 7 }] : List kvset).filter
      (fun k => k.workid == 0)).length = 1 ∧
    sp3_work env_example 0 0
      { ct_nodes := [{ tn_kvset_list := [{ dgen := 2 }, { dgen := 1, workid := 7 }],
                       tn_ns := { ns_kvsets := 2, ns_samp := 100 }, tn_busycnt := 65537 }] }
      0 sp3_work_type.wtype_idle {} 0 {} = Except.error sp3_fault.assert_workid := by
  refine ⟨by decide, by decide, rfl⟩

/-! ## Index membership -/

theorem rb_member_erase (root : List sp3_rbe) (spn : Nat) :
    rb_member (sp3_rb_erase root spn) spn = false := by
  simp [rb_member, sp3_rb_erase]

theorem rb_member_insert (root : List sp3_rbe) (e : sp3_rbe) :
    rb_member (sp3_rb_insert root e) e.spn = true := by
  induction root with
  | nil => simp [sp3_rb_insert, rb_member]
  | cons this rest ih =>
    unfold sp3_rb_insert
    split_ifs
    · simp [rb_member]
    · unfold rb_member at ih ⊢
      rw [List.any_cons, ih, Bool.or_true]

theorem rbt_node_remove (sp : sp3) (spn : Nat) (tx ty : sp3_work_type) :
    (sp3_node_remove sp spn tx).rbt ty =
      if ty = tx then sp3_rb_erase (sp.rbt tx) spn else sp.rbt ty := by
  unfold sp3_node_remove
  by_cases h : ty = tx
  · subst h
    simp
  · simp [h]

theorem rbt_node_insert_ne (sp : sp3) (spn : Nat) (tx ty : sp3_work_type) (weight : Nat)
    (h : ty ≠ tx) : (sp3_node_insert sp spn tx weight).rbt ty = sp.rbt ty := by
  unfold sp3_node_insert
  split_ifs
  · rfl
  · simp [h]

theorem rb_member_node_insert (sp : sp3) (spn : Nat) (tx : sp3_work_type) (weight : Nat) :
    rb_member ((sp3_node_insert sp spn tx weight).rbt tx) spn = true := by
  unfold sp3_node_insert
  by_cases h : (rb_member (sp.rbt tx) spn &&
      decide (rb_weight (sp.rbt tx) spn = some weight)) = true
  · rw [if_pos h]
    rw [Bool.and_eq_true] at h
    exact h.1
  · rw [if_neg h]
    simp only [Function.update_same]
    exact rb_member_insert (sp3_rb_erase (sp.rbt tx) spn) { rbe_weight := weight, spn := spn }

/-- C10, counterexample: a leaf whose split flag is set, that waits in the
split index for the spills into it to finish and has one unclaimed kvset and
no active job, is after `sp3_dirty_node_locked` still a member of the split
index, and has been inserted into the idle index. -/
theorem C10_counterexample :
    ∃ sp1,
      sp3_dirty_node_locked env_example 0
        { thresh := { llen_idlec := 1, llen_idlem := 1 },
          rbt := fun tx =>
            if tx = sp3_work_type.wtype_split then [{ rbe_weight := 5, spn := 1 }] else [] }
        { ct_nodes := [{}, { addr := 1, tn_ss_splitting := true, spn_initialized := true,
                             tn_route_node := true, tn_kvset_list := [{ dgen := 1 }],
                             tn_ns := { ns_kvsets := 1 } }] } 1 = Except.ok sp1 ∧
      rb_member (sp1.rbt sp3_work_type.wtype_split) 1 = true ∧
      rb_member (sp1.rbt sp3_work_type.wtype_idle) 1 = true :=
  ⟨_, rfl, by decide, by decide⟩

/-- C10, amended: after `sp3_dirty_node_locked` runs on an initialized leaf
(a route node) whose split flag or join flag is non-zero, the leaf is a member
of none of the length, scatter and garbage indexes; the root, split and join
indexes are left as they were; and the leaf is a member of the idle index
exactly when it has at least `llen_idlec` unclaimed kvsets, `llen_idlem` is
positive and it has no active job. -/
theorem C10_split_join_leaf_indexes (E : sp3_env) (jclock_ns : Nat) (sp : sp3) (tree : cn_tree)
    (idx : Nat) (tn : cn_tree_node)
    (htn : tree.ct_nodes[idx]? = some tn)
    (hinit : tn.spn_initialized = true)
    (hleaf : cn_node_isroot idx = false)
    (hroute : tn.tn_route_node = true)
    (hflag : tn.tn_ss_splitting = true ∨ tn.tn_ss_joining ≠ 0) :
    ∃ sp1, sp3_dirty_node_locked E jclock_ns sp tree idx = Except.ok sp1 ∧
      rb_member (sp1.rbt sp3_work_type.wtype_length) tn.addr = false ∧
      rb_member (sp1.rbt sp3_work_type.wtype_scatter) tn.addr = false ∧
      rb_member (sp1.rbt sp3_work_type.wtype_garbage) tn.addr = false ∧
      sp1.rbt sp3_work_type.wtype_root = sp.rbt sp3_work_type.wtype_root ∧
      sp1.rbt sp3_work_type.wtype_split = sp.rbt sp3_work_type.wtype_split ∧
      sp1.rbt sp3_work_type.wtype_join = sp.rbt sp3_work_type.wtype_join ∧
      (rb_member (sp1.rbt sp3_work_type.wtype_idle) tn.addr = true ↔
        (usub64 tn.tn_ns.ns_kvsets (u32 tn.tn_busycnt % 65536) ≥ sp.thresh.llen_idlec ∧
          sp.thresh.llen_idlem > 0 ∧ u32 tn.tn_busycnt / 65536 < 1)) := by
  have hf : (tn.tn_ss_splitting || decide (tn.tn_ss_joining ≠ 0)) = true := by
    rcases hflag with h | h
    · simp [h]
    · simp [h]
  have hcat : ∀ nk jobs, sp3_dirty_categories E sp tree idx tn nk jobs =
      Except.ok (sp3_node_remove
        (sp3_node_remove (sp3_node_remove sp tn.addr sp3_work_type.wtype_length) tn.addr
          sp3_work_type.wtype_scatter) tn.addr sp3_work_type.wtype_garbage) := by
    intro nk jobs
    unfold sp3_dirty_categories
    dsimp only
    rw [if_neg (by simp [hleaf]), if_neg (by simp [hroute]), if_pos hf]
  unfold sp3_dirty_node_locked
  rw [htn]
  dsimp only
  rw [if_neg (by simp [hinit]), hcat]
  dsimp only
  refine ⟨_, rfl, ?_⟩
  unfold sp3_dirty_idle
  by_cases hidle : usub64 tn.tn_ns.ns_kvsets (u32 tn.tn_busycnt % 65536) ≥
      (sp3_node_remove (sp3_node_remove (sp3_node_remove sp tn.addr sp3_work_type.wtype_length)
        tn.addr sp3_work_type.wtype_scatter) tn.addr sp3_work_type.wtype_garbage).thresh.llen_idlec ∧
      (sp3_node_remove (sp3_node_remove (sp3_node_remove sp tn.addr sp3_work_type.wtype_length)
        tn.addr sp3_work_type.wtype_scatter) tn.addr sp3_work_type.wtype_garbage).thresh.llen_idlem
          > 0 ∧ u32 tn.tn_busycnt / 65536 < 1
  · rw [if_pos hidle]
    dsimp only
    have hidle2 := hidle
    simp only [thresh_node_remove] at hidle2
    refine ⟨?_, ?_, ?_, ?_, ?_, ?_, ?_⟩
    · rw [rbt_node_insert_ne _ _ _ _ _ (by decide)]
      simp [rbt_node_remove, rb_member_erase]
    · rw [rbt_node_insert_ne _ _ _ _ _ (by decide)]
      simp [rbt_node_remove, rb_member_erase]
    · rw [rbt_node_insert_ne _ _ _ _ _ (by decide)]
      simp [rbt_node_remove, rb_member_erase]
    · rw [rbt_node_insert_ne _ _ _ _ _ (by decide)]
      simp [rbt_node_remove]
    · rw [rbt_node_insert_ne _ _ _ _ _ (by decide)]
      simp [rbt_node_remove]
    · rw [rbt_node_insert_ne _ _ _ _ _ (by decide)]
      simp [rbt_node_remove]
    · rw [rb_member_node_insert]
      exact ⟨fun _ => hidle2, fun _ => rfl⟩
  · rw [if_neg hidle]
    have hidle2 := hidle
    simp only [thresh_node_remove] at hidle2
    refine ⟨?_, ?_, ?_, ?_, ?_, ?_, ?_⟩
    · simp [rbt_node_remove, rb_member_erase]
    · simp [rbt_node_remove, rb_member_erase]
    · simp [rbt_node_remove, rb_member_erase]
    · simp [rbt_node_remove]
    · simp [rbt_node_remove]
    · simp [rbt_node_remove]
    · rw [rbt_node_remove, if_pos rfl, rb_member_erase]
      exact ⟨fun h => absurd h (by decide), fun h => absurd h hidle2⟩

/-- C10, instance: the leaf of the counterexample. -/
theorem C10_split_join_leaf_indexes_witness :
    ∃ sp1,
      sp3_dirty_node_locked env_example 0
        { thresh := { llen_idlec := 1, llen_idlem := 1 },
          rbt := fun tx =>
            if tx = sp3_work_type.wtype_split then [{ rbe_weight := 5, spn := 1 }] else [] }
        { ct_nodes := [{}, { addr := 1, tn_ss_splitting := true, spn_initialized := true,
                             tn_route_node := true, tn_kvset_list := [{ dgen := 1 }],
                             tn_ns := { ns_kvsets := 1 } }] } 1 = Except.ok sp1 ∧
      rb_member (sp1.rbt sp3_work_type.wtype_length) 1 = false ∧
      rb_member (sp1.rbt sp3_work_type.wtype_scatter) 1 = false ∧
      rb_member (sp1.rbt sp3_work_type.wtype_garbage) 1 = false :=
  let ⟨sp1, h, a, b, c, _⟩ := C10_split_join_leaf_indexes env_example 0
    { thresh := { llen_idlec := 1, llen_idlem := 1 },
      rbt := fun tx =>
        if tx = sp3_work_type.wtype_split then [{ rbe_weight := 5, spn := 1 }] else [] }
    { ct_nodes := [{}, { addr := 1, tn_ss_splitting := true, spn_initialized := true,
                         tn_route_node := true, tn_kvset_list := [{ dgen := 1 }],
                         tn_ns := { ns_kvsets := 1 } }] } 1
    { addr := 1, tn_ss_splitting := true, spn_initialized := true,
      tn_route_node := true, tn_kvset_list := [{ dgen := 1 }],
      tn_ns := { ns_kvsets := 1 } } rfl rfl rfl rfl (Or.inl rfl)
  ⟨sp1, h, a, b, c⟩

/-! ## The weights of the members of an index -/

theorem rb_member_isSome (root : List sp3_rbe) (a : Nat) :
    rb_member root a = (rb_weight root a).isSome := by
  unfold rb_member rb_weight
  induction root with
  | nil => rfl
  | cons e rest ih =>
    by_cases h : e.spn = a
    · rw [List.any_cons, List.find?_cons_of_pos _ (by simpa using h)]
      simp [h]
    · rw [List.any_cons, List.find?_cons_of_neg _ (by simpa using h), ih]
      simp [h]

theorem rb_weight_erase (root : List sp3_rbe) (n a : Nat) :
    rb_weight (sp3_rb_erase root n) a = if a = n then none else rb_weight root a := by
  unfold rb_weight sp3_rb_erase
  rw [List.find?_filter]
  by_cases h2 : a = n
  · rw [if_pos h2]
    have hn : List.find? (fun x : sp3_rbe =>
        decide ((x.spn != n) = true ∧ (x.spn == a) = true)) root = none := by
      rw [List.find?_eq_none]
      intro x _
      by_cases h3 : x.spn = n
      · simp [h3]
      · have h4 : ¬ x.spn = a := fun h => h3 (h.trans h2)
        simp [h4]
    rw [hn]
    rfl
  · rw [if_neg h2]
    have hf : (fun x : sp3_rbe => decide ((x.spn != n) = true ∧ (x.spn == a) = true)) =
        (fun x => x.spn == a) := by
      funext x
      by_cases h3 : x.spn = a
      · have h4 : ¬ x.spn = n := fun h => h2 (h3.symm.trans h)
        simp [h3, h4, h2]
      · simp [h3]
    rw [hf]

theorem rb_weight_insert_ne (root : List sp3_rbe) (e : sp3_rbe) (a : Nat) (h : a ≠ e.spn) :
    rb_weight (sp3_rb_insert root e) a = rb_weight root a := by
  have h1 : ¬ e.spn = a := fun h2 => h h2.symm
  induction root with
  | nil => simp [sp3_rb_insert, rb_weight, List.find?_cons, h1]
  | cons this rest ih =>
    unfold sp3_rb_insert
    split_ifs
    · simp [rb_weight, List.find?_cons, h1]
    · unfold rb_weight at ih ⊢
      by_cases h3 : this.spn = a
      · rw [List.find?_cons_of_pos _ (by simpa using h3),
          List.find?_cons_of_pos _ (by simpa using h3)]
      · rw [List.find?_cons_of_neg _ (by simpa using h3),
          List.find?_cons_of_neg _ (by simpa using h3)]
        exact ih

theorem rb_weight_insert_self (root : List sp3_rbe) (e : sp3_rbe)
    (h : rb_weight root e.spn = none) :
    rb_weight (sp3_rb_insert root e) e.spn = some e.rbe_weight := by
  induction root with
  | nil => simp [sp3_rb_insert, rb_weight, List.find?_cons]
  | cons this rest ih =>
    unfold sp3_rb_insert
    split_ifs
    · simp [rb_weight, List.find?_cons]
    · unfold rb_weight at h ih ⊢
      by_cases h3 : this.spn = e.spn
      · rw [List.find?_cons_of_pos _ (by simpa using h3)] at h
        cases h
      · rw [List.find?_cons_of_neg _ (by simpa using h3)] at h ⊢
        exact ih h

theorem node_insert_eq (sp : sp3) (n : Nat) (tx : sp3_work_type) (w : Nat) :
    sp3_node_insert sp n tx w = { sp with rbt := (sp3_node_insert sp n tx w).rbt } := by
  unfold sp3_node_insert
  split_ifs <;> rfl

theorem node_insert_weight (sp : sp3) (n : Nat) (tx ty : sp3_work_type) (w a : Nat) :
    rb_weight ((sp3_node_insert sp n tx w).rbt ty) a =
      if ty = tx ∧ a = n then some w else rb_weight (sp.rbt ty) a := by
  unfold sp3_node_insert
  by_cases hmem : (rb_member (sp.rbt tx) n &&
      decide (rb_weight (sp.rbt tx) n = some w)) = true
  · rw [if_pos hmem]
    by_cases hc : ty = tx ∧ a = n
    · rw [if_pos hc]
      obtain ⟨h1, h2⟩ := hc
      subst h1
      subst h2
      rw [Bool.and_eq_true] at hmem
      exact of_decide_eq_true hmem.2
    · rw [if_neg hc]
  · rw [if_neg hmem]
    dsimp only
    by_cases h1 : ty = tx
    · subst h1
      rw [Function.update_same]
      by_cases h2 : a = n
      · subst h2
        rw [if_pos ⟨rfl, rfl⟩]
        exact rb_weight_insert_self (sp3_rb_erase (sp.rbt ty) a) { rbe_weight := w, spn := a }
          (by rw [rb_weight_erase, if_pos rfl])
      · rw [if_neg (fun h => h2 h.2), rb_weight_insert_ne _ _ _ h2, rb_weight_erase, if_neg h2]
    · rw [Function.update_noteq h1, if_neg (fun h => h1 h.1)]

theorem node_remove_weight (sp : sp3) (n : Nat) (tx ty : sp3_work_type) (a : Nat) :
    rb_weight ((sp3_node_remove sp n tx).rbt ty) a =
      if ty = tx ∧ a = n then none else rb_weight (sp.rbt ty) a := by
  rw [rbt_node_remove]
  by_cases h1 : ty = tx
  · subst h1
    rw [if_pos rfl, rb_weight_erase]
    by_cases h2 : a = n
    · rw [if_pos h2, if_pos ⟨rfl, h2⟩]
    · rw [if_neg h2, if_neg (fun h => h2 h.2)]
  · rw [if_neg h1, if_neg (fun h => h1 h.1)]

theorem node_unlink_weight (sp : sp3) (n : Nat) (ty : sp3_work_type) (a : Nat) :
    rb_weight ((sp3_node_unlink sp n).rbt ty) a =
      if a = n then none else rb_weight (sp.rbt ty) a := by
  unfold sp3_node_unlink
  exact rb_weight_erase (sp.rbt ty) n a

/-! ## Index updates by assignment -/

theorem setter_base (sp0 : sp3) : rb_setter sp0 (fun r => { sp0 with rbt := r }) :=
  ⟨fun _ _ => none, fun r => ⟨r, rfl, fun _ _ => rfl⟩⟩

theorem setter_insert (sp0 : sp3) (f : (sp3_work_type → List sp3_rbe) → sp3) (n : Nat)
    (tx : sp3_work_type) (w : Nat) (h : rb_setter sp0 f) :
    rb_setter sp0 (fun r => sp3_node_insert (f r) n tx w) := by
  obtain ⟨g, hg⟩ := h
  refine ⟨fun ty a => if ty = tx ∧ a = n then some (some w) else g ty a, fun r => ?_⟩
  obtain ⟨r1, e1, v1⟩ := hg r
  refine ⟨(sp3_node_insert { sp0 with rbt := r1 } n tx w).rbt, ?_, ?_⟩
  · dsimp only
    rw [e1]
    exact node_insert_eq { sp0 with rbt := r1 } n tx w
  · intro ty a
    rw [node_insert_weight]
    dsimp only
    split_ifs
    · rfl
    · exact v1 ty a

theorem setter_remove (sp0 : sp3) (f : (sp3_work_type → List sp3_rbe) → sp3) (n : Nat)
    (tx : sp3_work_type) (h : rb_setter sp0 f) :
    rb_setter sp0 (fun r => sp3_node_remove (f r) n tx) := by
  obtain ⟨g, hg⟩ := h
  refine ⟨fun ty a => if ty = tx ∧ a = n then some none else g ty a, fun r => ?_⟩
  obtain ⟨r1, e1, v1⟩ := hg r
  refine ⟨(sp3_node_remove { sp0 with rbt := r1 } n tx).rbt, ?_, ?_⟩
  · dsimp only
    rw [e1]
    rfl
  · intro ty a
    rw [node_remove_weight]
    dsimp only
    split_ifs
    · rfl
    · exact v1 ty a

theorem setter_unlink (sp0 : sp3) (f : (sp3_work_type → List sp3_rbe) → sp3) (n : Nat)
    (h : rb_setter sp0 f) :
    rb_setter sp0 (fun r => sp3_node_unlink (f r) n) := by
  obtain ⟨g, hg⟩ := h
  refine ⟨fun ty a => if a = n then some none else g ty a, fun r => ?_⟩
  obtain ⟨r1, e1, v1⟩ := hg r
  refine ⟨(sp3_node_unlink { sp0 with rbt := r1 } n).rbt, ?_, ?_⟩
  · dsimp only
    rw [e1]
    rfl
  · intro ty a
    rw [node_unlink_weight]
    dsimp only
    split_ifs
    · rfl
    · exact v1 ty a

theorem setter_ite (sp0 : sp3) (c : Prop) [Decidable c]
    (f h : (sp3_work_type → List sp3_rbe) → sp3)
    (hf : rb_setter sp0 f) (hh : rb_setter sp0 h) :
    rb_setter sp0 (fun r => if c then f r else h r) := by
  by_cases hc : c
  · simpa only [if_pos hc] using hf
  · simpa only [if_neg hc] using hh

/-! ## The steps of the leaf classification -/

theorem dirty_leaf_eq (E : sp3_env) (sp : sp3) (tree : cn_tree) (idx : Nat)
    (tn : cn_tree_node) (nk : Nat) :
    sp3_dirty_leaf E sp tree idx tn nk =
      if tn.tn_samp.l_alen < tn.tn_samp.l_good then Except.error sp3_fault.assert_samp_garbage
      else Except.ok (leaf_join sp.thresh tree idx tn (leaf_split E sp.thresh tree tn
        (leaf_garbage E tn (leaf_length E sp.thresh tn nk (leaf_scatter E tn sp))))) := by
  unfold sp3_dirty_leaf leaf_join leaf_split leaf_garbage leaf_length leaf_scatter leaf_tombish
  dsimp only

theorem st_setter_insert (n : Nat) (tx : sp3_work_type) (w : Nat) (F : sp3 → sp3)
    (h : st_setter F) : st_setter (fun s => sp3_node_insert (F s) n tx w) :=
  fun sp0 f hf => setter_insert sp0 (fun r => F (f r)) n tx w (h sp0 f hf)

theorem st_setter_remove (n : Nat) (tx : sp3_work_type) (F : sp3 → sp3)
    (h : st_setter F) : st_setter (fun s => sp3_node_remove (F s) n tx) :=
  fun sp0 f hf => setter_remove sp0 (fun r => F (f r)) n tx (h sp0 f hf)

theorem st_setter_unlink (n : Nat) (F : sp3 → sp3)
    (h : st_setter F) : st_setter (fun s => sp3_node_unlink (F s) n) :=
  fun sp0 f hf => setter_unlink sp0 (fun r => F (f r)) n (h sp0 f hf)

theorem st_setter_ite (c : Prop) [Decidable c] (F G : sp3 → sp3)
    (hF : st_setter F) (hG : st_setter G) : st_setter (fun s => if c then F s else G s) :=
  fun sp0 f hf => setter_ite sp0 c (fun r => F (f r)) (fun r => G (f r)) (hF sp0 f hf)
    (hG sp0 f hf)

theorem st_setter_id : st_setter (fun s => s) :=
  fun _ _ hf => hf

theorem st_setter_comp (F G : sp3 → sp3) (hF : st_setter F) (hG : st_setter G) :
    st_setter (fun s => G (F s)) :=
  fun sp0 f hf => hG sp0 (fun r => F (f r)) (hF sp0 f hf)

theorem leaf_scatter_setter (E : sp3_env) (tn : cn_tree_node) :
    st_setter (leaf_scatter E tn) := by
  unfold leaf_scatter
  repeat first
    | exact st_setter_id
    | apply st_setter_ite
    | apply st_setter_insert
    | apply st_setter_remove
    | apply st_setter_unlink

theorem leaf_length_setter (E : sp3_env) (T : sp3_thresholds) (tn : cn_tree_node) (nk : Nat) :
    st_setter (leaf_length E T tn nk) := by
  unfold leaf_length
  repeat first
    | exact st_setter_id
    | apply st_setter_ite
    | apply st_setter_insert
    | apply st_setter_remove
    | apply st_setter_unlink

theorem leaf_garbage_setter (E : sp3_env) (tn : cn_tree_node) :
    st_setter (leaf_garbage E tn) := by
  unfold leaf_garbage
  repeat first
    | exact st_setter_id
    | apply st_setter_ite
    | apply st_setter_insert
    | apply st_setter_remove
    | apply st_setter_unlink

theorem leaf_split_setter (E : sp3_env) (T : sp3_thresholds) (tree : cn_tree)
    (tn : cn_tree_node) : st_setter (leaf_split E T tree tn) := by
  unfold leaf_split
  repeat first
    | exact st_setter_id
    | apply st_setter_ite
    | apply st_setter_insert
    | apply st_setter_remove
    | apply st_setter_unlink

theorem leaf_join_setter (T : sp3_thresholds) (tree : cn_tree) (idx : Nat)
    (tn : cn_tree_node) : st_setter (leaf_join T tree idx tn) := by
  unfold leaf_join
  cases joinable_left tree idx T with
  | none =>
    dsimp only
    repeat first
      | exact st_setter_id
      | apply st_setter_ite
      | apply st_setter_insert
      | apply st_setter_remove
      | apply st_setter_unlink
  | some l =>
    dsimp only
    repeat first
      | exact st_setter_id
      | apply st_setter_ite
      | apply st_setter_insert
      | apply st_setter_remove
      | apply st_setter_unlink

theorem dirty_leaf_steps_setter (E : sp3_env) (T : sp3_thresholds) (tree : cn_tree) (idx : Nat)
    (tn : cn_tree_node) (nk : Nat) :
    st_setter (fun s => leaf_join T tree idx tn (leaf_split E T tree tn
      (leaf_garbage E tn (leaf_length E T tn nk (leaf_scatter E tn s))))) :=
  st_setter_comp _ _
    (st_setter_comp _ _
      (st_setter_comp _ _
        (st_setter_comp _ _ (leaf_scatter_setter E tn) (leaf_length_setter E T tn nk))
        (leaf_garbage_setter E tn))
      (leaf_split_setter E T tree tn))
    (leaf_join_setter T tree idx tn)

theorem dirty_empty_leaf_setter (tree : cn_tree) (idx : Nat) (sp0 : sp3) :
    rb_setter sp0 (fun r => sp3_dirty_empty_leaf { sp0 with rbt := r } tree idx) := by
  unfold sp3_dirty_empty_leaf
  dsimp only
  cases tree.ct_nodes[idx + 1]? with
  | none => exact setter_base sp0
  | some right =>
    dsimp only
    apply setter_ite
    · exact setter_insert sp0 _ _ _ _ (setter_base sp0)
    · exact setter_base sp0

theorem dirty_categories_leaf (E : sp3_env) (sp0 : sp3) (tree : cn_tree) (idx : Nat)
    (tn : cn_tree_node) (nk jobs : Nat) (hleaf : cn_node_isroot idx = false) :
    (∃ e, ∀ r, sp3_dirty_categories E { sp0 with rbt := r } tree idx tn nk jobs =
        Except.error e) ∨
    (∃ f, rb_setter sp0 f ∧
      ∀ r, sp3_dirty_categories E { sp0 with rbt := r } tree idx tn nk jobs =
        Except.ok (f r)) := by
  unfold sp3_dirty_categories
  dsimp only
  have hnr : ¬ cn_node_isroot idx = true := by simp [hleaf]
  by_cases hroute : (!tn.tn_route_node) = true
  · left
    exact ⟨sp3_fault.abort, fun r => by rw [if_neg hnr, if_pos hroute]⟩
  · by_cases hflag : (tn.tn_ss_splitting || decide (tn.tn_ss_joining ≠ 0)) = true
    · right
      refine ⟨_, ?_, fun r => by rw [if_neg hnr, if_neg hroute, if_pos hflag]⟩
      exact setter_remove sp0 _ _ _ (setter_remove sp0 _ _ _ (setter_remove sp0 _ _ _
        (setter_base sp0)))
    · by_cases hk : nk > 0 ∧ jobs < 1
      · by_cases hbad : tn.tn_samp.l_alen < tn.tn_samp.l_good
        · left
          exact ⟨sp3_fault.assert_samp_garbage, fun r => by
            rw [if_neg hnr, if_neg hroute, if_neg hflag, if_pos hk, dirty_leaf_eq, if_pos hbad]⟩
        · right
          refine ⟨_, ?_, fun r => by
            rw [if_neg hnr, if_neg hroute, if_neg hflag, if_pos hk, dirty_leaf_eq, if_neg hbad]⟩
          exact dirty_leaf_steps_setter E sp0.thresh tree idx tn nk sp0 _ (setter_base sp0)
      · by_cases hz : tn.tn_ns.ns_kvsets = 0
        · right
          refine ⟨_, ?_, fun r => by
            rw [if_neg hnr, if_neg hroute, if_neg hflag, if_neg hk, if_pos hz]⟩
          exact dirty_empty_leaf_setter tree idx sp0
        · right
          refine ⟨_, ?_, fun r => by
            rw [if_neg hnr, if_neg hroute, if_neg hflag, if_neg hk, if_neg hz]⟩
          exact setter_base sp0

theorem rlist_add_tail_idem (sp : sp3) (n : Nat) (r : sp3_work_type → List sp3_rbe) :
    rlist_add_tail { rlist_add_tail sp n with rbt := r } n =
      { rlist_add_tail sp n with rbt := r } := by
  have hc : (rlist_add_tail sp n).spn_rlist.contains n = true := by
    unfold rlist_add_tail
    by_cases h : sp.spn_rlist.contains n = true
    · rw [if_pos h]
      exact h
    · rw [if_neg h]
      simp
  generalize rlist_add_tail sp n = c at hc
  unfold rlist_add_tail
  rw [if_pos hc]

theorem rlist_del_idem (sp : sp3) (n : Nat) (r : sp3_work_type → List sp3_rbe) :
    rlist_del { rlist_del sp n with rbt := r } n = { rlist_del sp n with rbt := r } := by
  unfold rlist_del
  simp [List.filter_filter]

theorem dirty_categories_twice (E : sp3_env) (sp c1 : sp3) (tree : cn_tree) (idx : Nat)
    (tn : cn_tree_node) (nk jobs : Nat)
    (h : sp3_dirty_categories E sp tree idx tn nk jobs = Except.ok c1) :
    ∃ g : sp3_work_type → Nat → Option (Option Nat),
      (∀ tx a, rb_weight (c1.rbt tx) a = (g tx a).getD (rb_weight (sp.rbt tx) a)) ∧
      ∀ r, ∃ r2,
        sp3_dirty_categories E { c1 with rbt := r } tree idx tn nk jobs =
          Except.ok { c1 with rbt := r2 } ∧
        ∀ tx a, rb_weight (r2 tx) a = (g tx a).getD (rb_weight (r tx) a) := by
  by_cases hroot : cn_node_isroot idx = true
  · refine ⟨fun _ _ => none, ?_, ?_⟩
    · unfold sp3_dirty_categories at h
      dsimp only at h
      rw [if_pos hroot] at h
      by_cases hc : nk ≥ sp.thresh.rspill_runlen_min ∧ jobs < 3
      · rw [if_pos hc] at h
        cases h
        intro tx a
        unfold rlist_add_tail
        split_ifs <;> rfl
      · rw [if_neg hc] at h
        cases h
        intro tx a
        rfl
    · intro r
      refine ⟨r, ?_, fun _ _ => rfl⟩
      unfold sp3_dirty_categories at h ⊢
      dsimp only at h ⊢
      rw [if_pos hroot] at h ⊢
      by_cases hc : nk ≥ sp.thresh.rspill_runlen_min ∧ jobs < 3
      · rw [if_pos hc] at h
        cases h
        have ht : (rlist_add_tail sp tn.addr).thresh = sp.thresh := by
          unfold rlist_add_tail
          split_ifs <;> rfl
        have hc1 : nk ≥ (rlist_add_tail sp tn.addr).thresh.rspill_runlen_min ∧ jobs < 3 := by
          rw [ht]
          exact hc
        rw [if_pos hc1]
        exact congrArg Except.ok (rlist_add_tail_idem sp tn.addr r)
      · rw [if_neg hc] at h
        cases h
        have hc1 : ¬ (nk ≥ (rlist_del sp tn.addr).thresh.rspill_runlen_min ∧ jobs < 3) := hc
        rw [if_neg hc1]
        exact congrArg Except.ok (rlist_del_idem sp tn.addr r)
  · have hleaf : cn_node_isroot idx = false := by simpa using hroot
    rcases dirty_categories_leaf E sp tree idx tn nk jobs hleaf with
      ⟨e, he⟩ | ⟨f, ⟨g, hg⟩, hf⟩
    · have h2 := he sp.rbt
      rw [show ({ sp with rbt := sp.rbt } : sp3) = sp from rfl, h] at h2
      cases h2
    · have h2 := hf sp.rbt
      rw [show ({ sp with rbt := sp.rbt } : sp3) = sp from rfl, h] at h2
      obtain ⟨r1, e1, v1⟩ := hg sp.rbt
      have hc1 : c1 = { sp with rbt := r1 } := by
        rw [← e1]
        exact Except.ok.inj h2
      subst hc1
      refine ⟨g, v1, fun r => ?_⟩
      obtain ⟨r2, e2, v2⟩ := hg r
      refine ⟨r2, ?_, v2⟩
      rw [← e2]
      exact hf r

theorem dirty_idle_eq (jclock_ns : Nat) (sp : sp3) (tn : cn_tree_node) (nk jobs : Nat) :
    sp3_dirty_idle jclock_ns sp tn nk jobs =
      { sp with rbt := (sp3_dirty_idle jclock_ns sp tn nk jobs).rbt } := by
  unfold sp3_dirty_idle
  by_cases hc : nk ≥ sp.thresh.llen_idlec ∧ sp.thresh.llen_idlem > 0 ∧ jobs < 1
  · rw [if_pos hc]
    dsimp only
    exact node_insert_eq _ _ _ _
  · rw [if_neg hc]
    rfl

theorem dirty_idle_weight (jclock_ns : Nat) (sp : sp3) (tn : cn_tree_node) (nk jobs : Nat)
    (tx : sp3_work_type) (a : Nat) :
    rb_weight ((sp3_dirty_idle jclock_ns sp tn nk jobs).rbt tx) a =
      if tx = sp3_work_type.wtype_idle ∧ a = tn.addr then
        (if nk ≥ sp.thresh.llen_idlec ∧ sp.thresh.llen_idlem > 0 ∧ jobs < 1 then
          some (u64 (usub64 (usub64 UINT32_MAX (jclock_ns >>> 32))
            (if tn.tn_ns.ns_ptombs ≠ 0 then 60 / 4 else sp.thresh.llen_idlem * 60 / 4) <<< 32)
              ||| nk)
         else none)
      else rb_weight (sp.rbt tx) a := by
  unfold sp3_dirty_idle
  by_cases hc : nk ≥ sp.thresh.llen_idlec ∧ sp.thresh.llen_idlem > 0 ∧ jobs < 1
  · rw [if_pos hc, if_pos hc]
    dsimp only
    rw [node_insert_weight]
  · rw [if_neg hc, if_neg hc, node_remove_weight]

theorem dirty_twice_weight (g : sp3_work_type → Nat → Option (Option Nat))
    (j1 j2 : Nat) (sp c1 : sp3) (tn : cn_tree_node) (nk jobs : Nat)
    (r2 : sp3_work_type → List sp3_rbe)
    (v1 : ∀ tx a, rb_weight (c1.rbt tx) a = (g tx a).getD (rb_weight (sp.rbt tx) a))
    (v2 : ∀ tx a, rb_weight (r2 tx) a =
      (g tx a).getD (rb_weight ((sp3_dirty_idle j1 c1 tn nk jobs).rbt tx) a))
    (tx : sp3_work_type) (a : Nat) :
    ((rb_weight ((sp3_dirty_idle j2 { c1 with rbt := r2 } tn nk jobs).rbt tx) a).isSome =
      (rb_weight ((sp3_dirty_idle j1 c1 tn nk jobs).rbt tx) a).isSome) ∧
    (j2 = j1 →
      rb_weight ((sp3_dirty_idle j2 { c1 with rbt := r2 } tn nk jobs).rbt tx) a =
        rb_weight ((sp3_dirty_idle j1 c1 tn nk jobs).rbt tx) a) := by
  have key : ¬ (tx = sp3_work_type.wtype_idle ∧ a = tn.addr) →
      rb_weight (r2 tx) a = rb_weight (c1.rbt tx) a := by
    intro hn
    rw [v2 tx a, dirty_idle_weight, if_neg hn, v1 tx a]
    cases g tx a <;> rfl
  rw [dirty_idle_weight j2, dirty_idle_weight j1]
  dsimp only
  by_cases hc : tx = sp3_work_type.wtype_idle ∧ a = tn.addr
  · rw [if_pos hc, if_pos hc]
    constructor
    · by_cases hd : nk ≥ c1.thresh.llen_idlec ∧ c1.thresh.llen_idlem > 0 ∧ jobs < 1
      · rw [if_pos hd, if_pos hd, Option.isSome_some, Option.isSome_some]
      · rw [if_neg hd, if_neg hd]
    · intro hj
      rw [hj]
  · rw [if_neg hc, if_neg hc, key hc]
    exact ⟨rfl, fun _ => rfl⟩

/-- C11: running the classifier `sp3_dirty_node_locked` a second time on the
same node of an unchanged tree, with unchanged thresholds, yields the same
memberships of every node in all seven indexes and the same root-ready list
as running it once, whatever the clock of the second run; when the clock is
unchanged too, every member keeps its weight. -/
theorem C11_classifier_idempotent (E : sp3_env) (j1 j2 : Nat) (sp sp1 : sp3) (tree : cn_tree)
    (idx : Nat) (h1 : sp3_dirty_node_locked E j1 sp tree idx = Except.ok sp1) :
    ∃ sp2, sp3_dirty_node_locked E j2 sp1 tree idx = Except.ok sp2 ∧
      (∀ tx a, rb_member (sp2.rbt tx) a = rb_member (sp1.rbt tx) a) ∧
      sp2.spn_rlist = sp1.spn_rlist ∧
      (j2 = j1 → ∀ tx a, rb_weight (sp2.rbt tx) a = rb_weight (sp1.rbt tx) a) := by
  unfold sp3_dirty_node_locked at h1 ⊢
  cases htn : tree.ct_nodes[idx]? with
  | none =>
    rw [htn] at h1
    cases h1
  | some tn =>
    rw [htn] at h1
    dsimp only at h1 ⊢
    by_cases hinit : (!tn.spn_initialized) = true
    · rw [if_pos hinit] at h1 ⊢
      cases h1
      exact ⟨sp, rfl, fun _ _ => rfl, rfl, fun _ _ _ => rfl⟩
    · rw [if_neg hinit] at h1 ⊢
      cases hc : sp3_dirty_categories E sp tree idx tn
          (usub64 tn.tn_ns.ns_kvsets (u32 tn.tn_busycnt % 65536)) (u32 tn.tn_busycnt / 65536) with
      | error e =>
        rw [hc] at h1
        cases h1
      | ok c1 =>
        rw [hc] at h1
        dsimp only at h1
        cases h1
        obtain ⟨g, v1, hr⟩ := dirty_categories_twice E sp c1 tree idx tn _ _ hc
        obtain ⟨r2, e2, v2⟩ := hr (sp3_dirty_idle j1 c1 tn
          (usub64 tn.tn_ns.ns_kvsets (u32 tn.tn_busycnt % 65536))
          (u32 tn.tn_busycnt / 65536)).rbt
        rw [← dirty_idle_eq] at e2
        rw [e2]
        dsimp only
        refine ⟨_, rfl, fun tx a => ?_, ?_, fun hj tx a => ?_⟩
        · rw [rb_member_isSome, rb_member_isSome]
          exact (dirty_twice_weight g j1 j2 sp c1 tn _ _ r2 v1 v2 tx a).1
        · rw [dirty_idle_eq j2, dirty_idle_eq j1]
        · exact (dirty_twice_weight g j1 j2 sp c1 tn _ _ r2 v1 v2 tx a).2 hj

/-- C11, instance: a leaf with two kvsets, classified at clock 0 and again at
clock `2^40`. -/
theorem C11_classifier_idempotent_witness :
    ∃ sp1 sp2,
      sp3_dirty_node_locked env_example 0
        { thresh := { llen_runlen_min := 1, llen_idlec := 1, llen_idlem := 1 } }
        { ct_nodes := [{}, { addr := 1, spn_initialized := true, tn_route_node := true,
                             tn_kvset_list := [{ dgen := 2 }, { dgen := 1 }],
                             tn_ns := { ns_kvsets := 2, ns_keys := 10, ns_keys_uniq := 10 } }] } 1 =
        Except.ok sp1 ∧
      sp3_dirty_node_locked env_example 1099511627776 sp1
        { ct_nodes := [{}, { addr := 1, spn_initialized := true, tn_route_node := true,
                             tn_kvset_list := [{ dgen := 2 }, { dgen := 1 }],
                             tn_ns := { ns_kvsets := 2, ns_keys := 10, ns_keys_uniq := 10 } }] } 1 =
        Except.ok sp2 ∧
      ∀ tx a, rb_member (sp2.rbt tx) a = rb_member (sp1.rbt tx) a := by
    obtain ⟨sp2, h2, hm, _⟩ := C11_classifier_idempotent env_example 0 1099511627776
      { thresh := { llen_runlen_min := 1, llen_idlec := 1, llen_idlem := 1 } } _
      { ct_nodes := [{}, { addr := 1, spn_initialized := true, tn_route_node := true,
                           tn_kvset_list := [{ dgen := 2 }, { dgen := 1 }],
                           tn_ns := { ns_kvsets := 2, ns_keys := 10, ns_keys_uniq := 10 } }] } 1 rfl
    exact ⟨_, sp2, rfl, h2, hm⟩

/-! ## The classification of a leaf without pending split or join -/

theorem dirty_node_leaf_eq (E : sp3_env) (jclock_ns : Nat) (sp : sp3) (tree : cn_tree)
    (idx : Nat) (tn : cn_tree_node)
    (htn : tree.ct_nodes[idx]? = some tn)
    (hinit : tn.spn_initialized = true)
    (hleaf : cn_node_isroot idx = false)
    (hroute : tn.tn_route_node = true)
    (hsplit : tn.tn_ss_splitting = false)
    (hjoin : tn.tn_ss_joining = 0)
    (hk : usub64 tn.tn_ns.ns_kvsets (u32 tn.tn_busycnt % 65536) > 0)
    (hjobs : u32 tn.tn_busycnt / 65536 < 1)
    (hsamp : ¬ tn.tn_samp.l_alen < tn.tn_samp.l_good) :
    sp3_dirty_node_locked E jclock_ns sp tree idx =
      Except.ok (sp3_dirty_idle jclock_ns
        (leaf_join sp.thresh tree idx tn (leaf_split E sp.thresh tree tn
          (leaf_garbage E tn (leaf_length E sp.thresh tn
            (usub64 tn.tn_ns.ns_kvsets (u32 tn.tn_busycnt % 65536)) (leaf_scatter E tn sp)))))
        tn (usub64 tn.tn_ns.ns_kvsets (u32 tn.tn_busycnt % 65536))
        (u32 tn.tn_busycnt / 65536)) := by
  have hcat : sp3_dirty_categories E sp tree idx tn
      (usub64 tn.tn_ns.ns_kvsets (u32 tn.tn_busycnt % 65536)) (u32 tn.tn_busycnt / 65536) =
      Except.ok (leaf_join sp.thresh tree idx tn (leaf_split E sp.thresh tree tn
        (leaf_garbage E tn (leaf_length E sp.thresh tn
          (usub64 tn.tn_ns.ns_kvsets (u32 tn.tn_busycnt % 65536)) (leaf_scatter E tn sp))))) := by
    unfold sp3_dirty_categories
    dsimp only
    rw [if_neg (by simp [hleaf]), if_neg (by simp [hroute]), if_neg (by simp [hsplit, hjoin]),
      if_pos ⟨hk, hjobs⟩, dirty_leaf_eq, if_neg hsamp]
  unfold sp3_dirty_node_locked
  rw [htn]
  dsimp only
  rw [if_neg (by simp [hinit]), hcat]

theorem leaf_garbage_tomb (E : sp3_env) (tn : cn_tree_node) (s : sp3)
    (h : leaf_tombish tn = true) :
    rb_weight ((leaf_garbage E tn s).rbt sp3_work_type.wtype_garbage) tn.addr =
        some ((100 <<< 32) ||| (tn.tn_ns.ns_alen >>> 20)) ∧
    rb_weight ((leaf_garbage E tn s).rbt sp3_work_type.wtype_length) tn.addr = none ∧
    rb_weight ((leaf_garbage E tn s).rbt sp3_work_type.wtype_scatter) tn.addr = none := by
  unfold leaf_garbage
  rw [if_pos h]
  refine ⟨?_, ?_, ?_⟩
  · rw [node_insert_weight, if_pos ⟨rfl, rfl⟩]
    rfl
  · rw [node_insert_weight, if_neg (fun h => absurd h.1 (by decide)), node_unlink_weight,
      if_pos rfl]
  · rw [node_insert_weight, if_neg (fun h => absurd h.1 (by decide)), node_unlink_weight,
      if_pos rfl]

theorem leaf_split_tomb (E : sp3_env) (T : sp3_thresholds) (tree : cn_tree)
    (tn : cn_tree_node) (s : sp3) (h : leaf_tombish tn = true) :
    rb_weight ((leaf_split E T tree tn s).rbt sp3_work_type.wtype_garbage) tn.addr =
        rb_weight (s.rbt sp3_work_type.wtype_garbage) tn.addr ∧
    (rb_weight (s.rbt sp3_work_type.wtype_length) tn.addr = none →
      rb_weight ((leaf_split E T tree tn s).rbt sp3_work_type.wtype_length) tn.addr = none) ∧
    (rb_weight (s.rbt sp3_work_type.wtype_scatter) tn.addr = none →
      rb_weight ((leaf_split E T tree tn s).rbt sp3_work_type.wtype_scatter) tn.addr = none) := by
  unfold leaf_split
  have h100 : ¬ ((if leaf_tombish tn = true then 100 else E.samp_pct_garbage tn.tn_samp 100) <
      100) := by
    rw [if_pos h]
    decide
  rw [if_neg h100]
  refine ⟨?_, fun hl => ?_, fun hs => ?_⟩
  · split_ifs <;> simp [node_insert_weight, node_remove_weight]
  · split_ifs <;> simp [node_insert_weight, node_remove_weight, hl]
  · split_ifs <;> simp [node_insert_weight, node_remove_weight, hs]

theorem joinable_left_iff (tree : cn_tree) (idx : Nat) (T : sp3_thresholds) (l : Nat)
    (left : cn_tree_node) :
    joinable_left tree idx T = some (l, left) ↔
      (sp3_work_joinable tree idx T = some l ∧ tree.ct_nodes[l]? = some left) := by
  unfold joinable_left
  cases h1 : sp3_work_joinable tree idx T with
  | none => simp
  | some l1 =>
    dsimp only
    cases h2 : tree.ct_nodes[l1]? with
    | none =>
      simp only [Option.some.injEq]
      constructor
      · intro h3
        cases h3
      · rintro ⟨rfl, h3⟩
        rw [h2] at h3
        cases h3
    | some left1 =>
      simp only [Option.some.injEq, Prod.mk.injEq]
      constructor
      · rintro ⟨rfl, rfl⟩
        exact ⟨rfl, h2⟩
      · rintro ⟨rfl, h3⟩
        rw [h2] at h3
        exact ⟨rfl, Option.some.inj h3⟩

theorem leaf_join_weight (T : sp3_thresholds) (tree : cn_tree) (idx : Nat) (tn : cn_tree_node)
    (s : sp3) (ty : sp3_work_type) (hty : ty ≠ sp3_work_type.wtype_join) :
    rb_weight ((leaf_join T tree idx tn s).rbt ty) tn.addr =
      match joinable_left tree idx T with
      | some (_, left) =>
        if left.tn_ns.ns_kvsets = 0 then none else rb_weight (s.rbt ty) tn.addr
      | none => rb_weight (s.rbt ty) tn.addr := by
  unfold leaf_join
  cases joinable_left tree idx T with
  | none =>
    dsimp only
    rw [node_remove_weight, if_neg (fun h => hty h.1)]
  | some p =>
    dsimp only
    rw [node_insert_weight, if_neg (fun h => hty h.1)]
    split_ifs
    · rw [node_unlink_weight, if_pos rfl]
    · rfl

/-- C12, as stated, fails for a leaf whose left neighbour is joinable and
empty: the leaf of scenario S2 (`tombs = 96`, `keys_uniq = 100`, `keys =
1000`, `alen = 128 MiB`), to the right of an empty leaf, is unlinked from every
index before it is put in the join index, so that after the classification it
is not in the garbage index. -/
theorem C12_counterexample :
    ∃ sp1,
      sp3_dirty_node_locked env_example 0 {}
        { ct_nodes := [{ spn_initialized := true },
                       { addr := 1, spn_initialized := true, tn_route_node := true },
                       { addr := 2, spn_initialized := true, tn_route_node := true,
                         tn_kvset_list := [{ dgen := 1 }],
                         tn_ns := { ns_kvsets := 1, ns_tombs := 96, ns_keys_uniq := 100,
                                    ns_keys := 1000, ns_alen := 134217728 } }] } 2 =
        Except.ok sp1 ∧
      rb_member (sp1.rbt sp3_work_type.wtype_garbage) 2 = false ∧
      rb_member (sp1.rbt sp3_work_type.wtype_join) 2 = true :=
  ⟨_, rfl, by decide, by decide⟩

/-- C12, amended: for every initialized leaf (a route node) with no pending
split or join, at least one unclaimed kvset and no active job, whose garbage
percentage can be computed (`l_alen >= l_good`), if `tombs * 100 > keys_uniq *
95` or `keys = 0` then after the classification the leaf is in neither the
length nor the scatter index; it is in the garbage index with weight `(100 <<
32) | (alen >> 20)` unless `sp3_work_joinable` returns an empty left
neighbour, in which case the leaf has been unlinked from the garbage index
too and is in the join index with weight `UINT64_MAX - 0`. -/
theorem C12_garbage_dominant_leaf (E : sp3_env) (jclock_ns : Nat) (sp : sp3) (tree : cn_tree)
    (idx : Nat) (tn : cn_tree_node)
    (htn : tree.ct_nodes[idx]? = some tn)
    (hinit : tn.spn_initialized = true)
    (hleaf : cn_node_isroot idx = false)
    (hroute : tn.tn_route_node = true)
    (hsplit : tn.tn_ss_splitting = false)
    (hjoin : tn.tn_ss_joining = 0)
    (hk : usub64 tn.tn_ns.ns_kvsets (u32 tn.tn_busycnt % 65536) > 0)
    (hjobs : u32 tn.tn_busycnt / 65536 < 1)
    (hsamp : ¬ tn.tn_samp.l_alen < tn.tn_samp.l_good)
    (htomb : tn.tn_ns.ns_tombs * 100 > tn.tn_ns.ns_keys_uniq * 95 ∨ tn.tn_ns.ns_keys = 0) :
    ∃ sp1, sp3_dirty_node_locked E jclock_ns sp tree idx = Except.ok sp1 ∧
      rb_member (sp1.rbt sp3_work_type.wtype_length) tn.addr = false ∧
      rb_member (sp1.rbt sp3_work_type.wtype_scatter) tn.addr = false ∧
      ((∀ l left, sp3_work_joinable tree idx sp.thresh = some l →
          tree.ct_nodes[l]? = some left → left.tn_ns.ns_kvsets ≠ 0) →
        rb_weight (sp1.rbt sp3_work_type.wtype_garbage) tn.addr =
          some ((100 <<< 32) ||| (tn.tn_ns.ns_alen >>> 20))) ∧
      (∀ l left, sp3_work_joinable tree idx sp.thresh = some l →
          tree.ct_nodes[l]? = some left → left.tn_ns.ns_kvsets = 0 →
        rb_member (sp1.rbt sp3_work_type.wtype_garbage) tn.addr = false ∧
        rb_weight (sp1.rbt sp3_work_type.wtype_join) tn.addr = some UINT64_MAX) := by
  have ht : leaf_tombish tn = true := by
    unfold leaf_tombish
    rcases htomb with h | h
    · simp [h]
    · simp [h]
  refine ⟨_, dirty_node_leaf_eq E jclock_ns sp tree idx tn htn hinit hleaf hroute hsplit hjoin
    hk hjobs hsamp, ?_, ?_, ?_, ?_⟩
  · rw [rb_member_isSome, dirty_idle_weight, if_neg (fun h => absurd h.1 (by decide)),
      leaf_join_weight _ _ _ _ _ _ (by decide),
      (leaf_split_tomb E sp.thresh tree tn _ ht).2.1 (leaf_garbage_tomb E tn _ ht).2.1]
    cases joinable_left tree idx sp.thresh with
    | none => rfl
    | some p =>
      dsimp only
      split_ifs <;> rfl
  · rw [rb_member_isSome, dirty_idle_weight, if_neg (fun h => absurd h.1 (by decide)),
      leaf_join_weight _ _ _ _ _ _ (by decide),
      (leaf_split_tomb E sp.thresh tree tn _ ht).2.2 (leaf_garbage_tomb E tn _ ht).2.2]
    cases joinable_left tree idx sp.thresh with
    | none => rfl
    | some p =>
      dsimp only
      split_ifs <;> rfl
  · intro hne
    rw [dirty_idle_weight, if_neg (fun h => absurd h.1 (by decide)),
      leaf_join_weight _ _ _ _ _ _ (by decide), (leaf_split_tomb E sp.thresh tree tn _ ht).1,
      (leaf_garbage_tomb E tn _ ht).1]
    cases hj : joinable_left tree idx sp.thresh with
    | none => rfl
    | some p =>
      obtain ⟨l, left⟩ := p
      dsimp only
      have h2 := (joinable_left_iff tree idx sp.thresh l left).1 hj
      rw [if_neg (hne l left h2.1 h2.2)]
  · intro l left h1 h2 hz
    have hj := (joinable_left_iff tree idx sp.thresh l left).2 ⟨h1, h2⟩
    constructor
    · rw [rb_member_isSome, dirty_idle_weight, if_neg (fun h => absurd h.1 (by decide)),
        leaf_join_weight _ _ _ _ _ _ (by decide), hj]
      dsimp only
      rw [if_pos hz]
      rfl
    · rw [dirty_idle_weight, if_neg (fun h => absurd h.1 (by decide))]
      unfold leaf_join
      rw [hj]
      dsimp only
      rw [node_insert_weight, if_pos ⟨rfl, rfl⟩, hz]
      rfl

/-- C12, instance: the leaf of scenario S2, next to a left neighbour that
holds kvsets and is too large to join, is classified into the garbage index
with weight `(100 << 32) | 128`. -/
theorem C12_garbage_dominant_leaf_witness :
    ∃ sp1,
      sp3_dirty_node_locked env_example 0 {}
        { ct_nodes := [{ spn_initialized := true },
                       { addr := 1, spn_initialized := true, tn_route_node := true,
                         tn_ns := { ns_kvsets := 1, ns_wlen := 1 } },
                       { addr := 2, spn_initialized := true, tn_route_node := true,
                         tn_kvset_list := [{ dgen := 1 }],
                         tn_ns := { ns_kvsets := 1, ns_tombs := 96, ns_keys_uniq := 100,
                                    ns_keys := 1000, ns_alen := 134217728 } }] } 2 =
        Except.ok sp1 ∧
      rb_member (sp1.rbt sp3_work_type.wtype_length) 2 = false ∧
      rb_member (sp1.rbt sp3_work_type.wtype_scatter) 2 = false ∧
      rb_weight (sp1.rbt sp3_work_type.wtype_garbage) 2 = some ((100 <<< 32) ||| 128) := by
  obtain ⟨sp1, h, a, b, c, _⟩ := C12_garbage_dominant_leaf env_example 0 {}
    { ct_nodes := [{ spn_initialized := true },
                   { addr := 1, spn_initialized := true, tn_route_node := true,
                     tn_ns := { ns_kvsets := 1, ns_wlen := 1 } },
                   { addr := 2, spn_initialized := true, tn_route_node := true,
                     tn_kvset_list := [{ dgen := 1 }],
                     tn_ns := { ns_kvsets := 1, ns_tombs := 96, ns_keys_uniq := 100,
                                ns_keys := 1000, ns_alen := 134217728 } }] } 2
    { addr := 2, spn_initialized := true, tn_route_node := true,
      tn_kvset_list := [{ dgen := 1 }],
      tn_ns := { ns_kvsets := 1, ns_tombs := 96, ns_keys_uniq := 100,
                 ns_keys := 1000, ns_alen := 134217728 } }
    rfl rfl rfl rfl rfl rfl (by decide) (by decide) (by decide) (Or.inl (by decide))
  refine ⟨sp1, h, a, b, c ?_⟩
  intro l left h1 h2
  have h3 : l = 1 := by
    have h4 : sp3_work_joinable
      { ct_nodes := [{ spn_initialized := true },
                   { addr := 1, spn_initialized := true, tn_route_node := true,
                     tn_ns := { ns_kvsets := 1, ns_wlen := 1 } },
                   { addr := 2, spn_initialized := true, tn_route_node := true,
                     tn_kvset_list := [{ dgen := 1 }],
                     tn_ns := { ns_kvsets := 1, ns_tombs := 96, ns_keys_uniq := 100,
                                ns_keys := 1000, ns_alen := 134217728 } }] } 2 {} = none := by
      decide
    rw [h4] at h1
    cases h1
  subst h3
  cases h2
  decide

/-! ## The classification of a root -/

theorem rbt_dirty_idle_ne (jclock_ns : Nat) (sp : sp3) (tn : cn_tree_node) (nk jobs : Nat)
    (tx : sp3_work_type) (h : tx ≠ sp3_work_type.wtype_idle) :
    (sp3_dirty_idle jclock_ns sp tn nk jobs).rbt tx = sp.rbt tx := by
  unfold sp3_dirty_idle
  by_cases hc : nk ≥ sp.thresh.llen_idlec ∧ sp.thresh.llen_idlem > 0 ∧ jobs < 1
  · rw [if_pos hc]
    exact rbt_node_insert_ne _ _ _ _ _ h
  · rw [if_neg hc, rbt_node_remove, if_neg h]

theorem rlist_dirty_idle (jclock_ns : Nat) (sp : sp3) (tn : cn_tree_node) (nk jobs : Nat) :
    (sp3_dirty_idle jclock_ns sp tn nk jobs).spn_rlist = sp.spn_rlist := by
  rw [dirty_idle_eq]

/-- C13: after the classification of an initialized root, the root is on the
root-ready list if and only if its unclaimed kvset count (total kvsets minus
the low 16 bits of the busy count, in 64-bit unsigned arithmetic) is at least
`rspill_runlen_min` and its active-job count is below 3; a root that was on the
list keeps its position (the list is unchanged), a root that was not goes to
the tail, and a root that is not ready is taken off the list; no index other
than the idle index is changed, so that the root is inserted into none of the
length, garbage, scatter, split and join indexes. -/
theorem C13_root_ready_list (E : sp3_env) (jclock_ns : Nat) (sp : sp3) (tree : cn_tree)
    (idx : Nat) (tn : cn_tree_node)
    (htn : tree.ct_nodes[idx]? = some tn)
    (hinit : tn.spn_initialized = true)
    (hroot : cn_node_isroot idx = true) :
    ∃ sp1, sp3_dirty_node_locked E jclock_ns sp tree idx = Except.ok sp1 ∧
      (sp1.spn_rlist.contains tn.addr = true ↔
        (usub64 tn.tn_ns.ns_kvsets (u32 tn.tn_busycnt % 65536) ≥ sp.thresh.rspill_runlen_min ∧
          u32 tn.tn_busycnt / 65536 < 3)) ∧
      (sp1.spn_rlist.contains tn.addr = true →
        sp1.spn_rlist =
          if sp.spn_rlist.contains tn.addr then sp.spn_rlist else sp.spn_rlist ++ [tn.addr]) ∧
      (sp1.spn_rlist.contains tn.addr = false →
        sp1.spn_rlist = sp.spn_rlist.filter (fun a => a != tn.addr)) ∧
      (∀ tx, tx ≠ sp3_work_type.wtype_idle → sp1.rbt tx = sp.rbt tx) ∧
      (u32 tn.tn_busycnt % 65536 ≤ tn.tn_ns.ns_kvsets → tn.tn_ns.ns_kvsets < 2 ^ 64 →
        usub64 tn.tn_ns.ns_kvsets (u32 tn.tn_busycnt % 65536) =
          tn.tn_ns.ns_kvsets - u32 tn.tn_busycnt % 65536) := by
  have hsub : u32 tn.tn_busycnt % 65536 ≤ tn.tn_ns.ns_kvsets → tn.tn_ns.ns_kvsets < 2 ^ 64 →
      usub64 tn.tn_ns.ns_kvsets (u32 tn.tn_busycnt % 65536) =
        tn.tn_ns.ns_kvsets - u32 tn.tn_busycnt % 65536 := by
    intro h1 h2
    unfold usub64 u64
    have h3 : u32 tn.tn_busycnt % 65536 < 65536 := Nat.mod_lt _ (by decide)
    norm_num at h2
    omega
  unfold sp3_dirty_node_locked
  rw [htn]
  dsimp only
  rw [if_neg (by simp [hinit])]
  unfold sp3_dirty_categories
  dsimp only
  rw [if_pos hroot]
  by_cases hc : usub64 tn.tn_ns.ns_kvsets (u32 tn.tn_busycnt % 65536) ≥
      sp.thresh.rspill_runlen_min ∧ u32 tn.tn_busycnt / 65536 < 3
  · rw [if_pos hc]
    dsimp only
    refine ⟨_, rfl, ?_, ?_, ?_, ?_, hsub⟩
    · rw [rlist_dirty_idle]
      unfold rlist_add_tail
      by_cases hm : sp.spn_rlist.contains tn.addr = true
      · rw [if_pos hm]
        exact ⟨fun _ => hc, fun _ => hm⟩
      · rw [if_neg hm]
        exact ⟨fun _ => hc, fun _ => by simp⟩
    · intro _
      rw [rlist_dirty_idle]
      unfold rlist_add_tail
      by_cases hm : sp.spn_rlist.contains tn.addr = true
      · rw [if_pos hm, if_pos hm]
      · rw [if_neg hm, if_neg hm]
    · intro hn
      rw [rlist_dirty_idle] at hn
      unfold rlist_add_tail at hn
      by_cases hm : sp.spn_rlist.contains tn.addr = true
      · rw [if_pos hm, hm] at hn
        cases hn
      · rw [if_neg hm] at hn
        simp at hn
    · intro tx htx
      rw [rbt_dirty_idle_ne _ _ _ _ _ _ htx]
      unfold rlist_add_tail
      split_ifs <;> rfl
  · rw [if_neg hc]
    dsimp only
    have hnot : (sp.spn_rlist.filter (fun a => a != tn.addr)).contains tn.addr = false := by
      simp
    refine ⟨_, rfl, ?_, ?_, ?_, ?_, hsub⟩
    · rw [rlist_dirty_idle]
      unfold rlist_del
      dsimp only
      rw [hnot]
      exact ⟨fun h => Bool.noConfusion h, fun h => absurd h hc⟩
    · intro hn
      rw [rlist_dirty_idle] at hn
      unfold rlist_del at hn
      dsimp only at hn
      rw [hnot] at hn
      cases hn
    · intro _
      rw [rlist_dirty_idle]
      rfl
    · intro tx htx
      rw [rbt_dirty_idle_ne _ _ _ _ _ _ htx]
      rfl

/-- C13, instance: a root with four kvsets, one of them claimed by the one
active job, and `rspill_runlen_min = 3`, goes to the tail of the list. -/
theorem C13_root_ready_list_witness :
    ∃ sp1,
      sp3_dirty_node_locked env_example 0
        { thresh := { rspill_runlen_min := 3 }, spn_rlist := [7] }
        { ct_nodes := [{ addr := 1, spn_initialized := true,
                         tn_ns := { ns_kvsets := 4 }, tn_busycnt := 65537 }] } 0 =
        Except.ok sp1 ∧
      sp1.spn_rlist = [7, 1] := by
  obtain ⟨sp1, h, a, b, _, _⟩ := C13_root_ready_list env_example 0
    { thresh := { rspill_runlen_min := 3 }, spn_rlist := [7] }
    { ct_nodes := [{ addr := 1, spn_initialized := true,
                     tn_ns := { ns_kvsets := 4 }, tn_busycnt := 65537 }] } 0
    { addr := 1, spn_initialized := true, tn_ns := { ns_kvsets := 4 }, tn_busycnt := 65537 }
    rfl rfl rfl
  exact ⟨sp1, h, b (a.2 (by decide))⟩

/-! ## The split planner with subspills in flight -/

theorem set_node_self (tree : cn_tree) (idx : Nat) (tn : cn_tree_node)
    (h : idx < tree.ct_nodes.length) : (tree_set_node tree idx tn).ct_nodes[idx]? = some tn := by
  rw [tree_set_node_get, if_pos rfl, if_pos h]

theorem split_plan_spilling (F jclock_ns : Nat) (tree : cn_tree) (tn : cn_tree_node)
    (thresh : sp3_thresholds)
    (hsplittable : sp3_work_splittable tn thresh = true)
    (hroom : (tree.ct_fanout : Int) < (F : Int) - tree.ct_split_cnt)
    (hflag : tn.tn_ss_splitting = false)
    (hcnt : tree.ct_split_cnt < (thresh.split_cnt_max : Int))
    (hclock : ¬ jclock_ns < tree.ct_split_dly)
    (hspill : tn.tn_ss_spilling > 0) :
    sp3_work_wtype_split F jclock_ns tree tn thresh =
      if tn.tn_ss_visits < thresh.split_cnt_max then
        (tree, { tn with tn_ss_visits := tn.tn_ss_visits + 1 },
         { kvsets := 0, mark := list_last_entry_or_null tn.tn_kvset_list,
           action := cn_action.CN_ACTION_SPLIT, rule := cn_rule.CN_RULE_SPLIT })
      else
        (split_cnt_inc jclock_ns tree thresh,
         { tn with tn_ss_splitting := true, tn_ss_visits := 0 },
         { kvsets := 0, mark := list_last_entry_or_null tn.tn_kvset_list,
           action := cn_action.CN_ACTION_SPLIT, rule := cn_rule.CN_RULE_SPLIT }) := by
  have hd : split_deferred jclock_ns tree thresh = false := by
    unfold split_deferred
    simp only [Bool.or_eq_false_iff, decide_eq_false_iff_not]
    exact ⟨by omega, hclock⟩
  have hs : tn.tn_ss_spilling ≠ 0 := by omega
  unfold sp3_work_wtype_split
  dsimp only
  rw [hsplittable, if_pos (by simpa using hroom), hflag, hd]
  by_cases hv : tn.tn_ss_visits < thresh.split_cnt_max
  · simp [hv, hs, hflag]
  · simp [hv, hs]

/-- C14, as stated, fails: a splittable leaf in a tree with room, with its
split flag not set, no active split against `split_cnt_max = 2`, no cool-down
and `spilling_count = 2`, on its first visit (`tn_ss_visits = 0`) only gets its
visit counter incremented; `sp3_work` returns no work with `cw_resched = true`
and the split flag is still false. -/
theorem C14_counterexample :
    ∃ tree1 w1 tn1,
      sp3_work env_example 0 0
        { ct_nodes := [{ spn_initialized := true },
                       { addr := 1, spn_initialized := true, tn_route_node := true,
                         tn_kvset_list := [{ dgen := 1 }],
                         tn_ns := { ns_kvsets := 1, ns_clen := 200 }, tn_split_size := 100,
                         tn_ss_spilling := 2 }],
          ct_fanout := 1 }
        1 sp3_work_type.wtype_split { split_cnt_max := 2 } 0 {} = Except.ok (tree1, w1) ∧
      tree1.ct_nodes[1]? = some tn1 ∧
      w1.cw_action = cn_action.CN_ACTION_NONE ∧ w1.cw_resched = true ∧
      tn1.tn_ss_splitting = false ∧ tn1.tn_ss_visits = 1 :=
  ⟨_, _, _, rfl, rfl, rfl, rfl, rfl, rfl⟩

/-- C14, amended: for a leaf that holds kvsets, whose compaction token is free,
in a tree whose maintenance is not disabled, that is splittable in a tree with
room to expand, whose split flag is not yet set, with fewer than
`split_cnt_max` active splits, no cool-down in effect and `spilling_count >
0`, a call of `sp3_work` with `wtype_split` returns no work item (the planner
returns `kvsets = 0`) with `cw_resched = true` and the token released.  While
the visit counter of the node is below `split_cnt_max` the call only
increments it and leaves the split flag false; once the counter has reached
`split_cnt_max` the call sets the split flag to true, resets the counter and
raises the count of active splits by one. -/
theorem C14_split_commit_with_subspill (E : sp3_env) (jclock_ns now : Nat) (tree : cn_tree)
    (idx : Nat) (thresh : sp3_thresholds) (debug : Nat) (w : cn_compaction_work)
    (tn : cn_tree_node)
    (htn : tree.ct_nodes[idx]? = some tn)
    (hleaf : cn_node_isroot idx = false)
    (htoken : tn.tn_compacting = false)
    (hmaint : tree.cn_maint_disable = false)
    (hlist : tn.tn_kvset_list ≠ [])
    (hsplittable : sp3_work_splittable tn thresh = true)
    (hroom : (tree.ct_fanout : Int) < (E.CN_FANOUT_MAX : Int) - tree.ct_split_cnt)
    (hflag : tn.tn_ss_splitting = false)
    (hcnt : tree.ct_split_cnt < (thresh.split_cnt_max : Int))
    (hclock : ¬ jclock_ns < tree.ct_split_dly)
    (hspill : tn.tn_ss_spilling > 0) :
    ∃ tree1 w1 tn1,
      sp3_work E jclock_ns now tree idx sp3_work_type.wtype_split thresh debug w =
        Except.ok (tree1, w1) ∧
      tree1.ct_nodes[idx]? = some tn1 ∧
      w1.cw_action = cn_action.CN_ACTION_NONE ∧ w1.cw_resched = true ∧
      tn1.tn_compacting = false ∧
      (sp3_work_wtype_split E.CN_FANOUT_MAX jclock_ns tree tn thresh).2.2.kvsets = 0 ∧
      (tn.tn_ss_visits < thresh.split_cnt_max →
        tn1.tn_ss_splitting = false ∧ tn1.tn_ss_visits = tn.tn_ss_visits + 1 ∧
        tree1.ct_split_cnt = tree.ct_split_cnt) ∧
      (thresh.split_cnt_max ≤ tn.tn_ss_visits →
        tn1.tn_ss_splitting = true ∧ tn1.tn_ss_visits = 0 ∧
        tree1.ct_split_cnt = tree.ct_split_cnt + 1) := by
  have hidx : idx < tree.ct_nodes.length := (List.getElem?_eq_some.1 htn).1
  have hget : (cn_node_comp_token_get tn) = (true, { tn with tn_compacting := true }) := by
    unfold cn_node_comp_token_get
    rw [htoken]
    rfl
  have hmark : list_last_entry_or_null tn.tn_kvset_list ≠ le_ptr.null := by
    cases hl : tn.tn_kvset_list with
    | nil => exact absurd hl hlist
    | cons k ks => simp [list_last_entry_or_null]
  have hplan := split_plan_spilling E.CN_FANOUT_MAX jclock_ns
    (tree_set_node tree idx { tn with tn_compacting := true }) { tn with tn_compacting := true }
    thresh hsplittable hroom hflag hcnt hclock hspill
  have hplan0 := split_plan_spilling E.CN_FANOUT_MAX jclock_ns tree tn thresh hsplittable hroom
    hflag hcnt hclock hspill
  unfold sp3_work
  rw [htn]
  dsimp only
  rw [hget]
  dsimp only
  rw [if_neg (by simp), if_neg (by simp [tree_set_node, hmaint])]
  unfold sp3_work_plan
  dsimp only
  rw [if_neg (by simp [hleaf]), hplan]
  have hl0 : idx < (tree_set_node tree idx { tn with tn_compacting := true }).ct_nodes.length := by
    rw [tree_set_node_length]
    exact hidx
  have hl1 : idx < (split_cnt_inc jclock_ns
      (tree_set_node tree idx { tn with tn_compacting := true }) thresh).ct_nodes.length := by
    rw [split_cnt_inc_nodes]
    exact hl0
  by_cases hv : tn.tn_ss_visits < thresh.split_cnt_max
  · rw [if_pos hv] at hplan0 ⊢
    dsimp only
    rw [set_node_self _ _ _ hl0]
    dsimp only
    rw [if_pos rfl]
    unfold sp3_work_nowork
    rw [set_node_self _ _ _ hl0]
    dsimp only
    rw [if_pos rfl]
    refine ⟨_, _, _, rfl, set_node_self _ _ _ (by rw [tree_set_node_length]; exact hl0), rfl, ?_,
      rfl, ?_, ?_, ?_⟩
    · simp [hmark]
    · rw [hplan0]
    · intro _
      exact ⟨hflag, rfl, rfl⟩
    · intro h2
      omega
  · rw [if_neg hv] at hplan0 ⊢
    dsimp only
    rw [set_node_self _ _ _ hl1]
    dsimp only
    rw [if_pos rfl]
    unfold sp3_work_nowork
    rw [set_node_self _ _ _ hl1]
    dsimp only
    rw [if_pos rfl]
    refine ⟨_, _, _, rfl, set_node_self _ _ _ (by rw [tree_set_node_length]; exact hl1), rfl, ?_,
      rfl, ?_, ?_, ?_⟩
    · simp [hmark]
    · rw [hplan0]
    · intro h2
      exact absurd h2 hv
    · intro _
      refine ⟨rfl, rfl, ?_⟩
      unfold split_cnt_inc tree_set_node
      dsimp only
      split_ifs <;> rfl

/-- C14, instance: the leaf of the counterexample on a later visit, when its
visit counter has reached `split_cnt_max = 2`, gets its split flag set. -/
theorem C14_split_commit_with_subspill_witness :
    ∃ tree1 w1 tn1,
      sp3_work env_example 0 0
        { ct_nodes := [{ spn_initialized := true },
                       { addr := 1, spn_initialized := true, tn_route_node := true,
                         tn_kvset_list := [{ dgen := 1 }],
                         tn_ns := { ns_kvsets := 1, ns_clen := 200 }, tn_split_size := 100,
                         tn_ss_spilling := 2, tn_ss_visits := 2 }],
          ct_fanout := 1 }
        1 sp3_work_type.wtype_split { split_cnt_max := 2 } 0 {} = Except.ok (tree1, w1) ∧
      tree1.ct_nodes[1]? = some tn1 ∧
      w1.cw_action = cn_action.CN_ACTION_NONE ∧ w1.cw_resched = true ∧
      tn1.tn_ss_splitting = true := by
  obtain ⟨tree1, w1, tn1, h, a, b, c, _, _, _, d⟩ := C14_split_commit_with_subspill env_example
    0 0
    { ct_nodes := [{ spn_initialized := true },
                   { addr := 1, spn_initialized := true, tn_route_node := true,
                     tn_kvset_list := [{ dgen := 1 }],
                     tn_ns := { ns_kvsets := 1, ns_clen := 200 }, tn_split_size := 100,
                     tn_ss_spilling := 2, tn_ss_visits := 2 }],
      ct_fanout := 1 }
    1 { split_cnt_max := 2 } 0 {}
    { addr := 1, spn_initialized := true, tn_route_node := true,
      tn_kvset_list := [{ dgen := 1 }],
      tn_ns := { ns_kvsets := 1, ns_clen := 200 }, tn_split_size := 100,
      tn_ss_spilling := 2, tn_ss_visits := 2 }
    rfl rfl rfl rfl (List.cons_ne_nil _ _) (by decide) (by decide) rfl (by decide) (by decide)
    (by decide)
  exact ⟨tree1, w1, tn1, h, a, b, c, (d (by decide)).1⟩

/-! ## The join planner and the join work item -/

theorem joinable_token (tree : cn_tree) (idx : Nat) (tn : cn_tree_node)
    (thresh : sp3_thresholds) (htn : tree.ct_nodes[idx]? = some tn) :
    sp3_work_joinable (tree_set_node tree idx { tn with tn_compacting := true }) idx thresh =
      sp3_work_joinable tree idx thresh := by
  have hidx : idx < tree.ct_nodes.length := (List.getElem?_eq_some.1 htn).1
  unfold sp3_work_joinable
  rw [set_node_self _ _ _ hidx, htn]
  dsimp only
  by_cases h0 : idx = 0
  · rw [if_pos h0, if_pos h0]
  · have hne : ¬ idx = idx - 1 := by omega
    rw [tree_set_node_get, if_neg hne]

theorem join_plan_commit (jclock_ns : Nat) (tree : cn_tree) (idx l : Nat)
    (thresh : sp3_thresholds) (tn left : cn_tree_node)
    (htn : tree.ct_nodes[idx]? = some tn)
    (hjl : sp3_work_joinable tree idx thresh = some l)
    (hleft : tree.ct_nodes[l]? = some left)
    (hlist : tn.tn_kvset_list ≠ [])
    (hj0 : tn.tn_ss_joining = 0)
    (hsp1 : left.tn_ss_spilling = 0) (hsp2 : tn.tn_ss_spilling = 0)
    (hcnt : tree.ct_split_cnt < (thresh.split_cnt_max : Int))
    (hclock : ¬ jclock_ns < tree.ct_split_dly)
    (hlj : left.tn_ss_joining = 0) (hltoken : left.tn_compacting = false) :
    sp3_work_wtype_join jclock_ns tree idx thresh =
      Except.ok
        (tree_set_node
          (tree_set_node (split_cnt_inc jclock_ns tree thresh) l
            { left with tn_compacting := true, tn_ss_joining := -1 })
          idx { tn with tn_ss_joining := 1, tn_ss_visits := 0 },
         { kvsets := tn.tn_ns.ns_kvsets, mark := le_ptr.entry (tn.tn_kvset_list.length - 1),
           action := cn_action.CN_ACTION_JOIN, rule := cn_rule.CN_RULE_JOIN }) := by
  have hd : split_deferred jclock_ns tree thresh = false := by
    unfold split_deferred
    simp only [Bool.or_eq_false_iff, decide_eq_false_iff_not]
    exact ⟨by omega, hclock⟩
  have hmark : list_last_entry_or_null tn.tn_kvset_list =
      le_ptr.entry (tn.tn_kvset_list.length - 1) := by
    unfold list_last_entry_or_null
    rw [if_neg]
    intro h
    exact hlist (List.length_eq_zero.1 h)
  have hget : cn_node_comp_token_get left = (true, { left with tn_compacting := true }) := by
    unfold cn_node_comp_token_get
    rw [hltoken]
    rfl
  have hreq : join_request jclock_ns tree left tn thresh
      (le_ptr.entry (tn.tn_kvset_list.length - 1)) false =
      (split_cnt_inc jclock_ns tree thresh,
       { left with tn_compacting := true, tn_ss_joining := -1 },
       { tn with tn_ss_joining := 1, tn_ss_visits := 0 },
       le_ptr.entry (tn.tn_kvset_list.length - 1)) := by
    unfold join_request
    rw [if_pos hj0, hd, hget]
    simp [hlj]
  unfold sp3_work_wtype_join
  rw [htn]
  dsimp only
  rw [(joinable_left_iff tree idx thresh l left).2 ⟨hjl, hleft⟩]
  dsimp only
  rw [hmark]
  have hs : (decide (left.tn_ss_spilling ≠ 0) || decide (tn.tn_ss_spilling ≠ 0)) = false := by
    simp [hsp1, hsp2]
  rw [hs, hreq]
  simp

theorem work_commit_join (now : Nat) (tree : cn_tree) (idx : Nat) (tn left : cn_tree_node)
    (p : wplan) (debug : Nat) (w : cn_compaction_work)
    (hidx : idx < tree.ct_nodes.length) (h0 : idx ≠ 0)
    (hleft : tree.ct_nodes[idx - 1]? = some left)
    (ha : p.action = cn_action.CN_ACTION_JOIN)
    (hm : p.mark = le_ptr.entry (tn.tn_kvset_list.length - 1))
    (hn : p.kvsets = tn.tn_kvset_list.length)
    (hpos : 0 < tn.tn_kvset_list.length)
    (hz : ∀ (i : Nat) (k : kvset), tn.tn_kvset_list[i]? = some k → k.workid = 0) :
    ∃ tree1 w1 kvs kl,
      sp3_work_commit now tree idx tn p true debug w = Except.ok (tree1, w1) ∧
      tree1.ct_nodes[idx]? =
        some { tn with tn_busycnt := tn.tn_busycnt + (65536 + p.kvsets), tn_kvset_list := kvs } ∧
      tree1.ct_nodes[idx - 1]? = some { left with tn_kvset_list := kl } ∧
      tree1.ct_split_cnt = tree.ct_split_cnt ∧
      w1.cw_action = cn_action.CN_ACTION_JOIN ∧ w1.cw_kvset_cnt = p.kvsets ∧
      w1.cw_mark = p.mark ∧ w1.cw_join = some (idx - 1) ∧ w1.cw_have_token = true := by
  have hlt : tn.tn_kvset_list.length - 1 < tn.tn_kvset_list.length := by omega
  have hne : ¬ idx = idx - 1 := by omega
  have hl1 : idx - 1 < tree.ct_nodes.length := by omega
  unfold sp3_work_commit
  dsimp only
  rw [hm]
  dsimp only
  rw [List.getElem?_eq_getElem hlt]
  dsimp only
  obtain ⟨⟨kvs, w2⟩, hr⟩ := mark_kvsets_ok
    tn.tn_kvset_list[tn.tn_kvset_list.length - 1].dgen p.kvsets
    (tn.tn_kvset_list.length - 1) tn.tn_kvset_list
    { w with cw_dgen_hi_min := tn.tn_kvset_list[tn.tn_kvset_list.length - 1].dgen,
             cw_dgen_lo := UINT64_MAX } (by omega) hlt (fun i k _ hk => hz i k hk)
  rw [hr]
  dsimp only
  have hlen : kvs.length = tn.tn_kvset_list.length := by
    obtain ⟨n, hn1⟩ : ∃ n, p.kvsets = n + 1 := ⟨p.kvsets - 1, by omega⟩
    rw [hn1] at hr
    exact (mark_kvsets_spec _ n _ _ kvs _ w2 hr).2.2.1
  unfold sp3_work_finish
  rw [ha, if_neg (by decide), if_pos rfl, tree_set_node_get, if_neg hne, hleft]
  dsimp only
  unfold sp3_work_estimate
  dsimp only
  obtain ⟨⟨keys, halen, kalen, valen⟩, hs⟩ := estimate_sum_ok p.kvsets
    (tn.tn_kvset_list.length - 1) kvs (0, 0, 0, 0) (by omega) (by omega)
  rw [hs]
  dsimp only
  refine ⟨_, _, kvs, (join_mark_left left.tn_kvset_list.reverse 0).reverse, rfl, ?_, ?_, rfl,
    rfl, rfl, rfl, rfl, rfl⟩
  · rw [tree_set_node_get, if_neg (Ne.symm hne), tree_set_node_get, if_pos rfl, if_pos hidx]
  · rw [tree_set_node_get, if_pos rfl, if_pos (by rw [tree_set_node_length]; exact hl1)]

theorem joinable_right (tree : cn_tree) (idx l : Nat) (thresh : sp3_thresholds)
    (tn : cn_tree_node) (htn : tree.ct_nodes[idx]? = some tn)
    (h : sp3_work_joinable tree idx thresh = some l) :
    tn.tn_ss_splitting = false ∧ tn.tn_ns.ns_kvsets ≠ 0 := by
  unfold sp3_work_joinable at h
  rw [htn] at h
  dsimp only at h
  by_cases h1 : (!tn.spn_initialized || tn.tn_ss_splitting) = true
  · rw [if_pos h1] at h
    cases h
  · rw [if_neg h1] at h
    have hsf : tn.tn_ss_splitting = false := by
      cases hs : tn.tn_ss_splitting with
      | false => rfl
      | true => exact absurd (by simp [hs]) h1
    refine ⟨hsf, ?_⟩
    intro hz
    by_cases h0 : idx = 0
    · rw [if_pos h0] at h
      cases h
    · rw [if_neg h0] at h
      cases hl : tree.ct_nodes[idx - 1]? with
      | none =>
        rw [hl] at h
        cases h
      | some left =>
        rw [hl] at h
        dsimp only at h
        split_ifs at h

/-- C15, as stated, fails when the compaction token of the right leaf is
held: with scenario S4 (right leaf with 4 kvsets, empty left leaf, no
subspills, no active split, left not joining, left token free) and the right
leaf under an exclusive job, `sp3_work` returns without a work item and the
join flags stay 0. -/
theorem C15_counterexample :
    sp3_work_joinable
      { ct_nodes := [{ spn_initialized := true },
                     { addr := 1, spn_initialized := true, tn_route_node := true },
                     { addr := 2, spn_initialized := true, tn_route_node := true,
                       tn_compacting := true,
                       tn_kvset_list :=
                         [{ dgen := 4 }, { dgen := 3 }, { dgen := 2 }, { dgen := 1 }],
                       tn_ns := { ns_kvsets := 4, ns_wlen := 8388608 } }] }
      2 { split_cnt_max := 8 } = some 1 ∧
    sp3_work env_example 0 0
      { ct_nodes := [{ spn_initialized := true },
                     { addr := 1, spn_initialized := true, tn_route_node := true },
                     { addr := 2, spn_initialized := true, tn_route_node := true,
                       tn_compacting := true,
                       tn_kvset_list :=
                         [{ dgen := 4 }, { dgen := 3 }, { dgen := 2 }, { dgen := 1 }],
                       tn_ns := { ns_kvsets := 4, ns_wlen := 8388608 } }] }
      2 sp3_work_type.wtype_join { split_cnt_max := 8 } 0 {} =
      Except.ok
        ({ ct_nodes := [{ spn_initialized := true },
                     { addr := 1, spn_initialized := true, tn_route_node := true },
                     { addr := 2, spn_initialized := true, tn_route_node := true,
                       tn_compacting := true,
                       tn_kvset_list :=
                         [{ dgen := 4 }, { dgen := 3 }, { dgen := 2 }, { dgen := 1 }],
                       tn_ns := { ns_kvsets := 4, ns_wlen := 8388608 } }] }, {}) :=
  ⟨by decide, rfl⟩

/-- C15, amended: for a right leaf whose `n >= 1` kvsets are all unclaimed,
that has no active job, whose own compaction token is free, that is not yet
joining, in a tree whose maintenance is not disabled, and whose left neighbour
is joinable (`sp3_work_joinable`, for instance because it is empty), when
neither node has subspills in flight, the count of active splits of the tree
is below `split_cnt_max`, no cool-down is in effect, the left node is not
already joining and its compaction token is free: `sp3_work` with `wtype_join`
takes the token of the left node, sets the flag of the left node to -1 and
that of the right node to +1, raises the count of active splits by one, and
returns a join work item whose run is all `n` kvsets of the right leaf, marked
at its oldest kvset. -/
theorem C15_join_work_item (E : sp3_env) (jclock_ns now : Nat) (tree : cn_tree) (idx l : Nat)
    (thresh : sp3_thresholds) (debug : Nat) (w : cn_compaction_work) (tn left : cn_tree_node)
    (htn : tree.ct_nodes[idx]? = some tn)
    (hjl : sp3_work_joinable tree idx thresh = some l)
    (hleft : tree.ct_nodes[l]? = some left)
    (hn : tn.tn_ns.ns_kvsets = tn.tn_kvset_list.length)
    (hfree : ∀ (i : Nat) (k : kvset), tn.tn_kvset_list[i]? = some k → k.workid = 0)
    (htoken : tn.tn_compacting = false)
    (hbusy : tn.tn_busycnt = 0)
    (hmaint : tree.cn_maint_disable = false)
    (hj0 : tn.tn_ss_joining = 0)
    (hsp1 : left.tn_ss_spilling = 0) (hsp2 : tn.tn_ss_spilling = 0)
    (hcnt : tree.ct_split_cnt < (thresh.split_cnt_max : Int))
    (hclock : ¬ jclock_ns < tree.ct_split_dly)
    (hlj : left.tn_ss_joining = 0) (hltoken : left.tn_compacting = false) :
    ∃ tree1 w1 tn1 left1,
      sp3_work E jclock_ns now tree idx sp3_work_type.wtype_join thresh debug w =
        Except.ok (tree1, w1) ∧
      w1.cw_action = cn_action.CN_ACTION_JOIN ∧
      w1.cw_kvset_cnt = tn.tn_kvset_list.length ∧
      w1.cw_mark = le_ptr.entry (tn.tn_kvset_list.length - 1) ∧
      w1.cw_join = some l ∧ w1.cw_have_token = true ∧
      tree1.ct_nodes[idx]? = some tn1 ∧ tree1.ct_nodes[l]? = some left1 ∧
      tn1.tn_ss_joining = 1 ∧ left1.tn_ss_joining = -1 ∧
      tn1.tn_compacting = true ∧ left1.tn_compacting = true ∧
      tree1.ct_split_cnt = tree.ct_split_cnt + 1 := by
  obtain ⟨h0, hl⟩ := joinable_some tree idx l thresh hjl
  obtain ⟨hns, hk⟩ := joinable_right tree idx l thresh tn htn hjl
  subst hl
  have hidx : idx < tree.ct_nodes.length := (List.getElem?_eq_some.1 htn).1
  have hne : ¬ idx = idx - 1 := by omega
  have hpos : 0 < tn.tn_kvset_list.length := by omega
  have hlist : tn.tn_kvset_list ≠ [] := by
    intro h
    rw [h] at hpos
    exact absurd hpos (by decide)
  have hget : (cn_node_comp_token_get tn) = (true, { tn with tn_compacting := true }) := by
    unfold cn_node_comp_token_get
    rw [htoken]
    rfl
  have hl0 : idx < (tree_set_node tree idx { tn with tn_compacting := true }).ct_nodes.length := by
    rw [tree_set_node_length]
    exact hidx
  have hplan := join_plan_commit jclock_ns
    (tree_set_node tree idx { tn with tn_compacting := true })
    idx (idx - 1) thresh { tn with tn_compacting := true } left (set_node_self _ _ _ hidx)
    (by rw [joinable_token tree idx tn thresh htn]; exact hjl)
    (by rw [tree_set_node_get, if_neg hne]; exact hleft)
    hlist hj0 hsp1 hsp2 hcnt hclock hlj hltoken
  have hl1 : idx < (tree_set_node (split_cnt_inc jclock_ns
      (tree_set_node tree idx { tn with tn_compacting := true }) thresh) (idx - 1)
      { left with tn_compacting := true, tn_ss_joining := -1 }).ct_nodes.length := by
    rw [tree_set_node_length, split_cnt_inc_nodes]
    exact hl0
  have hl2 : idx < (tree_set_node (tree_set_node (split_cnt_inc jclock_ns
      (tree_set_node tree idx { tn with tn_compacting := true }) thresh) (idx - 1)
      { left with tn_compacting := true, tn_ss_joining := -1 }) idx
      { tn with tn_compacting := true, tn_ss_joining := 1,
                tn_ss_visits := 0 }).ct_nodes.length := by
    rw [tree_set_node_length]
    exact hl1
  obtain ⟨tree1, w1, kvs, kl, hc, c1, c2, c3, c4, c5, c6, c7, c8⟩ := work_commit_join now
    (tree_set_node (tree_set_node (split_cnt_inc jclock_ns
      (tree_set_node tree idx { tn with tn_compacting := true }) thresh) (idx - 1)
      { left with tn_compacting := true, tn_ss_joining := -1 }) idx
      { tn with tn_compacting := true, tn_ss_joining := 1, tn_ss_visits := 0 })
    idx { tn with tn_compacting := true, tn_ss_joining := 1, tn_ss_visits := 0 }
    { left with tn_compacting := true, tn_ss_joining := -1 }
    { kvsets := tn.tn_ns.ns_kvsets, mark := le_ptr.entry (tn.tn_kvset_list.length - 1),
      action := cn_action.CN_ACTION_JOIN, rule := cn_rule.CN_RULE_JOIN } debug
    { w with cw_action := cn_action.CN_ACTION_NONE,
             cw_resched := decide (le_ptr.entry (tn.tn_kvset_list.length - 1) ≠ le_ptr.null) &&
               decide (tn.tn_ns.ns_kvsets = 0) }
    hl2 h0
    (by
      rw [tree_set_node_get, if_neg hne]
      exact set_node_self _ _ _ (by rw [split_cnt_inc_nodes]; omega))
    rfl rfl hn hpos hfree
  refine ⟨tree1, w1, _, _, ?_, c4, by rw [c5, hn], c6, c7, c8, c1, c2, rfl, rfl, rfl, rfl, ?_⟩
  · unfold sp3_work
    rw [htn]
    dsimp only
    rw [hget]
    dsimp only
    rw [if_neg (by simp), if_neg (by simp [tree_set_node, hmaint])]
    unfold sp3_work_plan
    dsimp only
    rw [if_neg (by simp [cn_node_isroot, h0]), hplan]
    dsimp only
    rw [set_node_self _ _ _ hl1]
    dsimp only
    rw [if_neg hk, if_neg (by decide), if_neg (by decide), if_neg (by simp [hbusy]),
      if_neg (by simp [hns]), if_neg (fun h => h.1 rfl)]
    exact hc
  · rw [c3]
    unfold split_cnt_inc tree_set_node
    dsimp only
    split_ifs <;> rfl

/-- C15, instance: scenario S4, a right leaf with 4 unclaimed kvsets totalling
8 MiB next to an empty left leaf, both idle. -/
theorem C15_join_work_item_witness :
    ∃ tree1 w1 tn1 left1,
      sp3_work env_example 0 0
        { ct_nodes := [{ spn_initialized := true },
                       { addr := 1, spn_initialized := true, tn_route_node := true },
                       { addr := 2, spn_initialized := true, tn_route_node := true,
                         tn_kvset_list :=
                           [{ dgen := 4 }, { dgen := 3 }, { dgen := 2 }, { dgen := 1 }],
                         tn_ns := { ns_kvsets := 4, ns_wlen := 8388608 } }] }
        2 sp3_work_type.wtype_join { split_cnt_max := 8 } 0 {} = Except.ok (tree1, w1) ∧
      w1.cw_action = cn_action.CN_ACTION_JOIN ∧ w1.cw_kvset_cnt = 4 ∧
      tree1.ct_nodes[2]? = some tn1 ∧ tree1.ct_nodes[1]? = some left1 ∧
      tn1.tn_ss_joining = 1 ∧ left1.tn_ss_joining = -1 := by
  obtain ⟨tree1, w1, tn1, left1, h, a, b, _, _, _, c, d, e, f, _⟩ := C15_join_work_item
    env_example 0 0
    { ct_nodes := [{ spn_initialized := true },
                   { addr := 1, spn_initialized := true, tn_route_node := true },
                   { addr := 2, spn_initialized := true, tn_route_node := true,
                     tn_kvset_list :=
                       [{ dgen := 4 }, { dgen := 3 }, { dgen := 2 }, { dgen := 1 }],
                     tn_ns := { ns_kvsets := 4, ns_wlen := 8388608 } }] }
    2 1 { split_cnt_max := 8 } 0 {}
    { addr := 2, spn_initialized := true, tn_route_node := true,
      tn_kvset_list := [{ dgen := 4 }, { dgen := 3 }, { dgen := 2 }, { dgen := 1 }],
      tn_ns := { ns_kvsets := 4, ns_wlen := 8388608 } }
    { addr := 1, spn_initialized := true, tn_route_node := true }
    rfl (by decide) rfl rfl
    (fun i k hk => by
      match i, hk with
      | 0, hk => cases hk; rfl
      | 1, hk => cases hk; rfl
      | 2, hk => cases hk; rfl
      | 3, hk => cases hk; rfl
      | n + 4, hk => cases hk)
    rfl rfl rfl rfl rfl rfl (by decide) (by decide) rfl rfl
  exact ⟨tree1, w1, tn1, left1, h, a, b, c, d, e, f⟩

/-- C16, as stated, fails for the insertion made while the empty left
neighbour is classified.  In a tree with an empty leaf L (position 1) and its
right neighbour R (position 2, four kvsets), L is the joinable left neighbour
of R.  Classifying R puts R into the join index with weight `UINT64_MAX - 0`,
the kvset count of L; classifying L puts R into the join index with weight
`UINT64_MAX - 4`, the kvset count of R itself, as the rule of the empty leaf
prescribes. -/
theorem C16_counterexample :
    sp3_work_joinable
      { ct_nodes := [{ spn_initialized := true },
                     { addr := 1, spn_initialized := true, tn_route_node := true },
                     { addr := 2, spn_initialized := true, tn_route_node := true,
                       tn_kvset_list :=
                         [{ dgen := 4 }, { dgen := 3 }, { dgen := 2 }, { dgen := 1 }],
                       tn_ns := { ns_kvsets := 4, ns_keys := 10, ns_keys_uniq := 10 } }] }
      2 {} = some 1 ∧
    ∃ spR spL,
      sp3_dirty_node_locked env_example 0 {}
        { ct_nodes := [{ spn_initialized := true },
                       { addr := 1, spn_initialized := true, tn_route_node := true },
                       { addr := 2, spn_initialized := true, tn_route_node := true,
                         tn_kvset_list :=
                           [{ dgen := 4 }, { dgen := 3 }, { dgen := 2 }, { dgen := 1 }],
                         tn_ns := { ns_kvsets := 4, ns_keys := 10, ns_keys_uniq := 10 } }] }
        2 = Except.ok spR ∧
      sp3_dirty_node_locked env_example 0 {}
        { ct_nodes := [{ spn_initialized := true },
                       { addr := 1, spn_initialized := true, tn_route_node := true },
                       { addr := 2, spn_initialized := true, tn_route_node := true,
                         tn_kvset_list :=
                           [{ dgen := 4 }, { dgen := 3 }, { dgen := 2 }, { dgen := 1 }],
                         tn_ns := { ns_kvsets := 4, ns_keys := 10, ns_keys_uniq := 10 } }] }
        1 = Except.ok spL ∧
      rb_weight (spR.rbt sp3_work_type.wtype_join) 2 = some (UINT64_MAX - 0) ∧
      rb_weight (spL.rbt sp3_work_type.wtype_join) 2 = some (UINT64_MAX - 4) :=
  ⟨by decide, _, _, rfl, rfl, by decide, by decide⟩

theorem joinable_nodes (tree : cn_tree) (idx : Nat) (thresh : sp3_thresholds)
    (left right : cn_tree_node)
    (hl : tree.ct_nodes[idx]? = some left) (hr : tree.ct_nodes[idx + 1]? = some right)
    (h : sp3_work_joinable tree (idx + 1) thresh = some idx) :
    right.spn_initialized = true ∧ right.tn_ss_splitting = false ∧
    left.spn_initialized = true ∧ left.tn_ss_splitting = false ∧
    left.tn_route_node = true ∧ right.tn_ns.ns_kvsets ≠ 0 := by
  unfold sp3_work_joinable at h
  rw [hr] at h
  dsimp only at h
  rw [Nat.add_sub_cancel, hl] at h
  dsimp only at h
  by_cases h1 : (!right.spn_initialized || right.tn_ss_splitting) = true
  · rw [if_pos h1] at h
    cases h
  · rw [if_neg h1, if_neg (Nat.succ_ne_zero idx)] at h
    by_cases h3 : (!left.spn_initialized || left.tn_ss_splitting) = true
    · rw [if_pos h3] at h
      cases h
    · rw [if_neg h3] at h
      by_cases h4 : (!left.tn_route_node) = true
      · rw [if_pos h4] at h
        cases h
      · rw [if_neg h4] at h
        by_cases h5 : right.tn_ns.ns_kvsets = 0
        · rw [if_pos h5] at h
          cases h
        · simp only [Bool.or_eq_true, Bool.not_eq_true', not_or, Bool.not_eq_false,
            Bool.not_eq_true] at h1 h3 h4
          exact ⟨h1.1, h1.2, h3.1, h3.2, h4, h5⟩

theorem dirty_node_empty_leaf_eq (E : sp3_env) (jclock_ns : Nat) (sp : sp3) (tree : cn_tree)
    (idx : Nat) (tn : cn_tree_node)
    (htn : tree.ct_nodes[idx]? = some tn)
    (hinit : tn.spn_initialized = true)
    (hleaf : cn_node_isroot idx = false)
    (hroute : tn.tn_route_node = true)
    (hsplit : tn.tn_ss_splitting = false)
    (hjoin : tn.tn_ss_joining = 0)
    (hk : ¬ (usub64 tn.tn_ns.ns_kvsets (u32 tn.tn_busycnt % 65536) > 0 ∧
      u32 tn.tn_busycnt / 65536 < 1))
    (hz : tn.tn_ns.ns_kvsets = 0) :
    sp3_dirty_node_locked E jclock_ns sp tree idx =
      Except.ok (sp3_dirty_idle jclock_ns (sp3_dirty_empty_leaf sp tree idx)
        tn (usub64 tn.tn_ns.ns_kvsets (u32 tn.tn_busycnt % 65536))
        (u32 tn.tn_busycnt / 65536)) := by
  have hcat : sp3_dirty_categories E sp tree idx tn
      (usub64 tn.tn_ns.ns_kvsets (u32 tn.tn_busycnt % 65536)) (u32 tn.tn_busycnt / 65536) =
      Except.ok (sp3_dirty_empty_leaf sp tree idx) := by
    unfold sp3_dirty_categories
    dsimp only
    rw [if_neg (by simp [hleaf]), if_neg (by simp [hroute]), if_neg (by simp [hsplit, hjoin]),
      if_neg hk, if_pos hz]
  unfold sp3_dirty_node_locked
  rw [htn]
  dsimp only
  rw [if_neg (by simp [hinit]), hcat]

/-- C16, amended: let `left` and `right` be neighbours in the node list of a
tree, `left` the node that `sp3_work_joinable` returns for `right`.  When the
classifier is called on `right` itself (a leaf with a route node, no pending
join, at least one unclaimed kvset, no active job and `l_alen >= l_good`), it
returns and `right` is in the join index with weight `UINT64_MAX` minus the
kvset count of `left`, which is `UINT64_MAX - 0` when `left` is empty.  When
the classifier is called on `left` (a leaf, not the first node, with no pending
join, that does not take the branch of a non-empty leaf without a job and whose
kvset count is zero), it returns and `right` is in the join index with weight
`UINT64_MAX` minus the kvset count of `right` itself, which is not zero: this
is the rule of the empty leaf. -/
theorem C16_join_weight (E : sp3_env) (jclock_ns : Nat) (sp : sp3) (tree : cn_tree)
    (idx : Nat) (left right : cn_tree_node)
    (hl : tree.ct_nodes[idx]? = some left) (hr : tree.ct_nodes[idx + 1]? = some right)
    (hj : sp3_work_joinable tree (idx + 1) sp.thresh = some idx) :
    (right.tn_route_node = true → right.tn_ss_joining = 0 →
      usub64 right.tn_ns.ns_kvsets (u32 right.tn_busycnt % 65536) > 0 →
      u32 right.tn_busycnt / 65536 < 1 →
      ¬ right.tn_samp.l_alen < right.tn_samp.l_good →
      ∃ sp1, sp3_dirty_node_locked E jclock_ns sp tree (idx + 1) = Except.ok sp1 ∧
        rb_weight (sp1.rbt sp3_work_type.wtype_join) right.addr =
          some (usub64 UINT64_MAX left.tn_ns.ns_kvsets) ∧
        (left.tn_ns.ns_kvsets = 0 →
          rb_weight (sp1.rbt sp3_work_type.wtype_join) right.addr = some (UINT64_MAX - 0))) ∧
    (idx ≠ 0 → left.tn_ss_joining = 0 →
      ¬ (usub64 left.tn_ns.ns_kvsets (u32 left.tn_busycnt % 65536) > 0 ∧
        u32 left.tn_busycnt / 65536 < 1) →
      left.tn_ns.ns_kvsets = 0 →
      ∃ sp1, sp3_dirty_node_locked E jclock_ns sp tree idx = Except.ok sp1 ∧
        rb_weight (sp1.rbt sp3_work_type.wtype_join) right.addr =
          some (usub64 UINT64_MAX right.tn_ns.ns_kvsets) ∧
        right.tn_ns.ns_kvsets ≠ 0) := by
  obtain ⟨ri, rs, li, ls, lr, rk⟩ := joinable_nodes tree idx sp.thresh left right hl hr hj
  constructor
  · intro hroute hjoin hk hjobs hsamp
    have hw : rb_weight ((sp3_dirty_idle jclock_ns
        (leaf_join sp.thresh tree (idx + 1) right (leaf_split E sp.thresh tree right
          (leaf_garbage E right (leaf_length E sp.thresh right
            (usub64 right.tn_ns.ns_kvsets (u32 right.tn_busycnt % 65536))
            (leaf_scatter E right sp)))))
        right (usub64 right.tn_ns.ns_kvsets (u32 right.tn_busycnt % 65536))
        (u32 right.tn_busycnt / 65536)).rbt sp3_work_type.wtype_join) right.addr =
        some (usub64 UINT64_MAX left.tn_ns.ns_kvsets) := by
      rw [dirty_idle_weight, if_neg (fun h => absurd h.1 (by decide))]
      unfold leaf_join
      rw [(joinable_left_iff tree (idx + 1) sp.thresh idx left).2 ⟨hj, hl⟩]
      dsimp only
      rw [node_insert_weight, if_pos ⟨rfl, rfl⟩]
    refine ⟨_, dirty_node_leaf_eq E jclock_ns sp tree (idx + 1) right hr ri rfl hroute rs hjoin
      hk hjobs hsamp, hw, fun hz => ?_⟩
    rw [hw, hz]
    rfl
  · intro h0 hjoin hk hz
    have hroot : cn_node_isroot idx = false := by
      unfold cn_node_isroot
      simpa using h0
    refine ⟨_, dirty_node_empty_leaf_eq E jclock_ns sp tree idx left hl li hroot lr ls hjoin
      hk hz, ?_, rk⟩
    rw [dirty_idle_weight, if_neg (fun h => absurd h.1 (by decide))]
    unfold sp3_dirty_empty_leaf
    rw [hr]
    dsimp only
    rw [if_pos hj, node_insert_weight, if_pos ⟨rfl, rfl⟩]

/-- C16, instance: in a tree with an empty leaf (position 1) and its right
neighbour (position 2, two kvsets), the classification of the right neighbour
puts it into the join index with weight `UINT64_MAX - 0`, the classification of
the empty leaf puts the right neighbour there with weight `UINT64_MAX - 2`. -/
theorem C16_join_weight_witness :
    (∃ sp1,
      sp3_dirty_node_locked env_example 0 {}
        { ct_nodes := [{ spn_initialized := true },
                       { addr := 1, spn_initialized := true, tn_route_node := true },
                       { addr := 2, spn_initialized := true, tn_route_node := true,
                         tn_kvset_list := [{ dgen := 2 }, { dgen := 1 }],
                         tn_ns := { ns_kvsets := 2, ns_keys := 10, ns_keys_uniq := 10 } }] }
        2 = Except.ok sp1 ∧
      rb_weight (sp1.rbt sp3_work_type.wtype_join) 2 = some (UINT64_MAX - 0)) ∧
    (∃ sp1,
      sp3_dirty_node_locked env_example 0 {}
        { ct_nodes := [{ spn_initialized := true },
                       { addr := 1, spn_initialized := true, tn_route_node := true },
                       { addr := 2, spn_initialized := true, tn_route_node := true,
                         tn_kvset_list := [{ dgen := 2 }, { dgen := 1 }],
                         tn_ns := { ns_kvsets := 2, ns_keys := 10, ns_keys_uniq := 10 } }] }
        1 = Except.ok sp1 ∧
      rb_weight (sp1.rbt sp3_work_type.wtype_join) 2 = some (UINT64_MAX - 2)) := by
  obtain ⟨ha, hb⟩ := C16_join_weight env_example 0 {}
    { ct_nodes := [{ spn_initialized := true },
                   { addr := 1, spn_initialized := true, tn_route_node := true },
                   { addr := 2, spn_initialized := true, tn_route_node := true,
                     tn_kvset_list := [{ dgen := 2 }, { dgen := 1 }],
                     tn_ns := { ns_kvsets := 2, ns_keys := 10, ns_keys_uniq := 10 } }] }
    1 { addr := 1, spn_initialized := true, tn_route_node := true }
    { addr := 2, spn_initialized := true, tn_route_node := true,
      tn_kvset_list := [{ dgen := 2 }, { dgen := 1 }],
      tn_ns := { ns_kvsets := 2, ns_keys := 10, ns_keys_uniq := 10 } }
    rfl rfl (by decide)
  obtain ⟨s1, h1, _, h3⟩ := ha rfl rfl (by decide) (by decide) (by decide)
  obtain ⟨s2, h4, h5, _⟩ := hb (by decide) rfl (by decide) rfl
  exact ⟨⟨s1, h1, h3 rfl⟩, ⟨s2, h4, h5⟩⟩

/-- C17: for a node `right` with a left neighbour `left` in the list of nodes,
`sp3_work_joinable` returns the left neighbour exactly when both nodes are
initialized, neither is splitting, the left node has a route pointer, `right`
has at least one kvset, and either the left node has no kvsets or both
`left.wlen + right.wlen <= floor(right.split_size * lcomp_join_pct / 100)` and
`left.keys + right.keys <= floor(lcomp_split_keys * lcomp_join_pct / 100)`; in
every other case it returns no node.  The products are those of natural
numbers, which do not overflow. -/
theorem C17_joinable_iff (tree : cn_tree) (idx : Nat) (thresh : sp3_thresholds)
    (right left : cn_tree_node)
    (htn : tree.ct_nodes[idx]? = some right)
    (h0 : idx ≠ 0)
    (hleft : tree.ct_nodes[idx - 1]? = some left) :
    (sp3_work_joinable tree idx thresh = some (idx - 1) ↔
      (right.spn_initialized = true ∧ left.spn_initialized = true ∧
        right.tn_ss_splitting = false ∧ left.tn_ss_splitting = false ∧
        left.tn_route_node = true ∧ 1 ≤ right.tn_ns.ns_kvsets ∧
        (left.tn_ns.ns_kvsets = 0 ∨
          (left.tn_ns.ns_wlen + right.tn_ns.ns_wlen ≤
              right.tn_split_size * thresh.lcomp_join_pct / 100 ∧
           left.tn_ns.ns_keys + right.tn_ns.ns_keys ≤
              thresh.lcomp_split_keys * thresh.lcomp_join_pct / 100)))) ∧
    (sp3_work_joinable tree idx thresh = some (idx - 1) ∨
      sp3_work_joinable tree idx thresh = none) := by
  have e1 : ∀ a b : Nat, a * 100 > b ↔ ¬ a ≤ b / 100 := by
    intro a b
    rw [Nat.le_div_iff_mul_le (by decide)]
    omega
  unfold sp3_work_joinable
  rw [htn]
  dsimp only
  rw [if_neg h0, hleft]
  dsimp only
  constructor
  · split_ifs with a1 a2 a3 a4 a5 a6 a7 <;> simp_all <;>
      first | omega | (intros; simp_all)
  · split_ifs <;> simp

/-- C17, instance: the right leaf of scenario S4, whose left neighbour is
empty. -/
theorem C17_joinable_iff_witness :
    sp3_work_joinable
      { ct_nodes := [{ spn_initialized := true },
                     { addr := 1, spn_initialized := true, tn_route_node := true },
                     { addr := 2, spn_initialized := true, tn_route_node := true,
                       tn_kvset_list :=
                         [{ dgen := 4 }, { dgen := 3 }, { dgen := 2 }, { dgen := 1 }],
                       tn_ns := { ns_kvsets := 4, ns_wlen := 8388608 } }] }
      2 {} = some 1 :=
  (C17_joinable_iff
    { ct_nodes := [{ spn_initialized := true },
                   { addr := 1, spn_initialized := true, tn_route_node := true },
                   { addr := 2, spn_initialized := true, tn_route_node := true,
                     tn_kvset_list :=
                       [{ dgen := 4 }, { dgen := 3 }, { dgen := 2 }, { dgen := 1 }],
                     tn_ns := { ns_kvsets := 4, ns_wlen := 8388608 } }] }
    2 {}
    { addr := 2, spn_initialized := true, tn_route_node := true,
      tn_kvset_list := [{ dgen := 4 }, { dgen := 3 }, { dgen := 2 }, { dgen := 1 }],
      tn_ns := { ns_kvsets := 4, ns_wlen := 8388608 } }
    { addr := 1, spn_initialized := true, tn_route_node := true }
    rfl (by decide) rfl).1.2 ⟨rfl, rfl, rfl, rfl, rfl, by decide, Or.inl rfl⟩

/-! ## The count of active splits -/

theorem split_cnt_inc_cnt (jclock_ns : Nat) (tree : cn_tree) (thresh : sp3_thresholds) :
    (split_cnt_inc jclock_ns tree thresh).ct_split_cnt = tree.ct_split_cnt + 1 := by
  unfold split_cnt_inc
  dsimp only
  split_ifs <;> rfl

theorem split_deferred_false (jclock_ns : Nat) (tree : cn_tree) (thresh : sp3_thresholds)
    (h : split_deferred jclock_ns tree thresh = false) :
    tree.ct_split_cnt < (thresh.split_cnt_max : Int) ∧ ¬ jclock_ns < tree.ct_split_dly := by
  unfold split_deferred at h
  simp only [Bool.or_eq_false_iff, decide_eq_false_iff_not] at h
  exact ⟨by omega, h.2⟩

theorem split_plan_cnt (F jclock_ns : Nat) (tree : cn_tree) (tn : cn_tree_node)
    (thresh : sp3_thresholds) :
    ((tn.tn_ss_splitting = false ∧
        (sp3_work_wtype_split F jclock_ns tree tn thresh).2.1.tn_ss_splitting = true) →
      (tree.ct_split_cnt < (thresh.split_cnt_max : Int) ∧ ¬ jclock_ns < tree.ct_split_dly ∧
        (sp3_work_wtype_split F jclock_ns tree tn thresh).1.ct_split_cnt =
          tree.ct_split_cnt + 1)) ∧
    ((tn.tn_ss_splitting = true ∧
        (sp3_work_wtype_split F jclock_ns tree tn thresh).2.1.tn_ss_splitting = false) →
      (sp3_work_wtype_split F jclock_ns tree tn thresh).1.ct_split_cnt =
        tree.ct_split_cnt - 1) ∧
    ((sp3_work_wtype_split F jclock_ns tree tn thresh).2.1.tn_ss_splitting =
        tn.tn_ss_splitting →
      (sp3_work_wtype_split F jclock_ns tree tn thresh).1.ct_split_cnt = tree.ct_split_cnt) := by
  unfold sp3_work_wtype_split
  dsimp only
  by_cases hse : (sp3_work_splittable tn thresh &&
      decide ((tree.ct_fanout : Int) < (F : Int) - tree.ct_split_cnt)) = true
  · rw [if_pos hse]
    dsimp only
    by_cases hs : tn.tn_ss_splitting = true
    · simp [hs]
    · have hs' : tn.tn_ss_splitting = false := by simpa using hs
      simp only [hs', Bool.not_false, if_true]
      cases hd : split_deferred jclock_ns tree thresh with
      | true => simp [hs']
      | false =>
        obtain ⟨d1, d2⟩ := split_deferred_false jclock_ns tree thresh hd
        by_cases hv : tn.tn_ss_spilling ≠ 0 ∧ tn.tn_ss_visits < thresh.split_cnt_max
        · simp [hv, hs']
        · simp [hv, hs', split_cnt_inc_cnt, d1, d2]
  · rw [if_neg hse]
    dsimp only
    by_cases hs : tn.tn_ss_splitting = true
    · simp [hs]
    · have hs' : tn.tn_ss_splitting = false := by simpa using hs
      simp [hs']

theorem join_request_cnt (jclock_ns : Nat) (tree : cn_tree) (left tn : cn_tree_node)
    (thresh : sp3_thresholds) (mark : le_ptr) (spilling : Bool) :
    ((join_request jclock_ns tree left tn thresh mark spilling).2.2.1.tn_ss_joining =
        tn.tn_ss_joining ∧
      (join_request jclock_ns tree left tn thresh mark spilling).1.ct_split_cnt =
        tree.ct_split_cnt) ∨
    (tn.tn_ss_joining = 0 ∧ split_deferred jclock_ns tree thresh = false ∧
      (join_request jclock_ns tree left tn thresh mark spilling).2.2.1.tn_ss_joining = 1 ∧
      (join_request jclock_ns tree left tn thresh mark spilling).2.1.tn_ss_joining = -1 ∧
      (join_request jclock_ns tree left tn thresh mark spilling).1.ct_split_cnt =
        tree.ct_split_cnt + 1) := by
  unfold join_request
  by_cases hj : tn.tn_ss_joining = 0
  · rw [if_pos hj]
    cases hd : split_deferred jclock_ns tree thresh with
    | true =>
      left
      exact ⟨rfl, rfl⟩
    | false =>
      by_cases hv : spilling = true ∧ tn.tn_ss_visits < thresh.split_cnt_max
      · left
        simp [hv]
      · by_cases hl : left.tn_ss_joining ≠ 0 ∨ (cn_node_comp_token_get left).1 = false
        · left
          simp [hv, hl]
        · right
          rw [if_neg Bool.false_ne_true, if_neg hv, if_neg hl]
          exact ⟨hj, rfl, rfl, rfl, split_cnt_inc_cnt jclock_ns tree thresh⟩
  · rw [if_neg hj]
    left
    exact ⟨rfl, rfl⟩

theorem join_plan_cnt (jclock_ns : Nat) (tree tree1 : cn_tree) (idx : Nat)
    (thresh : sp3_thresholds) (tn : cn_tree_node) (p : wplan)
    (htn : tree.ct_nodes[idx]? = some tn)
    (h : sp3_work_wtype_join jclock_ns tree idx thresh = Except.ok (tree1, p)) :
    ∃ tn1, tree1.ct_nodes[idx]? = some tn1 ∧
      ((tn.tn_ss_joining = 0 ∧ tn1.tn_ss_joining ≠ 0) →
        (tree.ct_split_cnt < (thresh.split_cnt_max : Int) ∧ ¬ jclock_ns < tree.ct_split_dly ∧
          tn1.tn_ss_joining = 1 ∧
          (∃ left1, tree1.ct_nodes[idx - 1]? = some left1 ∧ left1.tn_ss_joining = -1) ∧
          tree1.ct_split_cnt = tree.ct_split_cnt + 1)) ∧
      ((tn.tn_ss_joining ≠ 0 ∧ tn1.tn_ss_joining = 0) →
        tree1.ct_split_cnt = tree.ct_split_cnt - 1) ∧
      (tn1.tn_ss_joining = tn.tn_ss_joining → tree1.ct_split_cnt = tree.ct_split_cnt) ∧
      (tree.ct_split_cnt ≤ (thresh.split_cnt_max : Int) →
        tree1.ct_split_cnt ≤ (thresh.split_cnt_max : Int)) := by
  have hidx : idx < tree.ct_nodes.length := (List.getElem?_eq_some.1 htn).1
  unfold sp3_work_wtype_join at h
  rw [htn] at h
  dsimp only at h
  cases hjl : joinable_left tree idx thresh with
  | some q =>
    obtain ⟨lidx, left⟩ := q
    obtain ⟨h0, hl, hleft, _⟩ := joinable_left_some tree idx lidx left thresh hjl
    subst hl
    rw [hjl] at h
    dsimp only at h
    simp only [Except.ok.injEq, Prod.mk.injEq] at h
    obtain ⟨h1, _⟩ := h
    have hne : ¬ idx = idx - 1 := by omega
    have hlen := (join_request_frame jclock_ns tree left tn thresh
      (list_last_entry_or_null tn.tn_kvset_list)
      (decide (left.tn_ss_spilling ≠ 0) || decide (tn.tn_ss_spilling ≠ 0))).1
    have hcnt := join_request_cnt jclock_ns tree left tn thresh
      (list_last_entry_or_null tn.tn_kvset_list)
      (decide (left.tn_ss_spilling ≠ 0) || decide (tn.tn_ss_spilling ≠ 0))
    generalize join_request jclock_ns tree left tn thresh
      (list_last_entry_or_null tn.tn_kvset_list)
      (decide (left.tn_ss_spilling ≠ 0) || decide (tn.tn_ss_spilling ≠ 0)) = r at h1 hlen hcnt
    have hc : tree1.ct_split_cnt = r.1.ct_split_cnt := by
      rw [← h1]
      rfl
    have hl1 : tree1.ct_nodes[idx - 1]? = some r.2.1 := by
      rw [← h1, tree_set_node_get, if_neg hne]
      exact set_node_self _ _ _ (by rw [hlen]; omega)
    have hn1 : tree1.ct_nodes[idx]? = some r.2.2.1 := by
      rw [← h1]
      exact set_node_self _ _ _ (by rw [tree_set_node_length, hlen]; exact hidx)
    refine ⟨r.2.2.1, hn1, ?_⟩
    rcases hcnt with ⟨a, b⟩ | ⟨a, b, c, d, e⟩
    · refine ⟨fun hh => ?_, fun hh => ?_, fun _ => ?_, fun hi => ?_⟩
      · rw [a] at hh
        exact absurd hh.1 hh.2
      · rw [a] at hh
        exact absurd hh.2 hh.1
      · rw [hc, b]
      · rw [hc, b]
        exact hi
    · obtain ⟨d1, d2⟩ := split_deferred_false jclock_ns tree thresh b
      refine ⟨fun _ => ⟨d1, d2, c, ⟨_, hl1, d⟩, by rw [hc, e]⟩, fun hh => absurd a hh.1,
        fun hh => ?_, fun _ => ?_⟩
      · rw [c, a] at hh
        exact absurd hh (by decide)
      · rw [hc, e]
        omega
  | none =>
    rw [hjl] at h
    dsimp only at h
    by_cases hj : tn.tn_ss_joining ≠ 0
    · rw [if_pos hj] at h
      by_cases h0 : idx = 0
      · rw [if_pos h0] at h
        cases h
      · rw [if_neg h0] at h
        cases hleft : tree.ct_nodes[idx - 1]? with
        | none =>
          rw [hleft] at h
          cases h
        | some left =>
          rw [hleft] at h
          dsimp only at h
          split_ifs at h
          simp only [Except.ok.injEq, Prod.mk.injEq] at h
          obtain ⟨h1, _⟩ := h
          refine ⟨{ tn with tn_ss_joining := 0, tn_ss_visits := 0 }, ?_, ?_⟩
          · rw [← h1]
            exact set_node_self _ _ _ (by rw [tree_set_node_length]; exact hidx)
          · have hc : tree1.ct_split_cnt = tree.ct_split_cnt - 1 := by
              rw [← h1]
              rfl
            refine ⟨fun hh => absurd hh.1 hj, fun _ => hc, fun hh => ?_, fun hi => ?_⟩
            · exact absurd hh.symm hj
            · rw [hc]
              omega
    · rw [if_neg hj] at h
      cases h

/-- C18: the split planner and the join planner commit (set the split flag
of the node, or the flags -1 and +1 of the left node and the node) only when
the count of active splits of the tree is below `split_cnt_max` and the clock
is not before the cool-down deadline; a commit raises the count by exactly
one, a revert (the flag of the node goes back to 0) lowers it by exactly one,
and a call that leaves the flag as it is leaves the count as it is; so every
planner call preserves `ct_split_cnt <= split_cnt_max`. -/
theorem C18_split_count_invariant (F jclock_ns : Nat) (tree : cn_tree)
    (thresh : sp3_thresholds) :
    (∀ tn : cn_tree_node,
      ((tn.tn_ss_splitting = false ∧
          (sp3_work_wtype_split F jclock_ns tree tn thresh).2.1.tn_ss_splitting = true) →
        (tree.ct_split_cnt < (thresh.split_cnt_max : Int) ∧ ¬ jclock_ns < tree.ct_split_dly ∧
          (sp3_work_wtype_split F jclock_ns tree tn thresh).1.ct_split_cnt =
            tree.ct_split_cnt + 1)) ∧
      ((tn.tn_ss_splitting = true ∧
          (sp3_work_wtype_split F jclock_ns tree tn thresh).2.1.tn_ss_splitting = false) →
        (sp3_work_wtype_split F jclock_ns tree tn thresh).1.ct_split_cnt =
          tree.ct_split_cnt - 1) ∧
      ((sp3_work_wtype_split F jclock_ns tree tn thresh).2.1.tn_ss_splitting =
          tn.tn_ss_splitting →
        (sp3_work_wtype_split F jclock_ns tree tn thresh).1.ct_split_cnt =
          tree.ct_split_cnt) ∧
      (tree.ct_split_cnt ≤ (thresh.split_cnt_max : Int) →
        (sp3_work_wtype_split F jclock_ns tree tn thresh).1.ct_split_cnt ≤
          (thresh.split_cnt_max : Int))) ∧
    (∀ (idx : Nat) (tn : cn_tree_node) (tree1 : cn_tree) (p : wplan),
      tree.ct_nodes[idx]? = some tn →
      sp3_work_wtype_join jclock_ns tree idx thresh = Except.ok (tree1, p) →
      ∃ tn1, tree1.ct_nodes[idx]? = some tn1 ∧
        ((tn.tn_ss_joining = 0 ∧ tn1.tn_ss_joining ≠ 0) →
          (tree.ct_split_cnt < (thresh.split_cnt_max : Int) ∧
            ¬ jclock_ns < tree.ct_split_dly ∧ tn1.tn_ss_joining = 1 ∧
            (∃ left1, tree1.ct_nodes[idx - 1]? = some left1 ∧ left1.tn_ss_joining = -1) ∧
            tree1.ct_split_cnt = tree.ct_split_cnt + 1)) ∧
        ((tn.tn_ss_joining ≠ 0 ∧ tn1.tn_ss_joining = 0) →
          tree1.ct_split_cnt = tree.ct_split_cnt - 1) ∧
        (tn1.tn_ss_joining = tn.tn_ss_joining → tree1.ct_split_cnt = tree.ct_split_cnt) ∧
        (tree.ct_split_cnt ≤ (thresh.split_cnt_max : Int) →
          tree1.ct_split_cnt ≤ (thresh.split_cnt_max : Int))) := by
  constructor
  · intro tn
    obtain ⟨a, b, c⟩ := split_plan_cnt F jclock_ns tree tn thresh
    refine ⟨a, b, c, fun hi => ?_⟩
    cases h1 : tn.tn_ss_splitting <;>
      cases h2 : (sp3_work_wtype_split F jclock_ns tree tn thresh).2.1.tn_ss_splitting
    · rw [c (by rw [h1, h2])]
      exact hi
    · obtain ⟨d, _, e⟩ := a ⟨h1, h2⟩
      rw [e]
      omega
    · rw [b ⟨h1, h2⟩]
      omega
    · rw [c (by rw [h1, h2])]
      exact hi
  · intro idx tn tree1 p htn h
    exact join_plan_cnt jclock_ns tree tree1 idx thresh tn p htn h

/-- C18, instance: the split planner commits on a splittable leaf without
subspills when no split is active, and the count goes from 0 to 1. -/
theorem C18_split_count_invariant_witness :
    (sp3_work_wtype_split 4096 0 { ct_nodes := [], ct_fanout := 1 }
      { tn_kvset_list := [{ dgen := 1 }], tn_ns := { ns_kvsets := 1, ns_clen := 200 },
        tn_split_size := 100 } { split_cnt_max := 2 }).1.ct_split_cnt = 0 + 1 :=
  (((C18_split_count_invariant 4096 0 { ct_nodes := [], ct_fanout := 1 }
      { split_cnt_max := 2 }).1
    { tn_kvset_list := [{ dgen := 1 }], tn_ns := { ns_kvsets := 1, ns_clen := 200 },
      tn_split_size := 100 }).1 ⟨rfl, by decide⟩).2.2

/-! ## The order of a priority index -/

theorem rbe_before_trans (a b c : sp3_rbe) (h1 : rbe_before a b = true)
    (h2 : rbe_before b c = true) : rbe_before a c = true := by
  unfold rbe_before at *
  simp only [Bool.or_eq_true, Bool.and_eq_true, decide_eq_true_eq] at *
  omega

theorem rbe_before_total (a b : sp3_rbe) (h : rbe_before a b = false) (hne : a.spn ≠ b.spn) :
    rbe_before b a = true := by
  unfold rbe_before at *
  simp only [Bool.or_eq_false_iff, Bool.and_eq_false_iff, decide_eq_false_iff_not,
    Bool.or_eq_true, Bool.and_eq_true, decide_eq_true_eq] at *
  omega

theorem rb_erase_ordered (root : List sp3_rbe) (n : Nat) (h : rb_ordered root) :
    rb_ordered (sp3_rb_erase root n) :=
  List.Pairwise.filter _ h

theorem rb_erase_nodup (root : List sp3_rbe) (n : Nat) (h : rb_nodup root) :
    rb_nodup (sp3_rb_erase root n) := by
  unfold rb_nodup sp3_rb_erase at *
  exact List.Nodup.sublist (List.Sublist.map _ (List.filter_sublist _)) h

theorem rb_erase_not_mem (root : List sp3_rbe) (n : Nat) :
    n ∉ (sp3_rb_erase root n).map sp3_rbe.spn := by
  unfold sp3_rb_erase
  simp

theorem rb_insert_spns (root : List sp3_rbe) (e : sp3_rbe) (a : Nat) :
    a ∈ (sp3_rb_insert root e).map sp3_rbe.spn ↔ a = e.spn ∨ a ∈ root.map sp3_rbe.spn := by
  induction root with
  | nil => simp [sp3_rb_insert]
  | cons this rest ih =>
    unfold sp3_rb_insert
    split_ifs
    · simp
    · simp only [List.map_cons, List.mem_cons, ih]
      tauto

theorem rb_insert_mem (root : List sp3_rbe) (e x : sp3_rbe) :
    x ∈ sp3_rb_insert root e ↔ x = e ∨ x ∈ root := by
  induction root with
  | nil => simp [sp3_rb_insert]
  | cons this rest ih =>
    unfold sp3_rb_insert
    split_ifs
    · simp
    · simp only [List.mem_cons, ih]
      tauto

theorem rb_insert_ordered (root : List sp3_rbe) (e : sp3_rbe) (h : rb_ordered root)
    (hn : e.spn ∉ root.map sp3_rbe.spn) : rb_ordered (sp3_rb_insert root e) := by
  unfold rb_ordered at *
  induction root with
  | nil => simp [sp3_rb_insert]
  | cons this rest ih =>
    rw [List.pairwise_cons] at h
    simp only [List.map_cons, List.mem_cons, not_or] at hn
    unfold sp3_rb_insert
    by_cases hb : rbe_before e this = true
    · rw [if_pos hb, List.pairwise_cons]
      refine ⟨?_, List.pairwise_cons.2 h⟩
      intro x hx
      rcases List.mem_cons.1 hx with rfl | hx
      · exact hb
      · exact rbe_before_trans e this x hb (h.1 x hx)
    · rw [if_neg hb, List.pairwise_cons]
      refine ⟨?_, ih h.2 hn.2⟩
      intro x hx
      rcases (rb_insert_mem rest e x).1 hx with rfl | hx
      · exact rbe_before_total x this (by simpa using hb) hn.1
      · exact h.1 x hx

theorem rb_insert_nodup (root : List sp3_rbe) (e : sp3_rbe) (h : rb_nodup root)
    (hn : e.spn ∉ root.map sp3_rbe.spn) : rb_nodup (sp3_rb_insert root e) := by
  unfold rb_nodup at *
  induction root with
  | nil => simp [sp3_rb_insert]
  | cons this rest ih =>
    simp only [List.map_cons, List.nodup_cons, List.mem_cons, not_or] at h hn
    unfold sp3_rb_insert
    split_ifs
    · simp only [List.map_cons, List.nodup_cons, List.mem_cons, not_or]
      exact ⟨⟨hn.1, hn.2⟩, h.1, h.2⟩
    · simp only [List.map_cons, List.nodup_cons]
      refine ⟨?_, ih h.2 hn.2⟩
      rw [rb_insert_spns]
      intro hc
      rcases hc with hc | hc
      · exact hn.1 hc.symm
      · exact h.1 hc

theorem node_insert_inv (sp : sp3) (n : Nat) (tx : sp3_work_type) (w : Nat)
    (h : ∀ ty, rb_ordered (sp.rbt ty) ∧ rb_nodup (sp.rbt ty)) (ty : sp3_work_type) :
    rb_ordered ((sp3_node_insert sp n tx w).rbt ty) ∧
      rb_nodup ((sp3_node_insert sp n tx w).rbt ty) := by
  unfold sp3_node_insert
  split_ifs
  · exact h ty
  · dsimp only
    by_cases e : ty = tx
    · subst e
      rw [Function.update_same]
      exact ⟨rb_insert_ordered _ _ (rb_erase_ordered _ n (h ty).1) (rb_erase_not_mem _ n),
        rb_insert_nodup _ _ (rb_erase_nodup _ n (h ty).2) (rb_erase_not_mem _ n)⟩
    · rw [Function.update_noteq e]
      exact h ty

theorem node_remove_inv (sp : sp3) (n : Nat) (tx : sp3_work_type)
    (h : ∀ ty, rb_ordered (sp.rbt ty) ∧ rb_nodup (sp.rbt ty)) (ty : sp3_work_type) :
    rb_ordered ((sp3_node_remove sp n tx).rbt ty) ∧
      rb_nodup ((sp3_node_remove sp n tx).rbt ty) := by
  rw [rbt_node_remove]
  split_ifs with e
  · exact ⟨rb_erase_ordered _ n (h tx).1, rb_erase_nodup _ n (h tx).2⟩
  · exact h ty

theorem rb_calls_inv (calls : List rb_call) :
    ∀ sp : sp3, (∀ ty, rb_ordered (sp.rbt ty) ∧ rb_nodup (sp.rbt ty)) →
      ∀ ty, rb_ordered ((calls.foldl rb_call_run sp).rbt ty) ∧
        rb_nodup ((calls.foldl rb_call_run sp).rbt ty) := by
  induction calls with
  | nil =>
    intro sp h
    exact h
  | cons c rest ih =>
    intro sp h
    rw [List.foldl_cons]
    apply ih
    cases c with
    | insert n tx w => exact node_insert_inv sp n tx w h
    | remove n tx => exact node_remove_inv sp n tx h

theorem rb_count_one (root : List sp3_rbe) (n : Nat) (h : rb_nodup root)
    (hm : rb_weight root n ≠ none) : (root.map sp3_rbe.spn).count n = 1 := by
  unfold rb_nodup at h
  apply List.count_eq_one_of_mem h
  have h1 : rb_member root n = true := by
    rw [rb_member_isSome]
    cases hw : rb_weight root n with
    | none => exact absurd hw hm
    | some v => rfl
  unfold rb_member at h1
  rw [List.any_eq_true] at h1
  obtain ⟨x, hx, he⟩ := h1
  rw [List.mem_map]
  exact ⟨x, hx, by simpa using he⟩

/-- C19: after any sequence of `sp3_node_insert` and `sp3_node_remove` calls
on indexes that start empty, the traversal of each index from `rb_first` via
`rb_next` visits each member node exactly once, every element before the
elements of smaller weight and, among equal weights, before the elements of
smaller node address; inserting a member again with its current weight leaves
the scheduler state unchanged; and after an insertion with any weight the node
is in the index exactly once, with that weight, and the weights of the other
nodes are as before. -/
theorem C19_index_order (calls : List rb_call) (tx : sp3_work_type) :
    rb_ordered ((calls.foldl rb_call_run ({} : sp3)).rbt tx) ∧
    rb_nodup ((calls.foldl rb_call_run ({} : sp3)).rbt tx) ∧
    (∀ (n w : Nat), rb_weight ((calls.foldl rb_call_run ({} : sp3)).rbt tx) n = some w →
      sp3_node_insert (calls.foldl rb_call_run ({} : sp3)) n tx w =
        calls.foldl rb_call_run ({} : sp3)) ∧
    (∀ (n w : Nat),
      rb_weight ((sp3_node_insert (calls.foldl rb_call_run ({} : sp3)) n tx w).rbt tx) n =
        some w ∧
      (((sp3_node_insert (calls.foldl rb_call_run ({} : sp3)) n tx w).rbt tx).map
        sp3_rbe.spn).count n = 1 ∧
      ∀ a, a ≠ n →
        rb_weight ((sp3_node_insert (calls.foldl rb_call_run ({} : sp3)) n tx w).rbt tx) a =
          rb_weight ((calls.foldl rb_call_run ({} : sp3)).rbt tx) a) := by
  have h0 : ∀ ty, rb_ordered (({} : sp3).rbt ty) ∧ rb_nodup (({} : sp3).rbt ty) := by
    intro ty
    exact ⟨List.Pairwise.nil, List.nodup_nil⟩
  have hinv := rb_calls_inv calls {} h0
  refine ⟨(hinv tx).1, (hinv tx).2, ?_, ?_⟩
  · intro n w hw
    unfold sp3_node_insert
    rw [if_pos]
    rw [rb_member_isSome, hw]
    simp
  · intro n w
    have hw : rb_weight ((sp3_node_insert (calls.foldl rb_call_run ({} : sp3)) n tx w).rbt tx)
        n = some w := by
      rw [node_insert_weight, if_pos ⟨rfl, rfl⟩]
    refine ⟨hw, ?_, ?_⟩
    · apply rb_count_one _ _ (node_insert_inv _ n tx w hinv tx).2
      rw [hw]
      exact Option.some_ne_none w
    · intro a ha
      rw [node_insert_weight, if_neg (fun h => ha h.2)]

/-- C19, instance: after node 1 is inserted with weight 5, node 2 with weight
7 and node 1 again with weight 9, the index holds node 1 (weight 9) before
node 2, and inserting node 1 once more with weight 9 changes nothing. -/
theorem C19_index_order_witness :
    ([rb_call.insert 1 sp3_work_type.wtype_length 5,
      rb_call.insert 2 sp3_work_type.wtype_length 7,
      rb_call.insert 1 sp3_work_type.wtype_length 9].foldl rb_call_run ({} : sp3)).rbt
        sp3_work_type.wtype_length =
      [{ rbe_weight := 9, spn := 1 }, { rbe_weight := 7, spn := 2 }] ∧
    sp3_node_insert
      ([rb_call.insert 1 sp3_work_type.wtype_length 5,
        rb_call.insert 2 sp3_work_type.wtype_length 7,
        rb_call.insert 1 sp3_work_type.wtype_length 9].foldl rb_call_run ({} : sp3))
      1 sp3_work_type.wtype_length 9 =
      [rb_call.insert 1 sp3_work_type.wtype_length 5,
       rb_call.insert 2 sp3_work_type.wtype_length 7,
       rb_call.insert 1 sp3_work_type.wtype_length 9].foldl rb_call_run ({} : sp3) :=
  ⟨by decide,
   (C19_index_order
      [rb_call.insert 1 sp3_work_type.wtype_length 5,
       rb_call.insert 2 sp3_work_type.wtype_length 7,
       rb_call.insert 1 sp3_work_type.wtype_length 9] sp3_work_type.wtype_length).2.2.1 1 9
      (by decide)⟩

/-! ## The selection of sp3_check_rb_tree -/

theorem check_rb_loop_select (E : sp3_env) (jclock_ns now : Nat) (wtype : sp3_work_type)
    (threshold qnum debug : Nat) :
    ∀ (entries : List sp3_rbe) (sp : sp3) (trees : List cn_tree) (wp : cn_compaction_work)
      (sp1 : sp3) (trees1 : List cn_tree) (wp1 : cn_compaction_work) (s : Nat),
      sp3_check_rb_loop E jclock_ns now wtype threshold qnum debug entries sp trees wp =
        Except.ok (sp1, trees1, wp1, some s) →
      ∃ pre e post spA treesA wA ti tree idx tree1 w1,
        entries = pre ++ e :: post ∧ e.spn = s ∧ threshold ≤ e.rbe_weight ∧
        (∀ x ∈ pre, threshold ≤ x.rbe_weight) ∧
        sp3_check_rb_loop E jclock_ns now wtype threshold qnum debug pre sp trees wp =
          Except.ok (spA, treesA, wA, none) ∧
        find_tree treesA s = some (ti, tree, idx) ∧
        sp3_work E jclock_ns now tree idx wtype spA.thresh debug wA = Except.ok (tree1, w1) ∧
        w1.cw_action ≠ cn_action.CN_ACTION_NONE := by
  intro entries
  induction entries with
  | nil =>
    intro sp trees wp sp1 trees1 wp1 s h
    unfold sp3_check_rb_loop at h
    cases h
  | cons rbe rest ih =>
    intro sp trees wp sp1 trees1 wp1 s h
    unfold sp3_check_rb_loop at h
    by_cases hth : rbe.rbe_weight < threshold
    · rw [if_pos hth] at h
      cases h
    · rw [if_neg hth] at h
      cases hf : find_tree trees rbe.spn with
      | none =>
        rw [hf] at h
        cases h
      | some q =>
        obtain ⟨ti, tree, idx⟩ := q
        rw [hf] at h
        dsimp only at h
        cases hw : sp3_work E jclock_ns now tree idx wtype sp.thresh debug wp with
        | error e =>
          rw [hw] at h
          cases h
        | ok r =>
          obtain ⟨tree1, w1⟩ := r
          rw [hw] at h
          dsimp only at h
          by_cases ha : w1.cw_action ≠ cn_action.CN_ACTION_NONE
          · rw [if_pos ha] at h
            cases hs : sp3_submit (sp3_node_remove sp rbe.spn wtype) (trees.set ti tree1) ti w1
                qnum debug with
            | error e =>
              rw [hs] at h
              cases h
            | ok r2 =>
              obtain ⟨sp2, trees2, w2⟩ := r2
              rw [hs] at h
              dsimp only at h
              simp only [Except.ok.injEq, Prod.mk.injEq, Option.some.injEq] at h
              refine ⟨[], rbe, rest, sp, trees, wp, ti, tree, idx, tree1, w1, rfl, h.2.2.2,
                Nat.le_of_not_lt hth, fun x hx => absurd hx (List.not_mem_nil x), rfl, ?_, hw,
                ha⟩
              rw [← h.2.2.2]
              exact hf
          · rw [if_neg ha] at h
            have step : ∀ spB : sp3, spB.thresh = sp.thresh →
                sp3_check_rb_loop E jclock_ns now wtype threshold qnum debug rest spB
                  (trees.set ti tree1) w1 = Except.ok (sp1, trees1, wp1, some s) →
                (∀ pre, sp3_check_rb_loop E jclock_ns now wtype threshold qnum debug
                  (rbe :: pre) sp trees wp =
                  sp3_check_rb_loop E jclock_ns now wtype threshold qnum debug pre spB
                    (trees.set ti tree1) w1) →
                ∃ pre e post spA treesA wA ti tree idx tree1 w1,
                  rbe :: rest = pre ++ e :: post ∧ e.spn = s ∧ threshold ≤ e.rbe_weight ∧
                  (∀ x ∈ pre, threshold ≤ x.rbe_weight) ∧
                  sp3_check_rb_loop E jclock_ns now wtype threshold qnum debug pre sp trees wp =
                    Except.ok (spA, treesA, wA, none) ∧
                  find_tree treesA s = some (ti, tree, idx) ∧
                  sp3_work E jclock_ns now tree idx wtype spA.thresh debug wA =
                    Except.ok (tree1, w1) ∧
                  w1.cw_action ≠ cn_action.CN_ACTION_NONE := by
              intro spB _ hB hstep
              obtain ⟨pre, e, post, spA, treesA, wA, ti2, tree2, idx2, tree3, w3, h1, h2, h3,
                h4, h5, h6, h7, h8⟩ := ih spB (trees.set ti tree1) w1 sp1 trees1 wp1 s hB
              refine ⟨rbe :: pre, e, post, spA, treesA, wA, ti2, tree2, idx2, tree3, w3, ?_, h2,
                h3, ?_, ?_, h6, h7, h8⟩
              · rw [h1]
                rfl
              · intro x hx
                rcases List.mem_cons.1 hx with rfl | hx
                · exact Nat.le_of_not_lt hth
                · exact h4 x hx
              · rw [hstep pre]
                exact h5
            have hunf : ∀ (pre : List sp3_rbe),
                sp3_check_rb_loop E jclock_ns now wtype threshold qnum debug (rbe :: pre) sp
                  trees wp =
                if w1.cw_resched = true then
                  sp3_check_rb_loop E jclock_ns now wtype threshold qnum debug pre sp
                    (trees.set ti tree1) w1
                else
                  sp3_check_rb_loop E jclock_ns now wtype threshold qnum debug pre
                    (sp3_node_remove sp rbe.spn wtype) (trees.set ti tree1) w1 := by
              intro pre
              rw [sp3_check_rb_loop, if_neg hth, hf]
              dsimp only
              rw [hw]
              dsimp only
              rw [if_neg ha]
            by_cases hr : w1.cw_resched = true
            · rw [if_pos hr] at h
              exact step sp rfl h (fun pre => by rw [hunf pre, if_pos hr])
            · rw [if_neg hr] at h
              exact step (sp3_node_remove sp rbe.spn wtype) rfl h
                (fun pre => by rw [hunf pre, if_neg hr])

/-- C20, as stated, fails: the garbage index holds leaf 2 with weight 9 and
leaf 1 with weight 5, both above the threshold 0.  The compaction token of
leaf 2 is held by a job in flight, so `sp3_work` returns no work for it and
`sp3_check_rb_tree` drops it from the index and goes on; the job is dispatched
for leaf 1, which is not the member of greatest weight. -/
theorem C20_counterexample :
    ∃ sp1 trees1 wp1,
      sp3_check_rb_tree env_example 0 0
        { qinfo := List.replicate 6 { qjobs_max := 1 },
          rbt := fun tx =>
            if tx = sp3_work_type.wtype_garbage then
              [{ rbe_weight := 9, spn := 2 }, { rbe_weight := 5, spn := 1 }]
            else [] }
        [{ ct_nodes := [{ spn_initialized := true },
                        { addr := 1, spn_initialized := true, tn_route_node := true,
                          tn_kvset_list := [{ dgen := 1 }], tn_ns := { ns_kvsets := 1 } },
                        { addr := 2, spn_initialized := true, tn_route_node := true,
                          tn_compacting := true, tn_busycnt := 65537,
                          tn_kvset_list := [{ dgen := 1, workid := 1 }],
                          tn_ns := { ns_kvsets := 1 } }],
           ct_fanout := 2 }]
        {} sp3_work_type.wtype_garbage 0 3 0 = Except.ok (sp1, trees1, wp1, some 1) ∧
      rb_member (sp1.rbt sp3_work_type.wtype_garbage) 2 = false :=
  ⟨_, _, _, rfl, by decide⟩

/-- C20, amended: whenever `sp3_check_rb_tree` dispatches a job for a
category, whose index is in traversal order, the node it selects is a member
whose weight meets the threshold and for which `sp3_work` produced a work
item; every member that precedes it in the traversal (greater weight, or equal
weight and greater address) meets the threshold too and was planned without a
work item (the loop over these members alone ends without a selection), and
every member that follows it has a smaller weight, or an equal weight and a
smaller address.  So the selected node has the greatest weight among the
members that meet the threshold and have work. -/
theorem C20_dispatch_selection (E : sp3_env) (jclock_ns now : Nat) (sp : sp3)
    (trees : List cn_tree) (wp : cn_compaction_work) (wtype : sp3_work_type)
    (threshold qnum debug : Nat) (sp1 : sp3) (trees1 : List cn_tree)
    (wp1 : cn_compaction_work) (s : Nat)
    (hord : rb_ordered (sp.rbt wtype))
    (h : sp3_check_rb_tree E jclock_ns now sp trees wp wtype threshold qnum debug =
      Except.ok (sp1, trees1, wp1, some s)) :
    ∃ pre e post spA treesA wA ti tree idx tree1 w1,
      sp.rbt wtype = pre ++ e :: post ∧ e.spn = s ∧ threshold ≤ e.rbe_weight ∧
      (∀ x ∈ pre, threshold ≤ x.rbe_weight ∧ rbe_before x e = true) ∧
      (∀ x ∈ post, rbe_before e x = true) ∧
      sp3_check_rb_loop E jclock_ns now wtype threshold qnum debug pre sp trees wp =
        Except.ok (spA, treesA, wA, none) ∧
      find_tree treesA s = some (ti, tree, idx) ∧
      sp3_work E jclock_ns now tree idx wtype spA.thresh debug wA = Except.ok (tree1, w1) ∧
      w1.cw_action ≠ cn_action.CN_ACTION_NONE := by
  unfold sp3_check_rb_tree at h
  obtain ⟨pre, e, post, spA, treesA, wA, ti, tree, idx, tree1, w1, h1, h2, h3, h4, h5, h6, h7,
    h8⟩ := check_rb_loop_select E jclock_ns now wtype threshold qnum debug _ sp trees wp sp1
      trees1 wp1 s h
  unfold rb_ordered at hord
  rw [h1, List.pairwise_append, List.pairwise_cons] at hord
  refine ⟨pre, e, post, spA, treesA, wA, ti, tree, idx, tree1, w1, h1, h2, h3, ?_, hord.2.1.1,
    h5, h6, h7, h8⟩
  intro x hx
  exact ⟨h4 x hx, hord.2.2 x hx e (List.mem_cons_self e post)⟩

/-- C20, instance: in the state of the counterexample the selected leaf 1 is
preceded by leaf 2 only, which meets the threshold. -/
theorem C20_dispatch_selection_witness :
    ∃ pre e post,
      ([{ rbe_weight := 9, spn := 2 }, { rbe_weight := 5, spn := 1 }] : List sp3_rbe) =
        pre ++ e :: post ∧ e.spn = 1 ∧
      (∀ x ∈ pre, 0 ≤ x.rbe_weight ∧ rbe_before x e = true) := by
  obtain ⟨pre, e, post, _, _, _, _, _, _, _, _, h1, h2, _, h4, _⟩ := C20_dispatch_selection
    env_example 0 0
    { qinfo := List.replicate 6 { qjobs_max := 1 },
      rbt := fun tx =>
        if tx = sp3_work_type.wtype_garbage then
          [{ rbe_weight := 9, spn := 2 }, { rbe_weight := 5, spn := 1 }]
        else [] }
    [{ ct_nodes := [{ spn_initialized := true },
                    { addr := 1, spn_initialized := true, tn_route_node := true,
                      tn_kvset_list := [{ dgen := 1 }], tn_ns := { ns_kvsets := 1 } },
                    { addr := 2, spn_initialized := true, tn_route_node := true,
                      tn_compacting := true, tn_busycnt := 65537,
                      tn_kvset_list := [{ dgen := 1, workid := 1 }],
                      tn_ns := { ns_kvsets := 1 } }],
       ct_fanout := 2 }]
    {} sp3_work_type.wtype_garbage 0 3 0 _ _ _ 1
    (by
      unfold rb_ordered
      simp [rbe_before])
    rfl
  exact ⟨pre, e, post, h1, h2, h4⟩

/-! ## C21: the dispatcher respects the queue limits -/

theorem scatter_no_submit_fault (tn : cn_tree_node) (thresh : sp3_thresholds) (e : sp3_fault)
    (h : sp3_work_wtype_scatter tn thresh = Except.error e) : submit_fault e = false := by
  unfold sp3_work_wtype_scatter at h
  dsimp only at h
  repeat' split at h
  all_goals first
    | contradiction
    | (cases h; rfl)

theorem length_run_no_submit_fault (keys_max runlen_min : Nat) (l : List kvset) (i : Nat)
    (s : length_state) (e : sp3_fault)
    (h : length_run keys_max runlen_min l i s = Except.error e) : submit_fault e = false := by
  induction l generalizing i s with
  | nil => simp [length_run] at h
  | cons k newer ih =>
    unfold length_run at h
    dsimp only at h
    repeat' split at h
    all_goals first
      | contradiction
      | exact ih _ _ h
      | (cases h; rename_i hq; split at hq <;>
          first | contradiction |
            (split at hq <;> first | contradiction |
              (split at hq <;> first | contradiction | (cases hq; rfl))))
  
theorem length_no_submit_fault (V : Nat) (tn : cn_tree_node) (thresh : sp3_thresholds)
    (p : wplan) (e : sp3_fault)
    (h : sp3_work_wtype_length V tn thresh p = Except.error e) : submit_fault e = false := by
  unfold sp3_work_wtype_length at h
  dsimp only at h
  repeat' split at h
  all_goals first
    | contradiction
    | (cases h; rename_i hq; exact length_run_no_submit_fault _ _ _ _ _ _ hq)

theorem join_no_submit_fault (jclock_ns : Nat) (tree : cn_tree) (idx : Nat)
    (thresh : sp3_thresholds) (e : sp3_fault)
    (h : sp3_work_wtype_join jclock_ns tree idx thresh = Except.error e) :
    submit_fault e = false := by
  unfold sp3_work_wtype_join at h
  dsimp only at h
  repeat' split at h
  all_goals first
    | contradiction
    | (cases h; rfl)

theorem mark_no_submit_fault (workid n : Nat) (le : le_ptr) (kvs : List kvset)
    (w : cn_compaction_work) (e : sp3_fault)
    (h : sp3_mark_kvsets workid n le kvs w = Except.error e) : submit_fault e = false := by
  induction n generalizing le kvs w with
  | zero => simp [sp3_mark_kvsets] at h
  | succ n ih =>
    unfold sp3_mark_kvsets at h
    repeat' split at h
    all_goals first
      | contradiction
      | (cases h; rfl)
      | exact ih _ _ _ h
  
theorem estimate_sum_no_submit_fault (n : Nat) (le : le_ptr) (kvs : List kvset)
    (acc : Nat × Nat × Nat × Nat) (e : sp3_fault)
    (h : estimate_sum n le kvs acc = Except.error e) : submit_fault e = false := by
  induction n generalizing le acc with
  | zero => simp [estimate_sum] at h
  | succ n ih =>
    unfold estimate_sum at h
    repeat' split at h
    all_goals first
      | contradiction
      | (cases h; rfl)
      | exact ih _ _ h
  
theorem estimate_no_submit_fault (isleaf : Bool) (kvs : List kvset) (w : cn_compaction_work)
    (e : sp3_fault)
    (h : sp3_work_estimate isleaf kvs w = Except.error e) : submit_fault e = false := by
  unfold sp3_work_estimate at h
  dsimp only at h
  repeat' split at h
  all_goals first
    | contradiction
    | (cases h; rename_i hq; exact estimate_sum_no_submit_fault _ _ _ _ _ hq)
    | (cases h; rename_i hq; split at hq <;>
        first | contradiction |
          (split at hq <;> first | contradiction | (cases hq; rfl) |
            (split at hq <;> first | contradiction | (cases hq; rfl))))

theorem plan_no_submit_fault (E : sp3_env) (jclock_ns : Nat) (tree : cn_tree) (idx : Nat)
    (tn : cn_tree_node) (wtype : sp3_work_type) (thresh : sp3_thresholds) (e : sp3_fault)
    (h : sp3_work_plan E jclock_ns tree idx tn wtype thresh = Except.error e) :
    submit_fault e = false := by
  unfold sp3_work_plan at h
  dsimp only at h
  repeat' split at h
  all_goals first
    | contradiction
    | (cases h; rfl)
    | (cases h; rename_i hq; exact join_no_submit_fault _ _ _ _ _ hq)
    | (cases h; rename_i hq; exact scatter_no_submit_fault _ _ _ hq)
    | (cases h; rename_i hq; exact length_no_submit_fault _ _ _ _ _ hq)

theorem commit_no_submit_fault (now : Nat) (tree : cn_tree) (idx : Nat) (tn : cn_tree_node)
    (p : wplan) (have_token : Bool) (debug : Nat) (w : cn_compaction_work) (e : sp3_fault)
    (h : sp3_work_commit now tree idx tn p have_token debug w = Except.error e) :
    submit_fault e = false := by
  unfold sp3_work_commit at h
  dsimp only at h
  repeat' split at h
  all_goals first
    | contradiction
    | (cases h; rfl)
    | (cases h; rename_i hq; exact mark_no_submit_fault _ _ _ _ _ _ hq)
    | (cases h; rename_i hq; exact estimate_no_submit_fault _ _ _ _ hq)

theorem work_no_submit_fault (E : sp3_env) (jclock_ns now : Nat) (tree : cn_tree) (idx : Nat)
    (wtype : sp3_work_type) (thresh : sp3_thresholds) (debug : Nat) (w : cn_compaction_work)
    (e : sp3_fault)
    (h : sp3_work E jclock_ns now tree idx wtype thresh debug w = Except.error e) :
    submit_fault e = false := by
  unfold sp3_work at h
  dsimp only at h
  repeat' split at h
  all_goals first
    | contradiction
    | (cases h; rfl)
    | exact commit_no_submit_fault _ _ _ _ _ _ _ _ _ h
    | (cases h; rename_i hq; exact plan_no_submit_fault _ _ _ _ _ _ _ _ hq)


theorem submit_fault_of_error (sp : sp3) (trees : List cn_tree) (ti : Nat)
    (w : cn_compaction_work) (qnum debug : Nat) (e : sp3_fault)
    (h : sp3_submit sp trees ti w qnum debug = Except.error e) :
    qnum ≥ SP3_QNUM_MAX ∨ qfull sp qnum = true := by
  unfold sp3_submit at h
  by_cases hq : qnum < SP3_QNUM_MAX
  · right
    rw [if_neg (not_not.mpr hq)] at h
    dsimp only at h
    by_cases hf : qfull sp qnum = true
    · exact hf
    · rw [if_neg hf] at h
      unfold qfull at hf
      cases hqi : sp.qinfo[qnum]? with
      | none => rw [hqi] at hf; exact absurd rfl hf
      | some qi => rw [hqi] at h; cases h
  · left
    omega

theorem submit_one_job (sp : sp3) (trees : List cn_tree) (ti : Nat)
    (w : cn_compaction_work) (qnum debug : Nat) (sp1 : sp3) (trees1 : List cn_tree)
    (w1 : cn_compaction_work) (j : Nat)
    (h : sp3_submit sp trees ti w qnum debug = Except.ok (sp1, trees1, w1)) :
    one_job sp sp1 qnum (some j) := by
  unfold sp3_submit at h
  by_cases hq : qnum < SP3_QNUM_MAX
  · rw [if_neg (not_not.mpr hq)] at h
    dsimp only at h
    by_cases hf : qfull sp qnum = true
    · rw [if_pos hf] at h
      cases h
    · rw [if_neg hf] at h
      unfold qfull at hf
      cases hqi : sp.qinfo[qnum]? with
      | none => rw [hqi] at h; cases h
      | some qi =>
        rw [hqi] at h hf
        injection h with h
        injection h with h1 h2
        subst h1
        refine ⟨qi, hqi, ?_, rfl, rfl⟩
        simpa using hf
  · rw [if_pos hq] at h
    cases h

theorem one_job_frame (sp sp0 sp1 : sp3) (qnum : Nat) (job : Option Nat)
    (hq : sp0.qinfo = sp.qinfo) (hj : sp0.jobs_started = sp.jobs_started)
    (h : one_job sp0 sp1 qnum job) : one_job sp sp1 qnum job := by
  cases job with
  | none => exact ⟨h.1.trans hq, h.2.trans hj⟩
  | some j =>
    obtain ⟨qi, h1, h2, h3, h4⟩ := h
    exact ⟨qi, hq ▸ h1, h2, hq ▸ h3, hj ▸ h4⟩

theorem qfull_frame (sp sp0 : sp3) (qnum : Nat) (hq : sp0.qinfo = sp.qinfo) :
    qfull sp0 qnum = qfull sp qnum := by
  unfold qfull
  rw [hq]

theorem check_rb_loop_one_job (E : sp3_env) (jclock_ns now : Nat) (wtype : sp3_work_type)
    (threshold qnum debug : Nat) (hq : qnum < SP3_QNUM_MAX) (l : List sp3_rbe) :
    ∀ (sp : sp3) (trees : List cn_tree) (wp : cn_compaction_work),
      qfull sp qnum = false →
      (∀ e, sp3_check_rb_loop E jclock_ns now wtype threshold qnum debug l sp trees wp =
          Except.error e → submit_fault e = false) ∧
      (∀ sp1 trees1 wp1 job,
        sp3_check_rb_loop E jclock_ns now wtype threshold qnum debug l sp trees wp =
          Except.ok (sp1, trees1, wp1, job) → one_job sp sp1 qnum job) := by
  induction l with
  | nil =>
    intro sp trees wp _
    refine ⟨fun e h => ?_, fun sp1 trees1 wp1 job h => ?_⟩
    · simp [sp3_check_rb_loop] at h
    · simp only [sp3_check_rb_loop] at h
      cases h
      exact ⟨rfl, rfl⟩
  | cons rbe rest ih =>
    intro sp trees wp hf
    have ihA := ih sp
    have ihB := ih (sp3_node_remove sp rbe.spn wtype)
    have hfB : qfull (sp3_node_remove sp rbe.spn wtype) qnum = false := hf
    unfold sp3_check_rb_loop
    by_cases ht : rbe.rbe_weight < threshold
    · rw [if_pos ht]
      refine ⟨fun e h => Except.noConfusion h, fun sp1 trees1 wp1 job h => ?_⟩
      cases h
      exact ⟨rfl, rfl⟩
    · rw [if_neg ht]
      cases hft : find_tree trees rbe.spn with
      | none => exact ⟨fun e h => by cases h; rfl, fun sp1 trees1 wp1 job h => Except.noConfusion h⟩
      | some r =>
        obtain ⟨ti, tree, idx⟩ := r
        dsimp only
        cases hw : sp3_work E jclock_ns now tree idx wtype sp.thresh debug wp with
        | error e0 =>
          refine ⟨fun e h => ?_, fun sp1 trees1 wp1 job h => Except.noConfusion h⟩
          cases h
          exact work_no_submit_fault _ _ _ _ _ _ _ _ _ _ hw
        | ok r1 =>
          obtain ⟨tree1, w1⟩ := r1
          dsimp only
          by_cases ha : w1.cw_action ≠ cn_action.CN_ACTION_NONE
          · rw [if_pos ha]
            cases hs : sp3_submit (sp3_node_remove sp rbe.spn wtype) (trees.set ti tree1) ti w1
                qnum debug with
            | error e0 =>
              rcases submit_fault_of_error _ _ _ _ _ _ _ hs with h1 | h1
              · omega
              · rw [hfB] at h1
                cases h1
            | ok r2 =>
              obtain ⟨sp2, trees2, w2⟩ := r2
              refine ⟨fun e h => Except.noConfusion h, fun sp1 trees1 wp1 job h => ?_⟩
              cases h
              exact one_job_frame sp (sp3_node_remove sp rbe.spn wtype) _ _ _ rfl rfl
                (submit_one_job _ _ _ _ _ _ _ _ _ _ hs)
          · rw [if_neg ha]
            by_cases hr : w1.cw_resched = true
            · rw [if_pos hr]
              exact ihA _ _ hf
            · rw [if_neg hr]
              obtain ⟨h1, h2⟩ := ihB (trees.set ti tree1) w1 hfB
              exact ⟨h1, fun sp1 trees1 wp1 job h =>
                one_job_frame sp (sp3_node_remove sp rbe.spn wtype) _ _ _ rfl rfl
                  (h2 sp1 trees1 wp1 job h)⟩

theorem one_job_post (sp sp1 sp2 : sp3) (qnum : Nat) (job : Option Nat)
    (hq : sp2.qinfo = sp1.qinfo) (hj : sp2.jobs_started = sp1.jobs_started)
    (h : one_job sp sp1 qnum job) : one_job sp sp2 qnum job := by
  cases job with
  | none => exact ⟨hq.trans h.1, hj.trans h.2⟩
  | some j =>
    obtain ⟨qi, h1, h2, h3, h4⟩ := h
    exact ⟨qi, h1, h2, hq.trans h3, hj.trans h4⟩

theorem check_roots_loop_one_job (E : sp3_env) (jclock_ns now : Nat)
    (qnum debug : Nat) (hq : qnum < SP3_QNUM_MAX) (l : List Nat) :
    ∀ (sp : sp3) (trees : List cn_tree) (wp : cn_compaction_work),
      qfull sp qnum = false →
      (∀ e, sp3_check_roots_loop E jclock_ns now qnum debug l sp trees wp =
          Except.error e → submit_fault e = false) ∧
      (∀ sp1 trees1 wp1 job,
        sp3_check_roots_loop E jclock_ns now qnum debug l sp trees wp =
          Except.ok (sp1, trees1, wp1, job) → one_job sp sp1 qnum job) := by
  induction l with
  | nil =>
    intro sp trees wp _
    refine ⟨fun e h => ?_, fun sp1 trees1 wp1 job h => ?_⟩
    · simp [sp3_check_roots_loop] at h
    · simp only [sp3_check_roots_loop] at h
      cases h
      exact ⟨rfl, rfl⟩
  | cons spn rest ih =>
    intro sp trees wp hf
    have ihA := ih sp
    have ihB := ih (rlist_del sp spn)
    have hfB : qfull (rlist_del sp spn) qnum = false := hf
    unfold sp3_check_roots_loop
    cases hft : find_tree trees spn with
    | none => exact ⟨fun e h => by cases h; rfl, fun sp1 trees1 wp1 job h => Except.noConfusion h⟩
    | some r =>
      obtain ⟨ti, tree, idx⟩ := r
      dsimp only
      cases hw : sp3_work E jclock_ns now tree idx sp3_work_type.wtype_root sp.thresh debug
          wp with
      | error e0 =>
        refine ⟨fun e h => ?_, fun sp1 trees1 wp1 job h => Except.noConfusion h⟩
        cases h
        exact work_no_submit_fault _ _ _ _ _ _ _ _ _ _ hw
      | ok r1 =>
        obtain ⟨tree1, w1⟩ := r1
        dsimp only
        by_cases ha : w1.cw_action ≠ cn_action.CN_ACTION_NONE
        · rw [if_pos ha]
          generalize hsp0 : (if sp.spn_rlist.getLast? ≠ some spn then
              { sp with spn_rlist := sp.spn_rlist.filter (fun a => a != spn) ++ [spn] }
            else sp) = sp0
          have h0 : sp0.qinfo = sp.qinfo ∧ sp0.jobs_started = sp.jobs_started := by
            rw [← hsp0]
            split_ifs <;> exact ⟨rfl, rfl⟩
          have hf0 : qfull sp0 qnum = false := by rw [qfull_frame sp sp0 qnum h0.1]; exact hf
          cases hs : sp3_submit sp0 (trees.set ti tree1) ti w1 qnum debug with
          | error e0 =>
            rcases submit_fault_of_error _ _ _ _ _ _ _ hs with h1 | h1
            · omega
            · rw [hf0] at h1
              cases h1
          | ok r2 =>
            obtain ⟨sp2, trees2, w2⟩ := r2
            refine ⟨fun e h => Except.noConfusion h, fun sp1 trees1 wp1 job h => ?_⟩
            cases h
            exact one_job_frame sp sp0 _ _ _ h0.1 h0.2 (submit_one_job _ _ _ _ _ _ _ _ _ _ hs)
        · rw [if_neg ha]
          by_cases hr : w1.cw_resched = true
          · rw [if_pos hr]
            exact ihA _ _ hf
          · rw [if_neg hr]
            obtain ⟨h1, h2⟩ := ihB (trees.set ti tree1) w1 hfB
            exact ⟨h1, fun sp1 trees1 wp1 job h =>
              one_job_frame sp (rlist_del sp spn) _ _ _ rfl rfl (h2 sp1 trees1 wp1 job h)⟩

theorem overflow_case_one_job (E : sp3_env) (jclock_ns now debug : Nat) (sp : sp3)
    (trees : List cn_tree) (wp : cn_compaction_work) (wt : sp3_work_type)
    (thresh q0 : Nat) (upd : sp3 → sp3) (hq0 : q0 < SP3_QNUM_MAX)
    (hupd : ∀ s, (upd s).qinfo = s.qinfo ∧ (upd s).jobs_started = s.jobs_started)
    (r : Except sp3_fault (sp3 × List cn_tree × cn_compaction_work × Option Nat))
    (hr : r =
      if qfull sp q0 && qfull sp SP3_QNUM_SHARED then Except.ok (sp, trees, wp, none)
      else
        match sp3_check_rb_tree E jclock_ns now sp trees wp wt thresh
            (if qfull sp q0 then SP3_QNUM_SHARED else q0) debug with
        | Except.error e => Except.error e
        | Except.ok (sp1, trees1, wp1, some j) => Except.ok (upd sp1, trees1, wp1, some j)
        | Except.ok (sp1, trees1, wp1, none) => Except.ok (sp1, trees1, wp1, none)) :
    (∀ e, r = Except.error e → submit_fault e = false) ∧
    (∀ sp1 trees1 wp1 job, r = Except.ok (sp1, trees1, wp1, job) →
      ∃ qnum, qnum ∈ [q0, SP3_QNUM_SHARED] ∧ one_job sp sp1 qnum job) := by
  subst hr
  by_cases hb : (qfull sp q0 && qfull sp SP3_QNUM_SHARED) = true
  · rw [if_pos hb]
    refine ⟨fun e h => Except.noConfusion h, fun sp1 trees1 wp1 job h => ?_⟩
    cases h
    exact ⟨q0, by simp, rfl, rfl⟩
  · rw [if_neg hb]
    generalize hqn : (if qfull sp q0 then SP3_QNUM_SHARED else q0) = qnum
    have hq : qnum < SP3_QNUM_MAX ∧ qfull sp qnum = false ∧ qnum ∈ [q0, SP3_QNUM_SHARED] := by
      rw [← hqn]
      by_cases h0 : qfull sp q0 = true
      · rw [if_pos h0]
        rw [h0] at hb
        refine ⟨by decide, ?_, by simp⟩
        simpa using hb
      · rw [if_neg h0]
        refine ⟨hq0, ?_, by simp⟩
        simpa using h0
    obtain ⟨h1, h2⟩ := check_rb_loop_one_job E jclock_ns now wt thresh qnum debug hq.1
      (sp.rbt wt) sp trees wp hq.2.1
    unfold sp3_check_rb_tree
    cases hc : sp3_check_rb_loop E jclock_ns now wt thresh qnum debug (sp.rbt wt) sp trees
        wp with
    | error e0 =>
      refine ⟨fun e h => ?_, fun sp1 trees1 wp1 job h => Except.noConfusion h⟩
      cases h
      exact h1 _ hc
    | ok r1 =>
      obtain ⟨sp2, trees2, wp2, job2⟩ := r1
      have h3 := h2 _ _ _ _ hc
      cases job2 with
      | none =>
        refine ⟨fun e h => Except.noConfusion h, fun sp1 trees1 wp1 job h => ?_⟩
        cases h
        exact ⟨qnum, hq.2.2, h3⟩
      | some j =>
        refine ⟨fun e h => Except.noConfusion h, fun sp1 trees1 wp1 job h => ?_⟩
        cases h
        exact ⟨qnum, hq.2.2, one_job_post sp sp2 _ qnum _ (hupd sp2).1 (hupd sp2).2 h3⟩

theorem schedule_case_one_job (E : sp3_env) (jclock_ns now debug : Nat) (sp : sp3)
    (trees : List cn_tree) (wp : cn_compaction_work) (wt : sp3_work_type) :
    (∀ e, sp3_schedule_case E jclock_ns now debug sp trees wp wt = Except.error e →
      submit_fault e = false) ∧
    (∀ sp1 trees1 wp1 job,
      sp3_schedule_case E jclock_ns now debug sp trees wp wt =
        Except.ok (sp1, trees1, wp1, job) →
      ∃ qnum, qnum ∈ wtype_queues wt ∧ one_job sp sp1 qnum job) := by
  have hskip : ∀ q : Nat,
      (∀ e, (Except.ok (sp, trees, wp, none) :
          Except sp3_fault (sp3 × List cn_tree × cn_compaction_work × Option Nat)) =
        Except.error e → submit_fault e = false) ∧
      (∀ sp1 trees1 wp1 job,
        (Except.ok (sp, trees, wp, none) :
          Except sp3_fault (sp3 × List cn_tree × cn_compaction_work × Option Nat)) =
        Except.ok (sp1, trees1, wp1, job) →
        ∃ qnum, qnum ∈ [q] ∧ one_job sp sp1 qnum job) := by
    intro q
    refine ⟨fun e h => Except.noConfusion h, fun sp1 trees1 wp1 job h => ?_⟩
    cases h
    exact ⟨q, by simp, rfl, rfl⟩
  have hrb : ∀ (wt : sp3_work_type) (thresh q : Nat), q < SP3_QNUM_MAX → qfull sp q = false →
      (∀ e, sp3_check_rb_tree E jclock_ns now sp trees wp wt thresh q debug = Except.error e →
        submit_fault e = false) ∧
      (∀ sp1 trees1 wp1 job,
        sp3_check_rb_tree E jclock_ns now sp trees wp wt thresh q debug =
          Except.ok (sp1, trees1, wp1, job) →
        ∃ qnum, qnum ∈ [q] ∧ one_job sp sp1 qnum job) := by
    intro wt thresh q hq hf
    obtain ⟨h1, h2⟩ := check_rb_loop_one_job E jclock_ns now wt thresh q debug hq
      (sp.rbt wt) sp trees wp hf
    exact ⟨h1, fun sp1 trees1 wp1 job h => ⟨q, by simp, h2 _ _ _ _ h⟩⟩
  cases wt with
  | wtype_root =>
    dsimp only [sp3_schedule_case]
    by_cases hf : qfull sp SP3_QNUM_ROOT = true
    · rw [if_pos hf]
      exact hskip SP3_QNUM_ROOT
    · rw [if_neg hf]
      obtain ⟨h1, h2⟩ := check_roots_loop_one_job E jclock_ns now SP3_QNUM_ROOT debug
        (by decide) sp.spn_rlist sp trees wp (by simpa using hf)
      exact ⟨h1, fun sp1 trees1 wp1 job h => ⟨SP3_QNUM_ROOT, by simp [wtype_queues],
        h2 _ _ _ _ h⟩⟩
  | wtype_length =>
    dsimp only [sp3_schedule_case]
    by_cases hf : qfull sp SP3_QNUM_LENGTH = true
    · rw [if_pos hf]
      exact hskip SP3_QNUM_LENGTH
    · rw [if_neg hf]
      exact hrb _ _ _ (by decide) (by simpa using hf)
  | wtype_idle =>
    dsimp only [sp3_schedule_case]
    by_cases hf : qfull sp SP3_QNUM_SHARED = true
    · rw [if_pos hf]
      exact hskip SP3_QNUM_SHARED
    · rw [if_neg hf]
      exact hrb _ _ _ (by decide) (by simpa using hf)
  | wtype_garbage =>
    dsimp only [sp3_schedule_case]
    by_cases hc : (!qempty sp SP3_QNUM_GARBAGE && decide (jclock_ns < sp.check_garbage_ns)) = true
    · rw [if_pos hc]
      refine ⟨fun e h => Except.noConfusion h, fun sp1 trees1 wp1 job h => ?_⟩
      cases h
      exact ⟨SP3_QNUM_GARBAGE, by simp [wtype_queues], rfl, rfl⟩
    · rw [if_neg hc]
      exact overflow_case_one_job E jclock_ns now debug sp trees wp _ _ SP3_QNUM_GARBAGE
        (fun s => { s with check_garbage_ns := u64 (jclock_ns + NSEC_PER_SEC * 7) }) (by decide)
        (fun s => ⟨rfl, rfl⟩) _ rfl
  | wtype_scatter =>
    dsimp only [sp3_schedule_case]
    by_cases hc : (!qempty sp SP3_QNUM_SCATTER && decide (jclock_ns < sp.check_scatter_ns)) = true
    · rw [if_pos hc]
      refine ⟨fun e h => Except.noConfusion h, fun sp1 trees1 wp1 job h => ?_⟩
      cases h
      exact ⟨SP3_QNUM_SCATTER, by simp [wtype_queues], rfl, rfl⟩
    · rw [if_neg hc]
      exact overflow_case_one_job E jclock_ns now debug sp trees wp _ _ SP3_QNUM_SCATTER
        (fun s => { s with check_scatter_ns := u64 (jclock_ns + NSEC_PER_SEC * 3) }) (by decide)
        (fun s => ⟨rfl, rfl⟩) _ rfl
  | wtype_split =>
    dsimp only [sp3_schedule_case]
    by_cases hf : qfull sp SP3_QNUM_SPLIT = true
    · rw [if_pos hf]
      exact hskip SP3_QNUM_SPLIT
    · rw [if_neg hf]
      exact hrb _ _ _ (by decide) (by simpa using hf)
  | wtype_join =>
    dsimp only [sp3_schedule_case]
    by_cases hf : qfull sp SP3_QNUM_SPLIT = true
    · rw [if_pos hf]
      exact hskip SP3_QNUM_SPLIT
    · rw [if_neg hf]
      exact hrb _ _ _ (by decide) (by simpa using hf)

theorem schedule_case_skip (E : sp3_env) (jclock_ns now debug : Nat) (sp : sp3)
    (trees : List cn_tree) (wp : cn_compaction_work) (wt : sp3_work_type)
    (h : ∀ q ∈ wtype_queues wt, qfull sp q = true) :
    sp3_schedule_case E jclock_ns now debug sp trees wp wt = Except.ok (sp, trees, wp, none) := by
  cases wt with
  | wtype_root =>
    dsimp only [sp3_schedule_case]
    rw [if_pos (h _ (by simp [wtype_queues]))]
  | wtype_length =>
    dsimp only [sp3_schedule_case]
    rw [if_pos (h _ (by simp [wtype_queues]))]
  | wtype_idle =>
    dsimp only [sp3_schedule_case]
    rw [if_pos (h _ (by simp [wtype_queues]))]
  | wtype_garbage =>
    dsimp only [sp3_schedule_case]
    have h1 := h SP3_QNUM_GARBAGE (by simp [wtype_queues])
    have h2 := h SP3_QNUM_SHARED (by simp [wtype_queues])
    rw [h1, h2]
    simp
  | wtype_scatter =>
    dsimp only [sp3_schedule_case]
    have h1 := h SP3_QNUM_SCATTER (by simp [wtype_queues])
    have h2 := h SP3_QNUM_SHARED (by simp [wtype_queues])
    rw [h1, h2]
    simp
  | wtype_split =>
    dsimp only [sp3_schedule_case]
    rw [if_pos (h _ (by simp [wtype_queues]))]
  | wtype_join =>
    dsimp only [sp3_schedule_case]
    rw [if_pos (h _ (by simp [wtype_queues]))]

theorem schedule_loop_one_job (E : sp3_env) (jclock_ns now debug : Nat) (n : Nat) :
    ∀ (sp : sp3) (trees : List cn_tree) (wp : cn_compaction_work),
      (∀ e, sp3_schedule_loop E jclock_ns now debug n sp trees wp = Except.error e →
        submit_fault e = false) ∧
      (∀ sp1 trees1 wp1 job,
        sp3_schedule_loop E jclock_ns now debug n sp trees wp =
          Except.ok (sp1, trees1, wp1, job) →
        ∃ qnum, one_job sp sp1 qnum job) := by
  induction n with
  | zero =>
    intro sp trees wp
    refine ⟨fun e h => ?_, fun sp1 trees1 wp1 job h => ?_⟩
    · simp [sp3_schedule_loop] at h
    · simp only [sp3_schedule_loop] at h
      cases h
      exact ⟨0, rfl, rfl⟩
  | succ n ih =>
    intro sp trees wp
    unfold sp3_schedule_loop
    dsimp only
    generalize hsp0 : ({ sp with rr_wtype := u32 (sp.rr_wtype + 1) % E.wtype_MAX } : sp3) = sp0
    have h0 : sp0.qinfo = sp.qinfo ∧ sp0.jobs_started = sp.jobs_started := by
      rw [← hsp0]
      exact ⟨rfl, rfl⟩
    have hrr : sp0.rr_wtype = u32 (sp.rr_wtype + 1) % E.wtype_MAX := by rw [← hsp0]
    rw [← hrr]
    cases hd : E.wtype_enum sp0.rr_wtype with
    | none =>
      dsimp only
      obtain ⟨h1, h2⟩ := ih sp0 trees wp
      refine ⟨h1, fun sp1 trees1 wp1 job h => ?_⟩
      obtain ⟨q, hq⟩ := h2 _ _ _ _ h
      exact ⟨q, one_job_frame sp sp0 _ _ _ h0.1 h0.2 hq⟩
    | some wt =>
      dsimp only
      obtain ⟨h1, h2⟩ := schedule_case_one_job E jclock_ns now debug sp0 trees wp wt
      cases hc : sp3_schedule_case E jclock_ns now debug sp0 trees wp wt with
      | error e0 =>
        refine ⟨fun e h => ?_, fun sp1 trees1 wp1 job h => Except.noConfusion h⟩
        cases h
        exact h1 _ hc
      | ok r =>
        obtain ⟨sp2, trees2, wp2, job2⟩ := r
        obtain ⟨q, _, hq⟩ := h2 _ _ _ _ hc
        cases job2 with
        | some j =>
          refine ⟨fun e h => Except.noConfusion h, fun sp1 trees1 wp1 job h => ?_⟩
          cases h
          exact ⟨q, one_job_frame sp sp0 _ _ _ h0.1 h0.2 hq⟩
        | none =>
          dsimp only
          obtain ⟨h3, h4⟩ := ih sp2 trees2 wp2
          refine ⟨h3, fun sp1 trees1 wp1 job h => ?_⟩
          obtain ⟨q1, hq1⟩ := h4 _ _ _ _ h
          exact ⟨q1, one_job_frame sp sp2 _ _ _ (hq.1.trans h0.1) (hq.2.trans h0.2) hq1⟩

/-- C21: `sp3_schedule` never fails an assertion of `sp3_submit` (neither
`assert(!qfull(sp, qnum))` nor `assert(qnum < SP3_QNUM_MAX)`); a call that
returns submitted at most one job, and if it submitted one, the queue it went to
held fewer than `qjobs_max` jobs before, its `qjobs` grew by one and so did
`jobs_started`, all other queues being unchanged; the case of a category all of
whose queues are full (for garbage and scatter its own queue and the shared one)
returns without a job, without a fault and with the state unchanged, and the
round-robin loop goes on with the next category. -/
theorem C21_schedule_respects_queue_limits (E : sp3_env) (jclock_ns now debug : Nat) (sp : sp3)
    (trees : List cn_tree) (wp : cn_compaction_work) :
    (∀ e, sp3_schedule E jclock_ns now debug sp trees wp = Except.error e →
      e ≠ sp3_fault.assert_qfull ∧ e ≠ sp3_fault.assert_qnum) ∧
    (∀ sp1 trees1 wp1 job,
      sp3_schedule E jclock_ns now debug sp trees wp = Except.ok (sp1, trees1, wp1, job) →
      ∃ qnum, one_job sp sp1 qnum job) ∧
    (∀ wt, (∀ q ∈ wtype_queues wt, qfull sp q = true) →
      sp3_schedule_case E jclock_ns now debug sp trees wp wt =
        Except.ok (sp, trees, wp, none)) ∧
    (∀ n wt, E.wtype_enum (u32 (sp.rr_wtype + 1) % E.wtype_MAX) = some wt →
      (∀ q ∈ wtype_queues wt, qfull sp q = true) →
      sp3_schedule_loop E jclock_ns now debug (n + 1) sp trees wp =
        sp3_schedule_loop E jclock_ns now debug n
          { sp with rr_wtype := u32 (sp.rr_wtype + 1) % E.wtype_MAX } trees wp) := by
  refine ⟨fun e h => ?_, fun sp1 trees1 wp1 job h => ?_,
    fun wt h => schedule_case_skip E jclock_ns now debug sp trees wp wt h, fun n wt hd hf => ?_⟩
  · unfold sp3_schedule at h
    split_ifs at h
    have h1 := (schedule_loop_one_job E jclock_ns now debug E.wtype_MAX sp trees wp).1 e h
    constructor <;> intro he <;> rw [he] at h1 <;> cases h1
  · unfold sp3_schedule at h
    split_ifs at h
    · cases h
      exact ⟨0, rfl, rfl⟩
    · exact (schedule_loop_one_job E jclock_ns now debug E.wtype_MAX sp trees wp).2 _ _ _ _ h
  · rw [sp3_schedule_loop]
    dsimp only
    rw [hd]
    dsimp only
    rw [schedule_case_skip E jclock_ns now debug
      { sp with rr_wtype := u32 (sp.rr_wtype + 1) % E.wtype_MAX } trees wp wt hf]

/-- C21, instance: with every queue empty and of capacity one, the call whose
round-robin turn is the garbage category submits one job, for leaf 1, to a
queue that had room. -/
theorem C21_schedule_respects_queue_limits_witness :
    ∃ sp1 qnum,
      one_job
        { qinfo := List.replicate 6 { qjobs_max := 1 }, rr_wtype := 2,
          rbt := fun tx =>
            if tx = sp3_work_type.wtype_garbage then
              [{ rbe_weight := 9, spn := 2 }, { rbe_weight := 5, spn := 1 }]
            else [] }
        sp1 qnum (some 1) := by
  obtain ⟨qnum, h⟩ := (C21_schedule_respects_queue_limits env_example 0 0 0
    { qinfo := List.replicate 6 { qjobs_max := 1 }, rr_wtype := 2,
      rbt := fun tx =>
        if tx = sp3_work_type.wtype_garbage then
          [{ rbe_weight := 9, spn := 2 }, { rbe_weight := 5, spn := 1 }]
        else [] }
    [{ ct_nodes := [{ spn_initialized := true },
                    { addr := 1, spn_initialized := true, tn_route_node := true,
                      tn_kvset_list := [{ dgen := 1 }], tn_ns := { ns_kvsets := 1 } },
                    { addr := 2, spn_initialized := true, tn_route_node := true,
                      tn_compacting := true, tn_busycnt := 65537,
                      tn_kvset_list := [{ dgen := 1, workid := 1 }],
                      tn_ns := { ns_kvsets := 1 } }],
       ct_fanout := 2 }]
    {}).2.1 _ _ _ (some 1) rfl
  exact ⟨_, qnum, h⟩

/-! ## C22: submission and completion cancel out -/

theorem sum_eraseIdx (f : Nat × cn_compaction_work → Int) :
    ∀ (l : List (Nat × cn_compaction_work)) (k : Nat) (x : Nat × cn_compaction_work),
      l[k]? = some x → ((l.eraseIdx k).map f).sum = (l.map f).sum - f x := by
  intro l
  induction l with
  | nil => intro k x h; simp at h
  | cons a rest ih =>
    intro k x h
    cases k with
    | zero =>
      simp only [List.getElem?_cons_zero, Option.some.injEq] at h
      subst h
      simp
    | succ k =>
      simp only [List.getElem?_cons_succ] at h
      simp only [List.eraseIdx_cons_succ, List.map_cons, List.sum_cons, ih k x h]
      omega

theorem list_set_self {α : Type} :
    ∀ (l : List α) (i : Nat) (a : α), l[i]? = some a → l.set i a = l := by
  intro l
  induction l with
  | nil => intro i a h; simp at h
  | cons x rest ih =>
    intro i a h
    cases i with
    | zero =>
      simp only [List.getElem?_cons_zero, Option.some.injEq] at h
      subst h
      rfl
    | succ i =>
      simp only [List.getElem?_cons_succ] at h
      simp only [List.set_cons_succ, ih i a h]

theorem samp_stats_ext (a b : cn_samp_stats) (h1 : a.r_alen = b.r_alen)
    (h2 : a.r_wlen = b.r_wlen) (h3 : a.i_alen = b.i_alen) (h4 : a.l_alen = b.l_alen)
    (h5 : a.l_good = b.l_good) : a = b := by
  cases a
  cases b
  simp only [cn_samp_stats.mk.injEq]
  exact ⟨h1, h2, h3, h4, h5⟩

theorem submit_wip (sp : sp3) (trees : List cn_tree) (ti : Nat) (w : cn_compaction_work)
    (qnum debug : Nat) (sp1 : sp3) (trees1 : List cn_tree) (w1 : cn_compaction_work)
    (h : sp3_submit sp trees ti w qnum debug = Except.ok (sp1, trees1, w1)) :
    sp1.samp_wip = { sp.samp_wip with
                     i_alen := sp.samp_wip.i_alen + w.cw_est.cwe_samp.i_alen,
                     l_alen := sp.samp_wip.l_alen + w.cw_est.cwe_samp.l_alen,
                     l_good := sp.samp_wip.l_good + w.cw_est.cwe_samp.l_good } ∧
    w1.cw_est = w.cw_est ∧ w1.cw_qnum = qnum ∧ w1.cw_action = w.cw_action ∧
    w1.cw_kvset_cnt = w.cw_kvset_cnt ∧ sp1.jobs_finished = sp.jobs_finished ∧
    trees1 = (match trees[ti]? with
      | some t => trees.set ti { t with spt_job_cnt := t.spt_job_cnt + 1 }
      | none => trees) := by
  unfold sp3_submit at h
  by_cases hq : qnum < SP3_QNUM_MAX
  · rw [if_neg (not_not.mpr hq)] at h
    dsimp only at h
    by_cases hf : qfull sp qnum = true
    · rw [if_pos hf] at h
      cases h
    · rw [if_neg hf] at h
      cases hqi : sp.qinfo[qnum]? with
      | none => rw [hqi] at h; cases h
      | some qi =>
        rw [hqi] at h
        injection h with h
        injection h with h1 h2
        injection h2 with h2 h3
        subst h1 h2 h3
        exact ⟨rfl, rfl, rfl, rfl, rfl, rfl, rfl⟩
  · rw [if_pos hq] at h
    cases h

theorem workitem_ok (now : Nat) (sp : sp3) (trees : List cn_tree) (ti : Nat)
    (w : cn_compaction_work) (sp1 : sp3) (trees1 : List cn_tree)
    (h : sp3_process_workitem now sp trees ti w = Except.ok (sp1, trees1)) :
    ∃ t qi t1, trees[ti]? = some t ∧ sp.qinfo[w.cw_qnum]? = some qi ∧
      t.spt_job_cnt > 0 ∧ qi.qjobs > 0 ∧
      sp1.samp_wip = { sp.samp_wip with
                       i_alen := sp.samp_wip.i_alen - w.cw_est.cwe_samp.i_alen,
                       l_alen := sp.samp_wip.l_alen - w.cw_est.cwe_samp.l_alen,
                       l_good := sp.samp_wip.l_good - w.cw_est.cwe_samp.l_good } ∧
      sp1.qinfo = sp.qinfo.set w.cw_qnum { qi with qjobs := qi.qjobs - 1 } ∧
      sp1.jobs_finished = sp.jobs_finished + 1 ∧ sp1.jobs_started = sp.jobs_started ∧
      trees1 = trees.set ti t1 ∧ t1.spt_job_cnt = t.spt_job_cnt - 1 := by
  unfold sp3_process_workitem at h
  cases ht : trees[ti]? with
  | none => rw [ht] at h; cases h
  | some t =>
    rw [ht] at h
    dsimp only at h
    by_cases h1 : ¬ t.spt_job_cnt > 0
    · rw [if_pos h1] at h; cases h
    rw [if_neg h1] at h
    by_cases h2 : ¬ w.cw_qnum < SP3_QNUM_MAX
    · rw [if_pos h2] at h; cases h
    rw [if_neg h2] at h
    cases hqi : sp.qinfo[w.cw_qnum]? with
    | none => rw [hqi] at h; cases h
    | some qi =>
      rw [hqi] at h
      dsimp only at h
      by_cases h3 : ¬ qi.qjobs > 0
      · rw [if_pos h3] at h; cases h
      rw [if_neg h3] at h
      by_cases h4 : ¬ u32 sp.jobs_started > u32 sp.jobs_finished
      · rw [if_pos h4] at h; cases h
      rw [if_neg h4] at h
      by_cases h5 : w.cw_action = cn_action.CN_ACTION_SPILL
      · rw [if_pos h5] at h
        by_cases h6 : w.cw_kvset_cnt = 0
        · rw [if_pos h6] at h; cases h
        rw [if_neg h6] at h
        injection h with h
        injection h with ha hb
        subst ha hb
        exact ⟨t, qi, _, rfl, rfl, not_not.mp h1, not_not.mp h3, rfl, rfl, rfl, rfl, rfl, rfl⟩
      · rw [if_neg h5] at h
        injection h with h
        injection h with ha hb
        subst ha hb
        exact ⟨t, qi, _, rfl, rfl, not_not.mp h1, not_not.mp h3, rfl, rfl, rfl, rfl, rfl, rfl⟩

theorem workitem_returns (now : Nat) (sp : sp3) (trees : List cn_tree) (ti : Nat)
    (w : cn_compaction_work) (t : cn_tree) (qi : sp3_qinfo)
    (ht : trees[ti]? = some t) (hq : sp.qinfo[w.cw_qnum]? = some qi)
    (h1 : t.spt_job_cnt > 0) (h2 : w.cw_qnum < SP3_QNUM_MAX) (h3 : qi.qjobs > 0)
    (h4 : u32 sp.jobs_started > u32 sp.jobs_finished)
    (h5 : w.cw_action = cn_action.CN_ACTION_SPILL → w.cw_kvset_cnt ≠ 0) :
    ∃ sp1 trees1, sp3_process_workitem now sp trees ti w = Except.ok (sp1, trees1) := by
  unfold sp3_process_workitem
  rw [ht]
  dsimp only
  rw [if_neg (not_not.mpr h1), if_neg (not_not.mpr h2), hq]
  dsimp only
  rw [if_neg (not_not.mpr h3), if_neg (not_not.mpr h4)]
  by_cases h6 : w.cw_action = cn_action.CN_ACTION_SPILL
  · rw [if_pos h6, if_neg (h5 h6)]
    exact ⟨_, _, rfl⟩
  · rw [if_neg h6]
    exact ⟨_, _, rfl⟩

theorem submit_returns (sp : sp3) (trees : List cn_tree) (ti : Nat) (w : cn_compaction_work)
    (qnum debug : Nat) (hq : qnum < SP3_QNUM_MAX) (hf : qfull sp qnum = false) :
    ∃ sp1 trees1 w1, sp3_submit sp trees ti w qnum debug = Except.ok (sp1, trees1, w1) := by
  cases hs : sp3_submit sp trees ti w qnum debug with
  | error e =>
    rcases submit_fault_of_error _ _ _ _ _ _ _ hs with h1 | h1
    · omega
    · rw [hf] at h1
      cases h1
  | ok r => exact ⟨r.1, r.2.1, r.2.2, rfl⟩

theorem job_step_wip (debug : Nat) (st st1 : job_state) (ev : job_event)
    (hinv : st.sp.samp_wip = inflight_est st.inflight)
    (h : job_step debug st ev = Except.ok st1) :
    st1.sp.samp_wip = inflight_est st1.inflight := by
  cases ev with
  | submit ti w qnum =>
    simp only [job_step] at h
    cases hs : sp3_submit st.sp st.trees ti w qnum debug with
    | error e => rw [hs] at h; cases h
    | ok r =>
      obtain ⟨sp1, trees1, w1⟩ := r
      rw [hs] at h
      injection h with h
      subst h
      obtain ⟨h1, h2, _⟩ := submit_wip _ _ _ _ _ _ _ _ _ hs
      dsimp only
      rw [h1, hinv]
      apply samp_stats_ext <;>
        simp [inflight_est, h2]
  | complete k now pre post =>
    simp only [job_step] at h
    cases hk : st.inflight[k]? with
    | none =>
      rw [hk] at h
      injection h with h
      subst h
      exact hinv
    | some x =>
      obtain ⟨ti, w⟩ := x
      rw [hk] at h
      dsimp only at h
      cases hp : sp3_process_workitem now st.sp st.trees ti
          { w with cw_samp_pre := pre, cw_samp_post := post } with
      | error e => rw [hp] at h; cases h
      | ok r =>
        obtain ⟨sp1, trees1⟩ := r
        rw [hp] at h
        injection h with h
        subst h
        obtain ⟨_, _, _, _, _, _, _, h1, _⟩ := workitem_ok _ _ _ _ _ _ _ hp
        dsimp only
        rw [h1, hinv]
        apply samp_stats_ext <;>
          simp [inflight_est, sum_eraseIdx _ _ _ _ hk]

theorem job_run_wip (debug : Nat) (evs : List job_event) :
    ∀ (st st1 : job_state), st.sp.samp_wip = inflight_est st.inflight →
      job_run debug st evs = Except.ok st1 → st1.sp.samp_wip = inflight_est st1.inflight := by
  induction evs with
  | nil =>
    intro st st1 hinv h
    simp only [job_run] at h
    injection h with h
    subst h
    exact hinv
  | cons ev rest ih =>
    intro st st1 hinv h
    simp only [job_run] at h
    cases hs : job_step debug st ev with
    | error e => rw [hs] at h; cases h
    | ok st2 =>
      rw [hs] at h
      exact ih st2 st1 (job_step_wip debug st st2 ev hinv hs) h

/-- C22: when `sp3_submit` accepts a work item (the queue has room) and
`sp3_process_workitem` later processes its completion, both return, and
`samp_wip`, the `qjobs` of every queue and the job count of the tree are what
they were before the submission; the statistics `pre` and `post` that the worker
recorded play no part in it.  Hence over every sequence of submissions and
completions that starts with `samp_wip` equal to the sum of the estimated samp
deltas of the jobs in flight, `samp_wip` stays equal to that sum, and it is zero
in every component when no job is in flight. -/
theorem C22_submit_complete_cancel (sp : sp3) (trees : List cn_tree) (ti : Nat) (t : cn_tree)
    (w : cn_compaction_work) (qnum debug now : Nat) (pre post : cn_samp_stats)
    (ht : trees[ti]? = some t) (hq : qnum < SP3_QNUM_MAX) (hf : qfull sp qnum = false)
    (hj : u32 (sp.jobs_started + 1) > u32 sp.jobs_finished)
    (hk : w.cw_action = cn_action.CN_ACTION_SPILL → w.cw_kvset_cnt ≠ 0) :
    (∃ sp1 trees1 w1 sp2 trees2 t2,
      sp3_submit sp trees ti w qnum debug = Except.ok (sp1, trees1, w1) ∧
      sp3_process_workitem now sp1 trees1 ti
        { w1 with cw_samp_pre := pre, cw_samp_post := post } = Except.ok (sp2, trees2) ∧
      sp2.samp_wip = sp.samp_wip ∧ sp2.qinfo = sp.qinfo ∧
      trees2[ti]? = some t2 ∧ t2.spt_job_cnt = t.spt_job_cnt) ∧
    (∀ (evs : List job_event) (st st1 : job_state),
      st.sp.samp_wip = inflight_est st.inflight →
      job_run debug st evs = Except.ok st1 →
      st1.sp.samp_wip = inflight_est st1.inflight ∧
      (st1.inflight = [] → st1.sp.samp_wip = {})) := by
  constructor
  · obtain ⟨sp1, trees1, w1, hs⟩ := submit_returns sp trees ti w qnum debug hq hf
    obtain ⟨qi, hqi, hlt, hqinfo, hjs⟩ := submit_one_job sp trees ti w qnum debug sp1 trees1 w1 0 hs
    obtain ⟨hwip, hest, hqn, hact, hcnt, hjf, htr⟩ := submit_wip _ _ _ _ _ _ _ _ _ hs
    rw [ht] at htr
    dsimp only at htr
    have hlen : ti < trees.length := (List.getElem?_eq_some.mp ht).1
    have hqlen : qnum < sp.qinfo.length := (List.getElem?_eq_some.mp hqi).1
    have ht1 : trees1[ti]? = some { t with spt_job_cnt := t.spt_job_cnt + 1 } := by
      rw [htr, List.getElem?_set]
      simp [hlen]
    have hq1 : sp1.qinfo[qnum]? = some { qi with qjobs := qi.qjobs + 1 } := by
      rw [hqinfo, List.getElem?_set]
      simp [hqlen]
    obtain ⟨sp2, trees2, hp⟩ := workitem_returns now sp1 trees1 ti
      { w1 with cw_samp_pre := pre, cw_samp_post := post } _ _ ht1
      (by rw [show ({ w1 with cw_samp_pre := pre, cw_samp_post := post } :
        cn_compaction_work).cw_qnum = qnum from hqn]; exact hq1)
      (Nat.succ_pos _) (by rw [show ({ w1 with cw_samp_pre := pre, cw_samp_post := post } :
        cn_compaction_work).cw_qnum = qnum from hqn]; exact hq)
      (Nat.succ_pos _) (by rw [hjs, hjf]; exact hj)
      (by
        intro ha
        rw [show ({ w1 with cw_samp_pre := pre, cw_samp_post := post } :
          cn_compaction_work).cw_kvset_cnt = w.cw_kvset_cnt from hcnt]
        exact hk (hact ▸ ha))
    obtain ⟨t', qi', t1, ht', hqi', _, _, hwip2, hqinfo2, _, _, htr2, hcnt2⟩ :=
      workitem_ok _ _ _ _ _ _ _ hp
    rw [ht1] at ht'
    injection ht' with ht'
    subst ht'
    rw [show ({ w1 with cw_samp_pre := pre, cw_samp_post := post } :
      cn_compaction_work).cw_qnum = qnum from hqn] at hqi' hqinfo2
    rw [hq1] at hqi'
    injection hqi' with hqi'
    subst hqi'
    refine ⟨sp1, trees1, w1, sp2, trees2, t1, hs, hp, ?_, ?_, ?_, ?_⟩
    · rw [hwip2, hwip]
      rw [show ({ w1 with cw_samp_pre := pre, cw_samp_post := post } :
        cn_compaction_work).cw_est = w.cw_est from hest]
      apply samp_stats_ext <;> simp
    · rw [hqinfo2, hqinfo]
      simp only [List.set_set, Nat.add_sub_cancel]
      exact list_set_self sp.qinfo qnum qi hqi
    · have hlen1 : ti < trees1.length := (List.getElem?_eq_some.mp ht1).1
      rw [htr2, List.getElem?_set]
      simp [hlen1]
    · rw [hcnt2]
      simp
  · intro evs st st1 hinv h
    have h1 := job_run_wip debug evs st st1 hinv h
    refine ⟨h1, fun he => ?_⟩
    rw [h1, he]
    rfl

/-- C22, instance: a root spill of two kvsets with an estimated delta of
-5 for `i_alen` and +4 for `l_alen` and `l_good`, submitted to the empty root
queue and completed at time 9. -/
theorem C22_submit_complete_cancel_witness :
    ∃ sp1 trees1 w1 sp2 trees2 t2,
      sp3_submit { qinfo := List.replicate 6 { qjobs_max := 1 } } [{}] 0
        { cw_action := cn_action.CN_ACTION_SPILL, cw_kvset_cnt := 2,
          cw_est := { cwe_samp := { i_alen := -5, l_alen := 4, l_good := 4 } } } 0 0 =
        Except.ok (sp1, trees1, w1) ∧
      sp3_process_workitem 9 sp1 trees1 0
        { w1 with cw_samp_pre := { i_alen := 5 }, cw_samp_post := { l_alen := 3 } } =
        Except.ok (sp2, trees2) ∧
      sp2.samp_wip = ({ qinfo := List.replicate 6 { qjobs_max := 1 } } : sp3).samp_wip ∧
      sp2.qinfo = ({ qinfo := List.replicate 6 { qjobs_max := 1 } } : sp3).qinfo ∧
      trees2[0]? = some t2 ∧ t2.spt_job_cnt = ({} : cn_tree).spt_job_cnt :=
  (C22_submit_complete_cancel { qinfo := List.replicate 6 { qjobs_max := 1 } } [{}] 0 {}
    { cw_action := cn_action.CN_ACTION_SPILL, cw_kvset_cnt := 2,
      cw_est := { cwe_samp := { i_alen := -5, l_alen := 4, l_good := 4 } } } 0 0 9
    { i_alen := 5 } { l_alen := 3 } rfl (by decide) rfl (by decide) (fun _ => by decide)).1

/-! ## The classifier changes the indexes and the root-ready list only -/

theorem framed_refl (s : sp3) : framed s s := rfl

theorem framed_trans (s s1 s2 : sp3) (h1 : framed s s1) (h2 : framed s1 s2) : framed s s2 := by
  unfold framed at *
  rw [h2, h1]

theorem framed_insert (s s1 : sp3) (n : Nat) (tx : sp3_work_type) (w : Nat)
    (h : framed s s1) : framed s (sp3_node_insert s1 n tx w) := by
  refine framed_trans s s1 _ h ?_
  unfold sp3_node_insert
  split_ifs
  · exact framed_refl s1
  · rfl

theorem framed_remove (s s1 : sp3) (n : Nat) (tx : sp3_work_type)
    (h : framed s s1) : framed s (sp3_node_remove s1 n tx) :=
  framed_trans s s1 _ h rfl

theorem framed_unlink (s s1 : sp3) (n : Nat)
    (h : framed s s1) : framed s (sp3_node_unlink s1 n) :=
  framed_trans s s1 _ h rfl

theorem framed_rlist_del (s s1 : sp3) (n : Nat)
    (h : framed s s1) : framed s (rlist_del s1 n) :=
  framed_trans s s1 _ h rfl

theorem framed_rlist_add_tail (s s1 : sp3) (n : Nat)
    (h : framed s s1) : framed s (rlist_add_tail s1 n) := by
  refine framed_trans s s1 _ h ?_
  unfold rlist_add_tail
  split_ifs
  · exact framed_refl s1
  · rfl

theorem framed_leaf_scatter (E : sp3_env) (tn : cn_tree_node) (s s1 : sp3)
    (h : framed s s1) : framed s (leaf_scatter E tn s1) := by
  unfold leaf_scatter
  split_ifs <;>
    repeat first
      | exact h
      | apply framed_insert
      | apply framed_remove
      | apply framed_unlink

theorem framed_leaf_length (E : sp3_env) (T : sp3_thresholds) (tn : cn_tree_node) (nk : Nat)
    (s s1 : sp3) (h : framed s s1) : framed s (leaf_length E T tn nk s1) := by
  unfold leaf_length
  split_ifs <;>
    repeat first
      | exact h
      | apply framed_insert
      | apply framed_remove
      | apply framed_unlink

theorem framed_leaf_garbage (E : sp3_env) (tn : cn_tree_node)
    (s s1 : sp3) (h : framed s s1) : framed s (leaf_garbage E tn s1) := by
  unfold leaf_garbage
  split_ifs <;>
    repeat first
      | exact h
      | apply framed_insert
      | apply framed_remove
      | apply framed_unlink

theorem framed_leaf_split (E : sp3_env) (T : sp3_thresholds) (tree : cn_tree)
    (tn : cn_tree_node) (s s1 : sp3) (h : framed s s1) :
    framed s (leaf_split E T tree tn s1) := by
  unfold leaf_split
  split_ifs <;>
    repeat first
      | exact h
      | apply framed_insert
      | apply framed_remove
      | apply framed_unlink

theorem framed_leaf_join (T : sp3_thresholds) (tree : cn_tree) (idx : Nat)
    (tn : cn_tree_node) (s s1 : sp3) (h : framed s s1) :
    framed s (leaf_join T tree idx tn s1) := by
  unfold leaf_join
  split <;> (try split_ifs) <;>
    repeat first
      | exact h
      | apply framed_insert
      | apply framed_remove
      | apply framed_unlink

theorem framed_dirty_idle (jclock_ns : Nat) (tn : cn_tree_node) (nk jobs : Nat)
    (s s1 : sp3) (h : framed s s1) : framed s (sp3_dirty_idle jclock_ns s1 tn nk jobs) := by
  unfold sp3_dirty_idle
  split_ifs <;>
    repeat first
      | exact h
      | apply framed_insert
      | apply framed_remove

theorem framed_dirty_empty_leaf (tree : cn_tree) (idx : Nat) (s : sp3) :
    framed s (sp3_dirty_empty_leaf s tree idx) := by
  unfold sp3_dirty_empty_leaf
  split
  · exact framed_refl s
  · split_ifs
    · exact framed_insert s s _ _ _ (framed_refl s)
    · exact framed_refl s

theorem framed_dirty_categories (E : sp3_env) (sp : sp3) (tree : cn_tree) (idx : Nat)
    (tn : cn_tree_node) (nk jobs : Nat) (sp1 : sp3)
    (h : sp3_dirty_categories E sp tree idx tn nk jobs = Except.ok sp1) : framed sp sp1 := by
  unfold sp3_dirty_categories at h
  dsimp only at h
  split_ifs at h
  · cases h
    exact framed_rlist_add_tail sp sp _ (framed_refl sp)
  · cases h
    exact framed_rlist_del sp sp _ (framed_refl sp)
  · cases h
    exact framed_remove sp _ _ _ (framed_remove sp _ _ _ (framed_remove sp sp _ _ (framed_refl sp)))
  · rw [dirty_leaf_eq] at h
    split_ifs at h
    cases h
    exact framed_leaf_join _ _ _ _ sp _ (framed_leaf_split _ _ _ _ sp _
      (framed_leaf_garbage _ _ sp _ (framed_leaf_length _ _ _ _ sp _
        (framed_leaf_scatter _ _ sp sp (framed_refl sp)))))
  · cases h
    exact framed_dirty_empty_leaf tree idx sp
  · cases h
    exact framed_refl sp

theorem framed_dirty_node_locked (E : sp3_env) (jclock_ns : Nat) (sp : sp3) (tree : cn_tree)
    (idx : Nat) (sp1 : sp3)
    (h : sp3_dirty_node_locked E jclock_ns sp tree idx = Except.ok sp1) : framed sp sp1 := by
  unfold sp3_dirty_node_locked at h
  cases htn : tree.ct_nodes[idx]? with
  | none => rw [htn] at h; cases h
  | some tn =>
    rw [htn] at h
    dsimp only at h
    split_ifs at h
    · cases h
      exact framed_refl sp
    · cases hc : sp3_dirty_categories E sp tree idx tn
          (usub64 tn.tn_ns.ns_kvsets (u32 tn.tn_busycnt % 65536)) (u32 tn.tn_busycnt / 65536) with
      | error e => rw [hc] at h; cases h
      | ok sp2 =>
        rw [hc] at h
        cases h
        exact framed_dirty_idle _ _ _ _ sp sp2 (framed_dirty_categories _ _ _ _ _ _ _ _ hc)

/-! ## C23: one pass over the pending ingest notifications -/

theorem dirty_root_returns (E : sp3_env) (jclock_ns : Nat) (sp : sp3) (tree : cn_tree)
    (h : tree.ct_nodes ≠ []) :
    ∃ sp1, sp3_dirty_node_locked E jclock_ns sp tree 0 = Except.ok sp1 := by
  unfold sp3_dirty_node_locked
  cases hn : tree.ct_nodes with
  | nil => exact absurd hn h
  | cons tn rest =>
    simp only [List.getElem?_cons_zero]
    split_ifs
    · exact ⟨_, rfl⟩
    · unfold sp3_dirty_categories
      dsimp only
      rw [if_pos (by rfl : cn_node_isroot 0 = true)]
      split_ifs <;> exact ⟨_, rfl⟩

theorem ingest_loop_pass (E : sp3_env) (jclock_ns : Nat) (trees : List cn_tree) :
    ∀ (sp : sp3), (∀ t ∈ trees, t.ct_nodes ≠ []) →
      ((trees.filter (fun t => decide (t.spt_ingest_alen ≠ 0))).length : Int) ≤
        sp.sp_ingest_count →
      ∃ sp1, sp3_process_ingest_loop E jclock_ns trees sp =
          Except.ok (sp1, trees.map ingest_taken) ∧
        sp1.samp.i_alen = sp.samp.i_alen + (trees.map (fun t => t.spt_ingest_alen)).sum ∧
        sp1.samp.r_alen = sp.samp.r_alen + (trees.map (fun t => t.spt_ingest_alen)).sum ∧
        sp1.samp.r_wlen = sp.samp.r_wlen +
          ((trees.filter (fun t => decide (t.spt_ingest_alen ≠ 0))).map
            (fun t => t.spt_ingest_wlen)).sum ∧
        sp1.samp.l_alen = sp.samp.l_alen ∧ sp1.samp.l_good = sp.samp.l_good := by
  induction trees with
  | nil =>
    intro sp _ _
    exact ⟨sp, rfl, by simp, by simp, by simp, rfl, rfl⟩
  | cons tree rest ih =>
    intro sp hroot hcount
    have hroot1 : ∀ t ∈ rest, t.ct_nodes ≠ [] := fun t ht => hroot t (List.mem_cons_of_mem _ ht)
    unfold sp3_process_ingest_loop
    by_cases hz : sp.sp_ingest_count = 0
    · rw [if_pos hz]
      rw [hz] at hcount
      have hnil : (tree :: rest).filter (fun t => decide (t.spt_ingest_alen ≠ 0)) = [] := by
        apply List.eq_nil_of_length_eq_zero
        omega
      have hall : ∀ t ∈ tree :: rest, t.spt_ingest_alen = 0 := by
        intro t ht
        have := List.filter_eq_nil_iff.mp hnil t ht
        simpa using this
      have hmap : (tree :: rest).map ingest_taken = tree :: rest := by
        rw [List.map_congr_left (g := id)]
        · simp
        · intro t ht
          simp [ingest_taken, hall t ht]
      have hsum : ((tree :: rest).map (fun t => t.spt_ingest_alen)).sum = 0 := by
        apply List.sum_eq_zero
        intro x hx
        obtain ⟨t, ht, rfl⟩ := List.mem_map.mp hx
        exact hall t ht
      refine ⟨sp, by rw [hmap], by rw [hsum]; simp, by rw [hsum]; simp, by rw [hnil]; simp,
        rfl, rfl⟩
    · rw [if_neg hz]
      dsimp only
      by_cases ha : tree.spt_ingest_alen ≠ 0
      · rw [if_pos ha]
        obtain ⟨sp2, h2⟩ := dirty_root_returns E jclock_ns
          { sp with sp_ingest_count := sp.sp_ingest_count - 1,
                    samp := { sp.samp with
                              i_alen := sp.samp.i_alen + tree.spt_ingest_alen,
                              r_alen := sp.samp.r_alen + tree.spt_ingest_alen,
                              r_wlen := sp.samp.r_wlen + tree.spt_ingest_wlen } }
          { tree with spt_ingest_alen := tree.spt_ingest_alen - tree.spt_ingest_alen,
                      spt_ingest_wlen := tree.spt_ingest_wlen - tree.spt_ingest_wlen }
          (hroot tree (List.mem_cons_self _ _))
        rw [h2]
        dsimp only
        have hf := framed_dirty_node_locked _ _ _ _ _ _ h2
        unfold framed at hf
        have hcount1 : ((rest.filter (fun t => decide (t.spt_ingest_alen ≠ 0))).length : Int) ≤
            ({ sp2 with activity := sp2.activity + 1 } : sp3).sp_ingest_count := by
          rw [hf]
          dsimp only
          rw [List.filter_cons_of_pos (by simpa using ha)] at hcount
          simp only [List.length_cons, Nat.cast_add, Nat.cast_one] at hcount
          omega
        obtain ⟨sp3, h3, e1, e2, e3, e4, e5⟩ := ih { sp2 with activity := sp2.activity + 1 }
          hroot1 hcount1
        rw [h3]
        dsimp only
        have hs : sp2.samp = { sp.samp with
                              i_alen := sp.samp.i_alen + tree.spt_ingest_alen,
                              r_alen := sp.samp.r_alen + tree.spt_ingest_alen,
                              r_wlen := sp.samp.r_wlen + tree.spt_ingest_wlen } := by
          rw [hf]
        dsimp only at e1 e2 e3 e4 e5
        rw [hs] at e1 e2 e3 e4 e5
        dsimp only at e1 e2 e3 e4 e5
        refine ⟨sp3, ?_, ?_, ?_, ?_, e4, e5⟩
        · simp [ingest_taken, ha]
        · rw [e1]
          simp only [List.map_cons, List.sum_cons]
          omega
        · rw [e2]
          simp only [List.map_cons, List.sum_cons]
          omega
        · rw [e3, List.filter_cons_of_pos (by simpa using ha)]
          simp only [List.map_cons, List.sum_cons]
          omega
      · rw [if_neg ha]
        have ha0 : tree.spt_ingest_alen = 0 := not_not.mp ha
        have hcount1 : ((rest.filter (fun t => decide (t.spt_ingest_alen ≠ 0))).length : Int) ≤
            sp.sp_ingest_count := by
          rw [List.filter_cons_of_neg (by simpa using ha0)] at hcount
          exact hcount
        obtain ⟨sp3, h3, e1, e2, e3, e4, e5⟩ := ih sp hroot1 hcount1
        rw [h3]
        dsimp only
        refine ⟨sp3, ?_, ?_, ?_, ?_, e4, e5⟩
        · simp [ingest_taken, ha0]
        · rw [e1]
          simp [ha0]
        · rw [e2]
          simp [ha0]
        · rw [e3, List.filter_cons_of_neg (by simpa using ha0)]

/-- C23, counterexample: `sp3_notify_ingest` accepts the notification
`(alen, wlen) = (0, 5)`, whose sum is positive; the pass of `sp3_process_ingest`
that follows adds nothing to the global `r_wlen` and leaves the 5 bytes pending
in the tree. -/
theorem C23_counterexample :
    ∃ sp1 trees1 sp2 trees2,
      sp3_notify_ingest 0 {} [{ ct_nodes := [{}] }] 0 0 5 = Except.ok (sp1, trees1) ∧
      trees1.map (fun t => (t.spt_ingest_alen, t.spt_ingest_wlen)) = [(0, 5)] ∧
      sp3_process_ingest env_example 0 sp1 trees1 = Except.ok (sp2, trees2) ∧
      sp2.samp.r_wlen = 0 ∧
      trees2.map (fun t => (t.spt_ingest_alen, t.spt_ingest_wlen)) = [(0, 5)] :=
  ⟨_, _, _, _, rfl, rfl, rfl, rfl, rfl⟩

/-- C23, amended: when every monitored tree has a root and `sp_ingest_count` is
at least the number of monitored trees whose pending `spt_ingest_alen` is not
zero, one pass of `sp3_process_ingest` returns; for every tree whose pending
`alen` is not zero it adds `alen` to the global `i_alen` and `r_alen` and the
pending `wlen` to the global `r_wlen` and resets both pending totals of the tree
to zero; a tree whose pending `alen` is zero is left as it is, its pending
`wlen` included; `l_alen` and `l_good` are unchanged. -/
theorem C23_ingest_pass (E : sp3_env) (jclock_ns : Nat) (sp : sp3) (trees : List cn_tree)
    (hroot : ∀ t ∈ trees, t.ct_nodes ≠ [])
    (hcount : ((trees.filter (fun t => decide (t.spt_ingest_alen ≠ 0))).length : Int) ≤
      sp.sp_ingest_count) :
    ∃ sp1, sp3_process_ingest E jclock_ns sp trees = Except.ok (sp1, trees.map ingest_taken) ∧
      sp1.samp.i_alen = sp.samp.i_alen + (trees.map (fun t => t.spt_ingest_alen)).sum ∧
      sp1.samp.r_alen = sp.samp.r_alen + (trees.map (fun t => t.spt_ingest_alen)).sum ∧
      sp1.samp.r_wlen = sp.samp.r_wlen +
        ((trees.filter (fun t => decide (t.spt_ingest_alen ≠ 0))).map
          (fun t => t.spt_ingest_wlen)).sum ∧
      sp1.samp.l_alen = sp.samp.l_alen ∧ sp1.samp.l_good = sp.samp.l_good ∧
      (∀ t ∈ trees, t.spt_ingest_alen ≠ 0 →
        (ingest_taken t).spt_ingest_alen = 0 ∧ (ingest_taken t).spt_ingest_wlen = 0) ∧
      (∀ t ∈ trees, t.spt_ingest_alen = 0 → ingest_taken t = t) := by
  obtain ⟨sp1, h, e1, e2, e3, e4, e5⟩ := ingest_loop_pass E jclock_ns trees sp hroot hcount
  refine ⟨sp1, h, e1, e2, e3, e4, e5, fun t _ ha => ?_, fun t _ ha => ?_⟩
  · simp [ingest_taken, ha]
  · simp [ingest_taken, ha]

/-- C23, instance: of two monitored trees the first has `(3, 4)` pending and
the second nothing; the global `r_wlen` grows from 10 to 14. -/
theorem C23_ingest_pass_witness :
    ∃ sp1, sp3_process_ingest env_example 0
        { sp_ingest_count := 1, samp := { r_wlen := 10 } }
        [{ ct_nodes := [{}], spt_ingest_alen := 3, spt_ingest_wlen := 4 },
         { ct_nodes := [{ addr := 1 }] }] =
        Except.ok (sp1, [{ ct_nodes := [{}] }, { ct_nodes := [{ addr := 1 }] }]) ∧
      sp1.samp.r_wlen = 14 := by
  obtain ⟨sp1, h, _, _, e3, _⟩ := C23_ingest_pass env_example 0
    { sp_ingest_count := 1, samp := { r_wlen := 10 } }
    [{ ct_nodes := [{}], spt_ingest_alen := 3, spt_ingest_wlen := 4 },
     { ct_nodes := [{ addr := 1 }] }]
    (by decide) (by decide)
  exact ⟨sp1, h, e3⟩

/-! ## C24: installing and pruning a tree -/

theorem unlink_all_samp (sp : sp3) (spn : Nat) (b : Bool) (sp1 : sp3)
    (h : sp3_node_unlink_all sp spn b = Except.ok sp1) :
    sp1.samp = sp.samp ∧ sp1.sp_prune_count = sp.sp_prune_count := by
  unfold sp3_node_unlink_all at h
  split_ifs at h
  cases h
  exact ⟨rfl, rfl⟩

theorem prune_nodes_samp (l : List cn_tree_node) :
    ∀ (sp : sp3) (busy : Bool) (sp1 : sp3) (busy1 : Bool),
      prune_nodes l sp busy = Except.ok (sp1, busy1) →
      sp1.samp = sp.samp ∧ sp1.sp_prune_count = sp.sp_prune_count := by
  induction l with
  | nil =>
    intro sp busy sp1 busy1 h
    simp only [prune_nodes] at h
    cases h
    exact ⟨rfl, rfl⟩
  | cons tn rest ih =>
    intro sp busy sp1 busy1 h
    unfold prune_nodes at h
    split_ifs at h
    · exact ih _ _ _ _ h
    · cases hu : sp3_node_unlink_all sp tn.addr tn.spn_initialized with
      | error e => rw [hu] at h; cases h
      | ok sp2 =>
        rw [hu] at h
        obtain ⟨h1, h2⟩ := ih _ _ _ _ h
        obtain ⟨h3, h4⟩ := unlink_all_samp _ _ _ _ hu
        exact ⟨h1.trans h3, h2.trans h4⟩

theorem prune_nodes_idle (l : List cn_tree_node) :
    ∀ (sp : sp3),
      (∀ tn ∈ l, tn.spn_initialized = true ∧ tn.tn_ss_splitting = false ∧
        tn.tn_ss_joining = 0) →
      ∃ sp1, prune_nodes l sp false = Except.ok (sp1, false) := by
  induction l with
  | nil => intro sp _; exact ⟨sp, rfl⟩
  | cons tn rest ih =>
    intro sp h
    obtain ⟨h1, h2, h3⟩ := h tn (List.mem_cons_self _ _)
    unfold prune_nodes
    rw [if_neg (by simp [h2, h3])]
    unfold sp3_node_unlink_all
    rw [if_neg (by simp [h1])]
    dsimp only
    exact ih _ (fun t ht => h t (List.mem_cons_of_mem _ ht))

theorem new_tree_nodes_samp (E : sp3_env) (jclock_ns : Nat) (n : Nat) :
    ∀ (idx : Nat) (sp : sp3) (tree : cn_tree) (sp1 : sp3) (tree1 : cn_tree),
      new_tree_nodes E jclock_ns n idx sp tree = Except.ok (sp1, tree1) →
      sp1.samp = sp.samp ∧ sp1.activity = sp.activity ∧ tree1.ct_samp = tree.ct_samp := by
  induction n with
  | zero =>
    intro idx sp tree sp1 tree1 h
    simp only [new_tree_nodes] at h
    cases h
    exact ⟨rfl, rfl, rfl⟩
  | succ n ih =>
    intro idx sp tree sp1 tree1 h
    unfold new_tree_nodes at h
    cases htn : tree.ct_nodes[idx]? with
    | none => rw [htn] at h; cases h
    | some tn =>
      rw [htn] at h
      dsimp only at h
      cases hd : sp3_dirty_node_locked E jclock_ns (sp3_node_init sp tn).1
          { tree with ct_nodes := tree.ct_nodes.set idx (sp3_node_init sp tn).2 } idx with
      | error e => rw [hd] at h; cases h
      | ok sp2 =>
        rw [hd] at h
        obtain ⟨h1, h2, h3⟩ := ih _ _ _ _ _ h
        have hf := framed_dirty_node_locked _ _ _ _ _ _ hd
        unfold framed at hf
        refine ⟨h1.trans ?_, h2.trans ?_, h3⟩
        · rw [hf]
          rfl
        · rw [hf]
          rfl

theorem samp_add_assoc (a b c : cn_samp_stats) :
    samp_add (samp_add a b) c = samp_add a (samp_add b c) := by
  apply samp_stats_ext <;> simp only [samp_add] <;> omega

theorem samp_add_comm (a b : cn_samp_stats) : samp_add a b = samp_add b a := by
  apply samp_stats_ext <;> simp only [samp_add] <;> omega

theorem samp_add_zero (a : cn_samp_stats) : samp_add a {} = a := by
  apply samp_stats_ext <;> simp only [samp_add] <;> omega

theorem samp_sum_append (l1 l2 : List cn_tree) :
    samp_sum (l1 ++ l2) = samp_add (samp_sum l1) (samp_sum l2) := by
  induction l1 with
  | nil =>
    simp only [List.nil_append, samp_sum]
    rw [samp_add_comm, samp_add_zero]
  | cons t rest ih =>
    show samp_add t.ct_samp (samp_sum (rest ++ l2)) = _
    rw [ih, ← samp_add_assoc]
    rfl

theorem new_trees_loop_samp (E : sp3_env) (jclock_ns : Nat) (new : List cn_tree) :
    ∀ (sp : sp3) (mon : List cn_tree) (sp1 : sp3) (mon1 : List cn_tree),
      new_trees_loop E jclock_ns new sp mon = Except.ok (sp1, mon1) →
      sp1.samp = samp_add sp.samp (samp_sum new) ∧
      samp_sum mon1 = samp_add (samp_sum mon) (samp_sum new) ∧
      ∃ inst : List cn_tree, mon1 = inst.reverse ++ mon ∧
        inst.map (fun t => t.ct_samp) = new.map (fun t => t.ct_samp) := by
  induction new with
  | nil =>
    intro sp mon sp1 mon1 h
    simp only [new_trees_loop] at h
    cases h
    exact ⟨(samp_add_zero _).symm, (samp_add_zero _).symm, [], rfl, rfl⟩
  | cons tree rest ih =>
    intro sp mon sp1 mon1 h
    unfold new_trees_loop at h
    cases hn : new_tree_nodes E jclock_ns tree.ct_nodes.length 0 sp tree with
    | error e => rw [hn] at h; cases h
    | ok r =>
      obtain ⟨sp2, tree1⟩ := r
      rw [hn] at h
      dsimp only at h
      obtain ⟨h1, _, h3⟩ := new_tree_nodes_samp _ _ _ _ _ _ _ _ hn
      obtain ⟨e1, e2, inst, e3, e4⟩ := ih _ _ _ _ h
      dsimp only at e1
      rw [h1, h3] at e1
      refine ⟨?_, ?_, tree1 :: inst, ?_, ?_⟩
      · rw [e1]
        simp only [samp_sum, samp_add_assoc]
      · rw [e2]
        simp only [samp_sum, h3]
        rw [← samp_add_assoc, samp_add_comm tree.ct_samp, samp_add_assoc]
      · rw [e3]
        simp
      · simp [e4, h3]

theorem prune_samp_ge (g t : cn_samp_stats)
    (h : t.r_alen ≤ g.r_alen ∧ t.r_wlen ≤ g.r_wlen ∧ t.i_alen ≤ g.i_alen ∧
      t.l_alen ≤ g.l_alen ∧ t.l_good ≤ g.l_good) :
    samp_add (prune_samp g t) t = g := by
  obtain ⟨h1, h2, h3, h4, h5⟩ := h
  apply samp_stats_ext <;> simp only [samp_add, prune_samp]
  · rw [if_pos h1]; omega
  · rw [if_pos h2]; omega
  · rw [if_pos h3]; omega
  · rw [if_pos h4]; omega
  · rw [if_pos h5]; omega

theorem samp_nonneg_add (a b : cn_samp_stats) (ha : samp_nonneg a) (hb : samp_nonneg b) :
    samp_nonneg (samp_add a b) := by
  unfold samp_nonneg at *
  simp only [samp_add]
  omega

theorem samp_nonneg_sum (l : List cn_tree) (h : ∀ t ∈ l, samp_nonneg t.ct_samp) :
    samp_nonneg (samp_sum l) := by
  induction l with
  | nil => simp [samp_sum, samp_nonneg]
  | cons t rest ih =>
    simp only [samp_sum]
    exact samp_nonneg_add _ _ (h t (List.mem_cons_self _ _))
      (ih (fun x hx => h x (List.mem_cons_of_mem _ hx)))

theorem samp_add_cancel (a b c : cn_samp_stats) (h : samp_add a c = samp_add b c) : a = b := by
  have h1 := congrArg cn_samp_stats.r_alen h
  have h2 := congrArg cn_samp_stats.r_wlen h
  have h3 := congrArg cn_samp_stats.i_alen h
  have h4 := congrArg cn_samp_stats.l_alen h
  have h5 := congrArg cn_samp_stats.l_good h
  simp only [samp_add] at h1 h2 h3 h4 h5
  apply samp_stats_ext <;> omega

theorem prune_loop_samp (trees : List cn_tree) :
    ∀ (sp : sp3) (base : cn_samp_stats) (sp1 : sp3) (trees1 : List cn_tree),
      samp_nonneg base → (∀ t ∈ trees, samp_nonneg t.ct_samp) →
      sp.samp = samp_add base (samp_sum trees) →
      prune_loop trees sp = Except.ok (sp1, trees1) →
      sp1.samp = samp_add base (samp_sum trees1) ∧ trees1.Sublist trees := by
  induction trees with
  | nil =>
    intro sp base sp1 trees1 _ _ hs h
    simp only [prune_loop] at h
    cases h
    exact ⟨hs, List.Sublist.refl _⟩
  | cons tree rest ih =>
    intro sp base sp1 trees1 hb hall hs h
    have hall1 : ∀ t ∈ rest, samp_nonneg t.ct_samp :=
      fun t ht => hall t (List.mem_cons_of_mem _ ht)
    have ht := hall tree (List.mem_cons_self _ _)
    have hkeep : sp.samp = samp_add (samp_add base tree.ct_samp) (samp_sum rest) := by
      rw [hs, samp_add_assoc]
      rfl
    unfold prune_loop at h
    by_cases he : tree.spt_enabled = true
    · rw [if_pos he] at h
      cases hr : prune_loop rest sp with
      | error e => rw [hr] at h; cases h
      | ok r =>
        obtain ⟨sp2, rest1⟩ := r
        rw [hr] at h
        cases h
        obtain ⟨e1, e2⟩ := ih sp (samp_add base tree.ct_samp) _ _ (samp_nonneg_add _ _ hb ht)
          hall1 hkeep hr
        refine ⟨?_, List.Sublist.cons₂ _ e2⟩
        rw [e1, samp_add_assoc]
        rfl
    · rw [if_neg he] at h
      cases hn : prune_nodes tree.ct_nodes sp (decide (tree.spt_job_cnt > 0)) with
      | error e => rw [hn] at h; cases h
      | ok r =>
        obtain ⟨sp2, busy⟩ := r
        rw [hn] at h
        dsimp only at h
        obtain ⟨hs2, _⟩ := prune_nodes_samp _ _ _ _ _ hn
        by_cases hbusy : busy = true
        · rw [if_pos hbusy] at h
          cases hr : prune_loop rest sp2 with
          | error e => rw [hr] at h; cases h
          | ok r =>
            obtain ⟨sp3, rest1⟩ := r
            rw [hr] at h
            cases h
            obtain ⟨e1, e2⟩ := ih sp2 (samp_add base tree.ct_samp) _ _
              (samp_nonneg_add _ _ hb ht) hall1 (hs2.trans hkeep) hr
            refine ⟨?_, List.Sublist.cons₂ _ e2⟩
            rw [e1, samp_add_assoc]
            rfl
        · rw [if_neg hbusy] at h
          have hrest := samp_nonneg_sum rest hall1
          have hge : samp_add (prune_samp sp2.samp tree.ct_samp) tree.ct_samp = sp2.samp := by
            apply prune_samp_ge
            rw [hs2, hs]
            unfold samp_nonneg at hb hrest
            simp only [samp_sum, samp_add]
            omega
          have hdrop : prune_samp sp2.samp tree.ct_samp = samp_add base (samp_sum rest) := by
            apply samp_add_cancel _ _ tree.ct_samp
            rw [hge, hs2, hs]
            simp only [samp_sum]
            rw [samp_add_comm tree.ct_samp, samp_add_assoc]
          split_ifs at h
          · cases h
            exact ⟨hdrop, List.sublist_cons_self _ _⟩
          · obtain ⟨e1, e2⟩ := ih _ base _ _ hb hall1 hdrop h
            exact ⟨e1, List.Sublist.cons _ e2⟩

theorem prune_loop_enabled (l : List cn_tree) (sp : sp3)
    (h : ∀ t ∈ l, t.spt_enabled = true) : prune_loop l sp = Except.ok (sp, l) := by
  induction l with
  | nil => rfl
  | cons t rest ih =>
    unfold prune_loop
    rw [if_pos (h t (List.mem_cons_self _ _)), ih (fun x hx => h x (List.mem_cons_of_mem _ hx))]

theorem prune_loop_prefix (pre l : List cn_tree) (sp sp1 : sp3) (l1 : List cn_tree)
    (h : ∀ t ∈ pre, t.spt_enabled = true) (hl : prune_loop l sp = Except.ok (sp1, l1)) :
    prune_loop (pre ++ l) sp = Except.ok (sp1, pre ++ l1) := by
  induction pre with
  | nil => exact hl
  | cons t rest ih =>
    rw [List.cons_append, prune_loop]
    rw [if_pos (h t (List.mem_cons_self _ _)), ih (fun x hx => h x (List.mem_cons_of_mem _ hx))]
    rfl

/-- C24: when the components of the global samp are not negative,
`sp3_process_new_trees` installs a tree, and the tree is later disabled and
pruned by `sp3_prune_trees` with the statistics it had when it was installed
(no job of the tree in flight, no node with a pending split or join, the other
monitored trees enabled, the global samp as the installation left it), the
pruning returns, takes the tree off the list of monitored trees and leaves every
component of the global samp at its value before the tree was added.  Hence
both functions keep the global samp equal to the sum of the samp records of the
monitored trees, whenever the components of these records are not negative. -/
theorem C24_install_prune_restores_samp (E : sp3_env) (jclock_ns : Nat) (sp : sp3)
    (tree : cn_tree) (mon : List cn_tree) (sp1 : sp3) (mon1 : List cn_tree)
    (sp2 : sp3) (pre post : List cn_tree) (tree2 : cn_tree)
    (h0 : samp_nonneg sp.samp)
    (hinst : sp3_process_new_trees E jclock_ns sp [tree] mon = Except.ok (sp1, mon1))
    (hsamp : sp2.samp = sp1.samp)
    (hstat : tree2.ct_samp = tree.ct_samp)
    (hdis : tree2.spt_enabled = false)
    (hcnt : tree2.spt_job_cnt = 0)
    (hnodes : ∀ tn ∈ tree2.ct_nodes, tn.spn_initialized = true ∧ tn.tn_ss_splitting = false ∧
      tn.tn_ss_joining = 0)
    (hothers : ∀ t ∈ pre ++ post, t.spt_enabled = true)
    (hprune : sp2.sp_prune_count ≠ 0) :
    (sp1.samp = samp_add sp.samp tree.ct_samp ∧
      ∃ sp3, sp3_prune_trees sp2 (pre ++ tree2 :: post) = Except.ok (sp3, pre ++ post) ∧
        sp3.samp = sp.samp) ∧
    (∀ (s : sp3) (new m : List cn_tree) (s1 : sp3) (m1 : List cn_tree),
      s.samp = samp_sum m →
      sp3_process_new_trees E jclock_ns s new m = Except.ok (s1, m1) →
      s1.samp = samp_sum m1) ∧
    (∀ (s : sp3) (m : List cn_tree) (s1 : sp3) (m1 : List cn_tree),
      s.samp = samp_sum m → (∀ t ∈ m, samp_nonneg t.ct_samp) →
      sp3_prune_trees s m = Except.ok (s1, m1) →
      s1.samp = samp_sum m1) := by
  refine ⟨?_, ?_, ?_⟩
  · obtain ⟨e1, _, _⟩ := new_trees_loop_samp E jclock_ns [tree] sp mon sp1 mon1 hinst
    have e1' : sp1.samp = samp_add sp.samp tree.ct_samp := by
      rw [e1]
      simp only [samp_sum, samp_add_zero]
    refine ⟨e1', ?_⟩
    obtain ⟨spN, hN⟩ := prune_nodes_idle tree2.ct_nodes sp2 hnodes
    obtain ⟨hNs, hNc⟩ := prune_nodes_samp _ _ _ _ _ hN
    have hrestore : prune_samp spN.samp tree2.ct_samp = sp.samp := by
      apply samp_add_cancel _ _ tree2.ct_samp
      rw [prune_samp_ge, hNs, hsamp, e1', hstat]
      rw [hNs, hsamp, e1', hstat]
      unfold samp_nonneg at h0
      simp only [samp_add]
      omega
    have hpost : ∀ t ∈ post, t.spt_enabled = true :=
      fun t ht => hothers t (List.mem_append_right _ ht)
    have hpre : ∀ t ∈ pre, t.spt_enabled = true :=
      fun t ht => hothers t (List.mem_append_left _ ht)
    have hloop : ∃ sp3, prune_loop (tree2 :: post) sp2 = Except.ok (sp3, post) ∧
        sp3.samp = sp.samp := by
      unfold prune_loop
      rw [if_neg (by simp [hdis]), hcnt]
      rw [show decide (0 > 0) = false from rfl, hN]
      dsimp only
      rw [if_neg (by simp)]
      split_ifs
      · exact ⟨_, rfl, hrestore⟩
      · rw [prune_loop_enabled post _ hpost]
        exact ⟨_, rfl, hrestore⟩
    obtain ⟨sp3, h3, h3s⟩ := hloop
    refine ⟨sp3, ?_, h3s⟩
    unfold sp3_prune_trees
    rw [if_neg hprune]
    exact prune_loop_prefix pre _ sp2 sp3 post hpre h3
  · intro s new m s1 m1 hs h
    obtain ⟨e1, e2, _⟩ := new_trees_loop_samp E jclock_ns new s m s1 m1 h
    rw [e1, e2, hs]
  · intro s m s1 m1 hs hall h
    unfold sp3_prune_trees at h
    split_ifs at h
    · cases h
      exact hs
    · have hb : samp_nonneg ({} : cn_samp_stats) := by simp [samp_nonneg]
      have hs' : s.samp = samp_add {} (samp_sum m) := by
        rw [samp_add_comm, samp_add_zero]
        exact hs
      obtain ⟨e1, _⟩ := prune_loop_samp m s {} s1 m1 hb hall hs' h
      rw [e1, samp_add_comm, samp_add_zero]

/-- C24, instance: a tree with one initialized root and the samp record
`(1, 2, 3, 4, 5)` is installed into a scheduler whose global `i_alen` is 7, then
disabled and pruned. -/
theorem C24_install_prune_restores_samp_witness :
    ∃ sp3, sp3_prune_trees { samp := { r_alen := 1, r_wlen := 2, i_alen := 10, l_alen := 4,
                                        l_good := 5 },
                             sp_prune_count := 1 }
        [{ ct_nodes := [{ spn_initialized := true }], spt_enabled := false,
           ct_samp := { r_alen := 1, r_wlen := 2, i_alen := 3, l_alen := 4, l_good := 5 } }] =
        Except.ok (sp3, []) ∧
      sp3.samp = { i_alen := 7 } := by
  obtain ⟨sp3, h1, h2⟩ := (C24_install_prune_restores_samp env_example 0
    { samp := { i_alen := 7 } }
    { ct_nodes := [{}],
      ct_samp := { r_alen := 1, r_wlen := 2, i_alen := 3, l_alen := 4, l_good := 5 } }
    [] _ _
    { samp := { r_alen := 1, r_wlen := 2, i_alen := 10, l_alen := 4, l_good := 5 },
      sp_prune_count := 1 }
    [] []
    { ct_nodes := [{ spn_initialized := true }], spt_enabled := false,
      ct_samp := { r_alen := 1, r_wlen := 2, i_alen := 3, l_alen := 4, l_good := 5 } }
    (by simp [samp_nonneg]) rfl rfl rfl rfl rfl (by simp) (by simp) (by decide)).1.2
  exact ⟨sp3, h1, h2⟩

/-! ## C25 and C26: the inputs and the thresholds of `sp3_refresh_samp` -/

theorem refresh_samp_eq (sp : sp3) :
    sp3_refresh_samp sp =
      if sp.inputs.csched_samp_max = sp.rp.csched_samp_max ∧
          sp.inputs.csched_lo_th_pct = sp.rp.csched_lo_th_pct ∧
          sp.inputs.csched_hi_th_pct = sp.rp.csched_hi_th_pct ∧
          sp.inputs.csched_leaf_pct = sp.rp.csched_leaf_pct then Except.ok sp
      else
        match sp3_samp_locals (sp3_refresh_inputs sp) with
        | Except.error e => Except.error e
        | Except.ok d =>
          Except.ok { sp with inputs := sp3_refresh_inputs sp, samp_lwm := u32 d.samp_lwm,
                              samp_hwm := u32 d.samp_hwm, samp_max := u32 d.samp } := by
  unfold sp3_refresh_samp
  dsimp only
  by_cases hc : sp.inputs.csched_samp_max = sp.rp.csched_samp_max ∧
      sp.inputs.csched_lo_th_pct = sp.rp.csched_lo_th_pct ∧
      sp.inputs.csched_hi_th_pct = sp.rp.csched_hi_th_pct ∧
      sp.inputs.csched_leaf_pct = sp.rp.csched_leaf_pct
  · rw [if_pos hc, if_pos (by simp [hc.1, hc.2.1, hc.2.2.1, hc.2.2.2])]
  · rw [if_neg hc, if_neg (by
      simp only [ne_eq, Bool.and_eq_true, Bool.not_eq_true', decide_eq_false_iff_not,
        not_not]
      tauto)]
    simp only [ne_eq, decide_not, Bool.not_eq_true', decide_eq_false_iff_not, ite_not,
      sp3_samp_locals, sp3_refresh_inputs]
    split_ifs <;> rfl

theorem clamp_u64 (v lo hi : Nat) (h1 : lo ≤ hi) (h2 : hi < 18446744073709551616) :
    clamp_t u64 v lo hi = min (max (u64 v) lo) hi := by
  unfold clamp_t
  have hv : u64 v < 18446744073709551616 := Nat.mod_lt _ (by decide)
  have hlo : u64 lo = lo := Nat.mod_eq_of_lt (by omega)
  have hhi : u64 hi = hi := Nat.mod_eq_of_lt h2
  rw [hlo, hhi]
  have hm : u64 (max (u64 v) lo) = max (u64 v) lo :=
    Nat.mod_eq_of_lt (by rcases Nat.le_total (u64 v) lo with h | h <;> simp [h] <;> omega)
  rw [hm]

theorem input_refreshed_clamp (old rp lo hi : Nat) (h1 : lo ≤ hi)
    (h2 : hi < 18446744073709551616) :
    input_refreshed old rp (if old ≠ rp then clamp_t u64 rp lo hi else old) lo hi := by
  unfold input_refreshed
  constructor
  · intro hne
    rw [if_pos hne, clamp_u64 rp lo hi h1 h2]
    refine ⟨?_, ?_, ?_, ?_, ?_⟩ <;> omega
  · intro he
    rw [if_neg (not_not.mpr he)]

theorem input_refreshed_same (old rp : Nat) (lo hi : Nat) (h : old = rp) :
    input_refreshed old rp old lo hi :=
  ⟨fun hne => absurd h hne, fun _ => rfl⟩

/-- C25, counterexample: on a scheduler whose stored inputs are zero, as
`sp3_create` leaves them, and whose four run-time parameters are zero,
`sp3_refresh_samp` returns with the stored inputs still zero, below their lower
limits 100, 5, 5 and 1. -/
theorem C25_counterexample :
    ∃ sp1, sp3_refresh_samp {} = Except.ok sp1 ∧
      sp1.inputs.csched_samp_max = 0 ∧ sp1.inputs.csched_lo_th_pct = 0 ∧
      sp1.inputs.csched_hi_th_pct = 0 ∧ sp1.inputs.csched_leaf_pct = 0 :=
  ⟨_, rfl, rfl, rfl, rfl, rfl⟩

/-- C25, amended: when `sp3_refresh_samp` returns, each of the four stored
inputs is as follows: a run-time parameter that differs from the stored input is
stored clamped to its limits (`samp_max` to [100, 999], `lo_th_pct` and
`hi_th_pct` to [5, 95], `leaf_pct` to [1, 99]), a value outside the limits as
the nearest limit; a run-time parameter that equals the stored input leaves the
stored input as it is.  So the stored inputs are within their limits afterwards
whenever each of them was within its limits before or differs from its
run-time parameter. -/
theorem C25_refresh_inputs_clamped (sp sp1 : sp3)
    (h : sp3_refresh_samp sp = Except.ok sp1) :
    sp1.inputs = sp3_refresh_inputs sp ∧
    input_refreshed sp.inputs.csched_samp_max sp.rp.csched_samp_max
      sp1.inputs.csched_samp_max 100 999 ∧
    input_refreshed sp.inputs.csched_lo_th_pct sp.rp.csched_lo_th_pct
      sp1.inputs.csched_lo_th_pct 5 95 ∧
    input_refreshed sp.inputs.csched_hi_th_pct sp.rp.csched_hi_th_pct
      sp1.inputs.csched_hi_th_pct 5 95 ∧
    input_refreshed sp.inputs.csched_leaf_pct sp.rp.csched_leaf_pct
      sp1.inputs.csched_leaf_pct 1 99 ∧
    (((100 ≤ sp.inputs.csched_samp_max ∧ sp.inputs.csched_samp_max ≤ 999) ∨
        sp.inputs.csched_samp_max ≠ sp.rp.csched_samp_max) →
      ((5 ≤ sp.inputs.csched_lo_th_pct ∧ sp.inputs.csched_lo_th_pct ≤ 95) ∨
        sp.inputs.csched_lo_th_pct ≠ sp.rp.csched_lo_th_pct) →
      ((5 ≤ sp.inputs.csched_hi_th_pct ∧ sp.inputs.csched_hi_th_pct ≤ 95) ∨
        sp.inputs.csched_hi_th_pct ≠ sp.rp.csched_hi_th_pct) →
      ((1 ≤ sp.inputs.csched_leaf_pct ∧ sp.inputs.csched_leaf_pct ≤ 99) ∨
        sp.inputs.csched_leaf_pct ≠ sp.rp.csched_leaf_pct) →
      (100 ≤ sp1.inputs.csched_samp_max ∧ sp1.inputs.csched_samp_max ≤ 999) ∧
      (5 ≤ sp1.inputs.csched_lo_th_pct ∧ sp1.inputs.csched_lo_th_pct ≤ 95) ∧
      (5 ≤ sp1.inputs.csched_hi_th_pct ∧ sp1.inputs.csched_hi_th_pct ≤ 95) ∧
      (1 ≤ sp1.inputs.csched_leaf_pct ∧ sp1.inputs.csched_leaf_pct ≤ 99)) := by
  have hin : sp1.inputs = sp3_refresh_inputs sp := by
    rw [refresh_samp_eq] at h
    split_ifs at h with hc
    · cases h
      unfold sp3_refresh_inputs
      rw [if_neg (not_not.mpr hc.1), if_neg (not_not.mpr hc.2.1),
        if_neg (not_not.mpr hc.2.2.1), if_neg (not_not.mpr hc.2.2.2)]
    · cases hl : sp3_samp_locals (sp3_refresh_inputs sp) with
      | error e => rw [hl] at h; cases h
      | ok d =>
        rw [hl] at h
        cases h
        rfl
  have a1 : input_refreshed sp.inputs.csched_samp_max sp.rp.csched_samp_max
      sp1.inputs.csched_samp_max 100 999 := by
    rw [hin]
    exact input_refreshed_clamp _ _ _ _ (by decide) (by decide)
  have a2 : input_refreshed sp.inputs.csched_lo_th_pct sp.rp.csched_lo_th_pct
      sp1.inputs.csched_lo_th_pct 5 95 := by
    rw [hin]
    exact input_refreshed_clamp _ _ _ _ (by decide) (by decide)
  have a3 : input_refreshed sp.inputs.csched_hi_th_pct sp.rp.csched_hi_th_pct
      sp1.inputs.csched_hi_th_pct 5 95 := by
    rw [hin]
    exact input_refreshed_clamp _ _ _ _ (by decide) (by decide)
  have a4 : input_refreshed sp.inputs.csched_leaf_pct sp.rp.csched_leaf_pct
      sp1.inputs.csched_leaf_pct 1 99 := by
    rw [hin]
    exact input_refreshed_clamp _ _ _ _ (by decide) (by decide)
  have key : ∀ old rp new lo hi, input_refreshed old rp new lo hi →
      ((lo ≤ old ∧ old ≤ hi) ∨ old ≠ rp) → lo ≤ new ∧ new ≤ hi := by
    intro old rp new lo hi hr hor
    by_cases he : old = rp
    · have hn := hr.2 he
      rcases hor with h1 | h1
      · rw [hn]
        exact h1
      · exact absurd he h1
    · exact ⟨(hr.1 he).1, (hr.1 he).2.1⟩
  exact ⟨hin, a1, a2, a3, a4, fun h1 h2 h3 h4 =>
    ⟨key _ _ _ _ _ a1 h1, key _ _ _ _ _ a2 h2, key _ _ _ _ _ a3 h3, key _ _ _ _ _ a4 h4⟩⟩

/-- C25, instance: on a fresh scheduler the parameters `samp_max = 5000`,
`lo_th_pct = 2`, `hi_th_pct = 75` and `leaf_pct = 90` are stored as 999, 5, 75
and 90. -/
theorem C25_refresh_inputs_clamped_witness :
    ∃ sp1, sp3_refresh_samp { rp := { csched_samp_max := 5000, csched_lo_th_pct := 2,
                                      csched_hi_th_pct := 75, csched_leaf_pct := 90 } } =
        Except.ok sp1 ∧
      sp1.inputs = { csched_samp_max := 999, csched_lo_th_pct := 5, csched_hi_th_pct := 75,
                     csched_leaf_pct := 90 } :=
  ⟨_, rfl, (C25_refresh_inputs_clamped
    { rp := { csched_samp_max := 5000, csched_lo_th_pct := 2, csched_hi_th_pct := 75,
              csched_leaf_pct := 90 } } _ rfl).1⟩

theorem u64_of_lt (x : Nat) (h : x < 18446744073709551616) : u64 x = x :=
  Nat.mod_eq_of_lt h

theorem samp_water_mark (g range pct : Nat) (hg : g ≤ 10000) (hr : range = 10000 - g)
    (hp : pct ≤ 9500) :
    u64 (g + u64 (usub64 ONE pct * range) / SCALE) = g + (ONE - pct) * range / SCALE ∧
    g + (ONE - pct) * range / SCALE ≤ 20000 := by
  have h1 : usub64 ONE pct = ONE - pct := by
    unfold usub64 u64 ONE SCALE
    omega
  have h2 : (ONE - pct) * range ≤ 10000 * 10000 :=
    Nat.mul_le_mul (by unfold ONE SCALE; omega) (by omega)
  have h3 : (ONE - pct) * range / SCALE ≤ 10000 := by
    unfold SCALE
    omega
  rw [h1, u64_of_lt ((ONE - pct) * range) (by omega), u64_of_lt _ (by omega)]
  exact ⟨rfl, by omega⟩

theorem samp_locals_no_wrap (inputs : sp3_inputs)
    (h1 : 100 ≤ inputs.csched_samp_max ∧ inputs.csched_samp_max ≤ 999)
    (h2 : 5 ≤ inputs.csched_lo_th_pct ∧ inputs.csched_lo_th_pct ≤ 95)
    (h3 : 5 ≤ inputs.csched_hi_th_pct ∧ inputs.csched_hi_th_pct ≤ 95)
    (h4 : 1 ≤ inputs.csched_leaf_pct ∧ inputs.csched_leaf_pct ≤ 99)
    (h5 : 200 ≤ inputs.csched_samp_max + inputs.csched_leaf_pct) :
    sp3_samp_locals inputs = Except.ok (samp_locals_exact inputs) ∧
    (samp_locals_exact inputs).good_min ≤ ONE ∧
    0 < (samp_locals_exact inputs).good_min ∧
    (samp_locals_exact inputs).samp_lwm < 4294967296 ∧
    (samp_locals_exact inputs).samp_hwm < 4294967296 := by
  obtain ⟨a, lo, hi, l⟩ := inputs
  dsimp only at h1 h2 h3 h4 h5
  have e1 : u64 (a * SCALE) / EXT_SCALE = a * SCALE / EXT_SCALE := by
    rw [u64_of_lt _ (by unfold SCALE; omega)]
  have e2 : u64 (lo * SCALE) / EXT_SCALE = lo * SCALE / EXT_SCALE := by
    rw [u64_of_lt _ (by unfold SCALE; omega)]
  have e3 : u64 (hi * SCALE) / EXT_SCALE = hi * SCALE / EXT_SCALE := by
    rw [u64_of_lt _ (by unfold SCALE; omega)]
  have e4 : u64 (l * SCALE) / EXT_SCALE = l * SCALE / EXT_SCALE := by
    rw [u64_of_lt _ (by unfold SCALE; omega)]
  have vs : a * SCALE / EXT_SCALE = 100 * a := by unfold SCALE EXT_SCALE; omega
  have vlo : lo * SCALE / EXT_SCALE = 100 * lo := by unfold SCALE EXT_SCALE; omega
  have vhi : hi * SCALE / EXT_SCALE = 100 * hi := by unfold SCALE EXT_SCALE; omega
  have vl : l * SCALE / EXT_SCALE = 100 * l := by unfold SCALE EXT_SCALE; omega
  have e5 : usub64 ONE (l * SCALE / EXT_SCALE) = ONE - l * SCALE / EXT_SCALE := by
    rw [vl]
    unfold usub64 u64 ONE SCALE
    omega
  have e6 : u64 (SCALE * u64 (ONE + (ONE - l * SCALE / EXT_SCALE))) =
      SCALE * (ONE + (ONE - l * SCALE / EXT_SCALE)) := by
    rw [vl]
    unfold u64 ONE SCALE
    omega
  have vN : SCALE * (ONE + (ONE - l * SCALE / EXT_SCALE)) = 1000000 * (200 - l) := by
    rw [vl]
    unfold ONE SCALE
    omega
  have hg : SCALE * (ONE + (ONE - l * SCALE / EXT_SCALE)) / (a * SCALE / EXT_SCALE) ≤ 10000 := by
    rw [vN, vs]
    apply Nat.div_le_of_le_mul
    omega
  have hg0 : 0 < SCALE * (ONE + (ONE - l * SCALE / EXT_SCALE)) / (a * SCALE / EXT_SCALE) := by
    rw [vN, vs]
    apply Nat.div_pos <;> omega
  generalize hgd : SCALE * (ONE + (ONE - l * SCALE / EXT_SCALE)) / (a * SCALE / EXT_SCALE) = g
    at hg hg0
  have e7 : usub64 ONE g = ONE - g := by
    unfold usub64 u64 ONE SCALE
    omega
  obtain ⟨w1, b1⟩ := samp_water_mark g (ONE - g) (lo * SCALE / EXT_SCALE) hg
    (by unfold ONE SCALE; rfl) (by rw [vlo]; omega)
  obtain ⟨w2, b2⟩ := samp_water_mark g (ONE - g) (hi * SCALE / EXT_SCALE) hg
    (by unfold ONE SCALE; rfl) (by rw [vhi]; omega)
  have hlt : ∀ d, 1000000 * (200 - l) / d < 4294967296 := by
    intro d
    exact lt_of_le_of_lt (Nat.div_le_self _ _) (by omega)
  refine ⟨?_, ?_, ?_, ?_, ?_⟩
  · unfold sp3_samp_locals samp_locals_exact
    dsimp only
    rw [e1, e2, e3, e4, e5, e6, hgd, e7, w1, w2]
    have hs0 : ¬ a * SCALE / EXT_SCALE = 0 := by rw [vs]; omega
    have hne : ¬ (g + (ONE - lo * SCALE / EXT_SCALE) * (ONE - g) / SCALE = 0 ∨
        g + (ONE - hi * SCALE / EXT_SCALE) * (ONE - g) / SCALE = 0) := by
      intro h
      rcases h with h | h <;>
        exact absurd (Nat.add_eq_zero_iff.mp h).1 (Nat.pos_iff_ne_zero.mp hg0)
    rw [if_neg hs0, if_neg hne]
  · unfold samp_locals_exact
    dsimp only
    rw [hgd]
    exact hg
  · unfold samp_locals_exact
    dsimp only
    rw [hgd]
    exact hg0
  · unfold samp_locals_exact
    dsimp only
    rw [vN]
    exact hlt _
  · unfold samp_locals_exact
    dsimp only
    rw [vN]
    exact hlt _

/-- C26: the code breaks the claim.  With `samp_max = 100` and `leaf_pct = 1`,
both at their lower clamp limits (and `lo_th_pct = 25`, `hi_th_pct = 75`),
`good_min` is 19900, above `ONE = 10000`, so that `range = good_max - good_min`
wraps around to `2^64 - 9900`, and `sp3_refresh_samp` stores the thresholds
`samp_lwm = 0` and `samp_hwm = 0`.  The computation is free of wrap-around, with
`0 < good_min ≤ ONE` and the thresholds equal to the exact formulas at scale
10000, for the inputs within the clamp limits that satisfy
`samp_max + leaf_pct ≥ 200`. -/
theorem C26_range_underflow :
    (sp3_samp_locals { csched_samp_max := 100, csched_lo_th_pct := 25, csched_hi_th_pct := 75,
                       csched_leaf_pct := 1 } =
      Except.ok { samp := 10000, lwm := 2500, hwm := 7500, leaf := 100, r := 9900,
                  good_min := 19900, range := 18446744073709541716,
                  good_lwm := 1844674407383430, good_hwm := 1844674407388380,
                  samp_lwm := 0, samp_hwm := 0 } ∧
      ∃ sp1, sp3_refresh_samp { rp := { csched_samp_max := 100, csched_lo_th_pct := 25,
                                        csched_hi_th_pct := 75, csched_leaf_pct := 1 } } =
          Except.ok sp1 ∧
        sp1.inputs = { csched_samp_max := 100, csched_lo_th_pct := 25, csched_hi_th_pct := 75,
                       csched_leaf_pct := 1 } ∧
        sp1.samp_lwm = 0 ∧ sp1.samp_hwm = 0 ∧ sp1.samp_max = 10000) ∧
    (∀ inputs : sp3_inputs,
      100 ≤ inputs.csched_samp_max ∧ inputs.csched_samp_max ≤ 999 →
      5 ≤ inputs.csched_lo_th_pct ∧ inputs.csched_lo_th_pct ≤ 95 →
      5 ≤ inputs.csched_hi_th_pct ∧ inputs.csched_hi_th_pct ≤ 95 →
      1 ≤ inputs.csched_leaf_pct ∧ inputs.csched_leaf_pct ≤ 99 →
      200 ≤ inputs.csched_samp_max + inputs.csched_leaf_pct →
      sp3_samp_locals inputs = Except.ok (samp_locals_exact inputs) ∧
      (samp_locals_exact inputs).good_min ≤ ONE ∧ 0 < (samp_locals_exact inputs).good_min ∧
      u32 (samp_locals_exact inputs).samp_lwm = (samp_locals_exact inputs).samp_lwm ∧
      u32 (samp_locals_exact inputs).samp_hwm = (samp_locals_exact inputs).samp_hwm) := by
  refine ⟨⟨rfl, _, rfl, rfl, rfl, rfl, rfl⟩, ?_⟩
  intro inputs h1 h2 h3 h4 h5
  obtain ⟨e, a, b, c, d⟩ := samp_locals_no_wrap inputs h1 h2 h3 h4 h5
  exact ⟨e, a, b, Nat.mod_eq_of_lt c, Nat.mod_eq_of_lt d⟩

/-- C26, instance: for `samp_max = 130` (1.3) and `leaf_pct = 90` the
computation gives `good_min = 8461` (0.84) without wrap-around. -/
theorem C26_range_underflow_witness :
    sp3_samp_locals
        { csched_samp_max := 130, csched_lo_th_pct := 25, csched_hi_th_pct := 75,
          csched_leaf_pct := 90 } =
      Except.ok { samp := 13000, lwm := 2500, hwm := 7500, leaf := 9000, r := 1000,
                  good_min := 8461, range := 1539, good_lwm := 9615, good_hwm := 8845,
                  samp_lwm := 11440, samp_hwm := 12436 } :=
  (C26_range_underflow.2
    { csched_samp_max := 130, csched_lo_th_pct := 25, csched_hi_th_pct := 75,
      csched_leaf_pct := 90 }
    (by decide) (by decide) (by decide) (by decide) (by decide)).1

/-! ## C27: the value handed to the throttle sensor -/

theorem qos_scan_max (rootmin : Nat) (hmin : rootmin < 1073741824) (rest : List cn_tree) :
    ∀ (seen : List cn_tree) (s : qos_locals),
      (∀ t ∈ rest, t.ct_nodes ≠ [] ∧ t.ct_rspill_dt < 1099511627776 ∧
        ∀ root, t.ct_nodes[0]? = some root → root.tn_ns.ns_kvsets < 16777216) →
      (seen.map (fun t => t.ct_rspill_slp)).sum + (rest.map (fun t => t.ct_rspill_slp)).sum <
        4294967296 →
      s.sleepers = (seen.map (fun t => t.ct_rspill_slp)).sum →
      s.rspill_dt_max * s.rootmax < 18446744073709551616 →
      s.rootmax < 16777217 →
      ((s.rootmax = 0 ∧ s.rspill_dt_max = 0 ∧
          ∀ t ∈ seen, t.ct_rspill_dt * qos_excess rootmin t = 0) ∨
        (∃ t ∈ seen, s.rootmax = qos_excess rootmin t ∧ s.rspill_dt_max = t.ct_rspill_dt ∧
          0 < t.ct_rspill_dt * qos_excess rootmin t ∧
          ∀ t' ∈ seen, t'.ct_rspill_dt * qos_excess rootmin t' ≤
            t.ct_rspill_dt * qos_excess rootmin t)) →
      ∃ s1, qos_scan rootmin rest s = Except.ok s1 ∧
        s1.sleepers = ((seen ++ rest).map (fun t => t.ct_rspill_slp)).sum ∧
        s1.rspill_dt_max * s1.rootmax < 18446744073709551616 ∧
        s1.rootmax < 16777217 ∧
        ((s1.rootmax = 0 ∧ s1.rspill_dt_max = 0 ∧
            ∀ t ∈ seen ++ rest, t.ct_rspill_dt * qos_excess rootmin t = 0) ∨
          (∃ t ∈ seen ++ rest, s1.rootmax = qos_excess rootmin t ∧
            s1.rspill_dt_max = t.ct_rspill_dt ∧
            0 < t.ct_rspill_dt * qos_excess rootmin t ∧
            ∀ t' ∈ seen ++ rest, t'.ct_rspill_dt * qos_excess rootmin t' ≤
              t.ct_rspill_dt * qos_excess rootmin t)) := by
  induction rest with
  | nil =>
    intro seen s _ _ hsl hprod hrm hinv
    refine ⟨s, rfl, ?_, hprod, hrm, ?_⟩
    · simpa using hsl
    · simpa using hinv
  | cons t rest ih =>
    intro seen s hb hsum hsl hprod hrm hinv
    obtain ⟨hne, hdt, hkv⟩ := hb t (List.mem_cons_self _ _)
    have hb1 : ∀ t ∈ rest, t.ct_nodes ≠ [] ∧ t.ct_rspill_dt < 1099511627776 ∧
        ∀ root, t.ct_nodes[0]? = some root → root.tn_ns.ns_kvsets < 16777216 :=
      fun x hx => hb x (List.mem_cons_of_mem _ hx)
    have hsum1 : ((seen ++ [t]).map (fun t => t.ct_rspill_slp)).sum +
        (rest.map (fun t => t.ct_rspill_slp)).sum < 4294967296 := by
      simp only [List.map_append, List.sum_append, List.map_cons, List.map_nil, List.sum_cons,
        List.sum_nil] at hsum ⊢
      omega
    have hslp : u32 (s.sleepers + t.ct_rspill_slp) =
        ((seen ++ [t]).map (fun t => t.ct_rspill_slp)).sum := by
      simp only [List.map_append, List.sum_append, List.map_cons, List.map_nil, List.sum_cons,
        List.sum_nil] at hsum ⊢
      rw [hsl]
      unfold u32
      omega
    have happ : seen ++ t :: rest = (seen ++ [t]) ++ rest := by simp
    rw [happ]
    cases hroot : t.ct_nodes[0]? with
    | none =>
      cases hn : t.ct_nodes with
      | nil => exact absurd hn hne
      | cons a b => rw [hn] at hroot; simp at hroot
    | some root =>
      have hk := hkv root hroot
      have hex : qos_excess rootmin t = root.tn_ns.ns_kvsets + 1 - rootmin := by
        unfold qos_excess
        rw [hroot]
      have hnk : u32 (root.tn_ns.ns_kvsets + 1) = root.tn_ns.ns_kvsets + 1 := by
        unfold u32
        omega
      have hcur : u64 (s.rspill_dt_max * s.rootmax) = s.rspill_dt_max * s.rootmax :=
        Nat.mod_eq_of_lt hprod
      have hexb : qos_excess rootmin t ≤ 16777216 := by rw [hex]; omega
      have hpt : t.ct_rspill_dt * qos_excess rootmin t < 18446744073709551616 := by
        have : t.ct_rspill_dt * qos_excess rootmin t ≤ 1099511627775 * 16777216 :=
          Nat.mul_le_mul (by omega) hexb
        omega
      unfold qos_scan
      rw [hroot]
      dsimp only
      rw [hnk]
      by_cases hgt : root.tn_ns.ns_kvsets + 1 > rootmin
      · rw [if_pos hgt]
        have hus : usub32 (root.tn_ns.ns_kvsets + 1) rootmin = qos_excess rootmin t := by
          rw [hex]
          unfold usub32 u32
          omega
        rw [hus, u64_of_lt _ hpt, hcur]
        by_cases hnew : t.ct_rspill_dt * qos_excess rootmin t > s.rspill_dt_max * s.rootmax
        · rw [if_pos hnew]
          apply ih (seen ++ [t]) _ hb1 hsum1 hslp hpt (by dsimp only; omega)
          right
          refine ⟨t, by simp, rfl, rfl, by omega, ?_⟩
          intro t' ht'
          rcases List.mem_append.mp ht' with h1 | h1
          · rcases hinv with ⟨_, _, hz⟩ | ⟨t0, _, e1, e2, _, hmax⟩
            · rw [hz t' h1]
              omega
            · have := hmax t' h1
              rw [e1, e2] at hnew
              omega
          · simp only [List.mem_singleton] at h1
            rw [h1]
        · rw [if_neg hnew]
          apply ih (seen ++ [t]) { s with sleepers := u32 (s.sleepers + t.ct_rspill_slp) } hb1
            hsum1 hslp hprod hrm
          rcases hinv with ⟨z1, z2, hz⟩ | ⟨t0, ht0, e1, e2, hpos, hmax⟩
          · left
            refine ⟨z1, z2, ?_⟩
            intro t' ht'
            rcases List.mem_append.mp ht' with h1 | h1
            · exact hz t' h1
            · simp only [List.mem_singleton] at h1
              rw [h1]
              rw [z1, z2] at hnew
              omega
          · right
            refine ⟨t0, by simp [ht0], e1, e2, hpos, ?_⟩
            intro t' ht'
            rcases List.mem_append.mp ht' with h1 | h1
            · exact hmax t' h1
            · simp only [List.mem_singleton] at h1
              rw [h1]
              rw [e1, e2] at hnew
              omega
      · rw [if_neg hgt]
        have hz0 : qos_excess rootmin t = 0 := by rw [hex]; omega
        have hkeep : (s.rootmax = 0 ∧ s.rspill_dt_max = 0 ∧
              ∀ x ∈ seen ++ [t], x.ct_rspill_dt * qos_excess rootmin x = 0) ∨
            (∃ t0 ∈ seen ++ [t], s.rootmax = qos_excess rootmin t0 ∧
              s.rspill_dt_max = t0.ct_rspill_dt ∧
              0 < t0.ct_rspill_dt * qos_excess rootmin t0 ∧
              ∀ t' ∈ seen ++ [t], t'.ct_rspill_dt * qos_excess rootmin t' ≤
                t0.ct_rspill_dt * qos_excess rootmin t0) := by
          rcases hinv with ⟨z1, z2, hz⟩ | ⟨t0, ht0, e1, e2, hpos, hmax⟩
          · left
            refine ⟨z1, z2, ?_⟩
            intro t' ht'
            rcases List.mem_append.mp ht' with h1 | h1
            · exact hz t' h1
            · simp only [List.mem_singleton] at h1
              rw [h1, hz0, Nat.mul_zero]
          · right
            refine ⟨t0, by simp [ht0], e1, e2, hpos, ?_⟩
            intro t' ht'
            rcases List.mem_append.mp ht' with h1 | h1
            · exact hmax t' h1
            · simp only [List.mem_singleton] at h1
              rw [h1, hz0]
              omega
        by_cases hcl : root.tn_ns.ns_clen > s.clen_max
        · rw [if_pos hcl]
          exact ih (seen ++ [t])
            { s with sleepers := u32 (s.sleepers + t.ct_rspill_slp),
                     clen_max := root.tn_ns.ns_clen } hb1 hsum1 hslp hprod hrm hkeep
        · rw [if_neg hcl]
          exact ih (seen ++ [t]) { s with sleepers := u32 (s.sleepers + t.ct_rspill_slp) } hb1
            hsum1 hslp hprod hrm hkeep

theorem qos_sval_exact (K R : Nat) (hK0 : 0 < K) (hK : K ≤ 600) (hR : R ≤ 1677721600) :
    u32 (u64 (u64 (K * R) * 3) / u64 (K + R)) = 3 * K * R / (K + R) := by
  have h1 : K * R ≤ 600 * 1677721600 := Nat.mul_le_mul hK hR
  rw [u64_of_lt (K * R) (by omega), u64_of_lt (K * R * 3) (by omega),
    u64_of_lt (K + R) (by omega)]
  have h2 : K * R * 3 / (K + R) ≤ 3 * K := by
    apply Nat.div_le_of_le_mul
    have : K * R * 3 = 3 * K * R := by ring
    have h3 : (K + R) * (3 * K) = 3 * K * K + 3 * K * R := by ring
    rw [this, h3]
    exact Nat.le_add_left _ _
  have h4 : K * R * 3 = 3 * K * R := by ring
  unfold u32
  rw [Nat.mod_eq_of_lt (by omega), h4]

theorem qos_clamp_min (E : sp3_env) (rootmin : Nat) (hmin : rootmin < 1073741824)
    (s : qos_locals) (sval : Nat) :
    qos_clamp E rootmin s sval =
      min sval (if s.rootmax > 4 * rootmin ∨ s.sleepers > 0 then
          E.THROTTLE_SENSOR_SCALE * 110 / 100
        else E.THROTTLE_SENSOR_SCALE * 90 / 100) := by
  unfold qos_clamp
  have h4 : u32 (rootmin * 4) = 4 * rootmin := by
    unfold u32
    omega
  rw [h4]
  by_cases hc : s.rootmax > 4 * rootmin ∨ s.sleepers > 0
  · rw [if_pos hc, if_pos hc]
    split_ifs <;> omega
  · rw [if_neg hc, if_neg hc]
    split_ifs <;> omega

/-- C27, counterexample: a monitored root holds 11 kvsets with
`rspill_runlen_min = 4`, an excess of 8, but no root spill of the tree has
completed yet (`ct_rspill_dt = 0`); `sp3_qos_check` hands 0 to the throttle
sensor, while the formula of the claim gives 900. -/
theorem C27_counterexample :
    sp3_qos_check env_example 0
        { throttle_sensor_root := true, thresh := { rspill_runlen_min := 4 } }
        [{ ct_nodes := [{ tn_ns := { ns_kvsets := 11 } }], ct_rspill_dt := 0 }] =
      Except.ok ({ throttle_sensor_root := true, thresh := { rspill_runlen_min := 4 } }, some 0) ∧
    throttle_formula 1000 4 8 0 0 = 900 :=
  ⟨rfl, by decide⟩

/-- C27, amended: when a throttle sensor is registered and some monitored tree
has a backlog with a measured latency, that is a root whose kvset count plus one
exceeds `rspill_runlen_min` by `excess > 0` in a tree with `ct_rspill_dt > 0`,
`sp3_qos_check` returns and the value it hands to the sensor is
`min(floor(3 K R / (K + R)), L)` for the monitored tree that maximises
`ct_rspill_dt * excess`: `R = 100 * excess`,
`K = floor((100 * secs + 475 * 64) / 64)` with `secs` the latency
`ct_rspill_dt * excess` in seconds clamped to [16, 80], and `L` 110% of
`THROTTLE_SENSOR_SCALE` if `excess > 4 * rspill_runlen_min` or a root spill
sleeps and 90% otherwise.  The sizes are bounded so that no product wraps
around: kvset counts below `2^24`, `ct_rspill_dt` below `2^40` ns,
`rspill_runlen_min` below `2^30`, and fewer than `2^32` sleepers. -/
theorem C27_throttle_sensor_value (E : sp3_env) (jclock_ns : Nat) (sp : sp3)
    (trees : List cn_tree)
    (hsensor : sp.throttle_sensor_root = true)
    (hmin : sp.thresh.rspill_runlen_min < 1073741824)
    (hb : ∀ t ∈ trees, t.ct_nodes ≠ [] ∧ t.ct_rspill_dt < 1099511627776 ∧
      ∀ root, t.ct_nodes[0]? = some root → root.tn_ns.ns_kvsets < 16777216)
    (hsl : (trees.map (fun t => t.ct_rspill_slp)).sum < 4294967296)
    (hback : ∃ t ∈ trees, 0 < t.ct_rspill_dt * qos_excess sp.thresh.rspill_runlen_min t) :
    ∃ sp1 t, t ∈ trees ∧ 0 < t.ct_rspill_dt * qos_excess sp.thresh.rspill_runlen_min t ∧
      (∀ t' ∈ trees, t'.ct_rspill_dt * qos_excess sp.thresh.rspill_runlen_min t' ≤
        t.ct_rspill_dt * qos_excess sp.thresh.rspill_runlen_min t) ∧
      sp3_qos_check E jclock_ns sp trees =
        Except.ok (sp1, some (throttle_formula E.THROTTLE_SENSOR_SCALE
          sp.thresh.rspill_runlen_min (qos_excess sp.thresh.rspill_runlen_min t)
          (t.ct_rspill_dt * qos_excess sp.thresh.rspill_runlen_min t)
          (trees.map (fun t => t.ct_rspill_slp)).sum)) := by
  have hrm : u32 sp.thresh.rspill_runlen_min = sp.thresh.rspill_runlen_min := by
    unfold u32
    omega
  obtain ⟨s, hscan, hsleep, hprod, hrmax, hinv⟩ := qos_scan_max sp.thresh.rspill_runlen_min hmin
    trees [] {} hb (by simpa using hsl) rfl (by decide) (by decide)
    (Or.inl ⟨rfl, rfl, fun t ht => by simp at ht⟩)
  simp only [List.nil_append] at hsleep hinv
  obtain ⟨tb, htb, hposb⟩ := hback
  rcases hinv with ⟨_, _, hz⟩ | ⟨t, ht, e1, e2, hpos, hmax⟩
  · rw [hz tb htb] at hposb
    exact absurd hposb (by decide)
  have hex : qos_excess sp.thresh.rspill_runlen_min t ≤ 16777216 := by
    rw [← e1]
    omega
  have hR : qos_r s = 100 * qos_excess sp.thresh.rspill_runlen_min t := by
    unfold qos_r u32
    rw [e1]
    omega
  have hlat : u64 (s.rspill_dt_max * s.rootmax) =
      t.ct_rspill_dt * qos_excess sp.thresh.rspill_runlen_min t := by
    rw [u64_of_lt _ hprod, e1, e2]
  have hsecs : clamp_t u64 (u64 (s.rspill_dt_max * s.rootmax) / NSEC_PER_SEC) 16 80 =
      min (max (t.ct_rspill_dt * qos_excess sp.thresh.rspill_runlen_min t / NSEC_PER_SEC) 16)
        80 := by
    rw [clamp_u64 _ 16 80 (by decide) (by decide), hlat, u64_of_lt]
    rw [e1, e2] at hprod
    exact lt_of_le_of_lt (Nat.div_le_self _ _) hprod
  have hK : qos_K s =
      (100 * min (max (t.ct_rspill_dt * qos_excess sp.thresh.rspill_runlen_min t /
        NSEC_PER_SEC) 16) 80 + 475 * 64) / 64 := by
    unfold qos_K
    dsimp only
    rw [hsecs]
    have h80 := Nat.min_le_right
      (max (t.ct_rspill_dt * qos_excess sp.thresh.rspill_runlen_min t / NSEC_PER_SEC) 16) 80
    generalize min (max (t.ct_rspill_dt * qos_excess sp.thresh.rspill_runlen_min t /
      NSEC_PER_SEC) 16) 80 = secs at h80
    rw [u64_of_lt (100 * secs) (by omega), u64_of_lt _ (by omega)]
  have hKb : 0 < qos_K s ∧ qos_K s ≤ 600 := by
    rw [hK]
    have h80 := Nat.min_le_right
      (max (t.ct_rspill_dt * qos_excess sp.thresh.rspill_runlen_min t / NSEC_PER_SEC) 16) 80
    generalize min (max (t.ct_rspill_dt * qos_excess sp.thresh.rspill_runlen_min t /
      NSEC_PER_SEC) 16) 80 = secs at h80
    omega
  have hRb : qos_r s ≤ 1677721600 := by
    rw [hR]
    omega
  have hsval : qos_sval s = 3 * qos_K s * qos_r s / (qos_K s + qos_r s) := by
    unfold qos_sval
    exact qos_sval_exact _ _ hKb.1 hKb.2 hRb
  have hkr : ¬ u64 (qos_K s + qos_r s) = 0 := by
    rw [u64_of_lt _ (by omega)]
    omega
  refine ⟨if s.rspill_dt_max > 1 ∧ qos_sval s < sp.sp_sval_min then
      { sp with sp_sval_min := qos_sval s } else sp, t, ht, hpos, hmax, ?_⟩
  unfold sp3_qos_check
  rw [if_neg (by simp [hsensor])]
  dsimp only
  rw [hrm, hscan]
  dsimp only
  rw [if_pos (by rw [hlat]; exact hpos), if_neg hkr]
  rw [qos_clamp_min E _ hmin, hsval, hK, hR, e1, hsleep]
  rfl

/-- C27, instance: one monitored root with 11 kvsets, `rspill_runlen_min = 4`
(excess 8) and 4 s per kvset (latency 32 s): `K = 525`, `R = 800`, the
unclamped value is 950 and the sensor gets 900, 90% of the scale. -/
theorem C27_throttle_sensor_value_witness :
    (∃ sp1, sp3_qos_check env_example 0
        { throttle_sensor_root := true, thresh := { rspill_runlen_min := 4 } }
        [{ ct_nodes := [{ tn_ns := { ns_kvsets := 11 } }], ct_rspill_dt := 4000000000 }] =
      Except.ok (sp1, some 900)) ∧
    (100 * 32 + 475 * 64) / 64 = 525 ∧ 3 * 525 * 800 / (525 + 800) = 950 := by
  obtain ⟨sp1, t, ht, _, _, h⟩ := C27_throttle_sensor_value env_example 0
    { throttle_sensor_root := true, thresh := { rspill_runlen_min := 4 } }
    [{ ct_nodes := [{ tn_ns := { ns_kvsets := 11 } }], ct_rspill_dt := 4000000000 }]
    rfl (by decide) (by
      intro t ht
      simp only [List.mem_singleton] at ht
      subst ht
      refine ⟨by decide, by decide, ?_⟩
      intro root hr
      simp only [List.getElem?_cons_zero, Option.some.injEq] at hr
      subst hr
      decide)
    (by decide)
    ⟨_, List.mem_singleton.mpr rfl, by decide⟩
  simp only [List.mem_singleton] at ht
  subst ht
  exact ⟨⟨sp1, h⟩, by decide, by decide⟩

/-! ## C30: start and cancel of a user-initiated compaction -/

/-- C30, counterexample: after a request with the `SAMP_LWM` flag (2) and a
following request with the `CANCEL` flag (1), `samp_reduce` is still true. -/
theorem C30_counterexample :
    (sp3_compact_request env_example {} 2).samp_reduce = true ∧
    (sp3_compact_request env_example {} 2).ucomp_active = true ∧
    (sp3_compact_request env_example (sp3_compact_request env_example {} 2) 1).samp_reduce =
      true :=
  ⟨rfl, rfl, rfl⟩

/-- C30, amended: a compaction request with the `SAMP_LWM` flag and without the
`CANCEL` flag sets `samp_reduce` to true and makes the user-initiated compaction
active; a following request with the `CANCEL` flag clears `ucomp_active` and
sets `ucomp_canceled`, and changes nothing else: `samp_reduce` stays true. -/
theorem C30_start_then_cancel (E : sp3_env) (sp : sp3) (flags1 flags2 : Nat)
    (h1 : flags1 &&& E.HSE_KVDB_COMPACT_CANCEL = 0)
    (h2 : flags1 &&& E.HSE_KVDB_COMPACT_SAMP_LWM ≠ 0)
    (h3 : flags2 &&& E.HSE_KVDB_COMPACT_CANCEL ≠ 0) :
    sp3_compact_request E sp flags1 =
      { sp with ucomp_active := true, ucomp_canceled := false, samp_reduce := true } ∧
    sp3_compact_request E (sp3_compact_request E sp flags1) flags2 =
      { sp with ucomp_active := false, ucomp_canceled := true, samp_reduce := true } ∧
    (sp3_compact_request E (sp3_compact_request E sp flags1) flags2).samp_reduce = true := by
  have e1 : sp3_compact_request E sp flags1 =
      { sp with ucomp_active := true, ucomp_canceled := false, samp_reduce := true } := by
    unfold sp3_compact_request
    rw [if_neg (not_not.mpr h1), if_pos h2]
    rfl
  have e2 : sp3_compact_request E (sp3_compact_request E sp flags1) flags2 =
      { sp with ucomp_active := false, ucomp_canceled := true, samp_reduce := true } := by
    rw [e1]
    unfold sp3_compact_request
    rw [if_pos h3]
    rfl
  exact ⟨e1, e2, by rw [e2]⟩

/-- C30, instance: the flags 2 (`SAMP_LWM`) and 1 (`CANCEL`) of the example
environment on a fresh scheduler. -/
theorem C30_start_then_cancel_witness :
    (sp3_compact_request env_example (sp3_compact_request env_example {} 2) 1).samp_reduce =
      true :=
  (C30_start_then_cancel env_example {} 2 1 (by decide) (by decide) (by decide)).2.2

/-! ## C28: the invariant of the dirty lists -/

theorem dirty_node_step_dl (E : sp3_env) (jclock_ns idx ti : Nat) (st st1 : dirty_state)
    (addr : Nat) (h : dirty_node_step E jclock_ns idx ti st addr = Except.ok st1) :
    st1.dl.sp_dlist_idx = st.dl.sp_dlist_idx ∧
    st1.dl.sp_dtree_listv = st.dl.sp_dtree_listv ∧
    (∀ t s, st1.dl.spt_dnode_listv t s =
      if t = ti ∧ s = idx then (st.dl.spt_dnode_listv ti idx).filter (fun a => a != addr)
      else st.dl.spt_dnode_listv t s) ∧
    st1.ndirty = st.ndirty + 1 := by
  have key : ∀ t s, (Function.update st.dl.spt_dnode_listv ti
      (Function.update (st.dl.spt_dnode_listv ti) idx
        ((st.dl.spt_dnode_listv ti idx).filter (fun a => a != addr)))) t s =
      if t = ti ∧ s = idx then (st.dl.spt_dnode_listv ti idx).filter (fun a => a != addr)
      else st.dl.spt_dnode_listv t s := by
    intro t s
    by_cases h1 : t = ti
    · subst h1
      by_cases h2 : s = idx
      · subst h2
        simp
      · simp [h2]
    · simp [h1]
  unfold dirty_node_step at h
  dsimp only at h
  repeat' split at h
  all_goals first
    | contradiction
    | (cases h; exact ⟨rfl, rfl, key, rfl⟩)

theorem dirty_nodes_loop_dl (E : sp3_env) (jclock_ns idx ti : Nat) (l : List Nat) :
    ∀ (st st1 : dirty_state), dirty_nodes_loop E jclock_ns idx ti l st = Except.ok st1 →
      st1.dl.sp_dlist_idx = st.dl.sp_dlist_idx ∧
      st1.dl.sp_dtree_listv = st.dl.sp_dtree_listv ∧
      (∀ t s, st1.dl.spt_dnode_listv t s =
        if t = ti ∧ s = idx then
          (st.dl.spt_dnode_listv ti idx).filter (fun a => !l.contains a)
        else st.dl.spt_dnode_listv t s) ∧
      st1.ndirty = st.ndirty + l.length := by
  induction l with
  | nil =>
    intro st st1 h
    simp only [dirty_nodes_loop] at h
    cases h
    refine ⟨rfl, rfl, fun t s => ?_, rfl⟩
    split_ifs with hc
    · rw [hc.1, hc.2]
      simp
    · rfl
  | cons a rest ih =>
    intro st st1 h
    simp only [dirty_nodes_loop] at h
    cases hs : dirty_node_step E jclock_ns idx ti st a with
    | error e => rw [hs] at h; cases h
    | ok st2 =>
      rw [hs] at h
      obtain ⟨a1, a2, a3, a4⟩ := dirty_node_step_dl _ _ _ _ _ _ _ hs
      obtain ⟨b1, b2, b3, b4⟩ := ih st2 st1 h
      refine ⟨b1.trans a1, b2.trans a2, fun t s => ?_, ?_⟩
      · rw [b3 t s]
        by_cases hc : t = ti ∧ s = idx
        · rw [if_pos hc, if_pos hc, a3 ti idx, if_pos ⟨rfl, rfl⟩, List.filter_filter]
          apply List.filter_congr
          intro x _
          simp only [List.contains_cons, Bool.not_or, bne, Bool.and_comm]
        · rw [if_neg hc, if_neg hc, a3 t s, if_neg hc]
      · rw [b4, a4, List.length_cons]
        omega

theorem filter_not_contains_self (l : List Nat) :
    l.filter (fun a => !l.contains a) = [] := by
  rw [List.filter_eq_nil_iff]
  intro a ha
  simp [ha]

theorem dirty_tree_step_dl (E : sp3_env) (jclock_ns idx : Nat) (sp : sp3) (dl : sp3_dlist)
    (trees : List cn_tree) (ti : Nat) (sp1 : sp3) (dl1 : sp3_dlist) (trees1 : List cn_tree)
    (h : dirty_tree_step E jclock_ns idx sp dl trees ti = Except.ok (sp1, dl1, trees1)) :
    dl1.sp_dlist_idx = dl.sp_dlist_idx ∧
    (∀ s, dl1.sp_dtree_listv s =
      if s = idx then (dl.sp_dtree_listv idx).filter (fun t => t != ti)
      else dl.sp_dtree_listv s) ∧
    (∀ t s, dl1.spt_dnode_listv t s =
      if t = ti ∧ s = idx then [] else dl.spt_dnode_listv t s) := by
  unfold dirty_tree_step at h
  dsimp only at h
  cases ht : trees[ti]? with
  | none => rw [ht] at h; cases h
  | some tree =>
    rw [ht] at h
    dsimp only at h
    split_ifs at h
    cases hn : dirty_nodes_loop E jclock_ns idx ti (dl.spt_dnode_listv ti idx)
        { sp := sp,
          dl := { dl with
            sp_dtree_listv := Function.update dl.sp_dtree_listv idx
              ((dl.sp_dtree_listv idx).filter (fun t => t != ti)) },
          tree := tree } with
    | error e => rw [hn] at h; cases h
    | ok st =>
      rw [hn] at h
      dsimp only at h
      split_ifs at h
      obtain ⟨a1, a2, a3, _⟩ := dirty_nodes_loop_dl _ _ _ _ _ _ _ hn
      dsimp only at a1 a2 a3
      cases hj : joined_loop E jclock_ns st.joined st.sp st.tree with
      | error e => rw [hj] at h; cases h
      | ok r =>
        rw [hj] at h
        cases h
        refine ⟨a1, fun s => ?_, fun t s => ?_⟩
        · rw [a2]
          by_cases hs : s = idx
          · subst hs
            simp
          · simp [hs]
        · rw [a3 t s]
          by_cases hc : t = ti ∧ s = idx
          · rw [if_pos hc, if_pos hc, filter_not_contains_self]
          · rw [if_neg hc, if_neg hc]

theorem dirty_trees_loop_dl (E : sp3_env) (jclock_ns idx : Nat) (l : List Nat) :
    ∀ (sp : sp3) (dl : sp3_dlist) (trees : List cn_tree) (sp1 : sp3) (dl1 : sp3_dlist)
      (trees1 : List cn_tree),
      dirty_trees_loop E jclock_ns idx l sp dl trees = Except.ok (sp1, dl1, trees1) →
      dl1.sp_dlist_idx = dl.sp_dlist_idx ∧
      (∀ s, dl1.sp_dtree_listv s =
        if s = idx then (dl.sp_dtree_listv idx).filter (fun t => !l.contains t)
        else dl.sp_dtree_listv s) ∧
      (∀ t s, dl1.spt_dnode_listv t s =
        if l.contains t = true ∧ s = idx then [] else dl.spt_dnode_listv t s) := by
  induction l with
  | nil =>
    intro sp dl trees sp1 dl1 trees1 h
    simp only [dirty_trees_loop] at h
    cases h
    refine ⟨rfl, fun s => ?_, fun t s => ?_⟩
    · split_ifs with hs
      · rw [hs]
        simp
      · rfl
    · simp
  | cons ti rest ih =>
    intro sp dl trees sp1 dl1 trees1 h
    simp only [dirty_trees_loop] at h
    cases hs : dirty_tree_step E jclock_ns idx sp dl trees ti with
    | error e => rw [hs] at h; cases h
    | ok r =>
      obtain ⟨sp2, dl2, trees2⟩ := r
      rw [hs] at h
      obtain ⟨a1, a2, a3⟩ := dirty_tree_step_dl _ _ _ _ _ _ _ _ _ _ hs
      obtain ⟨b1, b2, b3⟩ := ih _ _ _ _ _ _ h
      refine ⟨b1.trans a1, fun s => ?_, fun t s => ?_⟩
      · rw [b2 s]
        by_cases hc : s = idx
        · rw [if_pos hc, if_pos hc, a2 idx, if_pos rfl, List.filter_filter]
          apply List.filter_congr
          intro x _
          simp only [List.contains_cons, Bool.not_or, bne, Bool.and_comm]
        · rw [if_neg hc, if_neg hc, a2 s, if_neg hc]
      · rw [b3 t s, a3 t s]
        by_cases hs' : s = idx <;> by_cases ht : t = ti <;> by_cases hr : t ∈ rest <;>
          simp [hs', ht, hr]

theorem enqueue_fields (dl : sp3_dlist) (ti addr : Nat) :
    (sp3_dirty_node_enqueue dl ti addr).sp_dlist_idx = dl.sp_dlist_idx ∧
    (∀ s, (sp3_dirty_node_enqueue dl ti addr).sp_dtree_listv s =
      if s = dl.sp_dlist_idx % 2 ∧
          (dl.spt_dnode_listv ti (dl.sp_dlist_idx % 2)).contains addr = false ∧
          (dl.sp_dtree_listv (dl.sp_dlist_idx % 2)).contains ti = false then
        dl.sp_dtree_listv s ++ [ti]
      else dl.sp_dtree_listv s) ∧
    (∀ t s, (sp3_dirty_node_enqueue dl ti addr).spt_dnode_listv t s =
      if t = ti ∧ s = dl.sp_dlist_idx % 2 ∧
          (dl.spt_dnode_listv ti (dl.sp_dlist_idx % 2)).contains addr = false then
        dl.spt_dnode_listv t s ++ [addr]
      else dl.spt_dnode_listv t s) := by
  unfold sp3_dirty_node_enqueue
  dsimp only
  by_cases hc : (dl.spt_dnode_listv ti (dl.sp_dlist_idx % 2)).contains addr = true
  · rw [if_pos hc]
    refine ⟨rfl, fun s => ?_, fun t s => ?_⟩
    · rw [if_neg]
      rw [hc]
      simp
    · rw [if_neg]
      rw [hc]
      simp
  · rw [if_neg hc]
    have hc' : (dl.spt_dnode_listv ti (dl.sp_dlist_idx % 2)).contains addr = false := by
      simpa using hc
    have hm : addr ∉ dl.spt_dnode_listv ti (dl.sp_dlist_idx % 2) := by simpa using hc'
    have hnode : ∀ t s, Function.update dl.spt_dnode_listv ti
        (Function.update (dl.spt_dnode_listv ti) (dl.sp_dlist_idx % 2)
          (dl.spt_dnode_listv ti (dl.sp_dlist_idx % 2) ++ [addr])) t s =
        if t = ti ∧ s = dl.sp_dlist_idx % 2 ∧
            (dl.spt_dnode_listv ti (dl.sp_dlist_idx % 2)).contains addr = false then
          dl.spt_dnode_listv t s ++ [addr]
        else dl.spt_dnode_listv t s := by
      intro t s
      by_cases h1 : t = ti
      · subst h1
        by_cases h2 : s = dl.sp_dlist_idx % 2
        · subst h2
          simp [hm]
        · simp [h2]
      · simp [h1]
    by_cases ht : (dl.sp_dtree_listv (dl.sp_dlist_idx % 2)).contains ti = true
    · rw [if_pos ht]
      refine ⟨rfl, fun s => ?_, hnode⟩
      rw [if_neg]
      rw [ht]
      simp
    · rw [if_neg ht]
      have ht' : ti ∉ dl.sp_dtree_listv (dl.sp_dlist_idx % 2) := by simpa using ht
      refine ⟨rfl, fun s => ?_, hnode⟩
      dsimp only
      by_cases h2 : s = dl.sp_dlist_idx % 2
      · subst h2
        simp [hm, ht']
      · simp [h2]

theorem enqueue_inv (dl : sp3_dlist) (ti addr side : Nat) (h : dlist_inv dl side) :
    dlist_inv (sp3_dirty_node_enqueue dl ti addr) side := by
  obtain ⟨_, e2, e3⟩ := enqueue_fields dl ti addr
  obtain ⟨h1, h2⟩ := h
  unfold dlist_inv
  by_cases hs : side = dl.sp_dlist_idx % 2
  · by_cases hc : (dl.spt_dnode_listv ti (dl.sp_dlist_idx % 2)).contains addr = false
    · have hmem : addr ∉ dl.spt_dnode_listv ti side := by
        rw [hs]
        simpa using hc
      by_cases ht : (dl.sp_dtree_listv (dl.sp_dlist_idx % 2)).contains ti = false
      · have htm : ti ∉ dl.sp_dtree_listv side := by
          rw [hs]
          simpa using ht
        rw [e2 side, if_pos ⟨hs, hc, ht⟩]
        refine ⟨List.Nodup.append h1 (List.nodup_singleton _) (by simpa using htm), ?_⟩
        intro t
        rw [e3 t side]
        by_cases hti : t = ti
        · subst hti
          rw [if_pos ⟨rfl, hs, hc⟩]
          refine ⟨List.Nodup.append (h2 t).1 (List.nodup_singleton _) (by simpa using hmem), ?_⟩
          simp
        · rw [if_neg (fun hh => hti hh.1)]
          refine ⟨(h2 t).1, ?_⟩
          rw [← (h2 t).2]
          simp [hti]
      · rw [e2 side, if_neg (fun hh => ht hh.2.2)]
        refine ⟨h1, ?_⟩
        intro t
        rw [e3 t side]
        by_cases hti : t = ti
        · subst hti
          rw [if_pos ⟨rfl, hs, hc⟩]
          refine ⟨List.Nodup.append (h2 t).1 (List.nodup_singleton _) (by simpa using hmem), ?_⟩
          have : t ∈ dl.sp_dtree_listv side := by
            rw [hs]
            simpa using ht
          simp [this]
        · rw [if_neg (fun hh => hti hh.1)]
          exact h2 t
    · rw [e2 side, if_neg (fun hh => hc hh.2.1)]
      refine ⟨h1, ?_⟩
      intro t
      rw [e3 t side, if_neg (fun hh => hc hh.2.2)]
      exact h2 t
  · rw [e2 side, if_neg (fun hh => hs hh.1)]
    refine ⟨h1, ?_⟩
    intro t
    rw [e3 t side, if_neg (fun hh => hs hh.2.1)]
    exact h2 t

theorem enqueue_twice (dl : sp3_dlist) (ti addr : Nat) :
    sp3_dirty_node_enqueue (sp3_dirty_node_enqueue dl ti addr) ti addr =
      sp3_dirty_node_enqueue dl ti addr := by
  obtain ⟨e1, _, e3⟩ := enqueue_fields dl ti addr
  have hmem : ((sp3_dirty_node_enqueue dl ti addr).spt_dnode_listv ti
      ((sp3_dirty_node_enqueue dl ti addr).sp_dlist_idx % 2)).contains addr = true := by
    rw [e1, e3]
    by_cases hc : (dl.spt_dnode_listv ti (dl.sp_dlist_idx % 2)).contains addr = false
    · rw [if_pos ⟨rfl, rfl, hc⟩]
      simp
    · rw [if_neg (fun hh => hc hh.2.2)]
      simpa using hc
  generalize sp3_dirty_node_enqueue dl ti addr = d at hmem
  unfold sp3_dirty_node_enqueue
  dsimp only
  rw [if_pos hmem]

theorem process_dirtylist_dl (E : sp3_env) (jclock_ns : Nat) (sp : sp3) (dl : sp3_dlist)
    (trees : List cn_tree) (sp1 : sp3) (dl1 : sp3_dlist) (trees1 : List cn_tree)
    (hinv : dlist_inv dl (dl.sp_dlist_idx % 2))
    (h : sp3_process_dirtylist E jclock_ns sp dl trees = Except.ok (sp1, dl1, trees1)) :
    dl1.sp_dlist_idx = u32 (dl.sp_dlist_idx + 1) ∧
    dl1.sp_dtree_listv (dl.sp_dlist_idx % 2) = [] ∧
    (∀ t, dl1.spt_dnode_listv t (dl.sp_dlist_idx % 2) = []) ∧
    (∀ s, s ≠ dl.sp_dlist_idx % 2 → dl1.sp_dtree_listv s = dl.sp_dtree_listv s ∧
      ∀ t, dl1.spt_dnode_listv t s = dl.spt_dnode_listv t s) := by
  unfold sp3_process_dirtylist at h
  dsimp only at h
  obtain ⟨a1, a2, a3⟩ := dirty_trees_loop_dl _ _ _ _ _ _ _ _ _ _ h
  dsimp only at a1 a2 a3
  refine ⟨a1, ?_, fun t => ?_, fun s hs => ⟨?_, fun t => ?_⟩⟩
  · rw [a2, if_pos rfl]
    rw [List.filter_eq_nil_iff]
    intro x hx
    simp [hx]
  · rw [a3]
    by_cases hc : (dl.sp_dtree_listv (dl.sp_dlist_idx % 2)).contains t = true
    · rw [if_pos ⟨hc, rfl⟩]
    · rw [if_neg (fun hh => hc hh.1)]
      have hnot : t ∉ dl.sp_dtree_listv (dl.sp_dlist_idx % 2) := by simpa using hc
      by_contra hne
      exact hnot ((hinv.2 t).2.mpr hne)
  · rw [a2, if_neg hs]
  · rw [a3, if_neg (fun hh => hs hh.2)]

/-- C28: on every side of the dirty lists, `sp3_dirty_node_enqueue` and
`sp3_process_dirtylist` keep the invariant that no tree is twice on the list of
dirty trees, no node is twice on the list of dirty nodes of its tree, and a tree
is on the list of dirty trees exactly when its list of dirty nodes on that side
is not empty.  Enqueueing the node of a tree a second time changes nothing.  A
drain that returns advances `sp_dlist_idx` by one, which flips the active side,
leaves the side that was active empty (no dirty tree, and no dirty node in any
tree), and leaves the other side as it was. -/
theorem C28_dirty_list_invariant (dl : sp3_dlist) (ti addr side : Nat)
    (hinv : dlist_inv dl side) :
    dlist_inv (sp3_dirty_node_enqueue dl ti addr) side ∧
    sp3_dirty_node_enqueue (sp3_dirty_node_enqueue dl ti addr) ti addr =
      sp3_dirty_node_enqueue dl ti addr ∧
    (∀ (E : sp3_env) (jclock_ns : Nat) (sp : sp3) (trees : List cn_tree) (sp1 : sp3)
        (dl1 : sp3_dlist) (trees1 : List cn_tree),
      dlist_inv dl (dl.sp_dlist_idx % 2) →
      sp3_process_dirtylist E jclock_ns sp dl trees = Except.ok (sp1, dl1, trees1) →
      dlist_inv dl1 side ∧
      dl1.sp_dlist_idx = u32 (dl.sp_dlist_idx + 1) ∧
      dl1.sp_dlist_idx % 2 ≠ dl.sp_dlist_idx % 2 ∧
      dl1.sp_dtree_listv (dl.sp_dlist_idx % 2) = [] ∧
      (∀ t, dl1.spt_dnode_listv t (dl.sp_dlist_idx % 2) = []) ∧
      (∀ s, s ≠ dl.sp_dlist_idx % 2 → dl1.sp_dtree_listv s = dl.sp_dtree_listv s ∧
        ∀ t, dl1.spt_dnode_listv t s = dl.spt_dnode_listv t s)) := by
  refine ⟨enqueue_inv dl ti addr side hinv, enqueue_twice dl ti addr, ?_⟩
  intro E jclock_ns sp trees sp1 dl1 trees1 hact h
  obtain ⟨a1, a2, a3, a4⟩ := process_dirtylist_dl E jclock_ns sp dl trees sp1 dl1 trees1 hact h
  refine ⟨?_, a1, ?_, a2, a3, a4⟩
  · unfold dlist_inv
    by_cases hs : side = dl.sp_dlist_idx % 2
    · rw [hs, a2]
      refine ⟨List.nodup_nil, fun t => ?_⟩
      rw [a3 t]
      simp
    · rw [(a4 side hs).1]
      refine ⟨hinv.1, fun t => ?_⟩
      rw [(a4 side hs).2 t]
      exact hinv.2 t
  · rw [a1]
    unfold u32
    omega

/-- C28, instance: enqueueing the root (node 0) of tree 0 into empty dirty
lists keeps the invariant of side 0, and the drain that follows returns, leaves
side 0 empty and makes side 1 the active side. -/
theorem C28_dirty_list_invariant_witness :
    dlist_inv (sp3_dirty_node_enqueue {} 0 0) 0 ∧
    (sp3_dirty_node_enqueue {} 0 0).sp_dtree_listv 0 = [0] ∧
    (sp3_dirty_node_enqueue {} 0 0).spt_dnode_listv 0 0 = [0] ∧
    ∃ sp1 dl1 trees1,
      sp3_process_dirtylist env_example 0 {} (sp3_dirty_node_enqueue {} 0 0)
        [{ ct_nodes := [{}] }] = Except.ok (sp1, dl1, trees1) ∧
      dl1.sp_dtree_listv 0 = [] ∧ dl1.sp_dlist_idx = 1 := by
  have hempty : dlist_inv {} 0 := ⟨List.nodup_nil, fun _ => ⟨List.nodup_nil, by simp⟩⟩
  have h1 := (C28_dirty_list_invariant {} 0 0 0 hempty).1
  obtain ⟨_, h3, _, h4, _⟩ := (C28_dirty_list_invariant (sp3_dirty_node_enqueue {} 0 0) 0 0 0
    h1).2.2 env_example 0 {} [{ ct_nodes := [{}] }] _ _ _ h1 rfl
  exact ⟨h1, rfl, rfl, _, _, _, rfl, h4, h3⟩

/-! ## C29: the drain of a joined leaf -/

theorem untouched_refl (a : Nat) (s : sp3) : untouched a s s := ⟨fun _ => rfl, rfl⟩

theorem untouched_trans (a : Nat) (s s1 s2 : sp3) (h1 : untouched a s s1)
    (h2 : untouched a s1 s2) : untouched a s s2 :=
  ⟨fun tx => (h2.1 tx).trans (h1.1 tx), h2.2.trans h1.2⟩

theorem untouched_insert (a : Nat) (s s1 : sp3) (n : Nat) (tx : sp3_work_type) (w : Nat)
    (hne : n ≠ a) (h : untouched a s s1) : untouched a s (sp3_node_insert s1 n tx w) := by
  refine untouched_trans a s s1 _ h ⟨fun ty => ?_, ?_⟩
  · rw [rb_member_isSome, rb_member_isSome, node_insert_weight,
      if_neg (fun hh => hne hh.2.symm)]
  · rw [node_insert_eq]

theorem untouched_remove (a : Nat) (s s1 : sp3) (n : Nat) (tx : sp3_work_type)
    (hne : n ≠ a) (h : untouched a s s1) : untouched a s (sp3_node_remove s1 n tx) := by
  refine untouched_trans a s s1 _ h ⟨fun ty => ?_, rfl⟩
  rw [rb_member_isSome, rb_member_isSome, node_remove_weight,
    if_neg (fun hh => hne hh.2.symm)]

theorem untouched_unlink (a : Nat) (s s1 : sp3) (n : Nat)
    (hne : n ≠ a) (h : untouched a s s1) : untouched a s (sp3_node_unlink s1 n) := by
  refine untouched_trans a s s1 _ h ⟨fun ty => ?_, rfl⟩
  rw [rb_member_isSome, rb_member_isSome, node_unlink_weight, if_neg (fun hh => hne hh.symm)]

theorem untouched_rlist_del (a : Nat) (s s1 : sp3) (n : Nat)
    (hne : n ≠ a) (h : untouched a s s1) : untouched a s (rlist_del s1 n) := by
  refine untouched_trans a s s1 _ h ⟨fun ty => rfl, ?_⟩
  unfold rlist_del
  dsimp only
  rw [Bool.eq_iff_iff]
  simp only [List.contains_eq_any_beq, List.any_eq_true, List.mem_filter, bne_iff_ne, ne_eq,
    beq_iff_eq]
  constructor
  · rintro ⟨x, ⟨hx, _⟩, rfl⟩
    exact ⟨_, hx, rfl⟩
  · rintro ⟨x, hx, rfl⟩
    exact ⟨_, ⟨hx, fun e => hne e.symm⟩, rfl⟩

theorem untouched_rlist_add_tail (a : Nat) (s s1 : sp3) (n : Nat)
    (hne : n ≠ a) (h : untouched a s s1) : untouched a s (rlist_add_tail s1 n) := by
  refine untouched_trans a s s1 _ h ⟨fun ty => ?_, ?_⟩
  · unfold rlist_add_tail
    split_ifs <;> rfl
  · unfold rlist_add_tail
    split_ifs
    · rfl
    · dsimp only
      rw [Bool.eq_iff_iff]
      simp only [List.contains_eq_any_beq, List.any_eq_true, List.mem_append,
        List.mem_singleton, beq_iff_eq]
      constructor
      · rintro ⟨x, hx | hx, rfl⟩
        · exact ⟨_, hx, rfl⟩
        · exact absurd hx.symm hne
      · rintro ⟨x, hx, rfl⟩
        exact ⟨_, Or.inl hx, rfl⟩

theorem untouched_leaf_scatter (a : Nat) (E : sp3_env) (tn : cn_tree_node) (s s1 : sp3)
    (hne : tn.addr ≠ a) (h : untouched a s s1) : untouched a s (leaf_scatter E tn s1) := by
  unfold leaf_scatter
  split_ifs <;>
    repeat first
      | exact h
      | refine untouched_insert a _ _ _ _ _ hne ?_
      | refine untouched_remove a _ _ _ _ hne ?_
      | refine untouched_unlink a _ _ _ hne ?_

theorem untouched_leaf_length (a : Nat) (E : sp3_env) (T : sp3_thresholds)
    (tn : cn_tree_node) (nk : Nat) (s s1 : sp3)
    (hne : tn.addr ≠ a) (h : untouched a s s1) :
    untouched a s (leaf_length E T tn nk s1) := by
  unfold leaf_length
  split_ifs <;>
    repeat first
      | exact h
      | refine untouched_insert a _ _ _ _ _ hne ?_
      | refine untouched_remove a _ _ _ _ hne ?_
      | refine untouched_unlink a _ _ _ hne ?_

theorem untouched_leaf_garbage (a : Nat) (E : sp3_env) (tn : cn_tree_node) (s s1 : sp3)
    (hne : tn.addr ≠ a) (h : untouched a s s1) : untouched a s (leaf_garbage E tn s1) := by
  unfold leaf_garbage
  split_ifs <;>
    repeat first
      | exact h
      | refine untouched_insert a _ _ _ _ _ hne ?_
      | refine untouched_remove a _ _ _ _ hne ?_
      | refine untouched_unlink a _ _ _ hne ?_

theorem untouched_leaf_split (a : Nat) (E : sp3_env) (T : sp3_thresholds) (tree : cn_tree)
    (tn : cn_tree_node) (s s1 : sp3) (hne : tn.addr ≠ a) (h : untouched a s s1) :
    untouched a s (leaf_split E T tree tn s1) := by
  unfold leaf_split
  split_ifs <;>
    repeat first
      | exact h
      | refine untouched_insert a _ _ _ _ _ hne ?_
      | refine untouched_remove a _ _ _ _ hne ?_
      | refine untouched_unlink a _ _ _ hne ?_

theorem untouched_leaf_join (a : Nat) (T : sp3_thresholds) (tree : cn_tree) (idx : Nat)
    (tn : cn_tree_node) (s s1 : sp3) (hne : tn.addr ≠ a) (h : untouched a s s1) :
    untouched a s (leaf_join T tree idx tn s1) := by
  unfold leaf_join
  split <;> (try split_ifs) <;>
    repeat first
      | exact h
      | refine untouched_insert a _ _ _ _ _ hne ?_
      | refine untouched_remove a _ _ _ _ hne ?_
      | refine untouched_unlink a _ _ _ hne ?_

theorem untouched_dirty_idle (a : Nat) (jclock_ns : Nat) (tn : cn_tree_node) (nk jobs : Nat)
    (s s1 : sp3) (hne : tn.addr ≠ a) (h : untouched a s s1) :
    untouched a s (sp3_dirty_idle jclock_ns s1 tn nk jobs) := by
  unfold sp3_dirty_idle
  split_ifs <;>
    repeat first
      | exact h
      | refine untouched_insert a _ _ _ _ _ hne ?_
      | refine untouched_remove a _ _ _ _ hne ?_

theorem nodup_addr_index (l : List cn_tree_node) (hnd : (l.map (fun n => n.addr)).Nodup)
    (i j : Nat) (x y : cn_tree_node) (hi : l[i]? = some x) (hj : l[j]? = some y)
    (he : x.addr = y.addr) : i = j := by
  obtain ⟨hil, hix⟩ := List.getElem?_eq_some.mp hi
  obtain ⟨hjl, hjy⟩ := List.getElem?_eq_some.mp hj
  have hil1 : i < (l.map (fun n => n.addr)).length := by rw [List.length_map]; exact hil
  have hjl1 : j < (l.map (fun n => n.addr)).length := by rw [List.length_map]; exact hjl
  have hh : (l.map (fun n => n.addr))[i] = (l.map (fun n => n.addr))[j] := by
    rw [List.getElem_map, List.getElem_map, hix, hjy]
    exact he
  exact (List.Nodup.getElem_inj_iff hnd).mp hh

theorem findIdx_addr (l : List cn_tree_node) (hnd : (l.map (fun n => n.addr)).Nodup)
    (p : Nat) (tn : cn_tree_node) (hp : l[p]? = some tn) :
    l.findIdx (fun n => n.addr == tn.addr) = p := by
  obtain ⟨hpl, hpx⟩ := List.getElem?_eq_some.mp hp
  rw [List.findIdx_eq hpl]
  refine ⟨by rw [hpx]; exact beq_self_eq_true _, fun j hj => ?_⟩
  cases hb : (l[j].addr == tn.addr) with
  | false => rfl
  | true =>
    have hjl : j < l.length := by omega
    have := nodup_addr_index l hnd j p l[j] tn (List.getElem?_eq_getElem hjl) hp
      (beq_iff_eq.mp hb)
    omega

theorem eraseIdx_head (l : List cn_tree_node) (p : Nat) (hp : 0 < p) :
    (l.eraseIdx p).head? = l.head? := by
  cases l with
  | nil => rfl
  | cons x xs =>
    cases p with
    | zero => omega
    | succ q => rfl

theorem usub32_one (f : Nat) (h0 : 0 < f) (h1 : f < 4294967296) : usub32 f 1 + 1 = f := by
  unfold usub32 u32
  omega

theorem unlink_all_out (sp : sp3) (a : Nat) (spu : sp3)
    (h : sp3_node_unlink_all sp a true = Except.ok spu) :
    (∀ tx, rb_member (spu.rbt tx) a = false) ∧ a ∉ spu.spn_alist ∧ a ∉ spu.spn_rlist := by
  unfold sp3_node_unlink_all at h
  cases h
  refine ⟨fun tx => rb_member_erase _ _, ?_, ?_⟩
  · simp [List.mem_filter]
  · simp [rlist_del, List.mem_filter]

theorem untouched_out (a : Nat) (s s1 : sp3) (hu : untouched a s s1) (hf : framed s s1)
    (h : (∀ tx, rb_member (s.rbt tx) a = false) ∧ a ∉ s.spn_alist ∧ a ∉ s.spn_rlist) :
    (∀ tx, rb_member (s1.rbt tx) a = false) ∧ a ∉ s1.spn_alist ∧ a ∉ s1.spn_rlist := by
  refine ⟨fun tx => (hu.1 tx).trans (h.1 tx), ?_, ?_⟩
  · have : s1.spn_alist = s.spn_alist := by rw [hf]
    rw [this]
    exact h.2.1
  · intro hm
    have h1 : s1.spn_rlist.contains a = true := List.elem_iff.mpr hm
    rw [hu.2] at h1
    exact h.2.2 (List.elem_iff.mp h1)

theorem joined_safe_index (a : Nat) (tree : cn_tree) (hs : joined_safe a tree)
    (i : Nat) (n : cn_tree_node) (hn : tree.ct_nodes[i]? = some n) (ha : n.addr = a) :
    i ≠ 0 := by
  intro h0
  subst h0
  have : tree.ct_nodes.head? = some n := by
    rw [← hn]
    cases tree.ct_nodes <;> simp
  exact hs.1 n this ha

theorem untouched_empty_leaf_safe (a : Nat) (tree : cn_tree) (idx : Nat) (s : sp3)
    (hs : joined_safe a tree) :
    untouched a s (sp3_dirty_empty_leaf s tree idx) := by
  unfold sp3_dirty_empty_leaf
  cases hr : tree.ct_nodes[idx + 1]? with
  | none => exact untouched_refl a s
  | some right =>
    dsimp only
    split_ifs with hj
    · by_cases ha : right.addr = a
      · exact absurd (hs.2 right (List.getElem?_mem hr) ha).2.2
          (joinable_right tree (idx + 1) idx s.thresh right hr hj).2
      · exact untouched_insert a s s _ _ _ ha (untouched_refl a s)
    · exact untouched_refl a s

theorem untouched_categories_safe (a : Nat) (E : sp3_env) (sp : sp3) (tree : cn_tree)
    (idx : Nat) (tn : cn_tree_node) (nk jobs : Nat) (sp1 : sp3)
    (hs : joined_safe a tree) (hne1 : tn.addr ≠ a)
    (h : sp3_dirty_categories E sp tree idx tn nk jobs = Except.ok sp1) :
    untouched a sp sp1 := by
  unfold sp3_dirty_categories at h
  dsimp only at h
  split_ifs at h
  · cases h
    exact untouched_rlist_add_tail a sp sp _ hne1 (untouched_refl a sp)
  · cases h
    exact untouched_rlist_del a sp sp _ hne1 (untouched_refl a sp)
  · cases h
    exact untouched_remove a sp _ _ _ hne1 (untouched_remove a sp _ _ _ hne1
      (untouched_remove a sp sp _ _ hne1 (untouched_refl a sp)))
  · rw [dirty_leaf_eq] at h
    split_ifs at h
    cases h
    exact untouched_leaf_join a _ _ _ _ sp _ hne1 (untouched_leaf_split a _ _ _ _ sp _ hne1
      (untouched_leaf_garbage a _ _ sp _ hne1 (untouched_leaf_length a _ _ _ _ sp _ hne1
        (untouched_leaf_scatter a _ _ sp sp hne1 (untouched_refl a sp)))))
  · cases h
    exact untouched_empty_leaf_safe a tree idx sp hs
  · cases h
    exact untouched_refl a sp

/-- The classification of a node of a tree in which `a` names only joined
leaves leaves `a` unlinked: the node `a` itself is not classified, the call
aborts on a leaf without a route node. -/
theorem unlinked_dirty_node_locked (a : Nat) (E : sp3_env) (jclock_ns : Nat) (sp : sp3)
    (tree : cn_tree) (idx : Nat) (sp1 : sp3) (hs : joined_safe a tree)
    (h : sp3_dirty_node_locked E jclock_ns sp tree idx = Except.ok sp1)
    (hu : unlinked a sp) : unlinked a sp1 := by
  have hf := framed_dirty_node_locked E jclock_ns sp tree idx sp1 h
  refine untouched_out a sp sp1 ?_ hf hu
  unfold sp3_dirty_node_locked at h
  cases htn : tree.ct_nodes[idx]? with
  | none => rw [htn] at h; cases h
  | some tn =>
    rw [htn] at h
    dsimp only at h
    by_cases hi : (!tn.spn_initialized) = true
    · rw [if_pos hi] at h
      cases h
      exact untouched_refl a sp
    · rw [if_neg hi] at h
      cases hc : sp3_dirty_categories E sp tree idx tn
          (usub64 tn.tn_ns.ns_kvsets (u32 tn.tn_busycnt % 65536)) (u32 tn.tn_busycnt / 65536) with
      | error e => rw [hc] at h; cases h
      | ok sp2 =>
        rw [hc] at h
        cases h
        by_cases ha : tn.addr = a
        · exfalso
          have h0 := joined_safe_index a tree hs idx tn htn ha
          have hr := (hs.2 tn (List.getElem?_mem htn) ha).1
          unfold sp3_dirty_categories at hc
          dsimp only at hc
          have hroot : cn_node_isroot idx = false := by
            unfold cn_node_isroot
            simpa using h0
          rw [hroot] at hc
          simp only [Bool.false_eq_true, if_false, hr, Bool.not_false, if_true] at hc
          cases hc
        · exact untouched_dirty_idle a _ _ _ _ sp sp2 ha
            (untouched_categories_safe a _ _ _ _ _ _ _ _ hs ha hc)

theorem init_only_refl (t : cn_tree) : init_only t t := ⟨rfl, rfl, fun _ _ h => Or.inl h⟩

theorem init_only_trans (t t1 t2 : cn_tree) (h1 : init_only t t1) (h2 : init_only t1 t2) :
    init_only t t2 := by
  refine ⟨h2.1.trans h1.1, h2.2.1.trans h1.2.1, fun i n hn => ?_⟩
  rcases h1.2.2 i n hn with h | h
  · exact h2.2.2 i n h
  · rcases h2.2.2 i _ h with h3 | h3
    · exact Or.inr h3
    · exact Or.inr h3

theorem init_only_set (t : cn_tree) (pos : Nat) (tn x : cn_tree_node)
    (hp : t.ct_nodes[pos]? = some tn)
    (hx : x = tn ∨ x = { tn with spn_initialized := true }) :
    init_only t { t with ct_nodes := t.ct_nodes.set pos x } := by
  refine ⟨rfl, List.length_set _ _ _, fun i n hn => ?_⟩
  dsimp only
  have hlt : pos < t.ct_nodes.length := (List.getElem?_eq_some.mp hp).1
  rw [List.getElem?_set]
  by_cases hi : pos = i
  · subst hi
    rw [hp] at hn
    cases hn
    rw [if_pos rfl, if_pos hlt]
    rcases hx with hx | hx
    · exact Or.inl (by rw [hx])
    · exact Or.inr (by rw [hx])
  · rw [if_neg hi]
    exact Or.inl hn

theorem init_only_fwd (t t1 : cn_tree) (h : init_only t t1) (i : Nat) (n : cn_tree_node)
    (hn : t.ct_nodes[i]? = some n) :
    ∃ n1, t1.ct_nodes[i]? = some n1 ∧ n1.addr = n.addr ∧
      n1.tn_route_node = n.tn_route_node ∧ n1.tn_ns = n.tn_ns ∧
      (n.spn_initialized = true → n1.spn_initialized = true) := by
  rcases h.2.2 i n hn with h1 | h1
  · exact ⟨n, h1, rfl, rfl, rfl, fun hh => hh⟩
  · exact ⟨_, h1, rfl, rfl, rfl, fun _ => rfl⟩

theorem init_only_bwd (t t1 : cn_tree) (h : init_only t t1) (i : Nat) (n1 : cn_tree_node)
    (hn : t1.ct_nodes[i]? = some n1) :
    ∃ n, t.ct_nodes[i]? = some n ∧ n1.addr = n.addr ∧
      n1.tn_route_node = n.tn_route_node ∧ n1.tn_ns = n.tn_ns ∧
      (n.spn_initialized = true → n1.spn_initialized = true) := by
  have hlt : i < t.ct_nodes.length := by
    rw [← h.2.1]
    exact (List.getElem?_eq_some.mp hn).1
  obtain ⟨n2, h2, a, b, c, d⟩ := init_only_fwd t t1 h i _ (List.getElem?_eq_getElem hlt)
  rw [hn] at h2
  cases h2
  exact ⟨_, List.getElem?_eq_getElem hlt, a, b, c, d⟩

theorem init_only_addrs (t t1 : cn_tree) (h : init_only t t1) :
    t1.ct_nodes.map (fun n => n.addr) = t.ct_nodes.map (fun n => n.addr) := by
  apply List.ext_getElem?
  intro i
  rw [List.getElem?_map, List.getElem?_map]
  cases hn : t.ct_nodes[i]? with
  | none =>
    have : t1.ct_nodes[i]? = none := by
      rw [List.getElem?_eq_none_iff] at hn ⊢
      rw [h.2.1]
      exact hn
    rw [this]
  | some n =>
    obtain ⟨n1, h1, a, _⟩ := init_only_fwd t t1 h i n hn
    rw [h1]
    simp only [Option.map_some', a]

theorem findIdx_map_addr (l : List cn_tree_node) (x : Nat) :
    l.findIdx (fun n => n.addr == x) =
      (l.map (fun n => n.addr)).findIdx (fun c => c == x) := by
  induction l with
  | nil => rfl
  | cons y ys ih =>
    rw [List.map_cons, List.findIdx_cons, List.findIdx_cons, ih]

theorem init_only_findIdx (t t1 : cn_tree) (h : init_only t t1) (x : Nat) :
    t1.ct_nodes.findIdx (fun n => n.addr == x) = t.ct_nodes.findIdx (fun n => n.addr == x) := by
  rw [findIdx_map_addr, findIdx_map_addr, init_only_addrs t t1 h]

theorem init_only_is_joined (t t1 : cn_tree) (h : init_only t t1) (x : Nat) :
    is_joined t1 x = is_joined t x := by
  unfold is_joined
  dsimp only
  rw [init_only_findIdx t t1 h x]
  cases hn : t.ct_nodes[t.ct_nodes.findIdx (fun n => n.addr == x)]? with
  | none =>
    have : t1.ct_nodes[t.ct_nodes.findIdx (fun n => n.addr == x)]? = none := by
      rw [List.getElem?_eq_none_iff] at hn ⊢
      rw [h.2.1]
      exact hn
    rw [this]
  | some n =>
    obtain ⟨n1, h1, _, b, _⟩ := init_only_fwd t t1 h _ n hn
    rw [h1]
    dsimp only
    rw [b]

theorem init_only_safe (a : Nat) (t t1 : cn_tree) (h : init_only t t1)
    (hs : joined_safe a t) : joined_safe a t1 := by
  refine ⟨fun n1 hh => ?_, fun n1 hm ha => ?_⟩
  · have h0 : t1.ct_nodes[0]? = some n1 := by
      rw [← hh]
      cases t1.ct_nodes <;> simp
    obtain ⟨n, hn, a1, _⟩ := init_only_bwd t t1 h 0 n1 h0
    rw [a1]
    refine hs.1 n ?_
    rw [← hn]
    cases t.ct_nodes <;> simp
  · obtain ⟨i, hi⟩ := List.mem_iff_getElem?.mp hm
    obtain ⟨n, hn, a1, b1, c1, d1⟩ := init_only_bwd t t1 h i n1 hi
    obtain ⟨x, y, z⟩ := hs.2 n (List.getElem?_mem hn) (a1.symm.trans ha)
    exact ⟨b1.trans x, d1 y, by rw [c1]; exact z⟩

theorem init_only_head (t t1 : cn_tree) (h : init_only t t1) :
    t1.ct_nodes.head?.map (fun n => n.addr) = t.ct_nodes.head?.map (fun n => n.addr) := by
  have := init_only_addrs t t1 h
  rw [← List.head?_map, ← List.head?_map, this]

theorem unlinked_unlink_all (a c : Nat) (sp spu : sp3) (i : Bool)
    (h : sp3_node_unlink_all sp c i = Except.ok spu) (hu : unlinked a sp ∨ c = a) :
    unlinked a spu := by
  have hi : i = true := by
    cases i with
    | true => rfl
    | false => cases h
  subst hi
  by_cases hc : c = a
  · subst hc
    exact unlink_all_out sp c spu h
  · have hu1 : unlinked a sp := by
      rcases hu with hu | hu
      · exact hu
      · exact absurd hu hc
    unfold sp3_node_unlink_all at h
    cases h
    have h1 : untouched a sp (rlist_del (sp3_node_unlink sp c) c) :=
      untouched_rlist_del a sp _ c hc (untouched_unlink a sp sp c hc (untouched_refl a sp))
    refine ⟨fun tx => (h1.1 tx).trans (hu1.1 tx), ?_, ?_⟩
    · intro hm
      exact hu1.2.1 (List.mem_filter.mp hm).1
    · intro hm
      have h2 : (rlist_del (sp3_node_unlink sp c) c).spn_rlist.contains a = true :=
        List.elem_iff.mpr hm
      rw [h1.2] at h2
      exact hu1.2.2 (List.elem_iff.mp h2)

theorem findIdx_addr_eq (l : List cn_tree_node) (c : Nat) (tn : cn_tree_node)
    (h : l[l.findIdx (fun n => n.addr == c)]? = some tn) : tn.addr = c := by
  obtain ⟨hlt, he⟩ := List.getElem?_eq_some.mp h
  have := List.findIdx_getElem (w := hlt)
  rw [he] at this
  exact beq_iff_eq.mp this

theorem safe_is_joined (a : Nat) (tree : cn_tree) (hs : joined_safe a tree)
    (tn : cn_tree_node)
    (hn : tree.ct_nodes[tree.ct_nodes.findIdx (fun n => n.addr == a)]? = some tn) :
    (cn_node_isleaf (tree.ct_nodes.findIdx (fun n => n.addr == a)) && !tn.tn_route_node) = true ∧
    tn.spn_initialized = true := by
  have ha := findIdx_addr_eq _ a tn hn
  have h0 := joined_safe_index a tree hs _ tn hn ha
  obtain ⟨x, y, _⟩ := hs.2 tn (List.getElem?_mem hn) ha
  refine ⟨?_, y⟩
  rw [x]
  unfold cn_node_isleaf cn_node_isroot
  simpa using h0

theorem dirty_node_step_inv (a : Nat) (E : sp3_env) (jclock_ns idx ti : Nat)
    (st st1 : dirty_state) (c : Nat)
    (h : dirty_node_step E jclock_ns idx ti st c = Except.ok st1) :
    init_only st.tree st1.tree ∧
    st1.joined = st.joined ++ (if is_joined st.tree c = true then [c] else []) ∧
    (joined_safe a st.tree → (unlinked a st.sp ∨ c = a) → unlinked a st1.sp) := by
  unfold dirty_node_step at h
  dsimp only at h
  have hjd0 : is_joined st.tree c =
      match st.tree.ct_nodes[st.tree.ct_nodes.findIdx (fun n => n.addr == c)]? with
      | none => false
      | some tn =>
        cn_node_isleaf (st.tree.ct_nodes.findIdx (fun n => n.addr == c)) && !tn.tn_route_node :=
    rfl
  have hsj := safe_is_joined c st.tree
  have hfa := findIdx_addr_eq st.tree.ct_nodes c
  generalize st.tree.ct_nodes.findIdx (fun n => n.addr == c) = pos at h hjd0 hsj hfa
  cases hn : st.tree.ct_nodes[pos]? with
  | none => rw [hn] at h; cases h
  | some tn =>
    rw [hn] at h hjd0
    dsimp only at h hjd0
    have hta : tn.addr = c := hfa tn hn
    have hca : joined_safe a st.tree → c = a → is_joined st.tree c = true := by
      intro hs hc
      subst hc
      rw [hjd0]
      exact (hsj hs tn hn).1
    by_cases hj : (cn_node_isleaf pos && !tn.tn_route_node) = true
    · rw [if_pos hj] at h
      cases hu : sp3_node_unlink_all st.sp c tn.spn_initialized with
      | error e => rw [hu] at h; cases h
      | ok sp1 =>
        rw [hu] at h
        cases h
        refine ⟨init_only_refl _, ?_, fun _ hh => unlinked_unlink_all a c _ _ _ hu hh⟩
        rw [hjd0, if_pos hj]
    · rw [if_neg hj] at h
      have hjf : ¬ is_joined st.tree c = true := by rw [hjd0]; exact hj
      have hne : joined_safe a st.tree → (unlinked a st.sp ∨ c = a) → unlinked a st.sp := by
        intro hs hh
        rcases hh with hh | hh
        · exact hh
        · exact absurd (hca hs hh) hjf
      by_cases hh : (!st.sp.sp_healthy) = true
      · rw [if_pos hh] at h
        cases h
        refine ⟨init_only_refl _, ?_, hne⟩
        rw [if_neg hjf, List.append_nil]
      · rw [if_neg hh] at h
        have hr : ∃ r : sp3 × cn_tree_node,
            r = (if (!tn.spn_initialized) = true then sp3_node_init st.sp tn else (st.sp, tn)) :=
          ⟨_, rfl⟩
        obtain ⟨r, hr⟩ := hr
        rw [← hr] at h
        have hr2 : r.2 = tn ∨ r.2 = { tn with spn_initialized := true } := by
          rw [hr]
          split_ifs
          · exact Or.inr rfl
          · exact Or.inl rfl
        have hr1 : unlinked a st.sp → c ≠ a → unlinked a r.1 := by
          intro hu1 hca1
          rw [hr]
          split_ifs
          · refine ⟨hu1.1, ?_, hu1.2.2⟩
            unfold sp3_node_init
            dsimp only
            rw [List.mem_append, List.mem_singleton, hta]
            rintro (hm | hm)
            · exact hu1.2.1 hm
            · exact hca1 hm.symm
          · exact hu1
        have hio := init_only_set st.tree pos tn r.2 hn hr2
        generalize ht1 : ({ st.tree with ct_nodes := st.tree.ct_nodes.set pos r.2 } : cn_tree) =
          tree1 at h hio
        cases hc : sp3_dirty_node_locked E jclock_ns r.1 tree1 pos with
        | error e => rw [hc] at h; cases h
        | ok sp1 =>
          rw [hc] at h
          cases h
          refine ⟨hio, ?_, fun hs hu => ?_⟩
          · rw [if_neg hjf, List.append_nil]
          · exact unlinked_dirty_node_locked a E jclock_ns _ _ _ _
              (init_only_safe a _ _ hio hs) hc
              (hr1 (hne hs hu) (fun e => hjf (hca hs e)))

theorem dirty_nodes_loop_inv (a : Nat) (E : sp3_env) (jclock_ns idx ti : Nat) (l : List Nat) :
    ∀ (st st1 : dirty_state), dirty_nodes_loop E jclock_ns idx ti l st = Except.ok st1 →
      init_only st.tree st1.tree ∧
      st1.joined = st.joined ++ l.filter (is_joined st.tree) ∧
      (joined_safe a st.tree → (unlinked a st.sp ∨ a ∈ l) → unlinked a st1.sp) := by
  induction l with
  | nil =>
    intro st st1 h
    simp only [dirty_nodes_loop] at h
    cases h
    exact ⟨init_only_refl _, by simp, fun _ hu => hu.elim id (fun hm => absurd hm (by simp))⟩
  | cons c rest ih =>
    intro st st1 h
    simp only [dirty_nodes_loop] at h
    cases hs : dirty_node_step E jclock_ns idx ti st c with
    | error e => rw [hs] at h; cases h
    | ok st2 =>
      rw [hs] at h
      obtain ⟨a1, a2, a3⟩ := dirty_node_step_inv a E jclock_ns idx ti st st2 c hs
      obtain ⟨b1, b2, b3⟩ := ih st2 st1 h
      refine ⟨init_only_trans _ _ _ a1 b1, ?_, fun hsafe hu => ?_⟩
      · rw [b2, a2]
        have hf : rest.filter (is_joined st2.tree) = rest.filter (is_joined st.tree) := by
          congr 1
          funext x
          exact init_only_is_joined _ _ a1 x
        rw [hf, List.filter_cons]
        by_cases hj : is_joined st.tree c = true
        · rw [if_pos hj, if_pos hj]
          simp
        · rw [if_neg hj, if_neg hj]
          simp
      · refine b3 (init_only_safe a _ _ a1 hsafe) ?_
        rcases hu with hu | hu
        · exact Or.inl (a3 hsafe (Or.inl hu))
        · rcases List.mem_cons.mp hu with hm | hm
          · exact Or.inl (a3 hsafe (Or.inr hm.symm))
          · exact Or.inr hm

theorem erase_map_addr (l : List cn_tree_node) (c : Nat) :
    (l.eraseIdx (l.findIdx (fun n => n.addr == c))).map (fun n => n.addr) =
      (l.map (fun n => n.addr)).erase c := by
  induction l with
  | nil => rfl
  | cons y ys ih =>
    rw [List.findIdx_cons, List.map_cons, List.erase_cons]
    cases hy : (y.addr == c) with
    | true => simp
    | false => simp [ih]

theorem joined_step_inv (E : sp3_env) (jclock_ns : Nat) (sp : sp3) (tree : cn_tree) (c : Nat)
    (sp1 : sp3) (tree1 : cn_tree)
    (h : joined_step E jclock_ns sp tree c = Except.ok (sp1, tree1)) :
    ∃ q tnc, tree.ct_nodes.findIdx (fun n => n.addr == c) = q ∧
      tree.ct_nodes[q]? = some tnc ∧ tnc.addr = c ∧
      tree1 = { tree with ct_nodes := tree.ct_nodes.eraseIdx q,
                          ct_fanout := usub32 tree.ct_fanout 1 } ∧
      (match tree.ct_nodes[q + 1]? with
       | none => sp1 = sp
       | some right => tree1.ct_nodes[q]? = some right ∧
           sp3_dirty_node_locked E jclock_ns sp tree1 q = Except.ok sp1) := by
  unfold joined_step at h
  dsimp only at h
  have hfa := findIdx_addr_eq tree.ct_nodes c
  refine ⟨tree.ct_nodes.findIdx (fun n => n.addr == c), ?_⟩
  generalize tree.ct_nodes.findIdx (fun n => n.addr == c) = q at h hfa ⊢
  cases hn : tree.ct_nodes[q]? with
  | none => rw [hn] at h; cases h
  | some tnc =>
    rw [hn] at h
    dsimp only at h
    refine ⟨tnc, rfl, rfl, hfa tnc hn, ?_⟩
    cases hr : tree.ct_nodes[q + 1]? with
    | none =>
      rw [hr] at h
      cases h
      exact ⟨rfl, rfl⟩
    | some right =>
      rw [hr] at h
      dsimp only at h ⊢
      generalize ht1 : ({ tree with ct_nodes := tree.ct_nodes.eraseIdx q,
                                    ct_fanout := usub32 tree.ct_fanout 1 } : cn_tree) =
        t1 at h
      cases hc : sp3_dirty_node_locked E jclock_ns sp t1 q with
      | error e => rw [hc] at h; cases h
      | ok s2 =>
        rw [hc] at h
        cases h
        refine ⟨rfl, ?_, hc⟩
        rw [← ht1]
        dsimp only
        rw [List.getElem?_eraseIdx_of_ge _ _ _ (Nat.le_refl q)]
        exact hr

theorem joined_step_props (a : Nat) (E : sp3_env) (jclock_ns : Nat) (sp : sp3) (tree : cn_tree)
    (c : Nat) (sp1 : sp3) (tree1 : cn_tree)
    (h : joined_step E jclock_ns sp tree c = Except.ok (sp1, tree1))
    (hroot : ∀ n, tree.ct_nodes.head? = some n → n.addr ≠ c) :
    tree1.ct_nodes.map (fun n => n.addr) = (tree.ct_nodes.map (fun n => n.addr)).erase c ∧
    tree1.ct_nodes.length + 1 = tree.ct_nodes.length ∧
    tree1.ct_fanout = usub32 tree.ct_fanout 1 ∧
    tree1.ct_nodes.head? = tree.ct_nodes.head? ∧
    (joined_safe a tree → joined_safe a tree1) ∧
    (joined_safe a tree → unlinked a sp → unlinked a sp1) := by
  obtain ⟨q, tnc, hq, hn, hc, ht1, hm⟩ := joined_step_inv E jclock_ns sp tree c sp1 tree1 h
  have hlt : q < tree.ct_nodes.length := (List.getElem?_eq_some.mp hn).1
  have hq0 : 0 < q := by
    rcases Nat.eq_zero_or_pos q with h0 | h0
    · subst h0
      exfalso
      refine hroot tnc ?_ hc
      rw [← hn]
      cases tree.ct_nodes <;> simp
    · exact h0
  have hhead : tree1.ct_nodes.head? = tree.ct_nodes.head? := by
    rw [ht1]
    exact eraseIdx_head _ q hq0
  have hsafe : joined_safe a tree → joined_safe a tree1 := by
    intro hs
    refine ⟨fun n hh => hs.1 n (hhead ▸ hh), fun n hmem ha => ?_⟩
    refine hs.2 n ?_ ha
    rw [ht1] at hmem
    exact (List.eraseIdx_sublist _ _).subset hmem
  refine ⟨?_, ?_, ?_, hhead, hsafe, fun hs hu => ?_⟩
  · rw [ht1, ← hq]
    exact erase_map_addr _ c
  · rw [ht1]
    dsimp only
    rw [List.length_eraseIdx, if_pos hlt]
    omega
  · rw [ht1]
  · cases hr : tree.ct_nodes[q + 1]? with
    | none =>
      rw [hr] at hm
      rw [hm]
      exact hu
    | some right =>
      rw [hr] at hm
      exact unlinked_dirty_node_locked a E jclock_ns sp tree1 q sp1 (hsafe hs) hm.2 hu

theorem joined_loop_append (E : sp3_env) (jclock_ns : Nat) (l1 l2 : List Nat) :
    ∀ (sp : sp3) (tree : cn_tree) (r : sp3 × cn_tree),
      joined_loop E jclock_ns (l1 ++ l2) sp tree = Except.ok r →
      ∃ spA treeA, joined_loop E jclock_ns l1 sp tree = Except.ok (spA, treeA) ∧
        joined_loop E jclock_ns l2 spA treeA = Except.ok r := by
  induction l1 with
  | nil =>
    intro sp tree r h
    exact ⟨sp, tree, rfl, h⟩
  | cons c rest ih =>
    intro sp tree r h
    rw [List.cons_append] at h
    simp only [joined_loop] at h ⊢
    cases hs : joined_step E jclock_ns sp tree c with
    | error e => rw [hs] at h; cases h
    | ok r2 =>
      obtain ⟨s2, t2⟩ := r2
      rw [hs] at h
      exact ih s2 t2 r h

theorem joined_loop_inv (a : Nat) (E : sp3_env) (jclock_ns : Nat) (l : List Nat) :
    ∀ (sp : sp3) (tree : cn_tree) (sp1 : sp3) (tree1 : cn_tree),
      joined_loop E jclock_ns l sp tree = Except.ok (sp1, tree1) →
      (∀ n, tree.ct_nodes.head? = some n → n.addr ∉ l) →
      tree1.ct_nodes.map (fun n => n.addr) = (tree.ct_nodes.map (fun n => n.addr)).diff l ∧
      tree1.ct_nodes.length + l.length = tree.ct_nodes.length ∧
      (l.length ≤ tree.ct_fanout → tree.ct_fanout < 4294967296 →
        tree1.ct_fanout + l.length = tree.ct_fanout) ∧
      tree1.ct_nodes.head? = tree.ct_nodes.head? ∧
      (joined_safe a tree → joined_safe a tree1) ∧
      (joined_safe a tree → unlinked a sp → unlinked a sp1) := by
  induction l with
  | nil =>
    intro sp tree sp1 tree1 h _
    simp only [joined_loop] at h
    cases h
    exact ⟨by simp, rfl, fun _ _ => rfl, rfl, id, fun _ hu => hu⟩
  | cons c rest ih =>
    intro sp tree sp1 tree1 h hroot
    simp only [joined_loop] at h
    cases hs : joined_step E jclock_ns sp tree c with
    | error e => rw [hs] at h; cases h
    | ok r2 =>
      obtain ⟨s2, t2⟩ := r2
      rw [hs] at h
      obtain ⟨a1, a2, a3, a4, a5, a6⟩ := joined_step_props a E jclock_ns sp tree c s2 t2 hs
        (fun n hn e => hroot n hn (by rw [e]; exact List.mem_cons_self _ _))
      obtain ⟨b1, b2, b3, b4, b5, b6⟩ := ih s2 t2 sp1 tree1 h
        (fun n hn hm => hroot n (a4 ▸ hn) (List.mem_cons_of_mem _ hm))
      refine ⟨?_, ?_, fun h1 h2 => ?_, b4.trans a4, fun hs1 => b5 (a5 hs1),
        fun hs1 hu => b6 (a5 hs1) (a6 hs1 hu)⟩
      · rw [b1, a1, List.diff_cons]
      · rw [List.length_cons]
        omega
      · rw [List.length_cons] at h1 ⊢
        have hu1 : usub32 tree.ct_fanout 1 + 1 = tree.ct_fanout :=
          usub32_one _ (by omega) h2
        have := b3 (by rw [a3]; omega) (by rw [a3]; omega)
        rw [a3] at this
        omega

theorem is_joined_head (tree : cn_tree) (n : cn_tree_node)
    (h : tree.ct_nodes.head? = some n) : is_joined tree n.addr = false := by
  unfold is_joined
  cases hl : tree.ct_nodes with
  | nil => rw [hl] at h; cases h
  | cons x xs =>
    rw [hl] at h
    cases h
    simp [List.findIdx_cons, cn_node_isleaf, cn_node_isroot]

theorem dirty_tree_step_inv (E : sp3_env) (jclock_ns idx : Nat) (sp : sp3) (dl : sp3_dlist)
    (trees : List cn_tree) (t : Nat) (sp1 : sp3) (dl1 : sp3_dlist) (trees1 : List cn_tree)
    (h : dirty_tree_step E jclock_ns idx sp dl trees t = Except.ok (sp1, dl1, trees1)) :
    ∃ tree dl0 st tree1, trees[t]? = some tree ∧
      dirty_nodes_loop E jclock_ns idx t (dl.spt_dnode_listv t idx)
        { sp := sp, dl := dl0, tree := tree } = Except.ok st ∧
      joined_loop E jclock_ns st.joined st.sp st.tree = Except.ok (sp1, tree1) ∧
      trees1 = trees.set t tree1 := by
  unfold dirty_tree_step at h
  dsimp only at h
  cases ht : trees[t]? with
  | none => rw [ht] at h; cases h
  | some tree =>
    rw [ht] at h
    dsimp only at h
    split_ifs at h
    generalize Function.update dl.sp_dtree_listv idx
      ((dl.sp_dtree_listv idx).filter (fun x => x != t)) = tl0 at h
    generalize ({ dl with sp_dtree_listv := tl0 } : sp3_dlist) = dl0 at h
    cases hn : dirty_nodes_loop E jclock_ns idx t (dl.spt_dnode_listv t idx)
        { sp := sp, dl := dl0, tree := tree } with
    | error e => rw [hn] at h; cases h
    | ok st =>
      rw [hn] at h
      dsimp only at h
      split_ifs at h
      cases hj : joined_loop E jclock_ns st.joined st.sp st.tree with
      | error e => rw [hj] at h; cases h
      | ok r =>
        obtain ⟨s2, t2⟩ := r
        rw [hj] at h
        cases h
        exact ⟨tree, dl0, st, t2, rfl, hn, hj, rfl⟩

theorem nodes_loop_head (E : sp3_env) (jclock_ns idx t : Nat) (l : List Nat)
    (sp : sp3) (dl0 : sp3_dlist) (tree : cn_tree) (st : dirty_state)
    (hn : dirty_nodes_loop E jclock_ns idx t l { sp := sp, dl := dl0, tree := tree } =
      Except.ok st) :
    st.joined = l.filter (is_joined tree) ∧
    ∀ n, st.tree.ct_nodes.head? = some n → n.addr ∉ st.joined := by
  obtain ⟨a1, a2, _⟩ := dirty_nodes_loop_inv 0 E jclock_ns idx t l _ st hn
  dsimp only at a1 a2
  rw [List.nil_append] at a2
  refine ⟨a2, fun n hh hm => ?_⟩
  rw [a2] at hm
  have h1 := (List.mem_filter.mp hm).2
  rw [← init_only_is_joined tree st.tree a1, is_joined_head st.tree n hh] at h1
  cases h1

theorem dirty_tree_step_unlinked (a : Nat) (E : sp3_env) (jclock_ns idx : Nat) (sp : sp3)
    (dl : sp3_dlist) (trees : List cn_tree) (t : Nat) (sp1 : sp3) (dl1 : sp3_dlist)
    (trees1 : List cn_tree)
    (h : dirty_tree_step E jclock_ns idx sp dl trees t = Except.ok (sp1, dl1, trees1))
    (hs : ∀ T ∈ trees, joined_safe a T) :
    (∀ T ∈ trees1, joined_safe a T) ∧ (unlinked a sp → unlinked a sp1) ∧
    (∀ t1, t1 ≠ t → trees1[t1]? = trees[t1]?) := by
  obtain ⟨tree, dl0, st, tree1, ht, hn, hj, he⟩ :=
    dirty_tree_step_inv E jclock_ns idx sp dl trees t sp1 dl1 trees1 h
  have hst := hs tree (List.getElem?_mem ht)
  obtain ⟨a1, _, a3⟩ := dirty_nodes_loop_inv a E jclock_ns idx t _ _ st hn
  obtain ⟨_, c2⟩ := nodes_loop_head E jclock_ns idx t _ sp dl0 tree st hn
  obtain ⟨_, _, _, _, b5, b6⟩ := joined_loop_inv a E jclock_ns st.joined st.sp st.tree sp1 tree1
    hj c2
  have hst1 := init_only_safe a _ _ a1 hst
  refine ⟨fun T hT => ?_, fun hu => b6 hst1 (a3 hst (Or.inl hu)), fun t1 ht1 => ?_⟩
  · rw [he] at hT
    rcases List.mem_or_eq_of_mem_set hT with hm | hm
    · exact hs T hm
    · rw [hm]
      exact b5 hst1
  · rw [he, List.getElem?_set_ne (Ne.symm ht1)]

theorem dirty_trees_loop_unlinked (a : Nat) (E : sp3_env) (jclock_ns idx : Nat) (l : List Nat) :
    ∀ (sp : sp3) (dl : sp3_dlist) (trees : List cn_tree) (sp1 : sp3) (dl1 : sp3_dlist)
      (trees1 : List cn_tree),
      dirty_trees_loop E jclock_ns idx l sp dl trees = Except.ok (sp1, dl1, trees1) →
      (∀ T ∈ trees, joined_safe a T) →
      (∀ T ∈ trees1, joined_safe a T) ∧ (unlinked a sp → unlinked a sp1) ∧
      (∀ t1, t1 ∉ l → trees1[t1]? = trees[t1]?) := by
  induction l with
  | nil =>
    intro sp dl trees sp1 dl1 trees1 h hs
    simp only [dirty_trees_loop] at h
    cases h
    exact ⟨hs, id, fun _ _ => rfl⟩
  | cons t rest ih =>
    intro sp dl trees sp1 dl1 trees1 h hs
    simp only [dirty_trees_loop] at h
    cases hstep : dirty_tree_step E jclock_ns idx sp dl trees t with
    | error e => rw [hstep] at h; cases h
    | ok r =>
      obtain ⟨sp2, dl2, trees2⟩ := r
      rw [hstep] at h
      obtain ⟨a1, a2, a3⟩ := dirty_tree_step_unlinked a E jclock_ns idx sp dl trees t sp2 dl2
        trees2 hstep hs
      obtain ⟨b1, b2, b3⟩ := ih sp2 dl2 trees2 sp1 dl1 trees1 h a1
      refine ⟨b1, fun hu => b2 (a2 hu), fun t1 ht1 => ?_⟩
      rw [b3 t1 (fun hm => ht1 (List.mem_cons_of_mem _ hm)),
        a3 t1 (fun e => ht1 (by rw [e]; exact List.mem_cons_self _ _))]

theorem dirty_trees_loop_append (E : sp3_env) (jclock_ns idx : Nat) (l1 l2 : List Nat) :
    ∀ (sp : sp3) (dl : sp3_dlist) (trees : List cn_tree) (r : sp3 × sp3_dlist × List cn_tree),
      dirty_trees_loop E jclock_ns idx (l1 ++ l2) sp dl trees = Except.ok r →
      ∃ sp0 dl0 trees0,
        dirty_trees_loop E jclock_ns idx l1 sp dl trees = Except.ok (sp0, dl0, trees0) ∧
        dirty_trees_loop E jclock_ns idx l2 sp0 dl0 trees0 = Except.ok r := by
  induction l1 with
  | nil =>
    intro sp dl trees r h
    exact ⟨sp, dl, trees, rfl, h⟩
  | cons c rest ih =>
    intro sp dl trees r h
    rw [List.cons_append] at h
    simp only [dirty_trees_loop] at h ⊢
    cases hs : dirty_tree_step E jclock_ns idx sp dl trees c with
    | error e => rw [hs] at h; cases h
    | ok r2 =>
      obtain ⟨s2, d2, t2⟩ := r2
      rw [hs] at h
      exact ih s2 d2 t2 r h

theorem joined_safe_of_nodup (tree : cn_tree) (p : Nat) (tn : cn_tree_node)
    (hp : tree.ct_nodes[p]? = some tn) (hp0 : 0 < p)
    (hnd : (tree.ct_nodes.map (fun n => n.addr)).Nodup)
    (hroute : tn.tn_route_node = false) (hinit : tn.spn_initialized = true)
    (hempty : tn.tn_ns.ns_kvsets = 0) : joined_safe tn.addr tree := by
  refine ⟨fun n hh ha => ?_, fun n hm ha => ?_⟩
  · have h0 : tree.ct_nodes[0]? = some n := by
      rw [← hh]
      cases tree.ct_nodes <;> simp
    have := nodup_addr_index tree.ct_nodes hnd 0 p n tn h0 hp ha
    omega
  · obtain ⟨i, hi⟩ := List.mem_iff_getElem?.mp hm
    have hip := nodup_addr_index tree.ct_nodes hnd i p n tn hi hp ha
    subst hip
    rw [hp] at hi
    cases hi
    exact ⟨hroute, hinit, hempty⟩

theorem is_joined_of_nodup (tree : cn_tree) (p : Nat) (tn : cn_tree_node)
    (hp : tree.ct_nodes[p]? = some tn) (hp0 : 0 < p)
    (hnd : (tree.ct_nodes.map (fun n => n.addr)).Nodup)
    (hroute : tn.tn_route_node = false) : is_joined tree tn.addr = true := by
  unfold is_joined
  dsimp only
  rw [findIdx_addr tree.ct_nodes hnd p tn hp, hp]
  dsimp only
  rw [hroute]
  unfold cn_node_isleaf cn_node_isroot
  cases p with
  | zero => omega
  | succ k => rfl

/-- C29: a drain (`sp3_process_dirtylist`) whose active side lists the tree
`ti` among its dirty trees (no tree twice) and the leaf `tn` among the dirty
nodes of that tree, next to any other dirty trees and dirty nodes, such as the
right neighbour that `sp3_work_complete` enqueues together with the leaf.  The
leaf is an initialized node (not the first one) with a null route pointer and
no kvsets, the nodes of its tree are distinct, it is a node of no other tree,
and the fanout of the tree (a `uint`) is not less than the number of dirty
nodes of the tree that go on the list `joined`.  If the drain returns, it ran
as follows.  The loop over the dirty trees reached the tree `ti` unchanged, in
a state `sp0`, `trees0`.  The loop over its dirty nodes ended in a state `st`
whose tree differs from `tree` only in nodes that became initialized, in which
the leaf is in none of the indexes, not on the list of all nodes and not on
the root-ready list (`unlinked`), and whose list `joined` holds the dirty
leaves of the tree with a null route pointer, the leaf among them.  The loop
over `joined` reached the leaf in a state `spA`, `treeA`, where the leaf was at
a position `q > 0`; it took the leaf out of the node list, lowered the fanout
by exactly one, and classified the node that followed the leaf with
`sp3_dirty_node_locked` at the position `q`, which that node has taken (the
scheduler is left as it was if no node followed).  At the end the tree `tree1`
at position `ti` holds the identities of `tree` without those on `joined`, in
the same order; the leaf is not a node of it; its first node, the root, is the
first node of `tree`; its number of nodes and its fanout are lower by the
length of `joined` (by one when the leaf is the only joined node); and the
leaf is still `unlinked`. -/
theorem C29_joined_leaf_drain (E : sp3_env) (jclock_ns : Nat) (sp : sp3) (dl : sp3_dlist)
    (trees : List cn_tree) (ti : Nat) (tree : cn_tree) (p : Nat) (tn : cn_tree_node)
    (hdt : ti ∈ dl.sp_dtree_listv (dl.sp_dlist_idx % 2))
    (hdtn : (dl.sp_dtree_listv (dl.sp_dlist_idx % 2)).Nodup)
    (hdn : tn.addr ∈ dl.spt_dnode_listv ti (dl.sp_dlist_idx % 2))
    (ht : trees[ti]? = some tree) (hp : tree.ct_nodes[p]? = some tn) (hp0 : 0 < p)
    (hnd : (tree.ct_nodes.map (fun n => n.addr)).Nodup)
    (hother : ∀ (t : Nat) (T : cn_tree), t ≠ ti → trees[t]? = some T →
      ∀ n ∈ T.ct_nodes, n.addr ≠ tn.addr)
    (hroute : tn.tn_route_node = false) (hinit : tn.spn_initialized = true)
    (hempty : tn.tn_ns.ns_kvsets = 0)
    (hfan0 : ((dl.spt_dnode_listv ti (dl.sp_dlist_idx % 2)).filter (is_joined tree)).length ≤
      tree.ct_fanout)
    (hfan1 : tree.ct_fanout < 4294967296)
    (sp1 : sp3) (dl1 : sp3_dlist) (trees1 : List cn_tree)
    (h : sp3_process_dirtylist E jclock_ns sp dl trees = Except.ok (sp1, dl1, trees1)) :
    ∃ pre post sp0 dl0 trees0 dlx st jpre jpost spA treeA spB treeB q sp2 dl2 tree1,
      dl.sp_dtree_listv (dl.sp_dlist_idx % 2) = pre ++ ti :: post ∧
      dirty_trees_loop E jclock_ns (dl.sp_dlist_idx % 2) pre sp
        { dl with sp_dlist_idx := u32 (dl.sp_dlist_idx + 1) } trees =
          Except.ok (sp0, dl0, trees0) ∧
      trees0[ti]? = some tree ∧
      dirty_nodes_loop E jclock_ns (dl.sp_dlist_idx % 2) ti
        (dl.spt_dnode_listv ti (dl.sp_dlist_idx % 2)) { sp := sp0, dl := dlx, tree := tree } =
          Except.ok st ∧
      init_only tree st.tree ∧
      unlinked tn.addr st.sp ∧
      st.joined = (dl.spt_dnode_listv ti (dl.sp_dlist_idx % 2)).filter (is_joined tree) ∧
      st.joined = jpre ++ tn.addr :: jpost ∧
      joined_loop E jclock_ns jpre st.sp st.tree = Except.ok (spA, treeA) ∧
      (∃ tnA, treeA.ct_nodes[q]? = some tnA ∧ tnA.addr = tn.addr) ∧ 0 < q ∧
      joined_step E jclock_ns spA treeA tn.addr = Except.ok (spB, treeB) ∧
      treeB.ct_nodes = treeA.ct_nodes.eraseIdx q ∧
      treeB.ct_fanout + 1 = treeA.ct_fanout ∧
      (match treeA.ct_nodes[q + 1]? with
       | none => spB = spA
       | some right => treeB.ct_nodes[q]? = some right ∧
           sp3_dirty_node_locked E jclock_ns spA treeB q = Except.ok spB) ∧
      joined_loop E jclock_ns jpost spB treeB = Except.ok (sp2, tree1) ∧
      dirty_trees_loop E jclock_ns (dl.sp_dlist_idx % 2) post sp2 dl2 (trees0.set ti tree1) =
        Except.ok (sp1, dl1, trees1) ∧
      trees1[ti]? = some tree1 ∧
      tree1.ct_nodes.map (fun n => n.addr) =
        (tree.ct_nodes.map (fun n => n.addr)).diff st.joined ∧
      (∀ n ∈ tree1.ct_nodes, n.addr ≠ tn.addr) ∧
      tree1.ct_nodes.head?.map (fun n => n.addr) = tree.ct_nodes.head?.map (fun n => n.addr) ∧
      tree1.ct_nodes.length + st.joined.length = tree.ct_nodes.length ∧
      tree1.ct_fanout + st.joined.length = tree.ct_fanout ∧
      unlinked tn.addr sp1 := by
  have hsafe0 : joined_safe tn.addr tree :=
    joined_safe_of_nodup tree p tn hp hp0 hnd hroute hinit hempty
  have hall : ∀ T ∈ trees, joined_safe tn.addr T := by
    intro T hT
    obtain ⟨t, ht1⟩ := List.mem_iff_getElem?.mp hT
    by_cases e : t = ti
    · subst e
      rw [ht] at ht1
      cases ht1
      exact hsafe0
    · have hno := hother t T e ht1
      exact ⟨fun n hh => hno n (List.mem_of_mem_head? hh), fun n hm ha => absurd ha (hno n hm)⟩
  unfold sp3_process_dirtylist at h
  dsimp only at h
  obtain ⟨pre, post, hTL⟩ := List.append_of_mem hdt
  rw [hTL] at h hdtn
  have hnotin : ti ∉ pre ∧ ti ∉ post := by
    rw [List.nodup_middle, List.nodup_cons] at hdtn
    simpa [not_or] using hdtn.1
  obtain ⟨sp0, dl0, trees0, h1, h2⟩ :=
    dirty_trees_loop_append E jclock_ns _ pre (ti :: post) _ _ _ _ h
  simp only [dirty_trees_loop] at h2
  cases hstep : dirty_tree_step E jclock_ns (dl.sp_dlist_idx % 2) sp0 dl0 trees0 ti with
  | error e => rw [hstep] at h2; cases h2
  | ok r =>
    obtain ⟨sp2, dl2, trees2⟩ := r
    rw [hstep] at h2
    dsimp only at h2
    obtain ⟨p1, _, p3⟩ := dirty_trees_loop_unlinked tn.addr E jclock_ns _ pre _ _ _ _ _ _ h1 hall
    obtain ⟨_, _, d3⟩ := dirty_trees_loop_dl E jclock_ns _ pre _ _ _ _ _ _ h1
    have ht0 : trees0[ti]? = some tree := by rw [p3 ti hnotin.1, ht]
    have hnl : dl0.spt_dnode_listv ti (dl.sp_dlist_idx % 2) =
        dl.spt_dnode_listv ti (dl.sp_dlist_idx % 2) := by
      rw [d3, if_neg]
      simp [hnotin.1]
    obtain ⟨tree0, dlx, st, tree1, e1, e2, e3, e4⟩ :=
      dirty_tree_step_inv E jclock_ns _ sp0 dl0 trees0 ti sp2 dl2 trees2 hstep
    rw [ht0] at e1
    cases e1
    rw [hnl] at e2
    obtain ⟨n1, _, n3⟩ := dirty_nodes_loop_inv tn.addr E jclock_ns _ ti _ _ st e2
    obtain ⟨m1, m2⟩ := nodes_loop_head E jclock_ns _ ti _ sp0 dlx tree st e2
    dsimp only at n1 n3
    have hust : unlinked tn.addr st.sp := n3 hsafe0 (Or.inr hdn)
    have hsafe1 := init_only_safe tn.addr _ _ n1 hsafe0
    obtain ⟨j1, j2, j3, j4, j5, j6⟩ :=
      joined_loop_inv tn.addr E jclock_ns st.joined st.sp st.tree sp2 tree1 e3 m2
    have hmemJ : tn.addr ∈ st.joined := by
      rw [m1]
      exact List.mem_filter.mpr ⟨hdn, is_joined_of_nodup tree p tn hp hp0 hnd hroute⟩
    obtain ⟨jpre, jpost, hJ⟩ := List.append_of_mem hmemJ
    have e5 := e3
    rw [hJ] at e5
    obtain ⟨spA, treeA, k1, k2⟩ :=
      joined_loop_append E jclock_ns jpre (tn.addr :: jpost) _ _ _ e5
    simp only [joined_loop] at k2
    cases hjs : joined_step E jclock_ns spA treeA tn.addr with
    | error e => rw [hjs] at k2; cases k2
    | ok rB =>
      obtain ⟨spB, treeB⟩ := rB
      rw [hjs] at k2
      dsimp only at k2
      obtain ⟨q, tnA, _, q2, q3, q4, q5⟩ :=
        joined_step_inv E jclock_ns spA treeA tn.addr spB treeB hjs
      obtain ⟨_, _, l3, l4, _, _⟩ :=
        joined_loop_inv tn.addr E jclock_ns jpre st.sp st.tree spA treeA k1
          (fun n hn hm => m2 n hn (by rw [hJ]; exact List.mem_append_left _ hm))
      have hlenJ : st.joined.length = jpre.length + (jpost.length + 1) := by
        rw [hJ, List.length_append, List.length_cons]
      have hfanst : st.tree.ct_fanout = tree.ct_fanout := n1.1
      have hJle : st.joined.length ≤ tree.ct_fanout := by rw [m1]; exact hfan0
      have hfA := l3 (by omega) (by omega)
      have hq0 : 0 < q := by
        rcases Nat.eq_zero_or_pos q with h0 | h0
        · subst h0
          exfalso
          refine hsafe1.1 tnA ?_ q3
          rw [← l4, ← q2]
          cases treeA.ct_nodes <;> simp
        · exact h0
      have hfB : treeB.ct_fanout + 1 = treeA.ct_fanout := by
        rw [q4]
        exact usub32_one _ (by omega) (by omega)
      have hlt : ti < trees0.length := (List.getElem?_eq_some.mp ht0).1
      have hall2 : ∀ T ∈ trees2, joined_safe tn.addr T := by
        intro T hT
        rw [e4] at hT
        rcases List.mem_or_eq_of_mem_set hT with hm | hm
        · exact p1 T hm
        · rw [hm]
          exact j5 hsafe1
      obtain ⟨_, r2, r3⟩ := dirty_trees_loop_unlinked tn.addr E jclock_ns _ post sp2 dl2 trees2
        sp1 dl1 trees1 h2 hall2
      have haddr : tree1.ct_nodes.map (fun n => n.addr) =
          (tree.ct_nodes.map (fun n => n.addr)).diff st.joined := by
        rw [j1, init_only_addrs tree st.tree n1]
      refine ⟨pre, post, sp0, dl0, trees0, dlx, st, jpre, jpost, spA, treeA, spB, treeB, q,
        sp2, dl2, tree1, hTL, h1, ht0, e2, n1, hust, m1, hJ, k1, ⟨tnA, q2, q3⟩, hq0, hjs,
        by rw [q4], hfB, q5, k2, by rw [← e4]; exact h2, ?_, haddr, ?_, ?_, ?_, ?_, r2 (j6 hsafe1 hust)⟩
      · rw [r3 ti hnotin.2, e4, List.getElem?_set, if_pos rfl, if_pos hlt]
      · intro n hn ha
        have hm : tn.addr ∈ tree1.ct_nodes.map (fun n => n.addr) :=
          List.mem_map.mpr ⟨n, hn, ha⟩
        rw [haddr] at hm
        exact ((List.Nodup.mem_diff_iff hnd).mp hm).2 hmemJ
      · rw [j4]
        exact init_only_head tree st.tree n1
      · rw [← n1.2.1]
        exact j2
      · rw [← hfanst]
        exact j3 (by omega) (by omega)

/-- C29, instance: after a join in a tree of a root and two leaves,
`sp3_work_complete` has enqueued the left leaf 1, whose route pointer is null,
and then the right leaf 2.  The drain returns, the tree is left with the root
and the leaf 2 and the fanout 1, and the leaf 1 is in no index and on no list
of the scheduler. -/
theorem C29_joined_leaf_drain_witness :
    ∃ sp1 dl1 tree1,
      sp3_process_dirtylist env_example 0 {}
        (sp3_dirty_node_enqueue (sp3_dirty_node_enqueue {} 0 1) 0 2)
        [joined_tree_example] = Except.ok (sp1, dl1, [tree1]) ∧
      tree1.ct_nodes.map (fun n => n.addr) = [0, 2] ∧ tree1.ct_fanout = 1 ∧
      unlinked 1 sp1 := by
  obtain ⟨_, _, _, _, _, _, _, _, _, _, _, _, _, _, _, _, _, _, _, _, _, _, _, _, _, _, _, _, _, _, _, _, _, _, _, _, _, _, _, _, hu⟩ :=
    C29_joined_leaf_drain env_example 0 {}
      (sp3_dirty_node_enqueue (sp3_dirty_node_enqueue {} 0 1) 0 2)
      [joined_tree_example] 0 joined_tree_example 1 { addr := 1, spn_initialized := true }
      (by decide) (by decide) (by decide) rfl rfl (by decide) (by decide)
      (fun t T ht hT => by
        cases t with
        | zero => exact absurd rfl ht
        | succ k => cases hT)
      rfl rfl rfl (by decide) (by decide) _ _ _ rfl
  exact ⟨_, _, _, rfl, rfl, rfl, hu⟩

/-! ## C31: the residue that the root planner leaves -/

theorem root_run_unclaimed (rmin wmax : Nat) (l : List kvset) (a b : Nat) :
    a ≤ (root_run rmin wmax l a b).1 ∧ (root_run rmin wmax l a b).1 ≤ a + l.length ∧
    ∀ k ∈ l.take ((root_run rmin wmax l a b).1 - a), k.workid = 0 := by
  induction l generalizing a b with
  | nil => simp [root_run]
  | cons x xs ih =>
    unfold root_run
    dsimp only
    by_cases hx : x.workid ≠ 0
    · rw [if_pos hx]
      simp
    · rw [if_neg hx]
      by_cases hb : a ≥ rmin ∧ b + (x.kst_kwlen + x.kst_vwlen) ≥ wmax
      · rw [if_pos hb]
        simp
      · rw [if_neg hb]
        obtain ⟨h1, h2, h3⟩ := ih (a + 1) (b + (x.kst_kwlen + x.kst_vwlen))
        refine ⟨by omega, by rw [List.length_cons]; omega, ?_⟩
        have he : (root_run rmin wmax xs (a + 1) (b + (x.kst_kwlen + x.kst_vwlen))).1 - a =
            ((root_run rmin wmax xs (a + 1) (b + (x.kst_kwlen + x.kst_vwlen))).1 - (a + 1)) + 1 := by
          omega
        rw [he, List.take_succ_cons]
        intro k hk
        rcases List.mem_cons.mp hk with hk | hk
        · rw [hk]
          exact not_not.mp hx
        · exact h3 k hk

theorem root_count_unclaimed (tn : cn_tree_node) (thresh : sp3_thresholds) (r W : Nat)
    (hcount : root_count tn thresh = some (r, W)) :
    1 ≤ r ∧ r ≤ (root_unclaimed tn.tn_kvset_list).length ∧
    ∀ k ∈ (root_unclaimed tn.tn_kvset_list).take r, k.workid = 0 := by
  unfold root_count at hcount
  cases hu : root_unclaimed tn.tn_kvset_list with
  | nil => rw [hu] at hcount; cases hcount
  | cons k newer =>
    rw [hu] at hcount
    simp only [Option.some.injEq] at hcount
    obtain ⟨h1, h2, h3⟩ := root_run_unclaimed thresh.rspill_runlen_min thresh.rspill_wlen_max
      newer 1 (k.kst_kwlen + k.kst_vwlen)
    rw [hcount] at h1 h2 h3
    dsimp only at h1 h2 h3
    refine ⟨h1, by rw [List.length_cons]; omega, ?_⟩
    have he : r = (r - 1) + 1 := by omega
    rw [he, List.take_succ_cons]
    intro x hx
    rcases List.mem_cons.mp hx with hx | hx
    · rw [hx]
      unfold root_unclaimed at hu
      have := List.head_dropWhile_not (fun k => k.workid != 0) tn.tn_kvset_list.reverse
        (by rw [hu]; exact List.cons_ne_nil _ _)
      simp only [hu, List.head_cons, bne_iff_ne, ne_eq, decide_not, Bool.not_eq_true,
        Bool.not_eq_eq_eq_not, Bool.not_true, decide_eq_false_iff_not, not_not] at this
      simpa using this
    · exact h3 x hx

theorem split_plan_flag_set (F jclock_ns : Nat) (tree : cn_tree) (tn : cn_tree_node)
    (thresh : sp3_thresholds) (hflag : tn.tn_ss_splitting = true) :
    sp3_work_wtype_split F jclock_ns tree tn thresh =
      if sp3_work_splittable tn thresh = true ∧
          (tree.ct_fanout : Int) < (F : Int) - tree.ct_split_cnt then
        (tree, tn,
         { kvsets := if tn.tn_ss_spilling = 0 ∧ list_last_entry_or_null tn.tn_kvset_list ≠
               le_ptr.null then tn.tn_ns.ns_kvsets else 0,
           mark := list_last_entry_or_null tn.tn_kvset_list,
           action := cn_action.CN_ACTION_SPLIT, rule := cn_rule.CN_RULE_SPLIT })
      else
        ({ tree with ct_split_cnt := tree.ct_split_cnt - 1 },
         { tn with tn_ss_splitting := false, tn_ss_visits := 0 },
         { kvsets := 0, mark := le_ptr.null,
           action := cn_action.CN_ACTION_SPLIT, rule := cn_rule.CN_RULE_SPLIT }) := by
  unfold sp3_work_wtype_split
  dsimp only
  by_cases hc : sp3_work_splittable tn thresh = true ∧
      (tree.ct_fanout : Int) < (F : Int) - tree.ct_split_cnt
  · rw [if_pos hc, if_pos (by simpa using hc)]
    simp [hflag]
  · rw [if_neg hc, if_neg (by simpa using hc)]
    simp [hflag]

theorem last_entry_ne_null (kvs : List kvset) (h : kvs ≠ []) :
    list_last_entry_or_null kvs = le_ptr.entry (kvs.length - 1) := by
  unfold list_last_entry_or_null
  rw [if_neg (fun e => h (List.length_eq_zero.mp e))]

/-- C32: the planning part of `sp3_work` for the work type split, on a leaf
whose split flag is set and whose kvset list is as long as its kvset count
says.  While the leaf is splittable and the tree expandable: with
`spilling_count > 0` the planner returns `kvsets = 0`, `cw_resched` is true, and
the node and the tree are as before (so that the next call finds the same
state); with `spilling_count = 0` the planner returns all the kvsets of the
node, marked from the oldest, with the action split, and `cw_resched` is false.
When the leaf is not splittable or the tree not expandable, the planner clears
the split flag, lowers the count of active splits by one and returns no work
(`kvsets = 0`, null mark), and `cw_resched` is false. -/
theorem C32_split_flag_set (E : sp3_env) (jclock_ns : Nat) (tree : cn_tree) (idx : Nat)
    (tn : cn_tree_node) (thresh : sp3_thresholds)
    (hleaf : cn_node_isroot idx = false)
    (hflag : tn.tn_ss_splitting = true)
    (hlist : tn.tn_kvset_list.length = tn.tn_ns.ns_kvsets) :
    (sp3_work_splittable tn thresh = true →
      (tree.ct_fanout : Int) < (E.CN_FANOUT_MAX : Int) - tree.ct_split_cnt →
      (tn.tn_ss_spilling > 0 →
        sp3_work_plan E jclock_ns tree idx tn sp3_work_type.wtype_split thresh =
          Except.ok (some (tree_set_node tree idx tn,
            { kvsets := 0, mark := le_ptr.entry (tn.tn_kvset_list.length - 1),
              action := cn_action.CN_ACTION_SPLIT, rule := cn_rule.CN_RULE_SPLIT }, true))) ∧
      (tn.tn_ss_spilling = 0 →
        0 < tn.tn_kvset_list.length ∧
        sp3_work_plan E jclock_ns tree idx tn sp3_work_type.wtype_split thresh =
          Except.ok (some (tree_set_node tree idx tn,
            { kvsets := tn.tn_kvset_list.length,
              mark := le_ptr.entry (tn.tn_kvset_list.length - 1),
              action := cn_action.CN_ACTION_SPLIT, rule := cn_rule.CN_RULE_SPLIT }, false)))) ∧
    (¬ (sp3_work_splittable tn thresh = true ∧
        (tree.ct_fanout : Int) < (E.CN_FANOUT_MAX : Int) - tree.ct_split_cnt) →
      sp3_work_plan E jclock_ns tree idx tn sp3_work_type.wtype_split thresh =
        Except.ok (some (tree_set_node { tree with ct_split_cnt := tree.ct_split_cnt - 1 } idx
            { tn with tn_ss_splitting := false, tn_ss_visits := 0 },
          { kvsets := 0, mark := le_ptr.null,
            action := cn_action.CN_ACTION_SPLIT, rule := cn_rule.CN_RULE_SPLIT }, false))) := by
  have hplan : sp3_work_plan E jclock_ns tree idx tn sp3_work_type.wtype_split thresh =
      Except.ok (some (tree_set_node
        (sp3_work_wtype_split E.CN_FANOUT_MAX jclock_ns tree tn thresh).1 idx
        (sp3_work_wtype_split E.CN_FANOUT_MAX jclock_ns tree tn thresh).2.1,
        (sp3_work_wtype_split E.CN_FANOUT_MAX jclock_ns tree tn thresh).2.2,
        decide ((sp3_work_wtype_split E.CN_FANOUT_MAX jclock_ns tree tn thresh).2.2.mark ≠
          le_ptr.null) &&
        decide ((sp3_work_wtype_split E.CN_FANOUT_MAX jclock_ns tree tn thresh).2.2.kvsets =
          0))) := by
    unfold sp3_work_plan
    rw [hleaf]
    rfl
  rw [hplan, split_plan_flag_set E.CN_FANOUT_MAX jclock_ns tree tn thresh hflag]
  refine ⟨fun hs he => ?_, fun hn => ?_⟩
  · have hk : 0 < tn.tn_ns.ns_kvsets := by
      unfold sp3_work_splittable at hs
      simp only [Bool.and_eq_true, decide_eq_true_eq] at hs
      exact hs.1.2
    have hne : tn.tn_kvset_list ≠ [] := by
      intro e
      rw [e] at hlist
      simp at hlist
      omega
    rw [if_pos ⟨hs, he⟩, last_entry_ne_null _ hne]
    refine ⟨fun hsp => ?_, fun hsp => ⟨by omega, ?_⟩⟩
    · rw [if_neg (fun h => by omega)]
      rfl
    · rw [if_pos ⟨hsp, fun h => by cases h⟩, hlist]
      have h0 : decide (tn.tn_ns.ns_kvsets = 0) = false := decide_eq_false (by omega)
      dsimp only
      rw [h0]
      rfl
  · rw [if_neg hn]
    rfl

/-- C32, instance: a leaf with one kvset, its split flag set, above its split
size, in a tree with room, and two spills active into it: the planner returns
no kvsets and `cw_resched` is true. -/
theorem C32_split_flag_set_witness :
    sp3_work_plan env_example 0
      { ct_nodes := [{}, { addr := 1, tn_kvset_list := [{ dgen := 1 }],
                           tn_ns := { ns_kvsets := 1, ns_clen := 200 }, tn_split_size := 100,
                           tn_ss_splitting := true, tn_ss_spilling := 2 }],
        ct_fanout := 1, ct_split_cnt := 1 } 1
      { addr := 1, tn_kvset_list := [{ dgen := 1 }],
        tn_ns := { ns_kvsets := 1, ns_clen := 200 }, tn_split_size := 100,
        tn_ss_splitting := true, tn_ss_spilling := 2 }
      sp3_work_type.wtype_split { split_cnt_max := 2 } =
      Except.ok (some (
        { ct_nodes := [{}, { addr := 1, tn_kvset_list := [{ dgen := 1 }],
                             tn_ns := { ns_kvsets := 1, ns_clen := 200 }, tn_split_size := 100,
                             tn_ss_splitting := true, tn_ss_spilling := 2 }],
          ct_fanout := 1, ct_split_cnt := 1 },
        { kvsets := 0, mark := le_ptr.entry 0,
          action := cn_action.CN_ACTION_SPLIT, rule := cn_rule.CN_RULE_SPLIT }, true)) :=
  ((C32_split_flag_set env_example 0
      { ct_nodes := [{}, { addr := 1, tn_kvset_list := [{ dgen := 1 }],
                           tn_ns := { ns_kvsets := 1, ns_clen := 200 }, tn_split_size := 100,
                           tn_ss_splitting := true, tn_ss_spilling := 2 }],
        ct_fanout := 1, ct_split_cnt := 1 } 1
      { addr := 1, tn_kvset_list := [{ dgen := 1 }],
        tn_ns := { ns_kvsets := 1, ns_clen := 200 }, tn_split_size := 100,
        tn_ss_splitting := true, tn_ss_spilling := 2 }
      { split_cnt_max := 2 } rfl rfl rfl).1 (by decide) (by decide)).1 (by decide)

/-! ## C33: candidates without work in sp3_check_rb_tree -/

theorem submit_rbt (sp : sp3) (trees : List cn_tree) (ti : Nat) (w : cn_compaction_work)
    (qnum debug : Nat) (sp1 : sp3) (trees1 : List cn_tree) (w1 : cn_compaction_work)
    (h : sp3_submit sp trees ti w qnum debug = Except.ok (sp1, trees1, w1)) :
    sp1.rbt = sp.rbt := by
  unfold sp3_submit at h
  dsimp only at h
  repeat' split at h
  all_goals first
    | contradiction
    | (cases h; rfl)

theorem check_rb_loop_frame (E : sp3_env) (jclock_ns now : Nat) (wtype : sp3_work_type)
    (threshold qnum debug : Nat) :
    ∀ (entries : List sp3_rbe) (sp : sp3) (trees : List cn_tree) (wp : cn_compaction_work)
      (sp1 : sp3) (trees1 : List cn_tree) (wp1 : cn_compaction_work) (sel : Option Nat),
      sp3_check_rb_loop E jclock_ns now wtype threshold qnum debug entries sp trees wp =
        Except.ok (sp1, trees1, wp1, sel) →
      (∀ ty, ty ≠ wtype → sp1.rbt ty = sp.rbt ty) ∧
      (∀ a, a ∉ entries.map sp3_rbe.spn →
        rb_weight (sp1.rbt wtype) a = rb_weight (sp.rbt wtype) a) := by
  intro entries
  induction entries with
  | nil =>
    intro sp trees wp sp1 trees1 wp1 sel h
    unfold sp3_check_rb_loop at h
    cases h
    exact ⟨fun _ _ => rfl, fun _ _ => rfl⟩
  | cons rbe rest ih =>
    intro sp trees wp sp1 trees1 wp1 sel h
    unfold sp3_check_rb_loop at h
    by_cases hth : rbe.rbe_weight < threshold
    · rw [if_pos hth] at h
      cases h
      exact ⟨fun _ _ => rfl, fun _ _ => rfl⟩
    · rw [if_neg hth] at h
      cases hf : find_tree trees rbe.spn with
      | none =>
        rw [hf] at h
        cases h
      | some q =>
        obtain ⟨ti, tree, idx⟩ := q
        rw [hf] at h
        dsimp only at h
        cases hw : sp3_work E jclock_ns now tree idx wtype sp.thresh debug wp with
        | error e =>
          rw [hw] at h
          cases h
        | ok r =>
          obtain ⟨tree1, w1⟩ := r
          rw [hw] at h
          dsimp only at h
          have hrem : (∀ ty, ty ≠ wtype →
                (sp3_node_remove sp rbe.spn wtype).rbt ty = sp.rbt ty) ∧
              (∀ a, a ∉ (rbe :: rest).map sp3_rbe.spn →
                rb_weight ((sp3_node_remove sp rbe.spn wtype).rbt wtype) a =
                  rb_weight (sp.rbt wtype) a) := by
            refine ⟨fun ty hty => ?_, fun a ha => ?_⟩
            · rw [rbt_node_remove, if_neg hty]
            · rw [node_remove_weight, if_neg]
              intro hh
              exact ha (by rw [hh.2]; exact List.mem_map_of_mem _ (List.mem_cons_self _ _))
          have hsub : ∀ a, a ∉ (rbe :: rest).map sp3_rbe.spn → a ∉ rest.map sp3_rbe.spn := by
            intro a ha hm
            exact ha (by rw [List.map_cons]; exact List.mem_cons_of_mem _ hm)
          by_cases ha : w1.cw_action ≠ cn_action.CN_ACTION_NONE
          · rw [if_pos ha] at h
            cases hs : sp3_submit (sp3_node_remove sp rbe.spn wtype) (trees.set ti tree1) ti w1
                qnum debug with
            | error e =>
              rw [hs] at h
              cases h
            | ok r2 =>
              obtain ⟨sp2, trees2, w2⟩ := r2
              rw [hs] at h
              dsimp only at h
              cases h
              have hr := submit_rbt _ _ _ _ _ _ _ _ _ hs
              rw [hr]
              exact hrem
          · rw [if_neg ha] at h
            by_cases hr : w1.cw_resched = true
            · rw [if_pos hr] at h
              obtain ⟨h1, h2⟩ := ih sp _ _ sp1 trees1 wp1 sel h
              exact ⟨h1, fun a ha => h2 a (hsub a ha)⟩
            · rw [if_neg hr] at h
              obtain ⟨h1, h2⟩ := ih (sp3_node_remove sp rbe.spn wtype) _ _ sp1 trees1 wp1 sel h
              refine ⟨fun ty hty => (h1 ty hty).trans (hrem.1 ty hty), fun a ha => ?_⟩
              exact (h2 a (hsub a ha)).trans (hrem.2 a ha)

theorem check_rb_loop_append (E : sp3_env) (jclock_ns now : Nat) (wtype : sp3_work_type)
    (threshold qnum debug : Nat) (rest : List sp3_rbe) :
    ∀ (pre : List sp3_rbe) (sp : sp3) (trees : List cn_tree) (wp : cn_compaction_work)
      (spA : sp3) (treesA : List cn_tree) (wA : cn_compaction_work),
      (∀ x ∈ pre, threshold ≤ x.rbe_weight) →
      sp3_check_rb_loop E jclock_ns now wtype threshold qnum debug pre sp trees wp =
        Except.ok (spA, treesA, wA, none) →
      sp3_check_rb_loop E jclock_ns now wtype threshold qnum debug (pre ++ rest) sp trees wp =
        sp3_check_rb_loop E jclock_ns now wtype threshold qnum debug rest spA treesA wA := by
  intro pre
  induction pre with
  | nil =>
    intro sp trees wp spA treesA wA _ h
    unfold sp3_check_rb_loop at h
    cases h
    rfl
  | cons rbe pre ih =>
    intro sp trees wp spA treesA wA hall h
    have hth : ¬ rbe.rbe_weight < threshold :=
      Nat.not_lt.mpr (hall rbe (List.mem_cons_self _ _))
    have hall1 : ∀ x ∈ pre, threshold ≤ x.rbe_weight :=
      fun x hx => hall x (List.mem_cons_of_mem _ hx)
    rw [List.cons_append]
    unfold sp3_check_rb_loop at h
    conv_lhs => unfold sp3_check_rb_loop
    rw [if_neg hth] at h ⊢
    cases hf : find_tree trees rbe.spn with
    | none =>
      rw [hf] at h
      cases h
    | some q =>
      obtain ⟨ti, tree, idx⟩ := q
      rw [hf] at h
      dsimp only at h ⊢
      cases hw : sp3_work E jclock_ns now tree idx wtype sp.thresh debug wp with
      | error e =>
        rw [hw] at h
        cases h
      | ok r =>
        obtain ⟨tree1, w1⟩ := r
        rw [hw] at h
        dsimp only at h ⊢
        by_cases ha : w1.cw_action ≠ cn_action.CN_ACTION_NONE
        · rw [if_pos ha] at h
          cases hs : sp3_submit (sp3_node_remove sp rbe.spn wtype) (trees.set ti tree1) ti w1
              qnum debug with
          | error e =>
            rw [hs] at h
            cases h
          | ok r2 =>
            obtain ⟨sp2, trees2, w2⟩ := r2
            rw [hs] at h
            cases h
        · rw [if_neg ha] at h ⊢
          by_cases hr : w1.cw_resched = true
          · rw [if_pos hr] at h ⊢
            exact ih sp _ _ spA treesA wA hall1 h
          · rw [if_neg hr] at h ⊢
            exact ih _ _ _ spA treesA wA hall1 h

theorem check_rb_loop_filter (E : sp3_env) (jclock_ns now : Nat) (wtype : sp3_work_type)
    (threshold qnum debug : Nat) :
    ∀ (entries : List sp3_rbe) (sp : sp3) (trees : List cn_tree) (wp : cn_compaction_work),
      rb_ordered entries →
      sp3_check_rb_loop E jclock_ns now wtype threshold qnum debug entries sp trees wp =
        sp3_check_rb_loop E jclock_ns now wtype threshold qnum debug
          (entries.filter (fun e => decide (threshold ≤ e.rbe_weight))) sp trees wp := by
  intro entries
  induction entries with
  | nil => intro sp trees wp _; rfl
  | cons rbe rest ih =>
    intro sp trees wp hord
    unfold rb_ordered at hord
    rw [List.pairwise_cons] at hord
    by_cases hth : rbe.rbe_weight < threshold
    · have hnone : rest.filter (fun e => decide (threshold ≤ e.rbe_weight)) = [] := by
        rw [List.filter_eq_nil_iff]
        intro x hx
        have hb := hord.1 x hx
        unfold rbe_before at hb
        simp only [Bool.or_eq_true, decide_eq_true_eq, Bool.and_eq_true] at hb
        simp only [decide_eq_true_eq, not_le]
        omega
      rw [List.filter_cons_of_neg (by simpa using hth), hnone]
      unfold sp3_check_rb_loop
      rw [if_pos hth]
    · rw [List.filter_cons_of_pos (by simpa using hth)]
      unfold sp3_check_rb_loop
      rw [if_neg hth, if_neg hth]
      cases hf : find_tree trees rbe.spn with
      | none => rfl
      | some q =>
        obtain ⟨ti, tree, idx⟩ := q
        dsimp only
        cases hw : sp3_work E jclock_ns now tree idx wtype sp.thresh debug wp with
        | error e => rfl
        | ok r =>
          obtain ⟨tree1, w1⟩ := r
          dsimp only
          by_cases ha : w1.cw_action ≠ cn_action.CN_ACTION_NONE
          · rw [if_pos ha, if_pos ha]
          · rw [if_neg ha, if_neg ha]
            by_cases hr : w1.cw_resched = true
            · rw [if_pos hr, if_pos hr]
              exact ih sp _ _ hord.2
            · rw [if_neg hr, if_neg hr]
              exact ih _ _ _ hord.2

theorem rb_weight_of_mem (root : List sp3_rbe) (hnd : rb_nodup root) (e : sp3_rbe)
    (he : e ∈ root) : rb_weight root e.spn = some e.rbe_weight := by
  induction root with
  | nil => cases he
  | cons x xs ih =>
    unfold rb_nodup at hnd
    rw [List.map_cons, List.nodup_cons] at hnd
    unfold rb_weight
    rcases List.mem_cons.mp he with hx | hx
    · rw [hx, List.find?_cons_of_pos _ (by simp)]
      rfl
    · have hne : ¬ ((x.spn == e.spn) = true) := by
        intro hh
        apply hnd.1
        rw [beq_iff_eq.mp hh]
        exact List.mem_map_of_mem _ hx
      have hb : (x.spn == e.spn) = false := by simpa using hne
      simp only [List.find?_cons, hb]
      exact ih hnd.2 hx

theorem before_weight (a b : sp3_rbe) (h : rbe_before a b = true) :
    b.rbe_weight ≤ a.rbe_weight := by
  unfold rbe_before at h
  simp only [Bool.or_eq_true, decide_eq_true_eq, Bool.and_eq_true] at h
  omega

/-- C33: a call of `sp3_check_rb_tree` that returns, on an index in traversal
order that holds no node twice.  The other indexes are as before.  A candidate
(a member that meets the threshold and that the loop reaches, the members
before it having been planned without a selection) for which `sp3_work`
returns no work item is a member of the index after the call if and only if
`cw_resched` was set; so without `cw_resched` it left this index only.  The
members below the threshold play no part: the call equals the loop over the
members that meet the threshold, and each member below the threshold is in the
index after the call with its weight. -/
theorem C33_no_work_candidates (E : sp3_env) (jclock_ns now : Nat) (sp : sp3)
    (trees : List cn_tree) (wp : cn_compaction_work) (wtype : sp3_work_type)
    (threshold qnum debug : Nat) (sp1 : sp3) (trees1 : List cn_tree)
    (wp1 : cn_compaction_work) (sel : Option Nat)
    (hord : rb_ordered (sp.rbt wtype)) (hnd : rb_nodup (sp.rbt wtype))
    (h : sp3_check_rb_tree E jclock_ns now sp trees wp wtype threshold qnum debug =
      Except.ok (sp1, trees1, wp1, sel)) :
    (∀ ty, ty ≠ wtype → sp1.rbt ty = sp.rbt ty) ∧
    (∀ pre e post spA treesA wA ti tree idx tree1 w1,
      sp.rbt wtype = pre ++ e :: post → threshold ≤ e.rbe_weight →
      sp3_check_rb_loop E jclock_ns now wtype threshold qnum debug pre sp trees wp =
        Except.ok (spA, treesA, wA, none) →
      find_tree treesA e.spn = some (ti, tree, idx) →
      sp3_work E jclock_ns now tree idx wtype spA.thresh debug wA = Except.ok (tree1, w1) →
      w1.cw_action = cn_action.CN_ACTION_NONE →
      (rb_member (sp1.rbt wtype) e.spn = true ↔ w1.cw_resched = true) ∧
      (∀ ty, ty ≠ wtype → rb_member (sp1.rbt ty) e.spn = rb_member (sp.rbt ty) e.spn)) ∧
    sp3_check_rb_tree E jclock_ns now sp trees wp wtype threshold qnum debug =
      sp3_check_rb_loop E jclock_ns now wtype threshold qnum debug
        ((sp.rbt wtype).filter (fun e => decide (threshold ≤ e.rbe_weight))) sp trees wp ∧
    (∀ e ∈ sp.rbt wtype, e.rbe_weight < threshold →
      rb_weight (sp1.rbt wtype) e.spn = some e.rbe_weight) := by
  unfold sp3_check_rb_tree at h ⊢
  have hfil := check_rb_loop_filter E jclock_ns now wtype threshold qnum debug (sp.rbt wtype)
    sp trees wp hord
  have hframe := check_rb_loop_frame E jclock_ns now wtype threshold qnum debug _ sp trees wp
    sp1 trees1 wp1 sel h
  refine ⟨hframe.1, ?_, hfil, ?_⟩
  · intro pre e post spA treesA wA ti tree idx tree1 w1 hsplit hth hpre hf hw ha
    refine ⟨?_, fun ty hty => by rw [hframe.1 ty hty]⟩
    have hord1 := hord
    unfold rb_ordered at hord1
    rw [hsplit, List.pairwise_append] at hord1
    have hnd1 := hnd
    unfold rb_nodup at hnd1
    rw [hsplit, List.map_append, List.map_cons, List.nodup_append, List.nodup_cons] at hnd1
    have hall : ∀ x ∈ pre, threshold ≤ x.rbe_weight := fun x hx =>
      Nat.le_trans hth (before_weight x e (hord1.2.2 x hx e (List.mem_cons_self _ _)))
    have hnpre : e.spn ∉ pre.map sp3_rbe.spn := fun hm =>
      hnd1.2.2 hm (List.mem_cons_self _ _)
    have hnpost : e.spn ∉ post.map sp3_rbe.spn := hnd1.2.1.1
    have hA := (check_rb_loop_frame E jclock_ns now wtype threshold qnum debug pre sp trees wp
      spA treesA wA none hpre).2 e.spn hnpre
    rw [rb_weight_of_mem _ hnd e (by rw [hsplit]; simp)] at hA
    rw [hsplit, check_rb_loop_append E jclock_ns now wtype threshold qnum debug (e :: post)
      pre sp trees wp spA treesA wA hall hpre] at h
    unfold sp3_check_rb_loop at h
    rw [if_neg (Nat.not_lt.mpr hth), hf] at h
    dsimp only at h
    rw [hw] at h
    dsimp only at h
    rw [if_neg (not_not.mpr ha)] at h
    by_cases hr : w1.cw_resched = true
    · rw [if_pos hr] at h
      have hB := (check_rb_loop_frame E jclock_ns now wtype threshold qnum debug post spA _ _
        sp1 trees1 wp1 sel h).2 e.spn hnpost
      rw [rb_member_isSome, hB, hA]
      exact ⟨fun _ => hr, fun _ => rfl⟩
    · rw [if_neg hr] at h
      have hB := (check_rb_loop_frame E jclock_ns now wtype threshold qnum debug post _ _ _
        sp1 trees1 wp1 sel h).2 e.spn hnpost
      rw [node_remove_weight, if_pos ⟨rfl, rfl⟩] at hB
      rw [rb_member_isSome, hB]
      exact ⟨fun hh => (by cases hh), fun hh => absurd hh hr⟩
  · intro e he hlt
    rw [hfil] at h
    have hframe2 := check_rb_loop_frame E jclock_ns now wtype threshold qnum debug _ sp trees wp
      sp1 trees1 wp1 sel h
    rw [hframe2.2 e.spn, rb_weight_of_mem _ hnd e he]
    intro hm
    obtain ⟨x, hx, hxe⟩ := List.mem_map.mp hm
    obtain ⟨hx1, hx2⟩ := List.mem_filter.mp hx
    have h1 := rb_weight_of_mem _ hnd x hx1
    have h2 := rb_weight_of_mem _ hnd e he
    rw [hxe, h2] at h1
    simp only [Option.some.injEq, decide_eq_true_eq] at h1 hx2
    omega

/-- C33, instance: with the threshold 0 the call plans leaf 2, whose token is
held: `sp3_work` returns no work item and does not set `cw_resched`, and leaf 2
is not in the garbage index after the call, which dispatches leaf 1. -/
theorem C33_no_work_candidates_witness :
    ∃ sp1 trees1 wp1,
      sp3_check_rb_tree env_example 0 0 no_work_sp_example no_work_trees_example {}
        sp3_work_type.wtype_garbage 0 3 0 = Except.ok (sp1, trees1, wp1, some 1) ∧
      ¬ rb_member (sp1.rbt sp3_work_type.wtype_garbage) 2 = true ∧
      sp1.rbt sp3_work_type.wtype_scatter = [] := by
  have hord : rb_ordered (no_work_sp_example.rbt sp3_work_type.wtype_garbage) := by
    unfold rb_ordered
    simp [no_work_sp_example, rbe_before]
  have hnd : rb_nodup (no_work_sp_example.rbt sp3_work_type.wtype_garbage) := by
    unfold rb_nodup
    simp [no_work_sp_example]
  obtain ⟨h1, h2, _, _⟩ := C33_no_work_candidates env_example 0 0 no_work_sp_example
    no_work_trees_example {} sp3_work_type.wtype_garbage 0 3 0 _ _ _ _ hord hnd rfl
  refine ⟨_, _, _, rfl, ?_, h1 sp3_work_type.wtype_scatter (by decide)⟩
  intro hm
  have h3 := ((h2 [] { rbe_weight := 9, spn := 2 }
    [{ rbe_weight := 5, spn := 1 }, { rbe_weight := 1, spn := 3 }] _ _ _ _ _ _ _ _
    rfl (by decide) rfl rfl rfl rfl).1).1 hm
  revert h3
  decide

/-! ## C34: the cap of the scatter planner -/

/-- C34, as stated, fails: a leaf with two kvsets, the newer with two vgroups
and the older with one vgroup and less than 256 MiB, with `lscat_runlen_max =
1`: the planner marks the newer kvset, then includes the older one with the
statements `++runlen_max; ++runlen`, and returns 2. -/
theorem C34_counterexample :
    sp3_work_wtype_scatter
      { tn_kvset_list := [{ dgen := 2, vgroups := 2 }, { dgen := 1, vgroups := 1 }],
        tn_ns := { ns_kvsets := 2 } }
      { lscat_runlen_max := 1 } =
        Except.ok { kvsets := 2, mark := le_ptr.entry 1,
                    action := cn_action.CN_ACTION_COMPACT_KV,
                    rule := cn_rule.CN_RULE_SCATTERP } ∧
    ¬ (2 ≤ ({ lscat_runlen_max := 1 } : sp3_thresholds).lscat_runlen_max) :=
  ⟨rfl, by decide⟩

/-- C34, amended: for every node, the run length returned by the scatter
planner never exceeds `lscat_runlen_max + 1`; it does not exceed
`lscat_runlen_max` unless the planner included the next older kvset (of less
than 256 MiB), in which case the mark is that kvset and not the one that the
search for vgroup scatter found. -/
theorem C34_scatter_run_cap (tn : cn_tree_node) (thresh : sp3_thresholds) (p : wplan)
    (h : sp3_work_wtype_scatter tn thresh = Except.ok p) :
    p.kvsets ≤ thresh.lscat_runlen_max + 1 ∧
    (p.mark = (scatter_find tn.tn_kvset_list.reverse (tn.tn_kvset_list.length - 1)
        (list_last_entry_or_null tn.tn_kvset_list) cn_rule.CN_RULE_SCATTERF
        tn.tn_ns.ns_kvsets).1 → p.kvsets ≤ thresh.lscat_runlen_max) ∧
    (thresh.lscat_runlen_max < p.kvsets →
      ∃ i k, (scatter_find tn.tn_kvset_list.reverse (tn.tn_kvset_list.length - 1)
        (list_last_entry_or_null tn.tn_kvset_list) cn_rule.CN_RULE_SCATTERF
        tn.tn_ns.ns_kvsets).1 = le_ptr.entry i ∧ p.mark = le_ptr.entry (i + 1) ∧
        tn.tn_kvset_list[i + 1]? = some k ∧ k.kst_kwlen + k.kst_vwlen < 256 * 1048576) := by
  unfold sp3_work_wtype_scatter at h
  dsimp only at h
  generalize scatter_find tn.tn_kvset_list.reverse (tn.tn_kvset_list.length - 1)
    (list_last_entry_or_null tn.tn_kvset_list) cn_rule.CN_RULE_SCATTERF
    tn.tn_ns.ns_kvsets = f at h ⊢
  by_cases hr : f.2.2 > 0
  · rw [if_pos hr] at h
    cases hm : f.1 with
    | null => rw [hm] at h; cases h
    | head => rw [hm] at h; cases h
    | entry i =>
      rw [hm] at h
      dsimp only at h
      unfold list_next_entry_or_null at h
      by_cases hi : i + 1 < tn.tn_kvset_list.length
      · rw [if_pos hi] at h
        dsimp only at h
        cases hk : tn.tn_kvset_list[i + 1]? with
        | none => rw [hk] at h; cases h
        | some k =>
          rw [hk] at h
          dsimp only at h
          by_cases hs : k.kst_kwlen + k.kst_vwlen < 256 * 1048576
          · rw [if_pos hs] at h
            cases h
            refine ⟨Nat.min_le_right _ _, fun he => ?_, fun _ => ⟨i, k, rfl, rfl, hk, hs⟩⟩
            simp only [le_ptr.entry.injEq] at he
            omega
          · rw [if_neg hs] at h
            cases h
            exact ⟨Nat.le_succ_of_le (Nat.min_le_right _ _), fun _ => Nat.min_le_right _ _,
              fun hlt => absurd (Nat.min_le_right _ _) (Nat.not_le.mpr hlt)⟩
      · rw [if_neg hi] at h
        cases h
        exact ⟨Nat.le_succ_of_le (Nat.min_le_right _ _), fun _ => Nat.min_le_right _ _,
          fun hlt => absurd (Nat.min_le_right _ _) (Nat.not_le.mpr hlt)⟩
  · rw [if_neg hr] at h
    cases h
    exact ⟨Nat.le_succ_of_le (Nat.min_le_right _ _), fun _ => Nat.min_le_right _ _,
      fun hlt => absurd (Nat.min_le_right _ _) (Nat.not_le.mpr hlt)⟩

/-- C34, instance: for the leaf of the counterexample the planner returns 2
kvsets, which is `lscat_runlen_max + 1`. -/
theorem C34_scatter_run_cap_witness :
    sp3_work_wtype_scatter
      { tn_kvset_list := [{ dgen := 2, vgroups := 2 }, { dgen := 1, vgroups := 1 }],
        tn_ns := { ns_kvsets := 2 } }
      { lscat_runlen_max := 1 } =
        Except.ok { kvsets := 2, mark := le_ptr.entry 1,
                    action := cn_action.CN_ACTION_COMPACT_KV,
                    rule := cn_rule.CN_RULE_SCATTERP } ∧
    (2 : Nat) ≤ ({ lscat_runlen_max := 1 } : sp3_thresholds).lscat_runlen_max + 1 :=
  ⟨rfl, (C34_scatter_run_cap
    { tn_kvset_list := [{ dgen := 2, vgroups := 2 }, { dgen := 1, vgroups := 1 }],
      tn_ns := { ns_kvsets := 2 } }
    { lscat_runlen_max := 1 }
    { kvsets := 2, mark := le_ptr.entry 1, action := cn_action.CN_ACTION_COMPACT_KV,
      rule := cn_rule.CN_RULE_SCATTERP } rfl).1⟩

/-! ## C35: the run of the length planner -/

theorem length_run_inv (keys_max runlen_min : Nat) (head : List kvset) :
    ∀ (rest older : List kvset) (i : Nat) (s s1 : length_state),
      head = rest.reverse ++ older → i = rest.length - 1 →
      length_inv head runlen_min rest.length s →
      length_run keys_max runlen_min rest i s = Except.ok s1 →
      ∃ r, length_inv head runlen_min r s1 := by
  intro rest
  induction rest with
  | nil =>
    intro older i s s1 _ _ hinv h
    unfold length_run at h
    cases h
    exact ⟨_, hinv⟩
  | cons k newer ih =>
    intro older i s s1 hsplit hi hinv h
    have hik : head[i]? = some k := by
      rw [hsplit, hi, List.reverse_cons, List.append_assoc, List.length_cons,
        Nat.add_sub_cancel, List.getElem?_append_right (by rw [List.length_reverse]),
        List.length_reverse, Nat.sub_self]
      simp
    have hil : i < head.length := (List.getElem?_eq_some.mp hik).1
    rw [List.length_cons] at hinv hi
    rw [Nat.add_sub_cancel] at hi
    unfold length_run at h
    dsimp only at h
    have hstep : ∀ (r : Bool) (s2 : length_state),
        (r = false → s.runlen < runlen_min → s.compc = k.compc) →
        s2.mark = (if r = true then le_ptr.entry i else s.mark) →
        s2.runlen = (if r = true then 0 else s.runlen) + 1 →
        s2.compc = (if r = true then k.compc else s.compc) →
        length_inv head runlen_min newer.length s2 := by
      intro r s2 hr e1 e2 e3
      unfold length_inv
      rw [e1, e2, e3]
      cases r with
      | true =>
        right
        simp only [if_true]
        refine ⟨Nat.succ_pos _, i, rfl, by omega, hil, ?_⟩
        · intro j hj _ x hx
          have hj0 : j = 0 := by omega
          rw [hj0, Nat.sub_zero, hik] at hx
          cases hx
          rfl
      | false =>
        right
        simp only [Bool.false_eq_true, if_false]
        rcases hinv with ⟨h0, hr0, hm0⟩ | ⟨hpos, m, hm, hmr, hml, hc⟩
        · refine ⟨Nat.succ_pos _, i, ?_, ?_, hil, ?_⟩
          · rw [hm0]
            unfold list_last_entry
            rw [if_neg (by omega), hi, ← hr0]
            rfl
          · rw [h0]
            omega
          · intro j hj hjm x hx
            rw [h0] at hj
            have hj0 : j = 0 := by omega
            rw [hj0, Nat.sub_zero, hik] at hx
            cases hx
            exact (hr rfl (by rw [h0]; omega)).symm
        · refine ⟨Nat.succ_pos _, m, hm, by omega, hml, ?_⟩
          intro j hj hjm x hx
          by_cases hjr : j < s.runlen
          · exact hc j hjr hjm x hx
          · have hje : j = s.runlen := by omega
            have hmi : m - j = i := by omega
            rw [hmi, hik] at hx
            cases hx
            exact (hr rfl (by omega)).symm
    have hfin : ∀ r : Bool, (r = false → s.runlen < runlen_min → s.compc = k.compc) →
        (let sa : length_state :=
          if r then { s with compc := k.compc, mark := le_ptr.entry i, runlen := 0, vwlen := 0,
                             wlen := 0 }
          else s
         let sb : length_state :=
          { sa with stats := some k, vwlen := sa.vwlen + k.kst_vwlen,
                    wlen := sa.wlen + (k.kst_kwlen + k.kst_vwlen),
                    runlen_max := if k.kst_keys = 0 then sa.runlen_max + 1 else sa.runlen_max,
                    runlen := sa.runlen + 1 }
         if sb.runlen ≥ sb.runlen_max then Except.ok sb
         else length_run keys_max runlen_min newer (i - 1) sb) = Except.ok s1 →
        ∃ r1, length_inv head runlen_min r1 s1 := by
      intro r hr hh
      have hsp : head = newer.reverse ++ (k :: older) := by
        rw [hsplit, List.reverse_cons, List.append_assoc]
        rfl
      cases r with
      | true =>
        dsimp only at hh
        simp only [if_true] at hh
        repeat' split at hh
        all_goals first
          | (cases hh; exact ⟨_, hstep true _ hr rfl rfl rfl⟩)
          | (refine ih (k :: older) (i - 1) _ s1 hsp (by omega) ?_ hh
             exact hstep true _ hr rfl rfl rfl)
      | false =>
        dsimp only at hh
        simp only [Bool.false_eq_true, if_false] at hh
        repeat' split at hh
        all_goals first
          | (cases hh; exact ⟨_, hstep false _ hr rfl rfl rfl⟩)
          | (refine ih (k :: older) (i - 1) _ s1 hsp (by omega) ?_ hh
             exact hstep false _ hr rfl rfl rfl)
    by_cases hlt : s.runlen < runlen_min
    · rw [if_pos hlt] at h
      by_cases hc : s.compc ≠ k.compc
      · rw [if_pos hc] at h
        exact hfin true (fun hh => by cases hh) h
      · rw [if_neg hc] at h
        cases hst : s.stats with
        | none =>
          rw [hst] at h
          cases h
        | some st =>
          rw [hst] at h
          have hf2 := hfin (decide (st.kst_keys > keys_max)) (fun _ _ => not_not.mp hc)
          rw [hst] at hf2
          exact hf2 h
    · rw [if_neg hlt] at h
      exact hfin false (fun _ hh => absurd hh hlt) h

theorem length_plan_inv (V : Nat) (tn : cn_tree_node) (thresh : sp3_thresholds) (p q : wplan)
    (h : sp3_work_wtype_length V tn thresh p = Except.ok q) :
    (q = { p with kvsets := 0 }) ∨
    ∃ rule0 s r, q = length_finish V tn thresh rule0 s ∧
      (rule0 = cn_rule.CN_RULE_LENGTH_MAX ∨ rule0 = cn_rule.CN_RULE_LENGTH_MIN) ∧
      length_inv tn.tn_kvset_list thresh.llen_runlen_min r s := by
  unfold sp3_work_wtype_length at h
  dsimp only at h
  by_cases h0 : tn.tn_ns.ns_kvsets ≥ thresh.llen_runlen_min
  · rw [if_pos h0] at h
    right
    split at h
    · cases h
    · rename_i s hs
      cases h
      obtain ⟨r, hr⟩ := length_run_inv _ thresh.llen_runlen_min tn.tn_kvset_list
        tn.tn_kvset_list.reverse [] (tn.tn_kvset_list.length - 1) _ s
        (by rw [List.reverse_reverse, List.append_nil]) (by rw [List.length_reverse])
        (Or.inl ⟨rfl, by rw [List.length_reverse], rfl⟩) hs
      have hb : ∀ b : Bool,
          (if b = true then cn_rule.CN_RULE_LENGTH_MAX else cn_rule.CN_RULE_LENGTH_MIN) =
            cn_rule.CN_RULE_LENGTH_MAX ∨
          (if b = true then cn_rule.CN_RULE_LENGTH_MAX else cn_rule.CN_RULE_LENGTH_MIN) =
            cn_rule.CN_RULE_LENGTH_MIN := by
        intro b
        cases b
        · exact Or.inr rfl
        · exact Or.inl rfl
      exact ⟨_, s, r, rfl, hb _, hr⟩
  · rw [if_neg h0] at h
    cases h
    exact Or.inl rfl

/-- C35: when the length planner returns a run (`kvsets > 0`) by its primary
rule, that is with one of the rules `LENGTH_MIN`, `LENGTH_MAX`, `LENGTH_WLEN`
and `LENGTH_VWLEN`, the run has at least `llen_runlen_min` kvsets, the mark is a
kvset of the node, the run does not reach beyond the newest kvset, and the first
`llen_runlen_min` kvsets of the run, counted from the mark toward the newest
(positions `m, m - 1, ...`), all have the same compc value. -/
theorem C35_length_run_same_compc (V : Nat) (tn : cn_tree_node) (thresh : sp3_thresholds)
    (p q : wplan) (h : sp3_work_wtype_length V tn thresh p = Except.ok q)
    (hrule : q.rule = cn_rule.CN_RULE_LENGTH_MIN ∨ q.rule = cn_rule.CN_RULE_LENGTH_MAX ∨
      q.rule = cn_rule.CN_RULE_LENGTH_WLEN ∨ q.rule = cn_rule.CN_RULE_LENGTH_VWLEN)
    (hk : 0 < q.kvsets) :
    thresh.llen_runlen_min ≤ q.kvsets ∧
    ∃ m c, q.mark = le_ptr.entry m ∧ m < tn.tn_kvset_list.length ∧ q.kvsets ≤ m + 1 ∧
      ∀ j, j < thresh.llen_runlen_min →
        ∃ k, tn.tn_kvset_list[m - j]? = some k ∧ k.compc = c := by
  rcases length_plan_inv V tn thresh p q h with h1 | ⟨rule0, s, r, hq, hr0, hinv⟩
  · rw [h1] at hk
    exact absurd hk (Nat.lt_irrefl 0)
  · have hprim : thresh.llen_runlen_min ≤ s.runlen ∧ q.kvsets = s.runlen ∧ q.mark = s.mark := by
      rw [hq] at hrule hk ⊢
      unfold length_finish at hrule hk ⊢
      dsimp only at hrule hk ⊢
      by_cases hge : s.runlen ≥ thresh.llen_runlen_min
      · rw [if_pos hge]
        refine ⟨hge, ?_, ?_⟩ <;> split_ifs <;> rfl
      · rw [if_neg hge] at hrule hk
        exfalso
        by_cases hcl : tn.tn_ns.ns_clen < V
        · rw [if_pos hcl] at hrule
          rcases hrule with e | e | e | e <;> cases e
        · rw [if_neg hcl] at hrule hk
          by_cases hkv : tn.tn_ns.ns_kvsets > s.runlen_max
          · rw [if_pos hkv] at hrule hk
            by_cases ht : (length_tiny tn.tn_kvset_list 0 (32 * 1048576) s.mark 0 0).2.1 >
                thresh.llen_runlen_min
            · rw [if_pos ht] at hrule
              by_cases hv : (length_tiny tn.tn_kvset_list 0 (32 * 1048576) s.mark 0 0).2.2 < V
              · rw [if_pos hv] at hrule
                rcases hrule with e | e | e | e <;> cases e
              · rw [if_neg hv] at hrule
                rcases hrule with e | e | e | e <;> cases e
            · rw [if_neg ht] at hk
              exact absurd hk (Nat.lt_irrefl 0)
          · rw [if_neg hkv] at hk
            exact absurd hk (Nat.lt_irrefl 0)
    obtain ⟨hmin, hkv, hmk⟩ := hprim
    rw [hkv] at hk ⊢
    rcases hinv with ⟨h0, _, _⟩ | ⟨_, m, hm, hmr, hml, hc⟩
    · omega
    · refine ⟨hmin, m, s.compc, by rw [hmk, hm], hml, by omega, fun j hj => ?_⟩
      have hlt : m - j < tn.tn_kvset_list.length := by omega
      exact ⟨_, List.getElem?_eq_getElem hlt,
        hc j (by omega) hj _ (List.getElem?_eq_getElem hlt)⟩

/-- C35, instance: a leaf with four kvsets whose compc values are, from the
newest, 0, 1, 1 and 2, with `llen_runlen_min = 2` and `llen_runlen_max = 4`: the
run starts at the kvset at position 2 and the kvsets at positions 2 and 1 have
the same compc. -/
theorem C35_length_run_same_compc_witness :
    ∃ q m c, sp3_work_wtype_length 33554432
        { tn_kvset_list := [{ dgen := 4, kst_keys := 1 }, { dgen := 3, compc := 1, kst_keys := 1 },
                            { dgen := 2, compc := 1, kst_keys := 1 },
                            { dgen := 1, compc := 2, kst_keys := 1 }],
          tn_ns := { ns_kvsets := 4 } }
        { llen_runlen_min := 2, llen_runlen_max := 4, lcomp_split_keys := 100 } {} =
          Except.ok q ∧
      q.kvsets = 3 ∧ q.mark = le_ptr.entry m ∧ m = 2 ∧
      ∀ j, j < 2 → ∃ k, ([{ dgen := 4, kst_keys := 1 }, { dgen := 3, compc := 1, kst_keys := 1 },
                          { dgen := 2, compc := 1, kst_keys := 1 },
                          { dgen := 1, compc := 2, kst_keys := 1 }] : List kvset)[m - j]? =
                            some k ∧ k.compc = c := by
  obtain ⟨_, m, c, h1, _, _, h4⟩ := C35_length_run_same_compc 33554432
    { tn_kvset_list := [{ dgen := 4, kst_keys := 1 }, { dgen := 3, compc := 1, kst_keys := 1 },
                        { dgen := 2, compc := 1, kst_keys := 1 },
                        { dgen := 1, compc := 2, kst_keys := 1 }],
      tn_ns := { ns_kvsets := 4 } }
    { llen_runlen_min := 2, llen_runlen_max := 4, lcomp_split_keys := 100 } {} _ rfl
    (by decide) (by decide)
  refine ⟨_, m, c, rfl, rfl, h1, ?_, h4⟩
  cases h1
  rfl

/-! ## C36: no node is splitting and joining at once -/

theorem joinable_not_splitting (tree : cn_tree) (idx l : Nat) (thresh : sp3_thresholds)
    (h : sp3_work_joinable tree idx thresh = some l) :
    ∃ left right, tree.ct_nodes[idx - 1]? = some left ∧ tree.ct_nodes[idx]? = some right ∧
      left.tn_ss_splitting = false ∧ right.tn_ss_splitting = false := by
  unfold sp3_work_joinable at h
  cases hr : tree.ct_nodes[idx]? with
  | none => rw [hr] at h; cases h
  | some right =>
    rw [hr] at h
    dsimp only at h
    by_cases h1 : (!right.spn_initialized || right.tn_ss_splitting) = true
    · rw [if_pos h1] at h; cases h
    · rw [if_neg h1] at h
      by_cases h2 : idx = 0
      · rw [if_pos h2] at h; cases h
      · rw [if_neg h2] at h
        cases hl : tree.ct_nodes[idx - 1]? with
        | none => rw [hl] at h; cases h
        | some left =>
          rw [hl] at h
          dsimp only at h
          by_cases h3 : (!left.spn_initialized || left.tn_ss_splitting) = true
          · rw [if_pos h3] at h; cases h
          · simp only [Bool.or_eq_true, Bool.not_eq_true', not_or, Bool.not_eq_false,
              Bool.not_eq_true] at h1 h3
            exact ⟨left, right, rfl, rfl, h3.2, h1.2⟩

theorem join_request_flags (jclock_ns : Nat) (tree : cn_tree) (left tn : cn_tree_node)
    (thresh : sp3_thresholds) (mark : le_ptr) (spilling : Bool) :
    (join_request jclock_ns tree left tn thresh mark spilling).1.ct_nodes = tree.ct_nodes ∧
    (join_request jclock_ns tree left tn thresh mark spilling).2.1.tn_ss_splitting =
      left.tn_ss_splitting ∧
    (join_request jclock_ns tree left tn thresh mark spilling).2.2.1.tn_ss_splitting =
      tn.tn_ss_splitting ∧
    (((join_request jclock_ns tree left tn thresh mark spilling).2.1.tn_ss_joining =
        left.tn_ss_joining ∧
      (join_request jclock_ns tree left tn thresh mark spilling).2.2.1.tn_ss_joining =
        tn.tn_ss_joining) ∨
     ((join_request jclock_ns tree left tn thresh mark spilling).2.1.tn_ss_joining = -1 ∧
      (join_request jclock_ns tree left tn thresh mark spilling).2.2.1.tn_ss_joining = 1)) := by
  unfold join_request cn_node_comp_token_get
  split_ifs <;> simp [split_cnt_inc_nodes]

theorem join_flags (jclock_ns : Nat) (tree tree1 : cn_tree) (idx : Nat)
    (thresh : sp3_thresholds) (q : wplan)
    (h : sp3_work_wtype_join jclock_ns tree idx thresh = Except.ok (tree1, q)) :
    ∀ i n n1, tree.ct_nodes[i]? = some n → tree1.ct_nodes[i]? = some n1 →
      n1.tn_ss_splitting = n.tn_ss_splitting ∧
      (n1.tn_ss_joining = n.tn_ss_joining ∨ n1.tn_ss_joining = 0 ∨
        ((∃ left right, tree.ct_nodes[idx - 1]? = some left ∧
            tree.ct_nodes[idx]? = some right ∧
            left.tn_ss_splitting = false ∧ right.tn_ss_splitting = false) ∧
         ((i = idx ∧ n1.tn_ss_joining = 1) ∨ (i = idx - 1 ∧ n1.tn_ss_joining = -1)))) := by
  intro i n n1 hn hn1
  unfold sp3_work_wtype_join at h
  cases htn : tree.ct_nodes[idx]? with
  | none => rw [htn] at h; cases h
  | some tn =>
    rw [htn] at h
    dsimp only at h
    cases hj : joinable_left tree idx thresh with
    | some ll =>
      obtain ⟨l, left⟩ := ll
      rw [hj] at h
      dsimp only at h
      obtain ⟨h0, hl, hleft, hjn⟩ := joinable_left_some tree idx l left thresh hj
      subst hl
      have hns := joinable_not_splitting tree idx _ thresh hjn
      rw [htn] at hns
      simp only [Except.ok.injEq, Prod.mk.injEq] at h
      obtain ⟨ht, _⟩ := h
      obtain ⟨f1, f2, f3, f4⟩ := join_request_flags jclock_ns tree left tn thresh
        (list_last_entry_or_null tn.tn_kvset_list)
        (decide (left.tn_ss_spilling ≠ 0) || decide (tn.tn_ss_spilling ≠ 0))
      rw [← ht, tree_set_node_get] at hn1
      by_cases hi : idx = i
      · rw [if_pos hi] at hn1
        subst hi
        rw [htn] at hn
        cases hn
        split at hn1
        · cases hn1
          refine ⟨f3, ?_⟩
          rcases f4 with ⟨_, e⟩ | ⟨_, e⟩
          · exact Or.inl e
          · exact Or.inr (Or.inr ⟨hns, Or.inl ⟨rfl, e⟩⟩)
        · cases hn1
      · rw [if_neg hi, tree_set_node_get] at hn1
        by_cases hi1 : idx - 1 = i
        · rw [if_pos hi1] at hn1
          subst hi1
          rw [hleft] at hn
          cases hn
          split at hn1
          · cases hn1
            refine ⟨f2, ?_⟩
            rcases f4 with ⟨e, _⟩ | ⟨e, _⟩
            · exact Or.inl e
            · exact Or.inr (Or.inr ⟨hns, Or.inr ⟨rfl, e⟩⟩)
          · cases hn1
        · rw [if_neg hi1, f1, hn] at hn1
          cases hn1
          exact ⟨rfl, Or.inl rfl⟩
    | none =>
      rw [hj] at h
      dsimp only at h
      by_cases h1 : tn.tn_ss_joining ≠ 0
      · rw [if_pos h1] at h
        by_cases h2 : idx = 0
        · rw [if_pos h2] at h; cases h
        · rw [if_neg h2] at h
          cases hleft : tree.ct_nodes[idx - 1]? with
          | none => rw [hleft] at h; cases h
          | some left =>
            rw [hleft] at h
            dsimp only at h
            split_ifs at h
            simp only [Except.ok.injEq, Prod.mk.injEq] at h
            obtain ⟨ht, _⟩ := h
            rw [← ht, tree_set_node_get] at hn1
            by_cases hi : idx = i
            · rw [if_pos hi] at hn1
              subst hi
              rw [htn] at hn
              cases hn
              split at hn1
              · cases hn1
                exact ⟨rfl, Or.inr (Or.inl rfl)⟩
              · cases hn1
            · rw [if_neg hi, tree_set_node_get] at hn1
              by_cases hi1 : idx - 1 = i
              · rw [if_pos hi1] at hn1
                subst hi1
                rw [hleft] at hn
                cases hn
                split at hn1
                · cases hn1
                  exact ⟨rfl, Or.inr (Or.inl rfl)⟩
                · cases hn1
              · rw [if_neg hi1] at hn1
                have hn2 : tree.ct_nodes[i]? = some n1 := hn1
                rw [hn] at hn2
                cases hn2
                exact ⟨rfl, Or.inl rfl⟩
      · rw [if_neg h1] at h
        cases h

theorem split_flags (F jclock_ns : Nat) (tree : cn_tree) (tn : cn_tree_node)
    (thresh : sp3_thresholds) :
    (sp3_work_wtype_split F jclock_ns tree tn thresh).2.1.tn_ss_joining = tn.tn_ss_joining ∧
    ((sp3_work_wtype_split F jclock_ns tree tn thresh).2.1.tn_ss_splitting =
        tn.tn_ss_splitting ∨
     (sp3_work_wtype_split F jclock_ns tree tn thresh).2.1.tn_ss_splitting = false ∨
     tn.tn_ss_joining = 0) := by
  unfold sp3_work_wtype_split
  dsimp only
  by_cases hs : (sp3_work_splittable tn thresh &&
      decide ((tree.ct_fanout : Int) < (F : Int) - tree.ct_split_cnt)) = true
  · rw [if_pos hs]
    have hj : tn.tn_ss_joining = 0 := by
      unfold sp3_work_splittable at hs
      simp only [Bool.and_eq_true, decide_eq_true_eq] at hs
      exact hs.1.1.1
    refine ⟨?_, Or.inr (Or.inr hj)⟩
    split_ifs <;> rfl
  · rw [if_neg hs]
    refine ⟨?_, Or.inr (Or.inl ?_)⟩
    · split_ifs <;> rfl
    · split_ifs with hsp
      · rfl
      · exact Bool.eq_false_iff.mpr hsp

theorem split_plan_flags (E : sp3_env) (jclock_ns : Nat) (tree tree1 : cn_tree) (idx : Nat)
    (tn : cn_tree_node) (thresh : sp3_thresholds) (p : wplan) (resched : Bool)
    (hleaf : cn_node_isroot idx = false) (htn : tree.ct_nodes[idx]? = some tn)
    (h : sp3_work_plan E jclock_ns tree idx tn sp3_work_type.wtype_split thresh =
      Except.ok (some (tree1, p, resched))) :
    ∀ (i : Nat) (n n1 : cn_tree_node),
      tree.ct_nodes[i]? = some n → tree1.ct_nodes[i]? = some n1 →
      n1.tn_ss_joining = n.tn_ss_joining ∧
      (n1.tn_ss_splitting = n.tn_ss_splitting ∨ n1.tn_ss_splitting = false ∨
        n.tn_ss_joining = 0) := by
  intro i n n1 hn hn1
  have hplan : sp3_work_plan E jclock_ns tree idx tn sp3_work_type.wtype_split thresh =
      Except.ok (some (tree_set_node
        (sp3_work_wtype_split E.CN_FANOUT_MAX jclock_ns tree tn thresh).1 idx
        (sp3_work_wtype_split E.CN_FANOUT_MAX jclock_ns tree tn thresh).2.1,
        (sp3_work_wtype_split E.CN_FANOUT_MAX jclock_ns tree tn thresh).2.2,
        decide ((sp3_work_wtype_split E.CN_FANOUT_MAX jclock_ns tree tn thresh).2.2.mark ≠
          le_ptr.null) &&
        decide ((sp3_work_wtype_split E.CN_FANOUT_MAX jclock_ns tree tn thresh).2.2.kvsets =
          0))) := by
    unfold sp3_work_plan
    rw [hleaf]
    rfl
  rw [hplan] at h
  simp only [Except.ok.injEq, Option.some.injEq, Prod.mk.injEq] at h
  obtain ⟨ht, _, _⟩ := h
  rw [← ht, tree_set_node_get] at hn1
  by_cases hi : idx = i
  · rw [if_pos hi] at hn1
    subst hi
    rw [htn] at hn
    cases hn
    split at hn1
    · cases hn1
      exact split_flags E.CN_FANOUT_MAX jclock_ns tree tn thresh
    · cases hn1
  · rw [if_neg hi, (split_frame E.CN_FANOUT_MAX jclock_ns tree tn thresh).1, hn] at hn1
    cases hn1
    exact ⟨rfl, Or.inl rfl⟩

theorem join_plan_flags (E : sp3_env) (jclock_ns : Nat) (tree tree1 : cn_tree) (idx : Nat)
    (tn : cn_tree_node) (thresh : sp3_thresholds) (p : wplan) (resched : Bool)
    (hleaf : cn_node_isroot idx = false)
    (h : sp3_work_plan E jclock_ns tree idx tn sp3_work_type.wtype_join thresh =
      Except.ok (some (tree1, p, resched))) :
    sp3_work_wtype_join jclock_ns tree idx thresh = Except.ok (tree1, p) := by
  have hplan : sp3_work_plan E jclock_ns tree idx tn sp3_work_type.wtype_join thresh =
      match sp3_work_wtype_join jclock_ns tree idx thresh with
      | Except.error e => Except.error e
      | Except.ok r =>
        Except.ok (some (r.1, r.2, decide (r.2.mark ≠ le_ptr.null) && decide (r.2.kvsets = 0))) := by
    unfold sp3_work_plan
    rw [hleaf]
    rfl
  rw [hplan] at h
  cases hj : sp3_work_wtype_join jclock_ns tree idx thresh with
  | error e => rw [hj] at h; cases h
  | ok r =>
    rw [hj] at h
    cases h
    rfl

/-- C36: the planning part of `sp3_work` for a leaf with the work type split or
join, compared node by node before and after the call.  A node whose join flag
is non-zero and whose split flag is not set does not get its split flag set; a
node whose split flag is set and whose join flag is zero keeps the join flag
zero; a node that is not splitting and joining at once before the call is not
so after it; and the right neighbour of a node whose split flag is set is not
made the anchor of a join (its join flag does not become +1). -/
theorem C36_split_join_exclusive (E : sp3_env) (jclock_ns : Nat) (tree tree1 : cn_tree)
    (idx : Nat) (tn : cn_tree_node) (wtype : sp3_work_type) (thresh : sp3_thresholds)
    (p : wplan) (resched : Bool)
    (hw : wtype = sp3_work_type.wtype_split ∨ wtype = sp3_work_type.wtype_join)
    (hleaf : cn_node_isroot idx = false) (htn : tree.ct_nodes[idx]? = some tn)
    (h : sp3_work_plan E jclock_ns tree idx tn wtype thresh =
      Except.ok (some (tree1, p, resched))) :
    ∀ (i : Nat) (n n1 : cn_tree_node),
      tree.ct_nodes[i]? = some n → tree1.ct_nodes[i]? = some n1 →
      (n.tn_ss_joining ≠ 0 → n.tn_ss_splitting = false → n1.tn_ss_splitting = false) ∧
      (n.tn_ss_splitting = true → n.tn_ss_joining = 0 → n1.tn_ss_joining = 0) ∧
      (¬ (n.tn_ss_splitting = true ∧ n.tn_ss_joining ≠ 0) →
        ¬ (n1.tn_ss_splitting = true ∧ n1.tn_ss_joining ≠ 0)) ∧
      (n.tn_ss_splitting = true → ∀ r r1, tree.ct_nodes[i + 1]? = some r →
        tree1.ct_nodes[i + 1]? = some r1 → r.tn_ss_joining ≠ 1 → r1.tn_ss_joining ≠ 1) := by
  intro i n n1 hn hn1
  rcases hw with hw | hw
  · subst hw
    have hpt := split_plan_flags E jclock_ns tree tree1 idx tn thresh p resched hleaf htn h
    obtain ⟨a1, a2⟩ := hpt i n n1 hn hn1
    refine ⟨fun hj hs => ?_, fun _ hj => by rw [a1]; exact hj, fun hinv hbad => ?_,
      fun _ r r1 hr hr1 hne => by rw [(hpt (i + 1) r r1 hr hr1).1]; exact hne⟩
    · rcases a2 with e | e | e
      · rw [e]; exact hs
      · exact e
      · exact absurd e hj
    · rw [a1] at hbad
      rcases a2 with e | e | e
      · rw [e] at hbad
        exact hinv hbad
      · rw [e] at hbad
        cases hbad.1
      · exact hbad.2 e
  · subst hw
    have hjoin := join_plan_flags E jclock_ns tree tree1 idx tn thresh p resched hleaf h
    have hpt := join_flags jclock_ns tree tree1 idx thresh p hjoin
    obtain ⟨a1, a2⟩ := hpt i n n1 hn hn1
    have hidx : idx ≠ 0 := by
      intro e
      rw [e] at hleaf
      cases hleaf
    have h2 : n.tn_ss_splitting = true → n.tn_ss_joining = 0 → n1.tn_ss_joining = 0 := by
      intro hs hj
      rcases a2 with e | e | ⟨⟨left, right, hl, hr, hls, hrs⟩, ⟨hi, _⟩ | ⟨hi, _⟩⟩
      · rw [e]; exact hj
      · exact e
      · rw [hi, hr] at hn
        cases hn
        rw [hrs] at hs
        cases hs
      · rw [hi, hl] at hn
        cases hn
        rw [hls] at hs
        cases hs
    refine ⟨fun _ hs => by rw [a1]; exact hs, h2, fun hinv hbad => ?_,
      fun hs r r1 hr hr1 hne => ?_⟩
    · rw [a1] at hbad
      by_cases hj : n.tn_ss_joining = 0
      · exact hbad.2 (h2 hbad.1 hj)
      · exact hinv ⟨hbad.1, hj⟩
    · obtain ⟨_, b2⟩ := hpt (i + 1) r r1 hr hr1
      rcases b2 with e | e | ⟨⟨left, right, hl, _, hls, _⟩, ⟨hi, _⟩ | ⟨_, e⟩⟩
      · rw [e]; exact hne
      · rw [e]; decide
      · have hii : idx - 1 = i := by omega
        rw [hii, hn] at hl
        cases hl
        rw [hls] at hs
        cases hs
      · rw [e]; decide

/-- C36, instance: the join planner commits to the join of the leaves 1 and 2
(flags -1 and +1), neither of which is splitting; after the call leaf 2 has the
join flag +1 and is not splitting. -/
theorem C36_split_join_exclusive_witness :
    ∃ tree1 p r,
      sp3_work_plan env_example 0 join_tree_example 2
        { addr := 2, spn_initialized := true, tn_route_node := true,
          tn_kvset_list := [{ dgen := 1 }], tn_ns := { ns_kvsets := 1 } }
        sp3_work_type.wtype_join { split_cnt_max := 2 } = Except.ok (some (tree1, p, r)) ∧
      (tree1.ct_nodes.map (fun n => n.tn_ss_joining)) = [0, -1, 1] ∧
      ∀ n1, tree1.ct_nodes[2]? = some n1 →
        ¬ (n1.tn_ss_splitting = true ∧ n1.tn_ss_joining ≠ 0) :=
  ⟨_, _, _, rfl, rfl, fun n1 h1 =>
    ((C36_split_join_exclusive env_example 0 join_tree_example _ 2
      { addr := 2, spn_initialized := true, tn_route_node := true,
        tn_kvset_list := [{ dgen := 1 }], tn_ns := { ns_kvsets := 1 } }
      sp3_work_type.wtype_join { split_cnt_max := 2 } _ _ (Or.inr rfl) rfl rfl rfl) 2
      { addr := 2, spn_initialized := true, tn_route_node := true,
        tn_kvset_list := [{ dgen := 1 }], tn_ns := { ns_kvsets := 1 } } n1 rfl h1).2.2.1
      (by decide)⟩

/-! ## C37: the expiry of a member of the idle index -/

theorem shl32_or (a nk : Nat) (h : nk < 4294967296) :
    (a <<< 32) ||| nk = a * 4294967296 + nk := by
  have h2 : nk < 2 ^ 32 := by norm_num; exact h
  rw [Nat.shiftLeft_eq, Nat.mul_comm, ← Nat.mul_add_lt_is_or h2]

theorem idle_weight_value (t0 ttl nk : Nat) (ht0 : t0 < 18446744073709551616)
    (hfit : (t0 >>> 32) + ttl ≤ UINT32_MAX) (hnk : nk < 4294967296) :
    u64 (usub64 (usub64 UINT32_MAX (t0 >>> 32)) ttl <<< 32) ||| nk =
      (4294967295 - (t0 >>> 32) - ttl) * 4294967296 + nk := by
  unfold UINT32_MAX at hfit
  have hu : usub64 (usub64 UINT32_MAX (t0 >>> 32)) ttl = 4294967295 - (t0 >>> 32) - ttl := by
    unfold usub64 u64 UINT32_MAX
    omega
  rw [hu]
  have hs : (4294967295 - (t0 >>> 32) - ttl) <<< 32 =
      (4294967295 - (t0 >>> 32) - ttl) * 4294967296 := by
    rw [Nat.shiftLeft_eq]
  have hlt : (4294967295 - (t0 >>> 32) - ttl) <<< 32 < 18446744073709551616 := by
    rw [hs]
    omega
  rw [show u64 ((4294967295 - (t0 >>> 32) - ttl) <<< 32) =
    (4294967295 - (t0 >>> 32) - ttl) <<< 32 from Nat.mod_eq_of_lt hlt, shl32_or _ _ hnk]

theorem idle_thresh_value (t : Nat) (ht : t < 18446744073709551616) :
    u64 (usub64 UINT32_MAX (t >>> 32) <<< 32) = (4294967295 - (t >>> 32)) * 4294967296 ∧
    t >>> 32 ≤ 4294967295 := by
  have hb : t >>> 32 ≤ 4294967295 := by
    rw [Nat.shiftRight_eq_div_pow]
    norm_num
    omega
  have hu : usub64 UINT32_MAX (t >>> 32) = 4294967295 - (t >>> 32) := by
    unfold usub64 u64 UINT32_MAX
    omega
  rw [hu, Nat.shiftLeft_eq]
  norm_num
  unfold u64
  omega

/-- C37: a node with `nk` unclaimed kvsets (below 2^32) that meets the idle
condition is inserted into the idle index by `sp3_dirty_node_locked` at the
clock `t0` with a weight `w`; `ttl` is `60 / 4` if the node has ptombs and
`llen_idlem * 60 / 4` otherwise, and `(t0 >> 32) + ttl <= UINT32_MAX`.  At the
clock `t` (both clocks are 64-bit values) the dispatcher passes the threshold
`(UINT32_MAX - (t >> 32)) << 32` to `sp3_check_rb_tree`, whose loop stops at
a member with `rbe_weight < threshold`; the weight `w` is not below the
threshold if and only if `(t >> 32) >= (t0 >> 32) + ttl`. -/
theorem C37_idle_expiry (t0 t : Nat) (sp : sp3) (tn : cn_tree_node) (nk jobs : Nat)
    (hidle : nk ≥ sp.thresh.llen_idlec ∧ sp.thresh.llen_idlem > 0 ∧ jobs < 1)
    (ht0 : t0 < 18446744073709551616) (ht : t < 18446744073709551616)
    (hfit : (t0 >>> 32) +
      (if tn.tn_ns.ns_ptombs ≠ 0 then 60 / 4 else sp.thresh.llen_idlem * 60 / 4) ≤ UINT32_MAX)
    (hnk : nk < 4294967296) :
    ∃ w, rb_weight ((sp3_dirty_idle t0 sp tn nk jobs).rbt sp3_work_type.wtype_idle) tn.addr =
        some w ∧
      (¬ w < u64 (usub64 UINT32_MAX (t >>> 32) <<< 32) ↔
        (t0 >>> 32) +
          (if tn.tn_ns.ns_ptombs ≠ 0 then 60 / 4 else sp.thresh.llen_idlem * 60 / 4) ≤
            t >>> 32) ∧
      ∀ (E : sp3_env) (now debug : Nat) (s : sp3) (trees : List cn_tree)
        (wp : cn_compaction_work), qfull s SP3_QNUM_SHARED = false →
        sp3_schedule_case E t now debug s trees wp sp3_work_type.wtype_idle =
          sp3_check_rb_tree E t now s trees wp sp3_work_type.wtype_idle
            (u64 (usub64 UINT32_MAX (t >>> 32) <<< 32)) SP3_QNUM_SHARED debug := by
  refine ⟨_, by rw [dirty_idle_weight, if_pos ⟨rfl, rfl⟩, if_pos hidle], ?_, ?_⟩
  · rw [idle_weight_value t0 _ nk ht0 hfit hnk, (idle_thresh_value t ht).1]
    have hb := (idle_thresh_value t ht).2
    unfold UINT32_MAX at hfit
    generalize (if tn.tn_ns.ns_ptombs ≠ 0 then 60 / 4 else sp.thresh.llen_idlem * 60 / 4) =
      ttl at hfit ⊢
    generalize t0 >>> 32 = a at hfit ⊢
    generalize t >>> 32 = b at hb ⊢
    omega
  · intro E now debug s trees wp hq
    dsimp only [sp3_schedule_case]
    rw [hq]
    rfl

/-- C37, instance: a node inserted at the clock 0 with `llen_idlem = 1` (a
time-to-live of 15 units) and 3 unclaimed kvsets meets the threshold of the
clock `15 * 2^32`. -/
theorem C37_idle_expiry_witness :
    ∃ w, rb_weight ((sp3_dirty_idle 0 { thresh := { llen_idlec := 1, llen_idlem := 1 } }
        { addr := 1 } 3 0).rbt sp3_work_type.wtype_idle) 1 = some w ∧
      ¬ w < u64 (usub64 UINT32_MAX ((15 * 4294967296) >>> 32) <<< 32) := by
  obtain ⟨w, h1, h2, _⟩ := C37_idle_expiry 0 (15 * 4294967296)
    { thresh := { llen_idlec := 1, llen_idlem := 1 } } { addr := 1 } 3 0
    (by decide) (by decide) (by decide) (by decide) (by decide)
  exact ⟨w, h1, h2.mpr (by decide)⟩

/-! ## C38: the trim loop of the tree-shape check -/

theorem shape_trim_loop_inv (modify_err : cn_tree_node → Bool) :
    ∀ (rev : List cn_tree_node) (fanout : Nat) (ext : List Nat),
      fanout = rev.length - 1 → fanout < 4294967296 →
      ∃ rev1 removed ext1,
        shape_trim_loop modify_err rev fanout ext =
          Except.ok (rev1, rev1.length - 1, ext ++ ext1) ∧
        rev = removed ++ rev1 ∧ (2 ≤ rev.length → 2 ≤ rev1.length) ∧
        (rev.length < 2 → rev1 = rev) ∧
        ∀ i ∈ ext1, 1 ≤ i ∧ i + 2 ≤ rev.length := by
  intro rev
  induction rev with
  | nil =>
    intro fanout ext hf _
    refine ⟨[], [], [], ?_, rfl, fun h => h, fun _ => rfl, fun i hi => by cases hi⟩
    rw [shape_trim_loop, List.append_nil, hf]
  | cons tn rest ih =>
    intro fanout ext hf h32
    cases rest with
    | nil =>
      refine ⟨[tn], [], [], ?_, rfl, fun h => h, fun _ => rfl, fun i hi => by cases hi⟩
      have hcnd : ¬ (tn.tn_ns.ns_kvsets = 0 ∧ fanout > 1) := by
        intro hc
        have h2 := hc.2
        rw [hf] at h2
        simp only [List.length_cons, List.length_nil] at h2
        omega
      rw [shape_trim_loop, if_neg hcnd, List.append_nil, hf]
    | cons left rest =>
      have hstay : ∀ e : List Nat, (∀ i ∈ e, 1 ≤ i ∧ i + 2 ≤ (tn :: left :: rest).length) →
          ∃ rev1 removed ext1,
            (Except.ok (tn :: left :: rest, fanout, ext ++ e) :
              Except sp3_fault (List cn_tree_node × Nat × List Nat)) =
              Except.ok (rev1, rev1.length - 1, ext ++ ext1) ∧
            tn :: left :: rest = removed ++ rev1 ∧
            (2 ≤ (tn :: left :: rest).length → 2 ≤ rev1.length) ∧
            ((tn :: left :: rest).length < 2 → rev1 = tn :: left :: rest) ∧
            ∀ i ∈ ext1, 1 ≤ i ∧ i + 2 ≤ (tn :: left :: rest).length := by
        intro e he
        exact ⟨tn :: left :: rest, [], e, by rw [hf], rfl, fun h => h, fun _ => rfl, he⟩
      rw [shape_trim_loop]
      by_cases hc : tn.tn_ns.ns_kvsets = 0 ∧ fanout > 1
      · rw [if_pos hc]
        have hlen : 1 ≤ rest.length := by
          have := hc.2
          rw [hf] at this
          simp only [List.length_cons] at this
          omega
        by_cases hs : tn.tn_ss_spilling ≠ 0 ∨ left.tn_ss_spilling ≠ 0
        · rw [if_pos hs]
          have := hstay [] (fun i hi => by cases hi)
          rw [List.append_nil] at this
          exact this
        · rw [if_neg hs]
          by_cases hm : modify_err left = true
          · rw [if_pos hm]
            refine hstay [rest.length] (fun i hi => ?_)
            rw [List.mem_singleton.mp hi]
            simp only [List.length_cons]
            omega
          · rw [if_neg hm]
            have hf1 : usub32 fanout 1 = (left :: rest).length - 1 := by
              rw [hf]
              simp only [List.length_cons] at hf h32 ⊢
              unfold usub32 u32
              omega
            have h321 : usub32 fanout 1 < 4294967296 := by
              unfold usub32
              exact Nat.mod_lt _ (by decide)
            obtain ⟨rev1, removed, ext1, h1, h2, h3, _, h5⟩ :=
              ih (usub32 fanout 1) (ext ++ [rest.length]) hf1 h321
            refine ⟨rev1, tn :: removed, rest.length :: ext1, ?_, ?_, ?_, ?_, ?_⟩
            · rw [h1, List.append_assoc]
              rfl
            · rw [h2]
              rfl
            · intro _
              apply h3
              simp only [List.length_cons]
              omega
            · intro hlt
              simp only [List.length_cons] at hlt
              omega
            · intro i hi
              simp only [List.length_cons]
              rcases List.mem_cons.mp hi with e | e
              · rw [e]
                omega
              · have := h5 i e
                simp only [List.length_cons] at this
                omega
      · rw [if_neg hc]
        have := hstay [] (fun i hi => by cases hi)
        rw [List.append_nil] at this
        exact this

/-- C38: the trim loop of `sp3_tree_shape_check` on a tree whose fanout (a
`uint`) equals its number of leaves, the nodes of the tree being the root
followed by the leaves.  The loop returns; every node `left` whose edge key it
asks to extend is a leaf and not the root; the nodes that are left are the
first nodes of the tree, so the root stays first; a tree that has a leaf keeps
at least one leaf; and the fanout again equals the number of leaves. -/
theorem C38_shape_trim (modify_err : cn_tree_node → Bool) (tree : cn_tree)
    (hfan : tree.ct_fanout = tree.ct_nodes.length - 1)
    (h32 : tree.ct_fanout < 4294967296) :
    ∃ tree1 ext removed,
      sp3_tree_shape_trim modify_err tree = Except.ok (tree1, ext) ∧
      (∀ i ∈ ext, cn_node_isleaf i = true ∧ cn_node_isroot i = false ∧
        i + 2 ≤ tree.ct_nodes.length) ∧
      tree.ct_nodes = tree1.ct_nodes ++ removed ∧
      tree1.ct_nodes.head? = tree.ct_nodes.head? ∧
      (2 ≤ tree.ct_nodes.length → 2 ≤ tree1.ct_nodes.length) ∧
      tree1.ct_fanout = tree1.ct_nodes.length - 1 := by
  obtain ⟨rev1, removed, ext1, h1, h2, h3, h4, h5⟩ :=
    shape_trim_loop_inv modify_err tree.ct_nodes.reverse tree.ct_fanout []
      (by rw [List.length_reverse]; exact hfan) h32
  have hnodes : tree.ct_nodes = rev1.reverse ++ removed.reverse := by
    rw [← List.reverse_append, ← h2, List.reverse_reverse]
  rw [List.length_reverse] at h3 h4 h5
  refine ⟨{ tree with ct_nodes := rev1.reverse, ct_fanout := rev1.length - 1 }, ext1,
    removed.reverse, ?_, ?_, hnodes, ?_, ?_, ?_⟩
  · unfold sp3_tree_shape_trim
    rw [h1]
    rfl
  · intro i hi
    obtain ⟨a, b⟩ := h5 i hi
    refine ⟨?_, ?_, b⟩
    · unfold cn_node_isleaf cn_node_isroot
      cases i with
      | zero => omega
      | succ j => rfl
    · unfold cn_node_isroot
      cases i with
      | zero => omega
      | succ j => rfl
  · show rev1.reverse.head? = tree.ct_nodes.head?
    by_cases hl : tree.ct_nodes.length < 2
    · rw [h4 hl, List.reverse_reverse]
    · have h2l := h3 (by omega)
      rw [hnodes]
      cases hr : rev1.reverse with
      | nil =>
        have := congrArg List.length hr
        rw [List.length_reverse] at this
        simp only [List.length_nil] at this
        omega
      | cons x xs => rfl
  · intro hl
    show 2 ≤ rev1.reverse.length
    rw [List.length_reverse]
    exact h3 hl
  · show rev1.length - 1 = rev1.reverse.length - 1
    rw [List.length_reverse]

/-- C38, instance: in a tree of a root and three leaves whose last two leaves
are empty, the loop extends the edge keys of the leaves 2 and 1 and leaves the
root and the leaf 1. -/
theorem C38_shape_trim_witness :
    ∃ tree1 removed,
      sp3_tree_shape_trim (fun _ => false) trim_tree_example = Except.ok (tree1, [2, 1]) ∧
      trim_tree_example.ct_nodes = tree1.ct_nodes ++ removed ∧
      tree1.ct_nodes.length = 2 ∧ tree1.ct_fanout = 1 := by
  obtain ⟨tree1, ext, removed, h1, _, h3, _, _, _⟩ :=
    C38_shape_trim (fun _ => false) trim_tree_example rfl (by decide)
  have h0 : sp3_tree_shape_trim (fun _ => false) trim_tree_example =
      Except.ok ({ ct_nodes := [{ addr := 0 }, { addr := 1, tn_ns := { ns_kvsets := 1 } }],
                   ct_fanout := 1 }, [2, 1]) := rfl
  rw [h0] at h1
  cases h1
  exact ⟨_, removed, rfl, h3, rfl, rfl⟩

/-! ## C39: the marking loop does not step past the list head -/

theorem last_entry_fits (kvs : List kvset) (n : Nat) (action : cn_action) (rule : cn_rule)
    (hn : n ≤ kvs.length) :
    mark_fits kvs { kvsets := n, mark := list_last_entry_or_null kvs, action := action,
                    rule := rule } := by
  unfold mark_fits
  by_cases h0 : n = 0
  · exact Or.inl h0
  · right
    have hne : kvs ≠ [] := by
      intro e
      rw [e] at hn
      simp only [List.length_nil] at hn
      omega
    have hl : 0 < kvs.length := List.length_pos.mpr hne
    exact ⟨kvs.length - 1, last_entry_ne_null kvs hne, by omega, by dsimp only; omega⟩

theorem root_fits (V : Nat) (tn : cn_tree_node) (thresh : sp3_thresholds) :
    mark_fits tn.tn_kvset_list (sp3_work_wtype_root V tn thresh) := by
  cases hc : root_count tn thresh with
  | none => exact Or.inl (root_plan_none V tn thresh hc).1
  | some rw =>
    obtain ⟨r, W⟩ := rw
    obtain ⟨_, h2, _⟩ := root_count_unclaimed tn thresh r W hc
    have hk := root_plan_kvsets V tn thresh r W hc
    have hlen : (root_unclaimed tn.tn_kvset_list).length ≤ tn.tn_kvset_list.length := by
      unfold root_unclaimed
      have := (List.dropWhile_sublist (fun k => k.workid != 0)
        (l := tn.tn_kvset_list.reverse)).length_le
      rw [List.length_reverse] at this
      exact this
    have hmark : ∃ m, (sp3_work_wtype_root V tn thresh).mark = le_ptr.entry m ∧
        m + 1 = (root_unclaimed tn.tn_kvset_list).length := by
      unfold sp3_work_wtype_root
      unfold root_count at hc
      cases hu : root_unclaimed tn.tn_kvset_list with
      | nil => rw [hu] at hc; cases hc
      | cons k newer =>
        refine ⟨newer.length, ?_, rfl⟩
        dsimp only
        split_ifs <;> rfl
    obtain ⟨m, hm, hml⟩ := hmark
    right
    refine ⟨m, hm, by omega, ?_⟩
    rw [hk]
    split_ifs <;> omega

theorem idle_skip_tombs_le (kvs : List kvset) (keys skip : Nat) :
    (idle_skip_tombs kvs keys skip).2 ≤ skip + kvs.length ∧
    skip ≤ (idle_skip_tombs kvs keys skip).2 := by
  induction kvs generalizing keys skip with
  | nil => exact ⟨Nat.le_refl _, Nat.le_refl _⟩
  | cons k older ih =>
    unfold idle_skip_tombs
    split_ifs
    · exact ⟨Nat.le_add_right _ _, Nat.le_refl _⟩
    · have := ih (usub64 keys k.kst_keys) (skip + 1)
      rw [List.length_cons]
      omega

theorem idle_skip_ptombs_le (kvs : List kvset) (skip : Nat) :
    idle_skip_ptombs kvs skip ≤ skip + kvs.length ∧ skip ≤ idle_skip_ptombs kvs skip := by
  induction kvs generalizing skip with
  | nil => exact ⟨Nat.le_refl _, Nat.le_refl _⟩
  | cons k older ih =>
    unfold idle_skip_ptombs
    split_ifs
    · exact ⟨Nat.le_add_right _ _, Nat.le_refl _⟩
    · have := ih (skip + 1)
      rw [List.length_cons]
      omega

theorem idle_skip_index_fits (keys_max : Nat) (walk : List kvset) (i kvsets : Nat)
    (hi : walk ≠ [] → i + 1 = walk.length) (hk : kvsets = walk.length)
    (h32 : kvsets < 4294967296) :
    (idle_skip_index keys_max walk i kvsets).2 = 0 ∨
    ∃ m, (idle_skip_index keys_max walk i kvsets).1 = le_ptr.entry m ∧ m < walk.length ∧
      (idle_skip_index keys_max walk i kvsets).2 ≤ m + 1 := by
  induction walk generalizing i kvsets with
  | nil =>
    left
    rw [hk]
    rfl
  | cons k newer ih =>
    have hi1 := hi (List.cons_ne_nil _ _)
    rw [List.length_cons] at hi1 hk
    unfold idle_skip_index
    split_ifs
    · right
      exact ⟨i, rfl, by rw [List.length_cons]; omega, by dsimp only; omega⟩
    · have hu : usub32 kvsets 1 = newer.length := by
        unfold usub32 u32
        omega
      rcases ih (i - 1) (usub32 kvsets 1) (fun hne => by
          have := List.length_pos.mpr hne
          omega) hu (by omega) with h | ⟨m, h1, h2, h3⟩
      · exact Or.inl h
      · exact Or.inr ⟨m, h1, by rw [List.length_cons]; omega, h3⟩

theorem usub32_le (a b : Nat) (ha : a < 4294967296) (hb : b ≤ a) : usub32 a b = a - b := by
  unfold usub32 u32
  omega

theorem idle_fits (V : Nat) (isroot : Bool) (tn : cn_tree_node) (thresh : sp3_thresholds)
    (p : wplan) (hlist : tn.tn_kvset_list.length = tn.tn_ns.ns_kvsets)
    (h32 : tn.tn_ns.ns_kvsets < 4294967296) :
    mark_fits tn.tn_kvset_list (sp3_work_wtype_idle V isroot tn thresh p) := by
  have hlast := fun n a r (hn : n ≤ tn.tn_kvset_list.length) =>
    last_entry_fits tn.tn_kvset_list n a r hn
  have ht := idle_skip_tombs_le tn.tn_kvset_list tn.tn_ns.ns_keys 0
  have hp := idle_skip_ptombs_le tn.tn_kvset_list 0
  unfold sp3_work_wtype_idle
  dsimp only
  by_cases h1 : isroot = true
  · rw [if_pos h1]
    exact hlast _ _ _ (by omega)
  · rw [if_neg h1]
    by_cases h2 : tn.tn_ns.ns_keys = 0
    · rw [if_pos h2]
      exact hlast _ _ _ (by omega)
    · rw [if_neg h2]
      split_ifs
      · refine hlast _ _ _ ?_
        rw [usub32_le _ _ h32 (by omega)]
        omega
      · have hfit := idle_skip_index_fits (thresh.lcomp_split_keys / 2)
          tn.tn_kvset_list.reverse (tn.tn_kvset_list.length - 1) tn.tn_ns.ns_kvsets
          (fun hne => by
            have := List.length_pos.mpr hne
            rw [List.length_reverse] at this ⊢
            omega)
          (by rw [List.length_reverse, hlist]) h32
        unfold mark_fits
        rcases hfit with h | ⟨m, a, b, c⟩
        · left
          dsimp only
          rw [h]
          exact Nat.zero_min _
        · right
          rw [List.length_reverse] at b
          exact ⟨m, a, b, Nat.le_trans (Nat.min_le_left _ _) c⟩
      · exact hlast _ _ _ (by omega)
      · refine hlast _ _ _ ?_
        rw [usub32_le _ _ h32 (by omega)]
        omega
      · exact Or.inl rfl

theorem garbage_fits (V : Nat) (isroot : Bool) (tn : cn_tree_node) (thresh : sp3_thresholds)
    (p : wplan) (hlist : tn.tn_kvset_list.length = tn.tn_ns.ns_kvsets)
    (h32 : tn.tn_ns.ns_kvsets < 4294967296) :
    mark_fits tn.tn_kvset_list (sp3_work_wtype_garbage V isroot tn thresh p) := by
  unfold sp3_work_wtype_garbage
  dsimp only
  split_ifs
  · exact idle_fits V isroot tn thresh p hlist h32
  · exact last_entry_fits _ _ _ _ (by rw [hlist]; exact Nat.min_le_left _ _)

theorem scatter_find_fits (walk : List kvset) (i : Nat) (mark : le_ptr) (rule : cn_rule)
    (runlen : Nat) (hi : walk ≠ [] → i + 1 = walk.length) (hk : runlen = walk.length)
    (h32 : runlen < 4294967296) :
    (scatter_find walk i mark rule runlen).2.2 = 0 ∨
    ∃ m, (scatter_find walk i mark rule runlen).1 = le_ptr.entry m ∧ m < walk.length ∧
      (scatter_find walk i mark rule runlen).2.2 = m + 1 := by
  induction walk generalizing i rule runlen with
  | nil =>
    left
    rw [hk]
    rfl
  | cons k newer ih =>
    have hi1 := hi (List.cons_ne_nil _ _)
    rw [List.length_cons] at hi1 hk
    unfold scatter_find
    split_ifs
    · right
      exact ⟨i, rfl, by rw [List.length_cons]; omega, by dsimp only; omega⟩
    · have hu : usub32 runlen 1 = newer.length := by
        unfold usub32 u32
        omega
      rcases ih (i - 1) cn_rule.CN_RULE_SCATTERP (usub32 runlen 1) (fun hne => by
          have := List.length_pos.mpr hne
          omega) hu (by omega) with h | ⟨m, h1, h2, h3⟩
      · exact Or.inl h
      · exact Or.inr ⟨m, h1, by rw [List.length_cons]; omega, h3⟩

theorem scatter_fits (tn : cn_tree_node) (thresh : sp3_thresholds) (q : wplan)
    (hlist : tn.tn_kvset_list.length = tn.tn_ns.ns_kvsets)
    (h32 : tn.tn_ns.ns_kvsets < 4294967296)
    (h : sp3_work_wtype_scatter tn thresh = Except.ok q) :
    mark_fits tn.tn_kvset_list q := by
  have hfit := scatter_find_fits tn.tn_kvset_list.reverse (tn.tn_kvset_list.length - 1)
    (list_last_entry_or_null tn.tn_kvset_list) cn_rule.CN_RULE_SCATTERF tn.tn_ns.ns_kvsets
    (fun hne => by
      have := List.length_pos.mpr hne
      rw [List.length_reverse] at this ⊢
      omega)
    (by rw [List.length_reverse, hlist]) h32
  rw [List.length_reverse] at hfit
  unfold sp3_work_wtype_scatter at h
  dsimp only at h
  generalize scatter_find tn.tn_kvset_list.reverse (tn.tn_kvset_list.length - 1)
    (list_last_entry_or_null tn.tn_kvset_list) cn_rule.CN_RULE_SCATTERF
    tn.tn_ns.ns_kvsets = f at h hfit
  unfold mark_fits
  by_cases hr : f.2.2 > 0
  · rw [if_pos hr] at h
    rcases hfit with h0 | ⟨m, hm, hml, hrun⟩
    · omega
    · rw [hm] at h
      dsimp only at h
      unfold list_next_entry_or_null at h
      by_cases hi : m + 1 < tn.tn_kvset_list.length
      · rw [if_pos hi] at h
        dsimp only at h
        cases hk : tn.tn_kvset_list[m + 1]? with
        | none => rw [hk] at h; cases h
        | some k =>
          rw [hk] at h
          dsimp only at h
          by_cases hs : k.kst_kwlen + k.kst_vwlen < 256 * 1048576
          · rw [if_pos hs] at h
            cases h
            right
            exact ⟨m + 1, rfl, hi, by
              dsimp only
              have := Nat.min_le_left (f.2.2 + 1) (thresh.lscat_runlen_max + 1)
              omega⟩
          · rw [if_neg hs] at h
            cases h
            right
            exact ⟨m, rfl, hml, by
              dsimp only
              have := Nat.min_le_left f.2.2 thresh.lscat_runlen_max
              omega⟩
      · rw [if_neg hi] at h
        cases h
        right
        exact ⟨m, rfl, hml, by
          dsimp only
          have := Nat.min_le_left f.2.2 thresh.lscat_runlen_max
          omega⟩
  · rw [if_neg hr] at h
    cases h
    left
    dsimp only
    have := Nat.min_le_left f.2.2 thresh.lscat_runlen_max
    omega

theorem length_tiny_fits (walk : List kvset) (i keys_max : Nat) (mark : le_ptr)
    (runlen vwlen : Nat) (hr : runlen = i)
    (hm : runlen = 0 ∨ mark = le_ptr.entry (i - 1)) :
    (length_tiny walk i keys_max mark runlen vwlen).2.1 = 0 ∨
    ∃ m, (length_tiny walk i keys_max mark runlen vwlen).1 = le_ptr.entry m ∧
      m < i + walk.length ∧ (length_tiny walk i keys_max mark runlen vwlen).2.1 = m + 1 := by
  induction walk generalizing i keys_max mark runlen vwlen with
  | nil =>
    unfold length_tiny
    rcases hm with h | h
    · exact Or.inl h
    · by_cases h0 : runlen = 0
      · exact Or.inl h0
      · exact Or.inr ⟨i - 1, h, by omega, by dsimp only; omega⟩
  | cons k older ih =>
    unfold length_tiny
    split_ifs
    · rcases hm with h | h
      · exact Or.inl h
      · by_cases h0 : runlen = 0
        · exact Or.inl h0
        · exact Or.inr ⟨i - 1, h, by rw [List.length_cons]; omega, by dsimp only; omega⟩
    · rcases ih (i + 1) (keys_max - k.kst_keys) (le_ptr.entry i) (runlen + 1)
          (vwlen + k.kst_vwlen) (by omega) (Or.inr rfl) with h | ⟨m, h1, h2, h3⟩
      · exact Or.inl h
      · exact Or.inr ⟨m, h1, by rw [List.length_cons]; omega, h3⟩

theorem length_fits (V : Nat) (tn : cn_tree_node) (thresh : sp3_thresholds) (p q : wplan)
    (hlist : tn.tn_kvset_list.length = tn.tn_ns.ns_kvsets)
    (h : sp3_work_wtype_length V tn thresh p = Except.ok q) :
    mark_fits tn.tn_kvset_list q := by
  rcases length_plan_inv V tn thresh p q h with h1 | ⟨rule0, s, r, hq, _, hinv⟩
  · rw [h1]
    exact Or.inl rfl
  · rw [hq]
    unfold length_finish
    dsimp only
    have hprim : ∀ a ru, mark_fits tn.tn_kvset_list
        { kvsets := s.runlen, mark := s.mark, action := a, rule := ru } := by
      intro a ru
      rcases hinv with ⟨h0, _, _⟩ | ⟨_, m, hm, hmr, hml, _⟩
      · exact Or.inl h0
      · exact Or.inr ⟨m, hm, hml, by dsimp only; omega⟩
    have htiny := length_tiny_fits tn.tn_kvset_list 0 (32 * 1048576) s.mark 0 0 rfl
      (Or.inl rfl)
    rw [Nat.zero_add] at htiny
    have htf : ∀ a ru, mark_fits tn.tn_kvset_list
        { kvsets := min (length_tiny tn.tn_kvset_list 0 (32 * 1048576) s.mark 0 0).2.1
            s.runlen_max,
          mark := (length_tiny tn.tn_kvset_list 0 (32 * 1048576) s.mark 0 0).1,
          action := a, rule := ru } := by
      intro a ru
      rcases htiny with h0 | ⟨m, a1, a2, a3⟩
      · left
        dsimp only
        rw [h0]
        exact Nat.zero_min _
      · right
        exact ⟨m, a1, a2, by
          dsimp only
          have := Nat.min_le_left
            (length_tiny tn.tn_kvset_list 0 (32 * 1048576) s.mark 0 0).2.1 s.runlen_max
          omega⟩
    split_ifs
    · exact hprim _ _
    · exact hprim _ _
    · exact hprim _ _
    · unfold mark_fits
      by_cases h0 : tn.tn_ns.ns_kvsets = 0
      · exact Or.inl h0
      · right
        refine ⟨tn.tn_kvset_list.length - 1, ?_, by omega, by dsimp only; omega⟩
        unfold list_last_entry
        rw [if_neg (by omega)]
    · exact htf _ _
    · exact htf _ _
    · exact Or.inl rfl
    · exact Or.inl rfl

theorem split_fits (F jclock_ns : Nat) (tree : cn_tree) (tn : cn_tree_node)
    (thresh : sp3_thresholds) (hlist : tn.tn_kvset_list.length = tn.tn_ns.ns_kvsets) :
    mark_fits tn.tn_kvset_list (sp3_work_wtype_split F jclock_ns tree tn thresh).2.2 := by
  unfold sp3_work_wtype_split
  dsimp only
  split_ifs
  all_goals first
    | exact Or.inl rfl
    | exact last_entry_fits _ _ _ _ (by omega)

theorem join_fits (jclock_ns : Nat) (tree tree1 : cn_tree) (idx : Nat) (tn : cn_tree_node)
    (thresh : sp3_thresholds) (q : wplan) (htn : tree.ct_nodes[idx]? = some tn)
    (hlist : tn.tn_kvset_list.length = tn.tn_ns.ns_kvsets)
    (h : sp3_work_wtype_join jclock_ns tree idx thresh = Except.ok (tree1, q)) :
    mark_fits tn.tn_kvset_list q := by
  unfold sp3_work_wtype_join at h
  rw [htn] at h
  dsimp only at h
  cases hj : joinable_left tree idx thresh with
  | some ll =>
    obtain ⟨l, left⟩ := ll
    rw [hj] at h
    dsimp only at h
    simp only [Except.ok.injEq, Prod.mk.injEq] at h
    rw [← h.2]
    have hmk : ∀ mark sp, (join_request jclock_ns tree left tn thresh mark sp).2.2.2 = mark ∨
        (join_request jclock_ns tree left tn thresh mark sp).2.2.2 = le_ptr.null := by
      intro mark sp
      unfold join_request
      split_ifs
      all_goals first
        | exact Or.inl rfl
        | exact Or.inr rfl
    unfold mark_fits
    dsimp only
    split_ifs with hc
    · right
      rcases hmk (list_last_entry_or_null tn.tn_kvset_list)
        (decide (left.tn_ss_spilling ≠ 0) || decide (tn.tn_ss_spilling ≠ 0)) with e | e
      · rw [e] at hc ⊢
        have hne : tn.tn_kvset_list ≠ [] := by
          intro hnil
          apply hc.2.2
          rw [hnil]
          rfl
        have hl : 0 < tn.tn_kvset_list.length := List.length_pos.mpr hne
        exact ⟨tn.tn_kvset_list.length - 1, last_entry_ne_null _ hne, by omega, by omega⟩
      · exact absurd e hc.2.2
    · exact Or.inl rfl
  | none =>
    rw [hj] at h
    dsimp only at h
    repeat' split at h
    all_goals first
      | contradiction
      | (cases h; exact Or.inl rfl)

theorem plan_fits (E : sp3_env) (jclock_ns : Nat) (tree tree1 : cn_tree) (idx : Nat)
    (tn : cn_tree_node) (wtype : sp3_work_type) (thresh : sp3_thresholds) (p : wplan)
    (resched : Bool) (htn : tree.ct_nodes[idx]? = some tn)
    (hlist : tn.tn_kvset_list.length = tn.tn_ns.ns_kvsets)
    (h32 : tn.tn_ns.ns_kvsets < 4294967296)
    (h : sp3_work_plan E jclock_ns tree idx tn wtype thresh =
      Except.ok (some (tree1, p, resched))) :
    mark_fits tn.tn_kvset_list p := by
  unfold sp3_work_plan at h
  dsimp only at h
  by_cases hroot : cn_node_isroot idx = true
  · rw [if_pos hroot] at h
    split at h
    · cases h
    · cases wtype <;> dsimp only at h <;> first
        | (cases h; exact root_fits _ _ _)
        | (cases h; exact idle_fits _ _ _ _ _ hlist h32)
        | cases h
  · rw [if_neg hroot] at h
    cases wtype <;> dsimp only at h
    all_goals first
      | contradiction
      | (cases h; exact idle_fits _ _ _ _ _ hlist h32)
      | (cases h; exact garbage_fits _ _ _ _ _ hlist h32)
      | (cases h; exact split_fits _ _ _ _ _ hlist)
      | (split at h <;> first
          | contradiction
          | (rename_i q hq
             cases h
             first
               | exact length_fits _ _ _ _ _ hlist hq
               | exact scatter_fits _ _ _ hlist h32 hq
               | exact join_fits _ _ _ _ _ _ _ htn hlist hq))

theorem mark_kvsets_no_head (wid : Nat) :
    ∀ (n m : Nat) (kvs : List kvset) (w : cn_compaction_work) (e : sp3_fault),
      n ≤ m + 1 → m < kvs.length →
      sp3_mark_kvsets wid n (le_ptr.entry m) kvs w = Except.error e →
      e = sp3_fault.assert_workid := by
  intro n
  induction n with
  | zero =>
    intro m kvs w e _ _ h
    rw [mark_kvsets_zero] at h
    cases h
  | succ n ih =>
    intro m kvs w e hn hm h
    unfold sp3_mark_kvsets at h
    have hkm : kvs[m]? = some kvs[m] := List.getElem?_eq_getElem hm
    simp only [hkm] at h
    by_cases hw : kvs[m].workid ≠ 0
    · rw [if_pos hw] at h
      cases h
      rfl
    · rw [if_neg hw] at h
      cases m with
      | zero =>
        have hn0 : n = 0 := by omega
        subst hn0
        rw [mark_kvsets_zero] at h
        cases h
      | succ m =>
        simp only [list_prev_entry] at h
        exact ih m _ _ e (by omega) (by rw [List.length_set]; omega) h

/-- C39: for every work category, on a node whose kvset list is as long as its
kvset count (a `uint`) says: whenever the planning part of `sp3_work` returns a
plan with `kvsets > 0`, the mark is a kvset of the node, at a position `m`, the
`m + 1` kvsets from the mark toward the newest end of the list are at least as
many as the run, the node keeps its kvset list through the planning, and the
marking loop of `sp3_work`, run on this plan, does not fail the assertion
`&le->le_link != &tn->tn_kvset_list`: the only assertion it can fail is the one
on the workid of a kvset. -/
theorem C39_mark_within_list (E : sp3_env) (jclock_ns : Nat) (tree tree1 : cn_tree)
    (idx : Nat) (tn : cn_tree_node) (wtype : sp3_work_type) (thresh : sp3_thresholds)
    (p : wplan) (resched : Bool) (htn : tree.ct_nodes[idx]? = some tn)
    (hlist : tn.tn_kvset_list.length = tn.tn_ns.ns_kvsets)
    (h32 : tn.tn_ns.ns_kvsets < 4294967296)
    (h : sp3_work_plan E jclock_ns tree idx tn wtype thresh =
      Except.ok (some (tree1, p, resched)))
    (hk : 0 < p.kvsets) :
    ∃ m tn1, p.mark = le_ptr.entry m ∧ m < tn.tn_kvset_list.length ∧ p.kvsets ≤ m + 1 ∧
      tree1.ct_nodes[idx]? = some tn1 ∧ tn1.tn_kvset_list = tn.tn_kvset_list ∧
      ∀ (wid : Nat) (w : cn_compaction_work) (e : sp3_fault),
        sp3_mark_kvsets wid p.kvsets p.mark tn1.tn_kvset_list w = Except.error e →
        e = sp3_fault.assert_workid := by
  rcases plan_fits E jclock_ns tree tree1 idx tn wtype thresh p resched htn hlist h32 h with
    h0 | ⟨m, hm, hml, hle⟩
  · omega
  · obtain ⟨_, ⟨tn1, h1, hkeep⟩, _⟩ :=
      work_plan_frame E jclock_ns tree tree1 idx tn wtype thresh p resched htn h
    refine ⟨m, tn1, hm, hml, hle, h1, hkeep.1, fun wid w e he => ?_⟩
    rw [hm, hkeep.1] at he
    exact mark_kvsets_no_head wid p.kvsets m _ w e hle hml he

/-- C39, instance: for a leaf with three kvsets and `lcomp_runlen_max = 2` the
garbage planner returns a run of 2 kvsets from the oldest kvset, at position 2. -/
theorem C39_mark_within_list_witness :
    ∃ tree1 p r m,
      sp3_work_plan env_example 0
        { ct_nodes := [{}, { addr := 1, tn_kvset_list := [{ dgen := 3 }, { dgen := 2 },
                                                          { dgen := 1 }],
                             tn_ns := { ns_kvsets := 3, ns_keys := 9, ns_vblks := 3,
                                        ns_clen := 67108864 } }],
          ct_fanout := 1 } 1
        { addr := 1, tn_kvset_list := [{ dgen := 3 }, { dgen := 2 }, { dgen := 1 }],
          tn_ns := { ns_kvsets := 3, ns_keys := 9, ns_vblks := 3, ns_clen := 67108864 } }
        sp3_work_type.wtype_garbage { lcomp_runlen_max := 2 } =
          Except.ok (some (tree1, p, r)) ∧
      p.kvsets = 2 ∧ p.mark = le_ptr.entry m ∧ m = 2 ∧ p.kvsets ≤ m + 1 := by
  obtain ⟨m, _, h1, _, h3, _⟩ := C39_mark_within_list env_example 0
    { ct_nodes := [{}, { addr := 1, tn_kvset_list := [{ dgen := 3 }, { dgen := 2 },
                                                      { dgen := 1 }],
                         tn_ns := { ns_kvsets := 3, ns_keys := 9, ns_vblks := 3,
                                    ns_clen := 67108864 } }],
      ct_fanout := 1 } _ 1
    { addr := 1, tn_kvset_list := [{ dgen := 3 }, { dgen := 2 }, { dgen := 1 }],
      tn_ns := { ns_kvsets := 3, ns_keys := 9, ns_vblks := 3, ns_clen := 67108864 } }
    sp3_work_type.wtype_garbage { lcomp_runlen_max := 2 } _ _ rfl rfl (by decide) rfl
    (by decide)
  refine ⟨_, _, _, m, rfl, rfl, h1, ?_, h3⟩
  cases h1
  rfl

/-! ## C40: the assertions of the branch of the join planner for a leaf that
cannot be joined -/

/-- C40: the join planner on a leaf for which `sp3_work_joinable` returns NULL.
If the join flag of the leaf is not set, the planner evaluates
`assert(left->tn_ss_joining >= 0)` with `left` being the NULL that
`sp3_work_joinable` returned: the call ends in the dereference of a null
pointer, whatever the left neighbour is.  If the join flag is set, `left` is
taken anew with `list_prev_entry`, and the call returns exactly when the flag of
the left neighbour is -1 and the flag of the leaf is +1. -/
theorem C40_join_assert_null_left (jclock_ns : Nat) (tree : cn_tree) (idx : Nat)
    (tn : cn_tree_node) (thresh : sp3_thresholds)
    (htn : tree.ct_nodes[idx]? = some tn)
    (hnj : sp3_work_joinable tree idx thresh = none) :
    (tn.tn_ss_joining = 0 →
      sp3_work_wtype_join jclock_ns tree idx thresh = Except.error sp3_fault.null_deref) ∧
    (tn.tn_ss_joining ≠ 0 → ∀ left, idx ≠ 0 → tree.ct_nodes[idx - 1]? = some left →
      ((∃ r, sp3_work_wtype_join jclock_ns tree idx thresh = Except.ok r) ↔
        (left.tn_ss_joining = -1 ∧ tn.tn_ss_joining = 1))) := by
  have hjl : joinable_left tree idx thresh = none := by
    unfold joinable_left
    rw [hnj]
  unfold sp3_work_wtype_join
  rw [htn]
  dsimp only
  rw [hjl]
  dsimp only
  refine ⟨fun h0 => ?_, fun h1 left hidx hleft => ?_⟩
  · rw [if_neg (not_not.mpr h0)]
  · rw [if_pos h1, if_neg hidx, hleft]
    dsimp only
    by_cases hl : left.tn_ss_joining ≠ -1
    · rw [if_pos hl]
      exact ⟨fun ⟨r, hr⟩ => Except.noConfusion hr, fun hh => absurd hh.1 hl⟩
    · rw [if_neg hl]
      by_cases hr : tn.tn_ss_joining ≠ 1
      · rw [if_pos hr]
        exact ⟨fun ⟨r, hr1⟩ => Except.noConfusion hr1, fun hh => absurd hh.2 hr⟩
      · rw [if_neg hr]
        exact ⟨fun _ => ⟨not_not.mp hl, not_not.mp hr⟩, fun _ => ⟨_, rfl⟩⟩

/-- C40, instance: leaf 2, whose join flag is not set, cannot be joined with
leaf 1, whose split flag is set; the join planner, and with it `sp3_work` for
the work type join, ends in the dereference of a null pointer. -/
theorem C40_join_assert_null_left_witness :
    sp3_work_joinable not_joinable_tree_example 2 { split_cnt_max := 2 } = none ∧
    sp3_work_wtype_join 0 not_joinable_tree_example 2 { split_cnt_max := 2 } =
      Except.error sp3_fault.null_deref ∧
    sp3_work env_example 0 0 not_joinable_tree_example 2 sp3_work_type.wtype_join
      { split_cnt_max := 2 } 0 {} = Except.error sp3_fault.null_deref :=
  ⟨rfl, (C40_join_assert_null_left 0 not_joinable_tree_example 2
    { addr := 2, spn_initialized := true, tn_route_node := true,
      tn_kvset_list := [{ dgen := 2 }], tn_ns := { ns_kvsets := 1 } }
    { split_cnt_max := 2 } rfl rfl).1 rfl, rfl⟩

end Sp3
